import Mathlib

/-!
# l2go login server: codec and session hand-off

A shallow embedding of the parts of `pkg/crypt`, `internal/loginserver/packets`,
`internal/loginserver/usecase`, `internal/loginserver/transport` and
`internal/loginserver/handlers` that the verified properties are about.

Conventions of the embedding:

* a Go `[]byte` is a `List Nat`; every value the code writes is masked to 8 bits, and
  `IsBytes` says that a buffer holds genuine bytes;
* a Go `uint32` is a `Nat` below `2 ^ 32`; wrapping arithmetic is written with an
  explicit `% 2 ^ 32`;
* indexing a slice out of range panics in Go: functions that index return `Option`, and
  `none` is the panic;
* a `for` loop that steps an index by 4 up to a bound is unrolled by structural recursion
  on its number of iterations (`iters`).
-/

namespace L2Go

/-- Every element of the buffer is a byte. -/
def IsBytes (raw : List Nat) : Prop := ∀ b ∈ raw, b < 256

instance (raw : List Nat) : Decidable (IsBytes raw) := by
  unfold IsBytes; infer_instance

/-- Number of iterations of `for i := a; i < a + span; i += 4`. -/
def iters (span : Nat) : Nat := (span + 3) / 4

/-! ### Go maps

A Go `map[K]V` is an association list with at most one entry per key; `GoMap.set` and
`GoMap.delete` keep it so (`GoMap.WF`), starting from the empty map. -/

/-- A Go map as an association list. -/
abbrev GoMap (K V : Type) := List (K × V)

namespace GoMap

variable {K V : Type} [DecidableEq K]

/-- Lookup `v, exists := m[k]`. -/
def get (m : GoMap K V) (k : K) : Option V :=
  match m with
  | [] => none
  | (k', v) :: rest => if k' = k then some v else get rest k

/-- The builtin `delete(m, k)`. -/
def delete (m : GoMap K V) (k : K) : GoMap K V :=
  m.filter (fun e => !decide (e.1 = k))

/-- Assignment `m[k] = v`. -/
def set (m : GoMap K V) (k : K) (v : V) : GoMap K V :=
  (k, v) :: delete m k

/-- The builtin `len(m)`. -/
def len (m : GoMap K V) : Nat := m.length

/-- No key occurs twice. -/
def WF (m : GoMap K V) : Prop := (m.map Prod.fst).Nodup

instance (m : GoMap K V) : Decidable (WF m) := by
  unfold WF; infer_instance

end GoMap

/-- An instant or a duration, in nanoseconds. `time.Since(t)` at instant `now` is
`now - t`; the zero `time.Time` is instant `0`. -/
abbrev Time := Int

/-! ### pkg/crypt -/

namespace blowfish

/-- The block cipher that `blowfish.NewCipher(key)` of `pkg/crypt/blowfish` returns. The
package is not among the sources, so a cipher is taken as a parameter: `Encrypt` and
`Decrypt` map the 8-byte block at the head of `src` to the 8 bytes stored at the head of
`dst`. -/
structure Cipher where
  Encrypt : List Nat → List Nat
  Decrypt : List Nat → List Nat

/-- `blowfish.NewCipher`, a parameter: the cipher for a key, or `none` for the error on a
key of invalid length. -/
abbrev NewCipher := List Nat → Option Cipher

/-- Both directions map 8-byte blocks to 8-byte blocks of bytes. -/
def Cipher.WF (c : Cipher) : Prop :=
  ∀ b : List Nat, b.length = 8 →
    (c.Encrypt b).length = 8 ∧ (c.Decrypt b).length = 8 ∧
    (IsBytes b → IsBytes (c.Encrypt b) ∧ IsBytes (c.Decrypt b))

/-- Block decryption undoes block encryption. -/
def Cipher.Inverts (c : Cipher) : Prop :=
  ∀ b : List Nat, b.length = 8 → c.Decrypt (c.Encrypt b) = b

end blowfish

namespace crypt

/-- The word read of the checksum routines (crypt.go 41-44, 50-53, 77-80, 86-89, 105-108):
`check = uint32(raw[i]) & 0xff; check |= (uint32(raw[i+1]) << 8) & 0xff00;
check |= (uint32(raw[i+2]) << 16) & 0xff0000; check |= (uint32(raw[i+3]) << 24) & 0xff000000`. -/
def readWord (raw : List Nat) (i : Nat) : Option Nat :=
  match raw[i]?, raw[i + 1]?, raw[i + 2]?, raw[i + 3]? with
  | some b0, some b1, some b2, some b3 =>
    some ((b0 &&& 0xff) ||| ((b1 <<< 8) &&& 0xff00) ||| ((b2 <<< 16) &&& 0xff0000)
      ||| ((b3 <<< 24) &&& 0xff000000))
  | _, _, _, _ => none

/-- The word read of the XOR pass (crypt.go 204-207, 240-243, 261-264):
`edx = uint32(raw[pos]) & 0xFF; edx |= (uint32(raw[pos+1]) & 0xFF) << 8;
edx |= (uint32(raw[pos+2]) & 0xFF) << 16; edx |= (uint32(raw[pos+3]) & 0xFF) << 24`. -/
def readWordX (raw : List Nat) (pos : Nat) : Option Nat :=
  match raw[pos]?, raw[pos + 1]?, raw[pos + 2]?, raw[pos + 3]? with
  | some b0, some b1, some b2, some b3 =>
    some ((b0 &&& 0xff) ||| ((b1 &&& 0xff) <<< 8) ||| ((b2 &&& 0xff) <<< 16)
      ||| ((b3 &&& 0xff) <<< 24))
  | _, _, _, _ => none

/-- The four single-byte stores of a word (crypt.go 120-123, 213-216, 221-224, 281-284):
`raw[i] = byte(v & 0xff); raw[i+1] = byte((v >> 8) & 0xff);
raw[i+2] = byte((v >> 16) & 0xff); raw[i+3] = byte((v >> 24) & 0xff)`. -/
def writeWord (raw : List Nat) (i v : Nat) : Option (List Nat) :=
  if i + 3 < raw.length then
    some ((((raw.set i (v &&& 0xff)).set (i + 1) ((v >>> 8) &&& 0xff)).set (i + 2)
      ((v >>> 16) &&& 0xff)).set (i + 3) ((v >>> 24) &&& 0xff))
  else none

/-- The checksum loop `for i = offset; i < count; i += 4 { chksum ^= word at i }`, run for
`n` iterations from index `i` with accumulator `chksum`; yields the final `(i, chksum)`. -/
def foldWords (raw : List Nat) : Nat → Nat → Nat → Option (Nat × Nat)
  | 0, i, chksum => some (i, chksum)
  | n + 1, i, chksum =>
    match readWord raw i with
    | some check => foldWords raw n (i + 4) (chksum ^^^ check)
    | none => none

/-- crypt.VerifyChecksum (crypt.go 25-56). -/
def VerifyChecksum (raw : List Nat) : Option Bool :=
  let size := raw.length
  if (size &&& 3) ≠ 0 ∨ size ≤ 4 then some false
  else
    let count := 0 + size - 4
    match foldWords raw (iters count) 0 0 with
    | some (i, chksum) =>
      match readWord raw i with
      | some check => some (check == chksum)
      | none => none
    | none => none

/-- crypt.VerifyChecksumClient (crypt.go 61-92). -/
def VerifyChecksumClient (raw : List Nat) : Option Bool :=
  let size := raw.length
  if (size &&& 3) ≠ 0 ∨ size < 16 then some false
  else
    let count := 0 + size - 16
    match foldWords raw (iters count) 0 0 with
    | some (_, chksum) =>
      match readWord raw count with
      | some check => some (check == chksum)
      | none => none
    | none => none

/-- crypt.AppendChecksum (crypt.go 95-124). `count` is a Go `int` and is negative for a
buffer shorter than 4 bytes; the loop then runs zero times, as it does for the truncated
`0` here. -/
def AppendChecksum (raw : List Nat) : Option (List Nat) :=
  let size := raw.length
  let count := 0 + size - 4
  match foldWords raw (iters count) 0 0 with
  | some (i, chksum) =>
    match readWord raw i with
    | some _ => writeWord raw i chksum
    | none => none
  | none => none

/-- The loop of EncXORPass (crypt.go 202-218), run for `n` iterations from `pos` with key
`ecx`; yields the buffer, the final `pos` and the final key. -/
def encLoop : List Nat → Nat → Nat → Nat → Option (List Nat × Nat × Nat)
  | raw, 0, pos, ecx => some (raw, pos, ecx)
  | raw, n + 1, pos, ecx =>
    match readWordX raw pos with
    | some edx =>
      let ecx1 := (ecx + edx) % 2 ^ 32
      let edx1 := edx ^^^ ecx1
      match writeWord raw pos edx1 with
      | some raw1 => encLoop raw1 n (pos + 4) ecx1
      | none => none
    | none => none

/-- crypt.EncXORPass (crypt.go 196-225). `stop` is a Go `int`; when `offset + size < 8` it
is negative and the loop does not run, as with the truncated `0` here. -/
def EncXORPass (raw : List Nat) (offset size key : Nat) : Option (List Nat) :=
  let stop := offset + size - 8
  let pos := 4 + offset
  match encLoop raw (iters (stop - pos)) pos key with
  | some (raw1, pos1, ecx) => writeWord raw1 pos1 ecx
  | none => none

/-- The block-collecting loop of DecXORPass (crypt.go 259-266):
`for i := pos; i < stop; i += 4 { encryptedBlocks = append(encryptedBlocks, word at i) }`. -/
def collectBlocks (raw : List Nat) : Nat → Nat → Option (List Nat)
  | 0, _ => some []
  | n + 1, i =>
    match readWordX raw i with
    | some block =>
      match collectBlocks raw n (i + 4) with
      | some rest => some (block :: rest)
      | none => none
    | none => none

/-- The backward loop of DecXORPass (crypt.go 269-285):
`for i := len(encryptedBlocks) - 1; i >= 0; i--`, entered with `k = i + 1`. -/
def decLoop (encryptedBlocks : List Nat) (offset : Nat) :
    List Nat → Nat → Nat → Option (List Nat)
  | raw, 0, _ => some raw
  | raw, i + 1, currentKey =>
    match encryptedBlocks[i]? with
    | some block =>
      let originalData := block ^^^ currentKey
      let currentKey1 := (currentKey + 2 ^ 32 - originalData) % 2 ^ 32
      let writePos := 4 + offset + i * 4
      match writeWord raw writePos originalData with
      | some raw1 => decLoop encryptedBlocks offset raw1 i currentKey1
      | none => none
    | none => none

/-- The key-clearing loop of DecXORPass (crypt.go 288-290):
`for i := 0; i < 4; i++ { raw[keyPos+i] = 0 }`. -/
def clearKey (raw : List Nat) (keyPos : Nat) : Option (List Nat) :=
  if keyPos + 3 < raw.length then
    some ((((raw.set keyPos 0).set (keyPos + 1) 0).set (keyPos + 2) 0).set (keyPos + 3) 0)
  else none

/-- crypt.DecXORPass (crypt.go 230-291). -/
def DecXORPass (raw : List Nat) (offset size : Nat) : Option (List Nat) :=
  if size ≤ 8 then some raw
  else
    let stop := offset + size - 8
    let pos := 4 + offset
    let keyPos := offset + size - 4
    match readWordX raw keyPos with
    | some finalKey =>
      match collectBlocks raw (iters (stop - pos)) pos with
      | some encryptedBlocks =>
        match decLoop encryptedBlocks offset raw encryptedBlocks.length finalKey with
        | some raw1 => clearKey raw1 keyPos
        | none => none
      | none => none
    | none => none

/-- The variable StaticBlowfishKey (crypt.go 11-14). -/
def StaticBlowfishKey : List Nat :=
  [0x6b, 0x60, 0xcb, 0x5b, 0x82, 0xce, 0x90, 0xb1,
   0xcc, 0x2b, 0x6c, 0x55, 0x6c, 0x6c, 0x6c, 0x6c]

/-- The variable GameServerBlowfishKey (crypt.go 18-22). -/
def GameServerBlowfishKey : List Nat :=
  [0x5f, 0x3b, 0x76, 0x2e, 0x5d, 0x30, 0x35, 0x2d,
   0x33, 0x31, 0x21, 0x7c, 0x2b, 0x2d, 0x25, 0x78,
   0x54, 0x21, 0x5e, 0x5b, 0x24, 0x00]

/-- The block loop of BlowfishDecrypt and BlowfishEncrypt (crypt.go 147-149, 170-172):
`for i := 0; i < count; i++ { f(dst[i*8:], src[i*8:]) }`; iteration `n` runs after
iterations `0 .. n-1` and stores the image of the block of `src` at `n*8` over the 8 bytes
of `dst` at `n*8`. -/
def blockLoop (f : List Nat → List Nat) (src : List Nat) : Nat → List Nat → List Nat
  | 0, dst => dst
  | n + 1, dst =>
    let d := blockLoop f src n dst
    d.take (n * 8) ++ f ((src.drop (n * 8)).take 8) ++ d.drop (n * 8 + 8)

/-- crypt.BlowfishDecrypt (crypt.go 131-152). -/
def BlowfishDecrypt (newCipher : blowfish.NewCipher) (encrypted key : List Nat) :
    Except String (List Nat) :=
  match newCipher key with
  | none => .error "Couldn't initialize the blowfish cipher"
  | some cipher =>
    if encrypted.length % 8 ≠ 0 then
      .error "The encrypted data is not a multiple of the block size"
    else
      let count := encrypted.length / 8
      .ok (blockLoop cipher.Decrypt encrypted count (List.replicate encrypted.length 0))

/-- crypt.BlowfishEncrypt (crypt.go 154-175). -/
def BlowfishEncrypt (newCipher : blowfish.NewCipher) (decrypted key : List Nat) :
    Except String (List Nat) :=
  match newCipher key with
  | none => .error "Couldn't initialize the blowfish cipher"
  | some cipher =>
    if decrypted.length % 8 ≠ 0 then
      .error "The decrypted data is not a multiple of the block size"
    else
      let count := decrypted.length / 8
      .ok (blockLoop cipher.Encrypt decrypted count (List.replicate decrypted.length 0))

/-- crypt.BlowfishEncryptStatic (crypt.go 179-181). -/
def BlowfishEncryptStatic (newCipher : blowfish.NewCipher) (decrypted : List Nat) :
    Except String (List Nat) :=
  BlowfishEncrypt newCipher decrypted StaticBlowfishKey

/-- The first `n` 8-byte blocks of `src`, each mapped by `f`: what the block loop of
BlowfishEncrypt and BlowfishDecrypt computes, block by block. -/
def mapBlocks (f : List Nat → List Nat) : Nat → List Nat → List Nat
  | 0, _ => []
  | n + 1, src => f (src.take 8) ++ mapBlocks f n (src.drop 8)

end crypt

/-! ### models -/

namespace models

/-- models.SessionKey (models/session.go 6-14). -/
structure SessionKey where
  LoginKey1 : Nat
  LoginKey2 : Nat
  PlayKey1 : Nat
  PlayKey2 : Nat
  Account : String
  ServerID : Int
  CreatedAt : Time
  deriving DecidableEq, Repr

/-- SessionKey.Equals (models/session.go 17-22). -/
def SessionKey.Equals (sk other : SessionKey) : Bool :=
  sk.LoginKey1 == other.LoginKey1 &&
    sk.LoginKey2 == other.LoginKey2 &&
    sk.PlayKey1 == other.PlayKey1 &&
    sk.PlayKey2 == other.PlayKey2

/-- SessionKey.IsExpired (models/session.go 25-27): `time.Since(sk.CreatedAt) > maxAge`. -/
def SessionKey.IsExpired (sk : SessionKey) (now : Time) (maxAge : Time) : Bool :=
  decide (now - sk.CreatedAt > maxAge)

/-- models.ServerStatus (models/gameserver.go 8-15), a Go `int`. -/
abbrev ServerStatus := Int

/-- The constant ServerStatusDown. -/
def ServerStatusDown : ServerStatus := 0

/-- The constant ServerStatusOnline. -/
def ServerStatusOnline : ServerStatus := 1

/-- The constant ServerStatusGMOnly. -/
def ServerStatusGMOnly : ServerStatus := 2

/-- The constant ServerStatusTest. -/
def ServerStatusTest : ServerStatus := 3

/-- A `net.IPNet`: the network address and its mask, as bytes. -/
structure IPNet where
  IP : List Nat
  Mask : List Nat
  deriving DecidableEq, Repr

/-- models.GameServerAddress (models/gameserver.go 18-21); `Subnet` is a pointer, and
`none` is nil. -/
structure GameServerAddress where
  Subnet : Option IPNet
  ServerAddress : String
  deriving DecidableEq, Repr

/-- models.GameServerInfo (models/gameserver.go 23-36). -/
structure GameServerInfo where
  ID : Int
  Name : String
  Port : Int
  Status : ServerStatus
  CurrentPlayers : Int
  MaxPlayers : Int
  PvP : Bool
  AgeLimit : Int
  ServerType : Int
  ShowBrackets : Bool
  LastUpdate : Time
  Addresses : List GameServerAddress
  deriving DecidableEq, Repr

/-- GameServerInfo.IsOnline (models/gameserver.go 53-55). -/
def GameServerInfo.IsOnline (gsi : GameServerInfo) : Bool :=
  gsi.Status == ServerStatusOnline || gsi.Status == ServerStatusGMOnly

/-- models.Account (models/account.go 7-14); `AccessLevel` is an `int8`. -/
structure Account where
  ID : Int
  Username : String
  Password : String
  AccessLevel : Int
  CreatedAt : Time
  UpdatedAt : Time
  deriving DecidableEq, Repr

end models

/-! ### registry, events, repo -/

namespace registry

/-- registry.CharacterCountInfo (registry/charactercounts.go 10-13). -/
structure CharacterCountInfo where
  Count : Int
  Timestamp : Time
  deriving DecidableEq, Repr

/-- registry.InMemoryCharacterCountRegistry (registry/charactercounts.go 25-30), without
its mutex. -/
structure InMemoryCharacterCountRegistry where
  data : GoMap String (GoMap Int CharacterCountInfo)
  cacheTTL : Time
  deriving DecidableEq, Repr

/-- registry.gameServerRegistry (registry/gameserver.go 22-25), without its mutex. -/
structure gameServerRegistry where
  servers : GoMap Int models.GameServerInfo
  deriving DecidableEq, Repr

/-- gameServerRegistry.GetAll (registry/gameserver.go 63-75): copies of all entries, in the
order the map is ranged over; the returned error is always nil. -/
def gameServerRegistry.GetAll (r : gameServerRegistry) : List models.GameServerInfo :=
  r.servers.map Prod.snd

end registry

namespace events

/-- events.SendPacketEvent (events/events.go 89-92). -/
structure SendPacketEvent where
  ServerID : Int
  Data : List Nat
  deriving DecidableEq, Repr

/-- events.InMemoryEventBus (events/events.go 24-27), for the one event type that is ever
published, `send_packet`: the number of subscribed handlers, and the handler invocations
that Publish has started, in order. -/
structure InMemoryEventBus where
  handlers : Nat
  started : List SendPacketEvent
  deriving DecidableEq, Repr

/-- InMemoryEventBus.Publish (events/events.go 35-55) of a SendPacketEvent: one `go
handler(ctx, event)` per subscribed handler; the returned error is always nil. -/
def InMemoryEventBus.Publish (bus : InMemoryEventBus) (event : SendPacketEvent) :
    InMemoryEventBus :=
  { bus with started := bus.started ++ List.replicate bus.handlers event }

end events

namespace repo

/-- The accounts table behind repo.AccountRepository (repo/postgres.go), which lives in an
external database: its rows, the id the next insert is given, and the error (if any) that
the database answers a query or an insert with. -/
structure Repository where
  accounts : List models.Account
  nextID : Int
  queryError : Option String
  insertError : Option String
  deriving DecidableEq, Repr

/-- PostgresAccountRepo.GetByUsername (repo/postgres.go 21-45): the row, `nil, nil` when no
row matches, or the database error. -/
def Repository.GetByUsername (r : Repository) (username : String) :
    Except String (Option models.Account) :=
  match r.queryError with
  | some e => .error e
  | none => .ok (r.accounts.find? (fun a => a.Username == username))

/-- PostgresAccountRepo.Create (repo/postgres.go 47-66) at instant `now`. Yields the
returned error (`none` is nil), the account as the caller sees it afterwards, and the table
afterwards. -/
def Repository.Create (r : Repository) (now : Time) (account : models.Account) :
    Option String × models.Account × Repository :=
  let account := { account with CreatedAt := now, UpdatedAt := now }
  match r.insertError with
  | some e => (some e, account, r)
  | none =>
    let account := { account with ID := r.nextID }
    (none, account, { r with accounts := r.accounts ++ [account], nextID := r.nextID + 1 })

end repo

/-! ### usecase: the session ledger -/

namespace usecase

open models

/-- usecase.SessionUseCase (usecase/session.go 15-19), without its mutex. -/
structure SessionUseCase where
  sessionKeys : GoMap String SessionKey
  maxSessionAge : Time
  deriving DecidableEq, Repr

/-- usecase.NewSessionUseCase (usecase/session.go 21-30); `5 * time.Minute` in
nanoseconds. -/
def NewSessionUseCase (maxSessionAge : Time) : SessionUseCase :=
  let maxSessionAge := if maxSessionAge = 0 then 5 * 60000000000 else maxSessionAge
  { sessionKeys := [], maxSessionAge := maxSessionAge }

/-- One call of `rand.Read` on a 4-byte array: the four bytes it stored, or its error. -/
abbrev RandRead := Except String (Nat × Nat × Nat × Nat)

/-- SessionUseCase.generateRandomUint32 (usecase/session.go 190-197). -/
def generateRandomUint32 (r : RandRead) : Except String Nat :=
  match r with
  | .error e => .error e
  | .ok (b0, b1, b2, b3) => .ok (b0 ||| (b1 <<< 8) ||| (b2 <<< 16) ||| (b3 <<< 24))

/-- SessionUseCase.CreateSessionKey (usecase/session.go 33-77) at instant `now`, with the
outcomes `r1`, `r2` of its two random reads. Yields the returned key or error, and the
use case afterwards. -/
def CreateSessionKey (uc : SessionUseCase) (now : Time) (r1 r2 : RandRead)
    (account : String) (serverID : Int) (loginOkID1 loginOkID2 : Nat) :
    Except String SessionKey × SessionUseCase :=
  match generateRandomUint32 r1 with
  | .error e => (.error ("failed to generate playKey1: " ++ e), uc)
  | .ok playKey1 =>
    match generateRandomUint32 r2 with
    | .error e => (.error ("failed to generate playKey2: " ++ e), uc)
    | .ok playKey2 =>
      let sessionKey : SessionKey :=
        { LoginKey1 := loginOkID1, LoginKey2 := loginOkID2, PlayKey1 := playKey1,
          PlayKey2 := playKey2, Account := account, ServerID := serverID, CreatedAt := now }
      (.ok sessionKey, { uc with sessionKeys := uc.sessionKeys.set account sessionKey })

/-- SessionUseCase.ValidateSessionKey (usecase/session.go 80-126) at instant `now`. Yields
the returned boolean, the returned error (`none` is nil; no path returns another) and the
use case afterwards. -/
def ValidateSessionKey (uc : SessionUseCase) (now : Time) (account : String)
    (requestedKey : SessionKey) : Bool × Option String × SessionUseCase :=
  match uc.sessionKeys.get account with
  | none => (false, none, uc)
  | some storedKey =>
    if storedKey.IsExpired now uc.maxSessionAge then
      (false, none, { uc with sessionKeys := uc.sessionKeys.delete account })
    else if !storedKey.Equals requestedKey then
      (false, none, uc)
    else
      (true, none, uc)

/-- SessionUseCase.RemoveSessionKey (usecase/session.go 129-140). Yields the returned error
(`none` is nil) and the use case afterwards. -/
def RemoveSessionKey (uc : SessionUseCase) (account : String) :
    Option String × SessionUseCase :=
  match uc.sessionKeys.get account with
  | some _ => (none, { uc with sessionKeys := uc.sessionKeys.delete account })
  | none => (some ("session key not found for account: " ++ account), uc)

/-- SessionUseCase.GetSessionKey (usecase/session.go 143-158). -/
def GetSessionKey (uc : SessionUseCase) (now : Time) (account : String) :
    Except String SessionKey :=
  match uc.sessionKeys.get account with
  | none => .error ("session key not found for account: " ++ account)
  | some sessionKey =>
    if sessionKey.IsExpired now uc.maxSessionAge then
      .error ("session key expired for account: " ++ account)
    else .ok sessionKey

/-- SessionUseCase.CleanupExpiredSessions (usecase/session.go 161-180): the `range` loop
visits every entry of the map as it was on entry and deletes the expired ones. Yields the
count of removed keys and the use case afterwards. -/
def CleanupExpiredSessions (uc : SessionUseCase) (now : Time) : Nat × SessionUseCase :=
  let r := uc.sessionKeys.foldl
    (fun (acc : Nat × GoMap String SessionKey) (e : String × SessionKey) =>
      if e.2.IsExpired now uc.maxSessionAge then (acc.1 + 1, acc.2.delete e.1) else acc)
    (0, uc.sessionKeys)
  (r.1, { uc with sessionKeys := r.2 })

/-- SessionUseCase.GetSessionCount (usecase/session.go 183-187). -/
def GetSessionCount (uc : SessionUseCase) : Nat := uc.sessionKeys.len

end usecase

/-! ### The shared server state -/

/-- The components that `LoginServer.prepareRepositories`, `prepareRegistry` and
`prepareUseCases` (service.go 82-113) create once and hand, by pointer, to every use case:
`usc.client.repo`, `usc.client.sessionUseCase = usc.gameServerComm.sessionUseCase`,
`usc.gameServer.registry = usc.gameServerComm.gameServerRegistry`,
`usc.gameServerComm.characterCountRegistry`, `usc.gameServerComm.eventBus` (`none` is a nil
bus) and `usc.client.config.autoCreate`. -/
structure LoginServer where
  repo : repo.Repository
  gameServerRegistry : registry.gameServerRegistry
  characterCountRegistry : registry.InMemoryCharacterCountRegistry
  eventBus : Option events.InMemoryEventBus
  session : usecase.SessionUseCase
  autoCreate : Bool
  deriving DecidableEq, Repr

/-! ### packets: helpers and buffers -/

namespace packets

/-- The loop `for i := 0; i < n; i++ { mods[dst+i] ^= mods[src+i] }` (helpers.go 25-27,
30-32, 35-37, 47-55): iteration `n` runs after iterations `0 .. n-1`. The callers have
checked `len(mods) == 128`, so every index is in range. -/
def xorLoop (dst src : Nat) : Nat → List Nat → List Nat
  | 0, mods => mods
  | n + 1, mods =>
    let m := xorLoop dst src n mods
    m.set (dst + n) (m[dst + n]?.getD 0 ^^^ m[src + n]?.getD 0)

/-- The loop `for i := 0; i < n; i++ { mods[a+i], mods[b+i] = mods[b+i], mods[a+i] }`
(helpers.go 20-22, 56-58). -/
def swapLoop (a b : Nat) : Nat → List Nat → List Nat
  | 0, mods => mods
  | n + 1, mods =>
    let m := swapLoop a b n mods
    let x := m[a + n]?.getD 0
    let y := m[b + n]?.getD 0
    (m.set (a + n) y).set (b + n) x

/-- packets.ScrambleModulus (helpers.go 11-40). -/
def ScrambleModulus (mods : List Nat) : List Nat :=
  if mods.length ≠ 128 then mods
  else
    let m1 := swapLoop 0x00 0x4D 4 mods
    let m2 := xorLoop 0 0x40 0x40 m1
    let m3 := xorLoop 0x0D 0x34 4 m2
    xorLoop 0x40 0 0x40 m3

/-- packets.UnscrambleModulus (helpers.go 43-60). -/
def UnscrambleModulus (mods : List Nat) : List Nat :=
  if mods.length ≠ 128 then mods
  else
    let m1 := xorLoop 0x40 0 0x40 mods
    let m2 := xorLoop 0x0D 0x34 4 m1
    let m3 := xorLoop 0 0x40 0x40 m2
    swapLoop 0x00 0x4D 4 m3

/-- Buffer.WriteUInt32 (packets/packets.go 21-23): the four little-endian bytes of a
`uint32`. -/
def WriteUInt32 (value : Nat) : List Nat :=
  [value % 256, value / 256 % 256, value / 65536 % 256, value / 16777216 % 256]

/-- Buffer.WriteUInt16 (packets/packets.go 25-27): the two little-endian bytes of a
`uint16`. -/
def WriteUInt16 (value : Nat) : List Nat :=
  [value % 256, value / 256 % 256]

/-- `binary.LittleEndian.Uint32(b)` of a slice expression `s[lo:lo+4]`; `none` is the
panic of a slice bound out of range. -/
def Uint32At (s : List Nat) (lo : Nat) : Option Nat :=
  if lo + 4 ≤ s.length then
    some (s.getD lo 0 + s.getD (lo + 1) 0 * 256 + s.getD (lo + 2) 0 * 65536
      + s.getD (lo + 3) 0 * 16777216)
  else none

/-- A slice expression `s[lo:hi]` of a slice whose capacity is its length; `none` is the
panic of a bound out of range. -/
def sliceOf (s : List Nat) (lo hi : Nat) : Option (List Nat) :=
  if lo ≤ hi ∧ hi ≤ s.length then some ((s.drop lo).take (hi - lo)) else none

/-- The digit loop behind `big.Int.Bytes`: the base-256 digits of `n`, most significant
first, in front of `acc`; `fuel` bounds the number of digits. -/
def bigBytesAux : Nat → Nat → List Nat → List Nat
  | 0, _, acc => acc
  | fuel + 1, n, acc =>
    if n = 0 then acc else bigBytesAux fuel (n / 256) ((n % 256) :: acc)

/-- `big.Int.Bytes` of a non-negative integer: its big-endian bytes without leading
zeros. -/
def bigBytes (n : Nat) : List Nat := bigBytesAux n n []

end packets

/-! ### transport -/

namespace transport

/-- The `net.Conn` of a connection, as far as the server drives it: the buffers handed to
`Write` so far, whether the peer is gone (a `Write` then returns an error), and whether
`Close` was called. -/
structure Conn where
  written : List (List Nat)
  broken : Bool
  closed : Bool
  deriving DecidableEq, Repr

/-- `Socket.Write(b)`: the returned error (`none` is nil) and the connection afterwards. -/
def Conn.Write (s : Conn) (b : List Nat) : Option String × Conn :=
  if s.broken || s.closed then (some "write failed", s)
  else (none, { s with written := s.written ++ [b] })

/-- The fields of `rsa.PrivateKey` that the server reads: the modulus and the private
exponent. -/
structure PrivateKey where
  N : Nat
  D : Nat
  deriving DecidableEq, Repr

/-- transport.Client (transport/client.go 16-27); `Account = none` is the nil pointer. -/
structure Client where
  SessionID : List Nat
  Socket : Conn
  BlowfishKey : List Nat
  PrivateKey : PrivateKey
  LoginOkID1 : Nat
  LoginOkID2 : Nat
  Account : Option models.Account
  AccessLevel : Int
  LastServer : Int
  deriving DecidableEq, Repr

/-- The padding loop of Send and SendStatic (transport/client.go 129-135, 176-181):
`missing := len(data) % 8; if missing != 0 { for i := missing; i < 8; i++ { data =
append(data, 0x00) } }`. -/
def padToBlock (data : List Nat) : List Nat :=
  let missing := data.length % 8
  if missing ≠ 0 then data ++ List.replicate (8 - missing) 0 else data

/-- The frame `buffer.WriteUInt16(length); buffer.Write(data)` with `length :=
uint16(len(data) + 2)` (transport/client.go 151-156, 196-201). -/
def frame (data : List Nat) : List Nat :=
  packets.WriteUInt16 ((data.length + 2) % 65536) ++ data

/-- The outcome of a call that may panic: `none` is the panic, otherwise the returned error
(`none` is nil) and the client afterwards. -/
abbrev SendResult := Option (Option String × Client)

/-- Client.Send (transport/client.go 111-165) with its variadic `params`. -/
def Client.Send (newCipher : blowfish.NewCipher) (c : Client) (data : List Nat)
    (params : List Bool) : SendResult :=
  let doChecksum := !(decide (params.length ≥ 1) && params.getD 0 true == false)
  let doBlowfish := !(decide (params.length ≥ 2) && params.getD 1 true == false)
  let checked : Option (List Nat) :=
    if doChecksum then crypt.AppendChecksum (padToBlock (data ++ [0x00, 0x00, 0x00, 0x00]))
    else some data
  match checked with
  | none => none
  | some data1 =>
    let encrypted : Except String (List Nat) :=
      if doBlowfish then crypt.BlowfishEncrypt newCipher data1 c.BlowfishKey else .ok data1
    match encrypted with
    | .error e => some (some e, c)
    | .ok data2 =>
      match c.Socket.Write (frame data2) with
      | (some _, s) => some (some "The packet couldn't be sent.", { c with Socket := s })
      | (none, s) => some (none, { c with Socket := s })

/-- The buffer that SendStatic hands to BlowfishEncryptStatic (transport/client.go
169-186): the data, 4 bytes for the checksum, 4 bytes for the XOR key, the Blowfish
padding, and then EncXORPass with the random key `xorKey`. -/
def staticPlain (data : List Nat) (xorKey : Nat) : Option (List Nat) :=
  let data1 := data ++ [0x00, 0x00, 0x00, 0x00]
  let data2 := data1 ++ [0x00, 0x00, 0x00, 0x00]
  let data3 := padToBlock data2
  crypt.EncXORPass data3 0 data3.length xorKey

/-- Client.SendStatic (transport/client.go 168-209); `xorKey` is the value of
`mathrand.Uint32()`. -/
def Client.SendStatic (newCipher : blowfish.NewCipher) (c : Client) (data : List Nat)
    (xorKey : Nat) : SendResult :=
  match staticPlain data xorKey with
  | none => none
  | some data1 =>
    match crypt.BlowfishEncryptStatic newCipher data1 with
    | .error e => some (some e, c)
    | .ok data2 =>
      match c.Socket.Write (frame data2) with
      | (some _, s) => some (some "The packet couldn't be sent.", { c with Socket := s })
      | (none, s) => some (none, { c with Socket := s })

/-- What one `Socket.Read(buf)` returned: the bytes stored at the head of `buf` (so `n` is
their number) and the error, `none` for nil; `eof` says that the error is `io.EOF`. -/
structure ReadResult where
  bytes : List Nat
  err : Option String
  eof : Bool
  deriving DecidableEq, Repr

/-- What Client.Receive returns: a panic, the error `net.ErrClosed`, another error, or an
opcode with the rest of the packet. -/
inductive Received where
  | panic
  | closed
  | error (msg : String)
  | packet (opcode : Nat) (data : List Nat)
  deriving DecidableEq, Repr

/-- The checksum test of Client.Receive (transport/client.go 92-96): VerifyChecksum, and
VerifyChecksumClient when that fails. -/
def checksumValid (data : List Nat) : Option Bool :=
  match crypt.VerifyChecksum data with
  | none => none
  | some true => some true
  | some false => crypt.VerifyChecksumClient data

/-- Client.Receive (transport/client.go 50-109), given what the two reads of the socket
return; the second read is made into a buffer of `size - 2` bytes. -/
def Client.Receive (newCipher : blowfish.NewCipher) (c : Client) (r1 r2 : ReadResult) :
    Received :=
  if r1.bytes.length ≠ 2 ∨ r1.err ≠ none then
    if r1.err ≠ none ∧ r1.eof then .closed
    else .error "an error occured while reading the packet header"
  else
    let size := r1.bytes.getD 0 0 + r1.bytes.getD 1 0 * 256
    if size < 2 then .panic
    else if r2.bytes.length ≠ size - 2 ∨ r2.err ≠ none then
      .error "an error occured while reading the packet data"
    else
      match crypt.BlowfishDecrypt newCipher r2.bytes c.BlowfishKey with
      | .error _ => .error "An error occured while decrypting the packet data."
      | .ok data =>
        match checksumValid data with
        | none => .panic
        | some false => .error "packet checksum verification failed"
        | some true =>
          match data with
          | [] => .panic
          | opcode :: rest => .packet opcode rest

/-- The buffer with bit `j` (`0 ≤ j < 32`, counted from the least significant bit of the
little-endian word) of its last 4-byte word flipped. -/
def flipLastWordBit (data : List Nat) (j : Nat) : List Nat :=
  let idx := data.length - 4 + j / 8
  data.set idx (data.getD idx 0 ^^^ (1 <<< (j % 8)))

end transport

/-! ### External libraries -/

/-- The libraries outside the sources that the handlers reach, as parameters: the Blowfish
cipher of `pkg/crypt/blowfish`, `bcrypt.CompareHashAndPassword(hash, password)` (`none` is
a nil error), `bcrypt.GenerateFromPassword(password, 10)`, and `strings.Map(unicode.ToLower,
s)` on the bytes of a string that is not pure ASCII. -/
structure Env where
  newCipher : blowfish.NewCipher
  CompareHashAndPassword : String → String → Option String
  GenerateFromPassword : String → Except String String
  mapToLower : List Nat → List Nat

/-! ### packets: readers, strings, RSA -/

namespace packets

/-- The bytes a `packets.Reader` has not read yet. -/
abbrev Reader := List Nat

/-- Reader.ReadBytes (packets/packets.go 63-71): the bytes read and the reader afterwards;
a short read consumes what is left and yields the empty slice. -/
def Reader.ReadBytes (r : Reader) (number : Nat) : List Nat × Reader :=
  if r.length < number then ([], []) else (r.take number, r.drop number)

/-- Reader.ReadUInt32 (packets/packets.go 89-103). -/
def Reader.ReadUInt32 (r : Reader) : Nat × Reader :=
  if r.length < 4 then (0, [])
  else (r.getD 0 0 + r.getD 1 0 * 256 + r.getD 2 0 * 65536 + r.getD 3 0 * 16777216, r.drop 4)

/-- Reader.ReadUInt8 (packets/packets.go 121-135). -/
def Reader.ReadUInt8 (r : Reader) : Nat × Reader :=
  if r.length < 1 then (0, []) else (r.getD 0 0, r.drop 1)

/-- `utf16.Encode([]rune(str))` for a string of Unicode scalar values. -/
def utf16Encode (str : String) : List Nat :=
  str.data.flatMap (fun ch =>
    if ch.toNat < 0x10000 then [ch.toNat]
    else [0xd800 + (ch.toNat - 0x10000) / 0x400 % 0x400, 0xdc00 + (ch.toNat - 0x10000) % 0x400])

/-- Buffer.WriteString (packets/packets.go 42-53). -/
def WriteString (str : String) : List Nat :=
  (utf16Encode str).flatMap WriteUInt16 ++ WriteUInt16 0

/-- The constant packets.REASON__PASS_WRONG (packets/consts.go). -/
def REASON__PASS_WRONG : Nat := 0x02

/-- The constant packets.REASON_ACCESS_FAILED (packets/consts.go). -/
def REASON_ACCESS_FAILED : Nat := 0x15

/-- The constant packets.REASON_ACCOUNT_SUSPENDED_CALL (packets/consts.go). -/
def REASON_ACCOUNT_SUSPENDED_CALL : Nat := 0x28

/-- `new(big.Int).SetBytes(b)`: the big-endian value of the bytes. -/
def bigSetBytes (b : List Nat) : Nat := b.foldl (fun acc x => acc * 256 + x) 0

/-- `new(big.Int).Exp(c, d, n)` for non-negative arguments: `c ^ d mod n`, and `c ^ d` for
a zero modulus. -/
def bigExp (c d n : Nat) : Nat := if n = 0 then c ^ d else c ^ d % n

/-- packets.RsaDecryptNoPadding (packets/helpers.go 70-85); `priv.Size()` is the length of
the modulus in bytes. -/
def RsaDecryptNoPadding (priv : transport.PrivateKey) (cipher : List Nat) :
    Except String (List Nat) :=
  let k := (bigBytes priv.N).length
  if cipher.length ≠ k then
    .error ("cipher length != key size: " ++ toString cipher.length ++ " != " ++ toString k)
  else
    let c := bigSetBytes cipher
    let m := bigExp c priv.D priv.N
    let out := bigBytes m
    if out.length < k then .ok (List.replicate (k - out.length) 0 ++ out) else .ok out

end packets

/-! ### packets: outclient, outgs, ings, inclient -/

namespace outclient

open packets

/-- outclient.NewInitPacket (packets/outclient/init.go 8-37); `none` is the panic of
`client.SessionID[:4]` on a session id shorter than 4 bytes. -/
def NewInitPacket (client : transport.Client) : Option (List Nat) :=
  match sliceOf client.SessionID 0 4 with
  | none => none
  | some sessionID =>
    let modulus := ScrambleModulus (bigBytes client.PrivateKey.N)
    some ([0x00] ++ sessionID ++ WriteUInt32 0x0000c621 ++ modulus
      ++ WriteUInt32 0x29DD954E ++ WriteUInt32 0x77C39CFC ++ WriteUInt32 0x97ADB620
      ++ WriteUInt32 0x07BDE0F7 ++ client.BlowfishKey ++ [0x00])

open packets

/-- The constant outclient.REASON_ACCESS_FAILED (packets/outclient/loginfail.go 11). -/
def REASON_ACCESS_FAILED : Nat := 0x04

/-- outclient.NewLoginFailPacket (packets/outclient/loginfail.go 16-22). -/
def NewLoginFailPacket (reason : Nat) : List Nat :=
  [0x01] ++ WriteUInt32 reason

/-- outclient.NewLoginOkPacket (packets/outclient/loginok.go 7-24); `none` is the panic of
`sessionID[:4]` or `sessionID[4:8]` on a short session id. -/
def NewLoginOkPacket (sessionID : List Nat) : Option (List Nat) :=
  match sliceOf sessionID 0 4, sliceOf sessionID 4 8 with
  | some id1, some id2 =>
    some ([0x03] ++ id1 ++ id2 ++ WriteUInt32 0x00 ++ WriteUInt32 0x00
      ++ WriteUInt32 0x000003ea ++ WriteUInt32 0x00 ++ WriteUInt32 0x00 ++ WriteUInt32 0x00
      ++ List.replicate 16 0x00)
  | _, _ => none

/-- outclient.PlayOk (packets/outclient/playok.go 7-10). -/
structure PlayOk where
  playOkID1 : Nat
  playOkID2 : Nat
  deriving DecidableEq, Repr

/-- outclient.NewPlayOk (packets/outclient/playok.go 12-17). -/
def NewPlayOk (playOkID1 playOkID2 : Nat) : PlayOk :=
  { playOkID1 := playOkID1, playOkID2 := playOkID2 }

/-- PlayOk.GetData (packets/outclient/playok.go 19-26). -/
def PlayOk.GetData (p : PlayOk) : List Nat :=
  [0x07] ++ WriteUInt32 p.playOkID1 ++ WriteUInt32 p.playOkID2

end outclient

namespace outgs

open packets

/-- RequestCharacters.GetData of `outgs.NewRequestCharacters(account)`
(packets/outgs/requestcharacters.go 13-29). -/
def NewRequestCharactersData (account : String) : List Nat :=
  [0x05] ++ WriteString account

end outgs

namespace ings

/-- ings.PlayerAuthRequest (packets/ings/playerauthrequest.go 8-14). -/
structure PlayerAuthRequest where
  account : String
  playKey1 : Nat
  playKey2 : Nat
  loginKey1 : Nat
  loginKey2 : Nat
  deriving DecidableEq, Repr

/-- PlayerAuthRequest.GetAccount (packets/ings/playerauthrequest.go 42-44). -/
def PlayerAuthRequest.GetAccount (par : PlayerAuthRequest) : String := par.account

/-- PlayerAuthRequest.GetSessionKey (packets/ings/playerauthrequest.go 46-53); the fields
it does not set hold Go zero values. -/
def PlayerAuthRequest.GetSessionKey (par : PlayerAuthRequest) : models.SessionKey :=
  { LoginKey1 := par.loginKey1, LoginKey2 := par.loginKey2, PlayKey1 := par.playKey1,
    PlayKey2 := par.playKey2, Account := "", ServerID := 0, CreatedAt := 0 }

end ings

namespace inclient

open packets

/-- inclient.RequestServerLogin (packets/inclient/requestserverlogin.go 7-10). -/
structure RequestServerLogin where
  SessionID : List Nat
  ServerID : Nat
  deriving DecidableEq, Repr

/-- inclient.NewRequestServerLogin (packets/inclient/requestserverlogin.go 12-20). -/
def NewRequestServerLogin (request : List Nat) : RequestServerLogin :=
  let packet : Reader := request
  let (sessionID, packet1) := packet.ReadBytes 8
  let (serverID, _) := packet1.ReadUInt8
  { SessionID := sessionID, ServerID := serverID }

/-- inclient.RequestAuthLogin (packets/inclient/requestauthlogin.go 16-19). -/
structure RequestAuthLogin where
  Username : String
  Password : String
  deriving DecidableEq, Repr

/-- Membership in the cutset `"\x00 \t\r\n"` of trimASCII. -/
def inCutset (b : Nat) : Bool :=
  b == 0x00 || b == 0x20 || b == 0x09 || b == 0x0d || b == 0x0a

/-- inclient.trimASCII (packets/inclient/requestauthlogin.go 64-66): `bytes.Trim` removes
the leading and the trailing bytes that are in the cutset. -/
def trimASCII (b : List Nat) : List Nat :=
  ((b.dropWhile inCutset).reverse.dropWhile inCutset).reverse

/-- `strings.ToLower`: a pure ASCII string has its bytes `A`..`Z` lowered; any other
string goes through `strings.Map(unicode.ToLower, s)`. -/
def toLower (env : Env) (s : List Nat) : List Nat :=
  if s.all (fun c => decide (c < 0x80)) then
    s.map (fun c => if 0x41 ≤ c ∧ c ≤ 0x5a then c + 0x20 else c)
  else env.mapToLower s

/-- `unicode.IsLetter(r) || unicode.IsDigit(r) || r == '.' || r == '_' || r == '-'` for a
rune in `[0x20, 0x7f)`. -/
def userRune (r : Nat) : Bool :=
  (decide (0x41 ≤ r) && decide (r ≤ 0x5a)) || (decide (0x61 ≤ r) && decide (r ≤ 0x7a))
    || (decide (0x30 ≤ r) && decide (r ≤ 0x39)) || r == 0x2e || r == 0x5f || r == 0x2d

/-- inclient.plausibleUser (packets/inclient/requestauthlogin.go 68-81) on the bytes of the
string. A byte of `0x80` or more makes `range s` yield a rune of `0x80` or more (a decoded
rune, or `utf8.RuneError` for an invalid byte), which the first test of the loop rejects;
the other runes are the bytes themselves. -/
def plausibleUser (s : List Nat) : Bool :=
  if s.length = 0 ∨ s.length > 14 then false
  else s.all (fun r => !(decide (r < 0x20) || decide (r ≥ 0x7f)) && userRune r)

/-- inclient.plausiblePass (packets/inclient/requestauthlogin.go 83-93) on the bytes of the
string. -/
def plausiblePass (s : List Nat) : Bool :=
  if s.length < 3 ∨ s.length > 16 then false
  else s.all (fun r => !(decide (r < 0x20) || decide (r ≥ 0x7f)))

/-- The Go string with the given bytes, all below `0x80`. -/
def asciiString (b : List Nat) : String := String.mk (b.map Char.ofNat)

/-- inclient.extractCredsFromDecrypted128 (packets/inclient/requestauthlogin.go 45-62). -/
def extractCredsFromDecrypted128 (env : Env) (dec : List Nat) :
    Except String (String × String) :=
  if dec.length < 128 then .error "decrypted block must be 128 bytes"
  else
    let userRaw := (dec.drop 0x5E).take 14
    let passRaw := (dec.drop 0x6C).take 16
    let user := toLower env (trimASCII userRaw)
    let pass := trimASCII passRaw
    if !plausibleUser user then .error "username not plausible"
    else if !plausiblePass pass then .error "password not plausible"
    else .ok (asciiString user, asciiString pass)

/-- inclient.NewRequestAuthLogin (packets/inclient/requestauthlogin.go 21-43); `none` is
the panic of `request[:128]` on a payload shorter than 128 bytes (the payload is the tail
of a freshly allocated buffer, so its capacity is its length). -/
def NewRequestAuthLogin (env : Env) (client : transport.Client) (request : List Nat) :
    Option (Except String RequestAuthLogin) :=
  match sliceOf request 0 128 with
  | none => none
  | some block =>
    match RsaDecryptNoPadding client.PrivateKey block with
    | .error e => some (.error e)
    | .ok dec128 =>
      match extractCredsFromDecrypted128 env dec128 with
      | .error e => some (.error e)
      | .ok (user, pass) => some (.ok { Username := user, Password := pass })

end inclient

/-! ### usecase: clients and game servers -/

namespace usecase

/-- usecase.PlayerAuthResult (usecase/gameservercomm.go 229-233). -/
structure PlayerAuthResult where
  Account : String
  Success : Bool
  Reason : String
  deriving DecidableEq, Repr

/-- GameServerCommUseCase.HandlePlayerAuthRequest (usecase/gameservercomm.go 118-166) at
instant `now`. Yields the result, the returned error (`none` is nil) and the server state
afterwards. -/
def HandlePlayerAuthRequest (l : LoginServer) (now : Time) (authReq : ings.PlayerAuthRequest) :
    PlayerAuthResult × Option String × LoginServer :=
  let account := authReq.GetAccount
  let requestedKey := authReq.GetSessionKey
  match ValidateSessionKey l.session now account requestedKey with
  | (_, some err, s1) =>
    ({ Account := account, Success := false, Reason := "Session validation error" },
      some err, { l with session := s1 })
  | (valid, none, s1) =>
    if !valid then
      ({ Account := account, Success := false, Reason := "Invalid session key" },
        none, { l with session := s1 })
    else
      let (_, s2) := RemoveSessionKey s1 account
      ({ Account := account, Success := true, Reason := "Authentication successful" },
        none, { l with session := s2 })

/-- GameServerCommUseCase.HandlePlayerLogout (usecase/gameservercomm.go 169-192). The
returned error is always nil. -/
def HandlePlayerLogout (l : LoginServer) (account : String) (_serverID : Int) : LoginServer :=
  let (_, s1) := RemoveSessionKey l.session account
  { l with session := s1 }

/-- One call of a method of SessionUseCase that can write the ledger; every write to the
ledger in the repository goes through one of these four methods. -/
inductive LedgerCall where
  | create (now : Time) (r1 r2 : RandRead) (account : String) (serverID : Int)
      (loginOkID1 loginOkID2 : Nat)
  | validate (now : Time) (account : String) (requestedKey : models.SessionKey)
  | remove (account : String)
  | cleanup (now : Time)

/-- The use case after the call. -/
def LedgerCall.run (c : LedgerCall) (uc : SessionUseCase) : SessionUseCase :=
  match c with
  | .create now r1 r2 account serverID l1 l2 =>
    (CreateSessionKey uc now r1 r2 account serverID l1 l2).2
  | .validate now account k => (ValidateSessionKey uc now account k).2.2
  | .remove account => (RemoveSessionKey uc account).2
  | .cleanup now => (CleanupExpiredSessions uc now).2

/-- The call mints a key for `a`: it is a CreateSessionKey for `a` whose two random reads
succeed. -/
def LedgerCall.mints (a : String) : LedgerCall → Bool
  | .create _ (.ok _) (.ok _) account _ _ _ => decide (account = a)
  | _ => false

/-- The use case after a sequence of calls, run in order. -/
def runCalls (calls : List LedgerCall) (uc : SessionUseCase) : SessionUseCase :=
  calls.foldl (fun s c => c.run s) uc

/-- The constant usecase.ACCESS_LEVEL_BANNED (usecase/client.go 16). -/
def ACCESS_LEVEL_BANNED : Int := -1

/-- The constant usecase.ACCESS_LEVEL_PLAYER (usecase/client.go 17). -/
def ACCESS_LEVEL_PLAYER : Int := 0

/-- The errors HandleAuthLogin returns: the two sentinel values `ErrAccountBanned` and
`ErrAccountNotFound` (usecase/client.go 21-24), which the handler compares by identity,
and any other error. -/
inductive AuthError where
  | ErrAccountBanned
  | ErrAccountNotFound
  | other (msg : String)
  deriving DecidableEq, Repr

/-- ClientUseCase.HandleAuthLogin (usecase/client.go 53-106) at instant `now`; the request
is a pointer, and `none` for it is nil, whose dereference panics (result `none`). Yields
the account or the error, and the server state afterwards. -/
def HandleAuthLogin (env : Env) (now : Time) (l : LoginServer)
    (request : Option inclient.RequestAuthLogin) :
    Option (Except AuthError models.Account × LoginServer) :=
  match request with
  | none => none
  | some request =>
    match l.repo.GetByUsername request.Username with
    | .error _ => some (.error .ErrAccountNotFound, l)
    | .ok (some account) =>
      if account.AccessLevel = ACCESS_LEVEL_BANNED then some (.error .ErrAccountBanned, l)
      else
        match env.CompareHashAndPassword account.Password request.Password with
        | some err => some (.error (.other err), l)
        | none => some (.ok account, l)
    | .ok none =>
      if l.autoCreate = true then
        match env.GenerateFromPassword request.Password with
        | .error err => some (.error (.other err), l)
        | .ok hashedPassword =>
          let newAccount : models.Account :=
            { ID := 0, Username := request.Username, Password := hashedPassword,
              AccessLevel := ACCESS_LEVEL_PLAYER, CreatedAt := 0, UpdatedAt := 0 }
          match l.repo.Create now newAccount with
          | (some err, _, r) => some (.error (.other err), { l with repo := r })
          | (none, created, r) => some (.ok created, { l with repo := r })
      else some (.error .ErrAccountNotFound, l)

/-- usecase.RequestServerLoginResult (usecase/client.go 109-114). -/
structure RequestServerLoginResult where
  Success : Bool
  PlayKey1 : Nat
  PlayKey2 : Nat
  Reason : String
  deriving DecidableEq, Repr

/-- ClientUseCase.HandleRequestServerLogin (usecase/client.go 117-149) at instant `now`,
with the outcomes `r1`, `r2` of the two random reads of CreateSessionKey. Yields the
result, the returned error (`none` is nil) and the server state afterwards. -/
def HandleRequestServerLogin (l : LoginServer) (now : Time) (r1 r2 : RandRead)
    (request : inclient.RequestServerLogin) (account : Option models.Account)
    (loginOkID1 loginOkID2 : Nat) :
    RequestServerLoginResult × Option String × LoginServer :=
  match account with
  | none =>
    ({ Success := false, PlayKey1 := 0, PlayKey2 := 0, Reason := "Account not authenticated" },
      none, l)
  | some account =>
    let serverID : Int := request.ServerID
    match CreateSessionKey l.session now r1 r2 account.Username serverID loginOkID1
      loginOkID2 with
    | (.error err, s) =>
      ({ Success := false, PlayKey1 := 0, PlayKey2 := 0,
         Reason := "Failed to create session key" }, some err, { l with session := s })
    | (.ok sessionKey, s) =>
      ({ Success := true, PlayKey1 := sessionKey.PlayKey1, PlayKey2 := sessionKey.PlayKey2,
         Reason := "" }, none, { l with session := s })

/-- GameServerCommUseCase.sendViaEventBus (usecase/gameservercomm.go 296-320) on a bus
that is not nil: one Publish per online server, in the order of `servers`; the returned
error is always nil. -/
def sendViaEventBus (bus : events.InMemoryEventBus) (servers : List models.GameServerInfo)
    (packetData : List Nat) : events.InMemoryEventBus :=
  servers.foldl
    (fun b server =>
      if server.IsOnline then b.Publish { ServerID := server.ID, Data := packetData } else b)
    bus

/-- GameServerCommUseCase.RequestCharacterCountsFromAllServers (usecase/gameservercomm.go
270-293). Yields the returned error (`none` is nil) and the server state afterwards. -/
def RequestCharacterCountsFromAllServers (l : LoginServer) (account : String) :
    Option String × LoginServer :=
  let servers := l.gameServerRegistry.GetAll
  let packetData := outgs.NewRequestCharactersData account
  match l.eventBus with
  | none => (some "EventBus not available", l)
  | some bus => (none, { l with eventBus := some (sendViaEventBus bus servers packetData) })

end usecase

/-! ### handlers/client -/

namespace handlers

/-- Handler.handlePacket, as the loop of handleConnection calls it: `none` is a panic,
otherwise the returned error (`none` is nil) with the server state and the client
afterwards. -/
abbrev PacketHandler :=
  LoginServer → transport.Client → Nat → List Nat →
    Option (Option String × LoginServer × transport.Client)

/-- How one pass of the loop of Handler.handleConnection ends (handlers/client/handler.go
115-129): with a panic, with the return of handleConnection, whose deferred
`client.Socket.Close()` has then run, or with the next pass. -/
inductive Pass where
  | panic
  | returned (l : LoginServer) (c : transport.Client)
  | next (l : LoginServer) (c : transport.Client)
  deriving DecidableEq, Repr

/-- The deferred `client.Socket.Close()` of handleConnection (handlers/client/handler.go
102). -/
def closeSocket (c : transport.Client) : transport.Client :=
  { c with Socket := { c.Socket with closed := true } }

/-- One pass of the loop of Handler.handleConnection (handlers/client/handler.go 108-129)
while the context is not cancelled, given what Client.Receive returned. -/
def handleConnectionPass (handlePacket : PacketHandler) (l : LoginServer)
    (c : transport.Client) (received : transport.Received) : Pass :=
  match received with
  | .panic => .panic
  | .closed => .returned l (closeSocket c)
  | .error _ => .returned l (closeSocket c)
  | .packet opcode data =>
    match handlePacket l c opcode data with
    | none => .panic
    | some (some _, l1, c1) => .returned l1 (closeSocket c1)
    | some (none, l1, c1) => .next l1 c1

open packets outclient

/-- A call `client.Send(data)` whose returned error is dropped: the client afterwards, or
`none` for a panic. -/
def sendDropErr (env : Env) (client : transport.Client) (data : List Nat) :
    Option transport.Client :=
  match client.Send env.newCipher data [] with
  | none => none
  | some (_, c) => some c

/-- Handler.handleRequestAuthLogin (handlers/client/requestauthlogin.go 16-52) at instant
`now`: `none` is a panic, otherwise the returned error (always nil), the server state and
the client afterwards. -/
def handleRequestAuthLogin (env : Env) (now : Time) (l : LoginServer)
    (client : transport.Client) (data : List Nat) :
    Option (Option String × LoginServer × transport.Client) :=
  match inclient.NewRequestAuthLogin env client data with
  | none => none
  | some parsed =>
    let packet : Option inclient.RequestAuthLogin :=
      match parsed with
      | .ok p => some p
      | .error _ => none
    let afterParse : Option transport.Client :=
      match parsed with
      | .ok _ => some client
      | .error _ => sendDropErr env client (NewLoginFailPacket packets.REASON_ACCESS_FAILED)
    match afterParse with
    | none => none
    | some client1 =>
      match usecase.HandleAuthLogin env now l packet with
      | none => none
      | some (.error err, l1) =>
        let reason :=
          match err with
          | .ErrAccountBanned => packets.REASON_ACCOUNT_SUSPENDED_CALL
          | .ErrAccountNotFound => packets.REASON__PASS_WRONG
          | .other _ => packets.REASON_ACCESS_FAILED
        match sendDropErr env client1 (NewLoginFailPacket reason) with
        | none => none
        | some client2 => some (none, l1, client2)
      | some (.ok account, l1) =>
        let client2 := { client1 with Account := some account,
                                      AccessLevel := account.AccessLevel }
        match Uint32At client2.SessionID 0, Uint32At client2.SessionID 4 with
        | some id1, some id2 =>
          let client3 := { client2 with LoginOkID1 := id1, LoginOkID2 := id2 }
          let (_, l2) := usecase.RequestCharacterCountsFromAllServers l1 account.Username
          match NewLoginOkPacket client3.SessionID with
          | none => none
          | some loginOk =>
            match sendDropErr env client3 loginOk with
            | none => none
            | some client4 => some (none, l2, client4)
        | _, _ => none

/-- Handler.handleRequestServerLogin (handlers/client/requestserverlogin.go 13-33) at
instant `now`, with the outcomes `r1`, `r2` of the two random reads of CreateSessionKey:
`none` is a panic, otherwise the returned error (`none` is nil), the server state and the
client afterwards. -/
def handleRequestServerLogin (env : Env) (now : Time) (r1 r2 : usecase.RandRead)
    (l : LoginServer) (client : transport.Client) (data : List Nat) :
    Option (Option String × LoginServer × transport.Client) :=
  let packet := inclient.NewRequestServerLogin data
  match usecase.HandleRequestServerLogin l now r1 r2 packet client.Account client.LoginOkID1
    client.LoginOkID2 with
  | (_, some err, l1) =>
    match sendDropErr env client (NewLoginFailPacket outclient.REASON_ACCESS_FAILED) with
    | none => none
    | some client1 => some (some err, l1, client1)
  | (login, none, l1) =>
    if !login.Success then
      match sendDropErr env client (NewLoginFailPacket outclient.REASON_ACCESS_FAILED) with
      | none => none
      | some client1 => some (none, l1, client1)
    else
      let client1 := { client with LastServer := (packet.ServerID : Int) }
      match sendDropErr env client1 (NewPlayOk login.PlayKey1 login.PlayKey2).GetData with
      | none => none
      | some client2 => some (none, l1, client2)

end handlers

/-! ### pkg/crypt and transport: game server connections -/

namespace crypt

/-- crypt.BlowfishEncryptGameServer (crypt.go 185-187). -/
def BlowfishEncryptGameServer (newCipher : blowfish.NewCipher) (decrypted : List Nat) :
    Except String (List Nat) :=
  BlowfishEncrypt newCipher decrypted GameServerBlowfishKey

/-- crypt.BlowfishDecryptGameServer (crypt.go 191-193). -/
def BlowfishDecryptGameServer (newCipher : blowfish.NewCipher) (encrypted : List Nat) :
    Except String (List Nat) :=
  BlowfishDecrypt newCipher encrypted GameServerBlowfishKey

end crypt

namespace transport

/-- transport.GameServer (transport/gameserver.go 15-21); `DynamicBlowfishKey = none` is
the nil slice. -/
structure GameServer where
  ID : Int
  Socket : Conn
  PrivateKey : PrivateKey
  DynamicBlowfishKey : Option (List Nat)
  Authenticated : Bool
  deriving DecidableEq, Repr

/-- The buffer that Client.Send (with the checksum on) and GameServer.Send hand to
BlowfishEncrypt (transport/client.go 124-139, transport/gameserver.go 103-115): 4 bytes
are appended for the checksum, then the Blowfish padding, then AppendChecksum runs over the
whole buffer; `none` is a panic. -/
def checkedPlain (data : List Nat) : Option (List Nat) :=
  crypt.AppendChecksum (padToBlock (data ++ [0x00, 0x00, 0x00, 0x00]))

/-- GameServer.Send (transport/gameserver.go 102-144): `none` is a panic, otherwise the
returned error (`none` is nil) and the connection afterwards. -/
def GameServer.Send (newCipher : blowfish.NewCipher) (gs : GameServer) (data : List Nat) :
    Option (Option String × GameServer) :=
  match checkedPlain data with
  | none => none
  | some data1 =>
    let encrypted : Except String (List Nat) :=
      match gs.DynamicBlowfishKey with
      | some key => crypt.BlowfishEncrypt newCipher data1 key
      | none => crypt.BlowfishEncryptGameServer newCipher data1
    match encrypted with
    | .error e => some (some ("error encrypting packet: " ++ e), gs)
    | .ok data2 =>
      match gs.Socket.Write (frame data2) with
      | (some e, s) => some (some ("error sending packet: " ++ e), { gs with Socket := s })
      | (none, s) => some (none, { gs with Socket := s })

/-- GameServer.Receive (transport/gameserver.go 37-100), given what the two reads of the
socket return; the second read is made into a buffer of `size - 2` bytes. -/
def GameServer.Receive (newCipher : blowfish.NewCipher) (gs : GameServer)
    (r1 r2 : ReadResult) : Received :=
  match r1.err with
  | some e => if r1.eof then .closed else .error ("error reading packet header: " ++ e)
  | none =>
    if r1.bytes.length ≠ 2 then .error "incomplete packet header"
    else
      let size := r1.bytes.getD 0 0 + r1.bytes.getD 1 0 * 256
      if size < 2 then .error "invalid packet size"
      else
        match r2.err with
        | some e => .error ("error reading packet data: " ++ e)
        | none =>
          if r2.bytes.length ≠ size - 2 then
            .error ("incomplete packet data: expected " ++ toString (size - 2) ++ ", got "
              ++ toString r2.bytes.length)
          else
            let decrypted : Except String (List Nat) :=
              match gs.DynamicBlowfishKey with
              | some key => crypt.BlowfishDecrypt newCipher r2.bytes key
              | none => crypt.BlowfishDecryptGameServer newCipher r2.bytes
            match decrypted with
            | .error e => .error ("error decrypting packet: " ++ e)
            | .ok data =>
              match crypt.VerifyChecksum data with
              | none => .panic
              | some false => .error "gameserver packet checksum verification failed"
              | some true =>
                match data with
                | [] => .error "empty packet data"
                | opcode :: rest => .packet opcode rest

end transport

/-! ### packets: strings read from a packet -/

namespace packets

/-- Reader.ReadUInt16 (packets/packets.go 105-119). -/
def Reader.ReadUInt16 (r : Reader) : Nat × Reader :=
  if r.length < 2 then (0, []) else (r.getD 0 0 + r.getD 1 0 * 256, r.drop 2)

/-- Reader.ReadUInt64 (packets/packets.go 73-87). -/
def Reader.ReadUInt64 (r : Reader) : Nat × Reader :=
  if r.length < 8 then (0, [])
  else (r.getD 0 0 + r.getD 1 0 * 2 ^ 8 + r.getD 2 0 * 2 ^ 16 + r.getD 3 0 * 2 ^ 24
    + r.getD 4 0 * 2 ^ 32 + r.getD 5 0 * 2 ^ 40 + r.getD 6 0 * 2 ^ 48 + r.getD 7 0 * 2 ^ 56,
    r.drop 8)

/-- The loop of Reader.ReadString (packets/packets.go 140-147): `ReadUInt16` until it
yields 0, which it does at a terminator and when fewer than 2 bytes are left (the reader
is then drained). Yields the code units and the reader afterwards. -/
def readCodeUnits : Reader → List Nat × Reader
  | b0 :: b1 :: rest =>
    let codeUnit := b0 + b1 * 256
    if codeUnit = 0 then ([], rest)
    else
      let (utf16Codes, r) := readCodeUnits rest
      (codeUnit :: utf16Codes, r)
  | _ => ([], [])

/-- `utf16.Decode`: a code unit outside the surrogate range is its own rune, a high
surrogate followed by a low surrogate is the rune of the pair, and any other surrogate is
`U+FFFD`. -/
def utf16Decode : List Nat → List Nat
  | [] => []
  | [r] => if r < 0xd800 ∨ 0xe000 ≤ r then [r] else [0xFFFD]
  | r :: r2 :: rest =>
    if r < 0xd800 ∨ 0xe000 ≤ r then r :: utf16Decode (r2 :: rest)
    else if r < 0xdc00 ∧ 0xdc00 ≤ r2 ∧ r2 < 0xe000 then
      ((r - 0xd800) * 0x400 + (r2 - 0xdc00) + 0x10000) :: utf16Decode rest
    else 0xFFFD :: utf16Decode (r2 :: rest)

/-- Reader.ReadString (packets/packets.go 137-152). -/
def Reader.ReadString (r : Reader) : String × Reader :=
  let (utf16Codes, r1) := readCodeUnits r
  (String.mk ((utf16Decode utf16Codes).map Char.ofNat), r1)

end packets

/-! ### packets: outgs and ings of the game server protocol -/

namespace outgs

open packets

/-- AuthResponse.GetData of `outgs.NewAuthResponse(serverID, serverName)`
(packets/outgs/authresponse.go 10-24). -/
def NewAuthResponseData (serverID : Int) (serverName : String) : List Nat :=
  [0x02, (serverID % 256).toNat] ++ WriteString serverName

/-- PlayerAuthResponse.GetData of `outgs.NewPlayerAuthResponse(account, success)`
(packets/outgs/playerauthresponse.go 10-29). -/
def NewPlayerAuthResponseData (account : String) (success : Bool) : List Nat :=
  [0x03] ++ WriteString account ++ [if success then 0x01 else 0x00]

end outgs

namespace ings

open packets

/-- ings.AuthRequest (packets/ings/authrequest.go 7-17). -/
structure AuthRequest where
  version : Nat
  id : Nat
  acceptAlternate : Bool
  reserveHost : Bool
  port : Nat
  maxPlayers : Nat
  hexID : List Nat
  subnets : List String
  hosts : List String
  deriving DecidableEq, Repr

/-- The loop `for i := 0; i < int(subnetSize); i++ { hosts = append(hosts,
reader.ReadString()) }` of NewAuthRequest (packets/ings/authrequest.go 57-62). -/
def readHosts : Nat → Reader → List String × Reader
  | 0, r => ([], r)
  | n + 1, r =>
    let (subnet, r1) := r.ReadString
    let (hosts, r2) := readHosts n r1
    (subnet :: hosts, r2)

/-- ings.NewAuthRequest (packets/ings/authrequest.go 19-74); `none` is nil. -/
def NewAuthRequest (data : List Nat) : Option AuthRequest :=
  if data.length < 10 then none
  else
    let reader : Reader := data
    let (version, r1) := reader.ReadUInt8
    let (id, r2) := r1.ReadUInt8
    let (acceptAlternative, r3) := r2.ReadUInt8
    let (reserveHost, r4) := r3.ReadUInt8
    let (port, r5) := r4.ReadUInt16
    let (maxPlayers, r6) := r5.ReadUInt32
    let (hexIDSize, r7) := r6.ReadUInt32
    let (hexID, r8) := r7.ReadBytes hexIDSize
    if hexID.length = 0 then none
    else
      let (subnetSize, r9) := r8.ReadUInt32
      let (hosts, _) := readHosts subnetSize r9
      some { version := version, id := id, acceptAlternate := decide (acceptAlternative ≠ 0),
             reserveHost := decide (reserveHost ≠ 0), port := port, maxPlayers := maxPlayers,
             hexID := hexID, subnets := [], hosts := hosts }

/-- AuthRequest.GetID (packets/ings/authrequest.go 76-78). -/
def AuthRequest.GetID (ar : AuthRequest) : Int := ar.id

/-- AuthRequest.GetMaxPlayers (packets/ings/authrequest.go 80-82). -/
def AuthRequest.GetMaxPlayers (ar : AuthRequest) : Int := ar.maxPlayers

/-- AuthRequest.GetPort (packets/ings/authrequest.go 84-86). -/
def AuthRequest.GetPort (ar : AuthRequest) : Int := ar.port

/-- AuthRequest.GetHosts (packets/ings/authrequest.go 88-90). -/
def AuthRequest.GetHosts (ar : AuthRequest) : List String := ar.hosts

/-- ings.BlowFishKey (packets/ings/blowfishkey.go 10-12). -/
structure BlowFishKey where
  encryptedKey : List Nat
  deriving DecidableEq, Repr

/-- ings.NewBlowFishKey (packets/ings/blowfishkey.go 14-37): the outer `none` is a panic,
the inner `none` is nil. `4+keySize` is computed in `uint32`, and `copy` fills the
`keySize` bytes of `encryptedKey` from `data[4:4+keySize]`. -/
def NewBlowFishKey (data : List Nat) : Option (Option BlowFishKey) :=
  if data.length < 4 then some none
  else
    let keySize := (data.getD 0 0 ||| (data.getD 1 0 <<< 8) ||| (data.getD 2 0 <<< 16)
      ||| (data.getD 3 0 <<< 24)) % 2 ^ 32
    let hi := (4 + keySize) % 2 ^ 32
    if data.length < hi then some none
    else
      match sliceOf data 4 hi with
      | none => none
      | some src =>
        some (some { encryptedKey := src.take keySize
                       ++ List.replicate (keySize - src.length) 0 })

/-- ings.rsaDecryptNoPadding (packets/ings/blowfishkey.go 86-101); `priv.Size()` is the
length of the modulus in bytes. -/
def rsaDecryptNoPadding (priv : transport.PrivateKey) (cipher : List Nat) :
    Except String (List Nat) :=
  let k := (bigBytes priv.N).length
  if cipher.length ≠ k then
    .error ("cipher length != key size: " ++ toString cipher.length ++ " != " ++ toString k)
  else
    let c := bigSetBytes cipher
    let m := bigExp c priv.D priv.N
    let out := bigBytes m
    if out.length < k then .ok (List.replicate (k - out.length) 0 ++ out) else .ok out

/-- The loop `for i, b := range decrypted { if b != 0 { startIndex = i; break } }` of
DecryptKey (packets/ings/blowfishkey.go 55-61); `none` is `startIndex = -1`. -/
def firstNonZero : List Nat → Option Nat
  | [] => none
  | b :: rest => if b ≠ 0 then some 0 else (firstNonZero rest).map (fun i => i + 1)

/-- BlowFishKey.DecryptKey (packets/ings/blowfishkey.go 39-83). -/
def BlowFishKey.DecryptKey (bfk : BlowFishKey) (privateKey : transport.PrivateKey) :
    Except String (List Nat) :=
  match rsaDecryptNoPadding privateKey bfk.encryptedKey with
  | .error e => .error ("failed to decrypt BlowFish key: " ++ e)
  | .ok decrypted =>
    match firstNonZero decrypted with
    | some startIndex =>
      if decrypted.length - startIndex ≥ 22 then
        if decrypted.length - startIndex ≥ 40 then
          .ok ((decrypted.drop startIndex).take 40)
        else .ok ((decrypted.drop startIndex).take 22)
      else .ok (decrypted.drop startIndex)
    | none => .ok decrypted

/-- ings.NewPlayerAuthRequest (packets/ings/playerauthrequest.go 16-40); `none` is nil. -/
def NewPlayerAuthRequest (data : List Nat) : Option PlayerAuthRequest :=
  if data.length < 18 then none
  else
    let reader : Reader := data
    let (account, r1) := reader.ReadString
    let (playKey1, r2) := r1.ReadUInt32
    let (playKey2, r3) := r2.ReadUInt32
    let (loginKey1, r4) := r3.ReadUInt32
    let (loginKey2, _) := r4.ReadUInt32
    some { account := account, playKey1 := playKey1, playKey2 := playKey2,
           loginKey1 := loginKey1, loginKey2 := loginKey2 }

/-- ings.PlayerLogout (packets/ings/playerlogout.go 7-9). -/
structure PlayerLogout where
  account : String
  deriving DecidableEq, Repr

/-- ings.NewPlayerLogout (packets/ings/playerlogout.go 11-25); `none` is nil. -/
def NewPlayerLogout (data : List Nat) : Option PlayerLogout :=
  if data.length < 2 then none
  else
    let reader : Reader := data
    let (account, _) := reader.ReadString
    some { account := account }

/-- PlayerLogout.GetAccount (packets/ings/playerlogout.go 27-29). -/
def PlayerLogout.GetAccount (pl : PlayerLogout) : String := pl.account

/-- ings.PlayerTracert (packets/ings/playertracert.go 7-14). -/
structure PlayerTracert where
  account : String
  pcIP : String
  hop1 : String
  hop2 : String
  hop3 : String
  hop4 : String
  deriving DecidableEq, Repr

/-- ings.NewPlayerTracert (packets/ings/playertracert.go 16-40); `none` is nil. -/
def NewPlayerTracert (data : List Nat) : Option PlayerTracert :=
  if data.length < 2 then none
  else
    let reader : Reader := data
    let (account, r1) := reader.ReadString
    let (pcIP, r2) := r1.ReadString
    let (hop1, r3) := r2.ReadString
    let (hop2, r4) := r3.ReadString
    let (hop3, r5) := r4.ReadString
    let (hop4, _) := r5.ReadString
    some { account := account, pcIP := pcIP, hop1 := hop1, hop2 := hop2, hop3 := hop3,
           hop4 := hop4 }

/-- ings.ReplyCharacters (packets/ings/replycharacters.go 9-14). -/
structure ReplyCharacters where
  Account : String
  CharacterCount : Int
  DeletionCount : Int
  DeletionTimes : List Int
  deriving DecidableEq, Repr

/-- The loop `for i := 0; i < int(deletionCount); i++ { deletionTimes[i] =
int64(reader.ReadUInt64()) }` of NewReplyCharacters (packets/ings/replycharacters.go
37-40). -/
def readDeletionTimes : Nat → Reader → List Int × Reader
  | 0, r => ([], r)
  | n + 1, r =>
    let (v, r1) := r.ReadUInt64
    let timestamp : Int := if v < 2 ^ 63 then (v : Int) else (v : Int) - 2 ^ 64
    let (rest, r2) := readDeletionTimes n r1
    (timestamp :: rest, r2)

/-- ings.NewReplyCharacters (packets/ings/replycharacters.go 16-48); `none` is nil. -/
def NewReplyCharacters (data : List Nat) : Option ReplyCharacters :=
  if data.length < 3 then none
  else
    let reader : Reader := data
    let (account, r1) := reader.ReadString
    if account = "" then none
    else
      let (charCount, r2) := r1.ReadUInt8
      let (deletionCount, r3) := r2.ReadUInt8
      let (deletionTimes, _) := readDeletionTimes deletionCount r3
      some { Account := account, CharacterCount := charCount, DeletionCount := deletionCount,
             DeletionTimes := deletionTimes }

/-- ReplyCharacters.GetAccount (packets/ings/replycharacters.go 50-52). -/
def ReplyCharacters.GetAccount (rc : ReplyCharacters) : String := rc.Account

/-- ReplyCharacters.GetCharacterCount (packets/ings/replycharacters.go 54-56). -/
def ReplyCharacters.GetCharacterCount (rc : ReplyCharacters) : Int := rc.CharacterCount

end ings

/-! ### models, registry: registering a game server -/

/-- The functions of the Go package `net` that GameServerInfo.AddServerAddress calls, as
parameters: `net.ParseCIDR(s)`, of which the network or the error is used, and
`net.ParseIP(s)`, which yields the 16-byte form of the address, or `none` for nil. -/
structure NetLib where
  ParseCIDR : String → Except String models.IPNet
  ParseIP : String → Option (List Nat)

namespace models

/-- `IP.To4` of the package `net`: the 4-byte form of an IPv4 address, `none` is nil. -/
def To4 (ip : List Nat) : Option (List Nat) :=
  if ip.length = 4 then some ip
  else if ip.length = 16 ∧ ip.take 10 = List.replicate 10 0 ∧ ip.getD 10 0 = 0xff
      ∧ ip.getD 11 0 = 0xff then some (ip.drop 12)
  else none

/-- GameServerInfo.AddServerAddress (models/gameserver.go 65-87). Yields the returned
error (`none` is nil) and the server info afterwards. -/
def GameServerInfo.AddServerAddress (net : NetLib) (gsi : GameServerInfo)
    (subnet serverAddr : String) : Option String × GameServerInfo :=
  match net.ParseCIDR subnet with
  | .ok ipNet =>
    (none, { gsi with Addresses := gsi.Addresses
      ++ [{ Subnet := some ipNet, ServerAddress := serverAddr }] })
  | .error err =>
    match net.ParseIP subnet with
    | none => (some err, gsi)
    | some ip =>
      let ipNet : Option IPNet :=
        if (To4 ip).isSome then (net.ParseCIDR (subnet ++ "/32")).toOption
        else (net.ParseCIDR (subnet ++ "/128")).toOption
      (none, { gsi with Addresses := gsi.Addresses
        ++ [{ Subnet := ipNet, ServerAddress := serverAddr }] })

end models

namespace registry

/-- gameServerRegistry.Register (registry/gameserver.go 33-49) of an info that is not nil,
at instant `now`. Yields the returned error (`none` is nil) and the registry
afterwards. -/
def gameServerRegistry.Register (r : gameServerRegistry) (now : Time)
    (info : models.GameServerInfo) : Option String × gameServerRegistry :=
  if info.ID ≤ 0 then (some ("invalid gameserver ID: " ++ toString info.ID), r)
  else (none, { r with servers := r.servers.set info.ID { info with LastUpdate := now } })

/-- InMemoryCharacterCountRegistry.SetCharacterCount (registry/charactercounts.go 40-54)
at instant `now`; the returned error is always nil. -/
def InMemoryCharacterCountRegistry.SetCharacterCount (r : InMemoryCharacterCountRegistry)
    (now : Time) (account : String) (serverID : Int) (count : Int) :
    InMemoryCharacterCountRegistry :=
  let serverData : GoMap Int CharacterCountInfo :=
    match r.data.get account with
    | some m => m
    | none => []
  let serverData := serverData.set serverID { Count := count, Timestamp := now }
  { r with data := r.data.set account serverData }

end registry

/-! ### usecase: game server authentication and character counts -/

namespace usecase

/-- usecase.AuthResult (usecase/gameservercomm.go 221-226). -/
structure AuthResult where
  Success : Bool
  ServerID : Int
  ServerName : String
  Reason : String
  deriving DecidableEq, Repr

/-- The map literal of generateServerName (usecase/gameservercomm.go 206-211). -/
def serverNames : GoMap Int String :=
  [(1, "Bartz"), (2, "Sieghardt"), (3, "Kain"), (4, "Lionna"), (5, "Erica"),
   (6, "Gustin"), (7, "Devianne"), (8, "Hindemith"), (9, "Teon (EURO)"),
   (10, "Franz (EURO)"), (11, "Luna (EURO)"), (12, "Sayha"), (13, "Aria"),
   (14, "Phoenix"), (15, "Chronos"), (16, "Naia (EURO)"), (17, "Elhwynna")]

/-- GameServerCommUseCase.generateServerName (usecase/gameservercomm.go 205-218). -/
def generateServerName (serverID : Int) : String :=
  match serverNames.get serverID with
  | some name => name
  | none => "Server_" ++ toString serverID

/-- The loop `for i := 0; i+1 < len(hosts); i += 2` of HandleAuthRequest
(usecase/gameservercomm.go 78-96): a pair that AddServerAddress rejects is skipped. -/
def addHostPairs (net : NetLib) : List String → models.GameServerInfo → models.GameServerInfo
  | subnet :: serverAddr :: rest, serverInfo =>
    addHostPairs net rest (serverInfo.AddServerAddress net subnet serverAddr).2
  | _, serverInfo => serverInfo

/-- GameServerCommUseCase.HandleAuthRequest (usecase/gameservercomm.go 42-115) at instant
`now`. Yields the result, the returned error (`none` is nil) and the server state
afterwards. -/
def HandleAuthRequest (net : NetLib) (now : Time) (l : LoginServer)
    (authReq : ings.AuthRequest) : AuthResult × Option String × LoginServer :=
  let serverID := authReq.GetID
  let maxPlayers := authReq.GetMaxPlayers
  let port := authReq.GetPort
  let serverName := generateServerName serverID
  let serverInfo : models.GameServerInfo :=
    { ID := serverID, Name := serverName, Port := port, Status := models.ServerStatusOnline,
      CurrentPlayers := 0, MaxPlayers := maxPlayers, PvP := true, AgeLimit := 0,
      ServerType := 1, ShowBrackets := false, LastUpdate := 0, Addresses := [] }
  let serverInfo := addHostPairs net authReq.GetHosts serverInfo
  match l.gameServerRegistry.Register now serverInfo with
  | (some err, r) =>
    ({ Success := false, ServerID := 0, ServerName := "", Reason := "Registration failed" },
      some err, { l with gameServerRegistry := r })
  | (none, r) =>
    ({ Success := true, ServerID := serverID, ServerName := serverName, Reason := "" },
      none, { l with gameServerRegistry := r })

/-- GameServerCommUseCase.HandleReplyCharacters (usecase/gameservercomm.go 236-257) at
instant `now`; the returned error is always nil. -/
def HandleReplyCharacters (l : LoginServer) (now : Time) (reply : ings.ReplyCharacters)
    (serverID : Int) : LoginServer :=
  let account := reply.GetAccount
  let characterCount := reply.GetCharacterCount
  { l with characterCountRegistry :=
      l.characterCountRegistry.SetCharacterCount now account serverID characterCount }

end usecase

/-! ### handlers/gameserver -/

namespace handlers

namespace gameserver

open transport

/-- The outcome of a handler of the game server protocol: `none` is a panic, otherwise the
returned error (`none` is nil), the server state and the connection afterwards. -/
abbrev Outcome := Option (Option String × LoginServer × GameServer)

/-- Handler.handleBlowFishKey (handlers/gameserver/blowfishkey.go 14-37). -/
def handleBlowFishKey (l : LoginServer) (gs : GameServer) (data : List Nat) : Outcome :=
  match ings.NewBlowFishKey data with
  | none => none
  | some none => some (some "failed to parse BlowFishKey packet", l, gs)
  | some (some blowFishKey) =>
    match blowFishKey.DecryptKey gs.PrivateKey with
    | .error err => some (some ("failed to decrypt BlowFish key: " ++ err), l, gs)
    | .ok decryptedKey => some (none, l, { gs with DynamicBlowfishKey := some decryptedKey })

/-- Handler.handleAuthRequest (handlers/gameserver/authrequest.go 15-58) at instant
`now`. -/
def handleAuthRequest (env : Env) (net : NetLib) (now : Time) (l : LoginServer)
    (gs : GameServer) (data : List Nat) : Outcome :=
  match ings.NewAuthRequest data with
  | none => some (some "failed to parse AuthRequest packet", l, gs)
  | some authRequest =>
    match usecase.HandleAuthRequest net now l authRequest with
    | (_, some err, l1) => some (some err, l1, gs)
    | (result, none, l1) =>
      if !result.Success then
        some (some ("authentication rejected: " ++ result.Reason), l1, gs)
      else
        let gs1 := { gs with ID := result.ServerID, Authenticated := true }
        match gs1.Send env.newCipher
          (outgs.NewAuthResponseData result.ServerID result.ServerName) with
        | none => none
        | some (some err, gs2) => some (some ("failed to send AuthResponse: " ++ err), l1, gs2)
        | some (none, gs2) => some (none, l1, gs2)

/-- Handler.handlePlayerInGame (handlers/gameserver/playeringame.go 12-47). -/
def handlePlayerInGame (l : LoginServer) (gs : GameServer) (data : List Nat) : Outcome :=
  if !gs.Authenticated then some (some "GameServer not authenticated", l, gs)
  else if data.length < 2 then some (none, l, gs)
  else some (none, l, gs)

/-- Handler.handlePlayerLogout (handlers/gameserver/playerlogout.go 14-57). -/
def handlePlayerLogout (l : LoginServer) (gs : GameServer) (data : List Nat) : Outcome :=
  if !gs.Authenticated then some (some "GameServer not authenticated", l, gs)
  else
    match ings.NewPlayerLogout data with
    | none => some (some "failed to parse PlayerLogout packet", l, gs)
    | some playerLogout =>
      let account := playerLogout.GetAccount
      some (none, usecase.HandlePlayerLogout l account gs.ID, gs)

/-- Handler.handlePlayerAuthRequest (handlers/gameserver/playerauth.go 15-54) at instant
`now`. -/
def handlePlayerAuthRequest (env : Env) (now : Time) (l : LoginServer) (gs : GameServer)
    (data : List Nat) : Outcome :=
  if !gs.Authenticated then some (some "GameServer not authenticated", l, gs)
  else
    match ings.NewPlayerAuthRequest data with
    | none => some (some "failed to parse PlayerAuthRequest packet", l, gs)
    | some authReq =>
      match usecase.HandlePlayerAuthRequest l now authReq with
      | (_, some err, l1) => some (some err, l1, gs)
      | (result, none, l1) =>
        match gs.Send env.newCipher
          (outgs.NewPlayerAuthResponseData result.Account result.Success) with
        | none => none
        | some (some err, gs1) =>
          some (some ("failed to send PlayerAuthResponse: " ++ err), l1, gs1)
        | some (none, gs1) => some (none, l1, gs1)

/-- Handler.handleServerStatus (handlers/gameserver/serverstatus.go 12-25). -/
def handleServerStatus (l : LoginServer) (gs : GameServer) (_data : List Nat) : Outcome :=
  if !gs.Authenticated then some (some "GameServer not authenticated", l, gs)
  else some (none, l, gs)

/-- Handler.handlePlayerTracert (handlers/gameserver/playertracert.go 13-49). -/
def handlePlayerTracert (l : LoginServer) (gs : GameServer) (data : List Nat) : Outcome :=
  if !gs.Authenticated then some (some "GameServer not authenticated", l, gs)
  else
    match ings.NewPlayerTracert data with
    | none => some (some "failed to parse PlayerTracert packet", l, gs)
    | some _ => some (none, l, gs)

/-- Handler.handleReplyCharacters (handlers/gameserver/replycharacters.go 13-45) at
instant `now`. -/
def handleReplyCharacters (now : Time) (l : LoginServer) (gs : GameServer)
    (data : List Nat) : Outcome :=
  if !gs.Authenticated then some (some "GameServer not authenticated", l, gs)
  else
    match ings.NewReplyCharacters data with
    | none => some (some "failed to parse ReplyCharacters packet", l, gs)
    | some replyCharacters =>
      some (none, usecase.HandleReplyCharacters l now replyCharacters gs.ID, gs)

/-- The digit of `%X` for a value below 16. -/
def hexDigit (d : Nat) : Char :=
  if d < 10 then Char.ofNat (0x30 + d) else Char.ofNat (0x41 + (d - 10))

/-- The format `0x%02X` of a byte. -/
def hexByte (b : Nat) : String :=
  "0x" ++ String.mk [hexDigit (b / 16 % 16), hexDigit (b % 16)]

/-- Handler.handlePacket (handlers/gameserver/handler.go 152-174) at instant `now`. -/
def handlePacket (env : Env) (net : NetLib) (now : Time) (l : LoginServer) (gs : GameServer)
    (opcode : Nat) (data : List Nat) : Outcome :=
  if opcode = 0x00 then handleBlowFishKey l gs data
  else if opcode = 0x01 then handleAuthRequest env net now l gs data
  else if opcode = 0x02 then handlePlayerInGame l gs data
  else if opcode = 0x03 then handlePlayerLogout l gs data
  else if opcode = 0x05 then handlePlayerAuthRequest env now l gs data
  else if opcode = 0x06 then handleServerStatus l gs data
  else if opcode = 0x07 then handlePlayerTracert l gs data
  else if opcode = 0x08 then handleReplyCharacters now l gs data
  else some (some ("unknown GameServer packet opcode: " ++ hexByte opcode), l, gs)

/-- How one pass of the loop of Handler.handleConnection ends (handlers/gameserver/handler.go
107-126): with a panic, with the return of handleConnection, whose deferred
`gs.Socket.Close()` has then run, or with the next pass. -/
inductive Pass where
  | panic
  | returned (l : LoginServer) (gs : GameServer)
  | next (l : LoginServer) (gs : GameServer)
  deriving DecidableEq, Repr

/-- The deferred `gs.Socket.Close()` of handleConnection (handlers/gameserver/handler.go
96). -/
def closeSocket (gs : GameServer) : GameServer :=
  { gs with Socket := { gs.Socket with closed := true } }

/-- One pass of the loop of Handler.handleConnection (handlers/gameserver/handler.go
107-126) at instant `now`, while the context is not cancelled, given what
GameServer.Receive returned. -/
def handleConnectionPass (env : Env) (net : NetLib) (now : Time) (l : LoginServer)
    (gs : GameServer) (received : Received) : Pass :=
  match received with
  | .panic => .panic
  | .closed => .returned l (closeSocket gs)
  | .error _ => .returned l (closeSocket gs)
  | .packet opcode data =>
    match handlePacket env net now l gs opcode data with
    | none => .panic
    | some (some _, l1, gs1) => .returned l1 (closeSocket gs1)
    | some (none, l1, gs1) => .next l1 gs1

end gameserver

end handlers

/-! ### models: address resolution and visibility -/

namespace models

/-- `networkNumberAndMask` of the package `net`, which IPNet.Contains starts with: the
network number and the mask, brought to the same length; `([], [])` is `(nil, nil)`. -/
def IPNet.networkNumberAndMask (n : IPNet) : List Nat × List Nat :=
  match To4 n.IP with
  | some ip4 =>
    if n.Mask.length = 4 then (ip4, n.Mask)
    else if n.Mask.length = 16 then (ip4, n.Mask.drop 12)
    else ([], [])
  | none =>
    if n.IP.length ≠ 16 then ([], [])
    else if n.Mask.length = 16 then (n.IP, n.Mask)
    else ([], [])

/-- `IPNet.Contains` of the package `net`; a nil address is `[]`. -/
def IPNet.Contains (n : IPNet) (ip : List Nat) : Bool :=
  let nn := n.networkNumberAndMask.1
  let m := n.networkNumberAndMask.2
  let ip := match To4 ip with
    | some x => x
    | none => ip
  if ip.length ≠ nn.length then false
  else (List.range ip.length).all
    (fun i => nn.getD i 0 &&& m.getD i 0 == ip.getD i 0 &&& m.getD i 0)

/-- GameServerInfo.IsVisible (models/gameserver.go 57-62). -/
def GameServerInfo.IsVisible (gsi : GameServerInfo) (accessLevel : Int) : Bool :=
  if gsi.Status = ServerStatusGMOnly then decide (accessLevel > 0)
  else !(gsi.Status == ServerStatusDown)

/-- The loop `for _, addr := range gsi.Addresses { if addr.Subnet.Contains(clientIP) {
return addr.ServerAddress } }` of GetServerAddress (models/gameserver.go 97-101): the
outer `none` is the panic of `Contains` on a nil subnet, the inner `none` says that the
loop ended without a return. -/
def findServerAddress : List GameServerAddress → List Nat → Option (Option String)
  | [], _ => some none
  | addr :: rest, clientIP =>
    match addr.Subnet with
    | none => none
    | some subnet =>
      if subnet.Contains clientIP then some (some addr.ServerAddress)
      else findServerAddress rest clientIP

/-- GameServerInfo.GetServerAddress (models/gameserver.go 96-109); `none` is a panic. -/
def GameServerInfo.GetServerAddress (gsi : GameServerInfo) (clientIP : List Nat) :
    Option String :=
  match findServerAddress gsi.Addresses clientIP with
  | none => none
  | some (some serverAddress) => some serverAddress
  | some none =>
    match gsi.Addresses with
    | addr :: _ => some addr.ServerAddress
    | [] => some ""

/-- GameServerInfo.GetExternalHost (models/gameserver.go 113-117); `none` is a panic. -/
def GameServerInfo.GetExternalHost (net : NetLib) (gsi : GameServerInfo) : Option String :=
  let anyIP : List Nat :=
    match net.ParseIP "0.0.0.0" with
    | some ip => ip
    | none => []
  gsi.GetServerAddress anyIP

end models

/-! ### registry: visible servers and cached character counts -/

namespace registry

/-- gameServerRegistry.GetVisibleServers (registry/gameserver.go 120-134): copies of the
visible entries, in the order the map is ranged over; the returned error is always nil. -/
def gameServerRegistry.GetVisibleServers (r : gameServerRegistry) (accessLevel : Int) :
    List models.GameServerInfo :=
  (r.servers.filter (fun e => e.2.IsVisible accessLevel)).map Prod.snd

/-- InMemoryCharacterCountRegistry.GetCharacterCount (registry/charactercounts.go 56-76)
at instant `now`. -/
def InMemoryCharacterCountRegistry.GetCharacterCount (r : InMemoryCharacterCountRegistry)
    (now : Time) (account : String) (serverID : Int) : Int :=
  match r.data.get account with
  | none => 0
  | some serverData =>
    match serverData.get serverID with
    | none => 0
    | some countInfo =>
      if now - countInfo.Timestamp > r.cacheTTL then 0 else countInfo.Count

/-- InMemoryCharacterCountRegistry.GetCharacterCounts (registry/charactercounts.go 78-97)
at instant `now`: the result map is filled while the entries of the account are ranged
over. -/
def InMemoryCharacterCountRegistry.GetCharacterCounts (r : InMemoryCharacterCountRegistry)
    (now : Time) (account : String) : GoMap Int Int :=
  match r.data.get account with
  | none => []
  | some serverData =>
    serverData.foldl
      (fun (result : GoMap Int Int) (e : Int × CharacterCountInfo) =>
        if now - e.2.Timestamp ≤ r.cacheTTL then result.set e.1 e.2.Count else result)
      []

/-- One call `SetCharacterCount(account, serverID, count)`, made at the instant `now`. -/
structure CountWrite where
  now : Time
  account : String
  serverID : Int
  count : Int
  deriving DecidableEq, Repr

/-- A sequence of calls of SetCharacterCount, the first of the list first. -/
def InMemoryCharacterCountRegistry.runWrites (r : InMemoryCharacterCountRegistry)
    (writes : List CountWrite) : InMemoryCharacterCountRegistry :=
  writes.foldl (fun r w => r.SetCharacterCount w.now w.account w.serverID w.count) r

/-- The cache holds `info` for (a, s), in an account map with distinct keys. -/
def InMemoryCharacterCountRegistry.Holds (r : InMemoryCharacterCountRegistry) (a : String)
    (s : Int) (info : CharacterCountInfo) : Prop :=
  ∃ m, r.data.get a = some m ∧ m.WF ∧ m.get s = some info

end registry

/-! ### packets/outclient: the server list -/

/-- The name resolution of the Go package `net` that ServerList.getServerIP calls, as
parameters: `net.SplitHostPort(hostport)`, of which the host or the error is used, and
`net.LookupIP(host)`. -/
structure Resolver where
  SplitHostPort : String → Except String String
  LookupIP : String → Except String (List (List Nat))

namespace packets

/-- Buffer.WriteUInt8 (packets/packets.go 29-31). -/
def WriteUInt8 (value : Nat) : List Nat := [value]

end packets

namespace outclient

open packets

/-- outclient.ServerList (packets/outclient/serverlist.go 10-16). -/
structure ServerList where
  servers : List models.GameServerInfo
  lastServer : Int
  clientAddr : String
  accessLevel : Int
  characterCounts : GoMap Int Int
  deriving DecidableEq, Repr

/-- outclient.NewServerList (packets/outclient/serverlist.go 18-26). -/
def NewServerList (servers : List models.GameServerInfo) (lastServer : Int)
    (clientAddr : String) (accessLevel : Int) : ServerList :=
  { servers := servers, lastServer := lastServer, clientAddr := clientAddr,
    accessLevel := accessLevel, characterCounts := [] }

/-- outclient.NewServerListWithCharCounts (packets/outclient/serverlist.go 28-36). -/
def NewServerListWithCharCounts (servers : List models.GameServerInfo) (lastServer : Int)
    (clientAddr : String) (accessLevel : Int) (characterCounts : GoMap Int Int) :
    ServerList :=
  { servers := servers, lastServer := lastServer, clientAddr := clientAddr,
    accessLevel := accessLevel, characterCounts := characterCounts }

/-- ServerList.getServerIP (packets/outclient/serverlist.go 131-181): the 4 bytes of the
address, or `none` for a panic. -/
def ServerList.getServerIP (net : NetLib) (res : Resolver) (p : ServerList)
    (server : models.GameServerInfo) : Option (List Nat) :=
  let clientIP : Option (List Nat) :=
    match net.ParseIP p.clientAddr with
    | some ip => some ip
    | none =>
      match res.SplitHostPort p.clientAddr with
      | .ok host => net.ParseIP host
      | .error _ => none
  let selected : Option String :=
    match clientIP with
    | some ip => server.GetServerAddress ip
    | none => some ""
  match selected with
  | none => none
  | some selectedIP =>
    let selected2 : Option String :=
      if selectedIP = "" then server.GetExternalHost net else some selectedIP
    match selected2 with
    | none => none
    | some selectedIP =>
      if selectedIP = "" then some [127, 0, 0, 1]
      else
        let ip : Option (List Nat) :=
          match net.ParseIP selectedIP with
          | some ip => some ip
          | none =>
            match res.LookupIP selectedIP with
            | .ok (first :: _) => some first
            | _ => none
        match ip with
        | none => some [127, 0, 0, 1]
        | some ip =>
          match models.To4 ip with
          | some ipv4 => some [ipv4.getD 0 0, ipv4.getD 1 0, ipv4.getD 2 0, ipv4.getD 3 0]
          | none => some [127, 0, 0, 1]

/-- What one pass of the loop over the servers writes in ServerList.GetData
(packets/outclient/serverlist.go 52-96), given the address `ip`. -/
def ServerList.writeServer (p : ServerList) (server : models.GameServerInfo)
    (ip : List Nat) : List Nat :=
  WriteUInt8 (server.ID % 256).toNat
    ++ [ip.getD 0 0] ++ [ip.getD 1 0] ++ [ip.getD 2 0] ++ [ip.getD 3 0]
    ++ WriteUInt32 (server.Port % 2 ^ 32).toNat
    ++ WriteUInt8 (server.AgeLimit % 256).toNat
    ++ [if server.PvP then 0x01 else 0x00]
    ++ WriteUInt16 (server.CurrentPlayers % 2 ^ 16).toNat
    ++ WriteUInt16 (server.MaxPlayers % 2 ^ 16).toNat
    ++ [if server.IsOnline && server.IsVisible p.accessLevel then 0x01 else 0x00]
    ++ WriteUInt32 (server.ServerType % 2 ^ 32).toNat
    ++ [if server.ShowBrackets then 0x01 else 0x00]

/-- The loop `for _, server := range p.servers` of ServerList.GetData
(packets/outclient/serverlist.go 51-97); `none` is a panic. -/
def ServerList.writeServers (net : NetLib) (res : Resolver) (p : ServerList) :
    List models.GameServerInfo → Option (List Nat)
  | [] => some []
  | server :: rest =>
    match p.getServerIP net res server with
    | none => none
    | some ip =>
      match writeServers net res p rest with
      | none => none
      | some tail => some (p.writeServer server ip ++ tail)

/-- The first loop of writeCharacterCounts (packets/outclient/serverlist.go 111-116). -/
def ServerList.countServers (p : ServerList) : List models.GameServerInfo → Nat
  | [] => 0
  | server :: rest =>
    match p.characterCounts.get server.ID with
    | some _ => countServers p rest + 1
    | none => countServers p rest

/-- The second loop of writeCharacterCounts (packets/outclient/serverlist.go 122-127). -/
def ServerList.writeCounts (p : ServerList) : List models.GameServerInfo → List Nat
  | [] => []
  | server :: rest =>
    match p.characterCounts.get server.ID with
    | some charCount =>
      WriteUInt8 (server.ID % 256).toNat ++ WriteUInt8 (charCount % 256).toNat
        ++ writeCounts p rest
    | none => writeCounts p rest

/-- ServerList.writeCharacterCounts (packets/outclient/serverlist.go 109-128): the bytes it
appends to the buffer. -/
def ServerList.writeCharacterCounts (p : ServerList) : List Nat :=
  WriteUInt8 (p.countServers p.servers % 256) ++ p.writeCounts p.servers

/-- ServerList.GetData (packets/outclient/serverlist.go 38-106); `none` is a panic. -/
def ServerList.GetData (net : NetLib) (res : Resolver) (p : ServerList) :
    Option (List Nat) :=
  match p.writeServers net res p.servers with
  | none => none
  | some records =>
    some ([0x04] ++ WriteUInt8 (p.servers.length % 256)
      ++ WriteUInt8 (p.lastServer % 256).toNat ++ records ++ WriteUInt16 0x00
      ++ p.writeCharacterCounts)

end outclient

namespace packets

/-- The code units that `utf16.Encode` gives one scalar value, as in `utf16Encode`. -/
def encodeRune (n : Nat) : List Nat :=
  if n < 0x10000 then [n]
  else [0xd800 + (n - 0x10000) / 0x400 % 0x400, 0xdc00 + (n - 0x10000) % 0x400]

end packets

/-! ### The claims' own renderings -/

namespace claims

/-- The pairs `(h0, h1), (h2, h3), ...` of a hosts list, a trailing unpaired element left
out: the reading of the hosts list that the claim on address registration gives. -/
def hostPairs : List String → List (String × String)
  | subnet :: serverAddr :: rest => (subnet, serverAddr) :: hostPairs rest
  | _ => []

/-- The subnet that the claim on address registration gives a pair: the network of a CIDR,
or of a bare IP widened to `/32` (IPv4) or `/128` (IPv6); `none` when the subnet parses as
neither, in which case the pair is skipped. -/
def parsedSubnet (net : NetLib) (subnet : String) : Option (Option models.IPNet) :=
  match net.ParseCIDR subnet with
  | .ok ipNet => some (some ipNet)
  | .error _ =>
    match net.ParseIP subnet with
    | none => none
    | some ip =>
      if (models.To4 ip).isSome then some (net.ParseCIDR (subnet ++ "/32")).toOption
      else some (net.ParseCIDR (subnet ++ "/128")).toOption

/-- The little-endian `u32` words of a buffer, 4 bytes each; bytes after the last whole
word are left out. -/
def wordsLE : List Nat → List Nat
  | b0 :: b1 :: b2 :: b3 :: rest =>
    (b0 + b1 * 2 ^ 8 + b2 * 2 ^ 16 + b3 * 2 ^ 24) :: wordsLE rest
  | _ => []

/-- The XOR of a list of words. -/
def xorAll (ws : List Nat) : Nat := ws.foldl (fun acc w => acc ^^^ w) 0

end claims

/-! ### usecase: the server list -/

namespace usecase

/-- GameServerUseCase.GetServerList (usecase/gameserver.go 26-35): the servers that
GetVisibleServers yields, as they come; the returned error is always nil. -/
def GetServerList (l : LoginServer) (accessLevel : Int) : List models.GameServerInfo :=
  l.gameServerRegistry.GetVisibleServers accessLevel

/-- Every entry of the ledger holds, in its Account field, the key it is stored under. -/
def SessionUseCase.Keyed (uc : SessionUseCase) : Prop :=
  ∀ e ∈ uc.sessionKeys, e.2.Account = e.1

/-- The ledger with the ServerID of every entry replaced by `f` of its account; nothing
else of an entry changes. -/
def SessionUseCase.withServerIDs (uc : SessionUseCase) (f : String → Int) : SessionUseCase :=
  { uc with sessionKeys :=
      uc.sessionKeys.map (fun e => (e.1, { e.2 with ServerID := f e.1 })) }

end usecase

/-- The server state with the ServerID of every ledger entry replaced by `f` of its
account. -/
def LoginServer.withServerIDs (l : LoginServer) (f : String → Int) : LoginServer :=
  { l with session := l.session.withServerIDs f }

/-! ### packets: the loop of ReadString, pass by pass -/

namespace packets

/-- The loop `for { codeUnit := r.ReadUInt16(); if codeUnit == 0 { break }; utf16Codes =
append(utf16Codes, codeUnit) }` of Reader.ReadString (packets/packets.go 140-147), run for
at most `fuel` passes: the code units and the reader after the `break`, or `none` when the
loop has not reached its `break` within `fuel` passes. -/
def readStringLoop : Nat → Reader → List Nat → Option (List Nat × Reader)
  | 0, _, _ => none
  | fuel + 1, r, utf16Codes =>
    let (codeUnit, r1) := r.ReadUInt16
    if codeUnit = 0 then some (utf16Codes, r1)
    else readStringLoop fuel r1 (utf16Codes ++ [codeUnit])

/-- Reader.ReadString (packets/packets.go 137-152) with its loop run for at most `fuel`
passes; `none` when the loop has not ended by then. -/
def Reader.ReadStringFuel (fuel : Nat) (r : Reader) : Option (String × Reader) :=
  match readStringLoop fuel r [] with
  | none => none
  | some (utf16Codes, r1) => some (String.mk ((utf16Decode utf16Codes).map Char.ofNat), r1)

end packets

/-! ### packets/ings: the parsers with the loop of ReadString run pass by pass -/

namespace ings

open packets

/-- ings.NewPlayerAuthRequest (packets/ings/playerauthrequest.go 16-40) with every loop of
ReadString run for at most `fuel` passes: the outer `none` says that a loop has not ended
by then, the inner `none` is nil. -/
def NewPlayerAuthRequestFuel (fuel : Nat) (data : List Nat) :
    Option (Option PlayerAuthRequest) :=
  if data.length < 18 then some none
  else
    let reader : Reader := data
    match reader.ReadStringFuel fuel with
    | none => none
    | some (account, r1) =>
      let (playKey1, r2) := r1.ReadUInt32
      let (playKey2, r3) := r2.ReadUInt32
      let (loginKey1, r4) := r3.ReadUInt32
      let (loginKey2, _) := r4.ReadUInt32
      some (some { account := account, playKey1 := playKey1, playKey2 := playKey2,
                   loginKey1 := loginKey1, loginKey2 := loginKey2 })

/-- ings.NewPlayerLogout (packets/ings/playerlogout.go 11-25) with the loop of ReadString
run for at most `fuel` passes. -/
def NewPlayerLogoutFuel (fuel : Nat) (data : List Nat) : Option (Option PlayerLogout) :=
  if data.length < 2 then some none
  else
    let reader : Reader := data
    match reader.ReadStringFuel fuel with
    | none => none
    | some (account, _) => some (some { account := account })

/-- ings.NewPlayerTracert (packets/ings/playertracert.go 16-40) with every loop of
ReadString run for at most `fuel` passes. -/
def NewPlayerTracertFuel (fuel : Nat) (data : List Nat) : Option (Option PlayerTracert) :=
  if data.length < 2 then some none
  else
    let reader : Reader := data
    match reader.ReadStringFuel fuel with
    | none => none
    | some (account, r1) =>
      match r1.ReadStringFuel fuel with
      | none => none
      | some (pcIP, r2) =>
        match r2.ReadStringFuel fuel with
        | none => none
        | some (hop1, r3) =>
          match r3.ReadStringFuel fuel with
          | none => none
          | some (hop2, r4) =>
            match r4.ReadStringFuel fuel with
            | none => none
            | some (hop3, r5) =>
              match r5.ReadStringFuel fuel with
              | none => none
              | some (hop4, _) =>
                some (some { account := account, pcIP := pcIP, hop1 := hop1, hop2 := hop2,
                             hop3 := hop3, hop4 := hop4 })

/-- ings.NewReplyCharacters (packets/ings/replycharacters.go 16-48) with the loop of
ReadString run for at most `fuel` passes; its own loop runs `deletionCount` times, a
`uint8`. -/
def NewReplyCharactersFuel (fuel : Nat) (data : List Nat) : Option (Option ReplyCharacters) :=
  if data.length < 3 then some none
  else
    let reader : Reader := data
    match reader.ReadStringFuel fuel with
    | none => none
    | some (account, r1) =>
      if account = "" then some none
      else
        let (charCount, r2) := r1.ReadUInt8
        let (deletionCount, r3) := r2.ReadUInt8
        let (deletionTimes, _) := readDeletionTimes deletionCount r3
        some (some { Account := account, CharacterCount := charCount,
                     DeletionCount := deletionCount, DeletionTimes := deletionTimes })

end ings

/-! ### The claims' own renderings, continued -/

namespace claims

/-- The little-endian `u16` units of a byte sequence, 2 bytes each; a last odd byte is left
out. -/
def unitsLE : List Nat → List Nat
  | b0 :: b1 :: rest => (b0 + b1 * 256) :: unitsLE rest
  | _ => []

/-- The pass over the words of the XOR pass: with the key K before a word W, the key
becomes (K + W) mod 2^32 and the word becomes W xor the new key; yields the new words and
the final key. -/
def xorPassWords : Nat → List Nat → List Nat × Nat
  | k, [] => ([], k)
  | k, w :: ws =>
    let k1 := (k + w) % 2 ^ 32
    ((w ^^^ k1) :: (xorPassWords k1 ws).1, (xorPassWords k1 ws).2)

/-- Step 1 of the scramble, all at once: the bytes [0x00..0x04) and [0x4D..0x51) change
places. -/
def scrambleStep1 (b : List Nat) : List Nat :=
  (List.range b.length).map (fun i =>
    if i < 4 then b.getD (0x4D + i) 0
    else if 0x4D ≤ i ∧ i < 0x51 then b.getD (i - 0x4D) 0
    else b.getD i 0)

/-- Step 2 of the scramble, all at once: `b[i] ^= b[0x40+i]` for i in [0, 0x40). -/
def scrambleStep2 (b : List Nat) : List Nat :=
  (List.range b.length).map (fun i =>
    if i < 0x40 then b.getD i 0 ^^^ b.getD (0x40 + i) 0 else b.getD i 0)

/-- Step 3 of the scramble, all at once: `b[0x0D+i] ^= b[0x34+i]` for i in [0, 4). -/
def scrambleStep3 (b : List Nat) : List Nat :=
  (List.range b.length).map (fun i =>
    if 0x0D ≤ i ∧ i < 0x11 then b.getD i 0 ^^^ b.getD (0x34 + (i - 0x0D)) 0 else b.getD i 0)

/-- Step 4 of the scramble, all at once: `b[0x40+i] ^= b[i]` for i in [0, 0x40). -/
def scrambleStep4 (b : List Nat) : List Nat :=
  (List.range b.length).map (fun i =>
    if 0x40 ≤ i ∧ i < 0x80 then b.getD i 0 ^^^ b.getD (i - 0x40) 0 else b.getD i 0)

end claims

/-! ### Sample values -/

namespace sample

/-- A session key minted for account `alice` on server 1 at instant 0. -/
def aliceKey : models.SessionKey :=
  { LoginKey1 := 0x03020100, LoginKey2 := 0x07060504, PlayKey1 := 0x11111111,
    PlayKey2 := 0x22222222, Account := "alice", ServerID := 1, CreatedAt := 0 }

/-- A ledger with a 5 minute TTL that holds `aliceKey`. -/
def aliceLedger : usecase.SessionUseCase :=
  { sessionKeys := [("alice", aliceKey)], maxSessionAge := 300000000000 }

/-- A server state with no registered game server and `aliceLedger`. -/
def aliceServer : LoginServer :=
  { repo := { accounts := [], nextID := 1, queryError := none, insertError := none }
    gameServerRegistry := { servers := [] }
    characterCountRegistry := { data := [], cacheTTL := 300000000000 }
    eventBus := some { handlers := 1, started := [] }
    session := aliceLedger
    autoCreate := true }

/-- The PlayerAuthRequest that presents `aliceKey`. -/
def aliceAuth : ings.PlayerAuthRequest :=
  { account := "alice", playKey1 := 0x11111111, playKey2 := 0x22222222,
    loginKey1 := 0x03020100, loginKey2 := 0x07060504 }

/-- A 16-byte buffer whose last 8 bytes are zero. -/
def xorInput : List Nat := [1, 2, 3, 4, 5, 6, 7, 8, 0, 0, 0, 0, 0, 0, 0, 0]

/-- A 16-byte packet of zero bytes. -/
def zeroPacket : List Nat := List.replicate 16 0

/-- A toy block cipher for sample computations: every byte is XORed with `0x5a`. -/
def toyCipher : blowfish.Cipher :=
  { Encrypt := fun b => b.map (fun x => x ^^^ 0x5a)
    Decrypt := fun b => b.map (fun x => x ^^^ 0x5a) }

/-- NewCipher for sample computations: `toyCipher` for keys of 1 to 56 bytes. -/
def toyNewCipher : blowfish.NewCipher :=
  fun key => if 1 ≤ key.length ∧ key.length ≤ 56 then some toyCipher else none

/-- A modulus of 128 bytes, `80 00 .. 00 01`. -/
def modulus : Nat :=
  0x8000000000000000000000000000000000000000000000000000000000000000000000000000000000000000000000000000000000000000000000000000000000000000000000000000000000000000000000000000000000000000000000000000000000000000000000000000000000000000000000000000000000000001

/-- A client connection with session id `00 01 .. 0F`, dynamic key `10 11 .. 1F` and a
modulus of 128 bytes. -/
def client : transport.Client :=
  { SessionID := List.range 16
    Socket := { written := [], broken := false, closed := false }
    BlowfishKey := (List.range 16).map (fun x => x + 16)
    PrivateKey := { N := modulus, D := 1 }
    LoginOkID1 := 0
    LoginOkID2 := 0
    Account := none
    AccessLevel := 0
    LastServer := 0 }

/-- An 8-byte plaintext packet with a valid checksum in its last word. -/
def checkedPacket : List Nat := [1, 2, 3, 4, 1, 2, 3, 4]

/-- The header read of a frame of 10 bytes. -/
def header10 : transport.ReadResult := { bytes := [10, 0], err := none, eof := false }

/-- The body read that carries `checkedPacket` under `toyCipher`. -/
def checkedBody : transport.ReadResult :=
  { bytes := checkedPacket.map (fun x => x ^^^ 0x5a), err := none, eof := false }

/-- The body read that carries `checkedPacket` with the lowest bit of its last word
flipped, under `toyCipher`. -/
def flippedBody : transport.ReadResult :=
  { bytes := (transport.flipLastWordBit checkedPacket 0).map (fun x => x ^^^ 0x5a),
    err := none, eof := false }

/-- Stand-ins for the external libraries in sample computations: `toyCipher`, a password
hash that prefixes `hash:`, and the identity for the Unicode lowering. -/
def env : Env :=
  { newCipher := toyNewCipher
    CompareHashAndPassword := fun hash password =>
      if hash = "hash:" ++ password then none else some "mismatch"
    GenerateFromPassword := fun password => .ok ("hash:" ++ password)
    mapToLower := fun s => s }

/-- The account row of `alice`, with the hash of the password `secret`. -/
def aliceAccount : models.Account :=
  { ID := 1, Username := "alice", Password := "hash:secret", AccessLevel := 0,
    CreatedAt := 0, UpdatedAt := 0 }

/-- A server state whose accounts table holds `aliceAccount`, with an empty ledger. -/
def loginServer : LoginServer :=
  { repo := { accounts := [aliceAccount], nextID := 2, queryError := none,
              insertError := none }
    gameServerRegistry := { servers := [] }
    characterCountRegistry := { data := [], cacheTTL := 300000000000 }
    eventBus := some { handlers := 1, started := [] }
    session := usecase.NewSessionUseCase 300000000000
    autoCreate := true }

/-- The payload of a RequestAuthLogin for `sample.client`, whose private exponent is 1: a
128-byte block with `alice` at offset 0x5E and `secret` at offset 0x6C. -/
def authPayload : List Nat :=
  List.replicate 0x5E 0 ++ [0x61, 0x6c, 0x69, 0x63, 0x65] ++ List.replicate 9 0
    ++ [0x73, 0x65, 0x63, 0x72, 0x65, 0x74] ++ List.replicate 14 0

end sample

namespace sample

/-- The header read of a frame that announces a length of 1. -/
def header1 : transport.ReadResult := { bytes := [1, 0], err := none, eof := false }

/-- Stand-ins for the external libraries whose Unicode lowering lowers the bytes `A`..`Z`
and keeps every other byte. -/
def lowerEnv : Env :=
  { sample.env with
    mapToLower := fun s => s.map (fun c => if 0x41 ≤ c ∧ c ≤ 0x5a then c + 0x20 else c) }

/-- The payload of a RequestAuthLogin for `sample.client`, whose private exponent is 1: a
128-byte block with `alice` at offset 0x5E and `wrongpw` at offset 0x6C. -/
def wrongPassPayload : List Nat :=
  List.replicate 0x5E 0 ++ [0x61, 0x6c, 0x69, 0x63, 0x65] ++ List.replicate 9 0
    ++ [0x77, 0x72, 0x6f, 0x6e, 0x67, 0x70, 0x77] ++ List.replicate 13 0

/-- The server state `sample.loginServer` with the account of `alice` banned. -/
def bannedServer : LoginServer :=
  { sample.loginServer with
    repo := { accounts := [{ sample.aliceAccount with AccessLevel := -1 }], nextID := 2,
              queryError := none, insertError := none } }

/-- A game server connection fresh from `NewGameServerConnection`: no dynamic key, not
authenticated. -/
def gameServer : transport.GameServer :=
  { ID := 0
    Socket := { written := [], broken := false, closed := false }
    PrivateKey := { N := modulus, D := 1 }
    DynamicBlowfishKey := none
    Authenticated := false }

/-- The payload of an AuthRequest: version 0, desired id 1, port 7777, 100 players, the
hex id `AB`, no hosts. -/
def authRequestPayload : List Nat :=
  [0x00, 0x01, 0x00, 0x00, 0x61, 0x1e, 100, 0, 0, 0, 1, 0, 0, 0, 0xab, 0, 0, 0, 0]

/-- A stand-in for the package `net` that parses nothing. -/
def netLib : NetLib :=
  { ParseCIDR := fun _ => .error "invalid CIDR address", ParseIP := fun _ => none }

end sample

namespace sample

/-- A key of 40 bytes whose first 19 bytes are zero. -/
def zeroLedKey : List Nat :=
  List.replicate 19 0 ++ [1, 2, 3, 4, 5, 6, 7, 8, 9, 10, 11, 12, 13, 14, 15, 16, 17, 18, 19,
    20, 21]

/-- The BlowFishKey packet whose block, under the private exponent 1 of
`sample.gameServer`, decrypts to zero padding followed by `sample.zeroLedKey`. -/
def zeroLedBlowFishKey : ings.BlowFishKey :=
  { encryptedKey := List.replicate 88 0 ++ zeroLedKey }

/-- A key of 40 bytes, `01 02 .. 28`. -/
def dynamicKey : List Nat := (List.range 40).map (fun x => x + 1)

/-- The BlowFishKey packet whose block, under the private exponent 1 of
`sample.gameServer`, decrypts to zero padding followed by `sample.dynamicKey`. -/
def dynamicBlowFishKey : ings.BlowFishKey :=
  { encryptedKey := List.replicate 88 0 ++ dynamicKey }

/-- A server info with the given id and status, named after its id. -/
def serverInfo (id : Int) (status : models.ServerStatus) : models.GameServerInfo :=
  { ID := id, Name := usecase.generateServerName id, Port := 7777, Status := status,
    CurrentPlayers := 0, MaxPlayers := 100, PvP := true, AgeLimit := 0, ServerType := 1,
    ShowBrackets := false, LastUpdate := 0, Addresses := [] }

/-- A registry with an online, a GM-only and a down server. -/
def threeServers : registry.gameServerRegistry :=
  { servers := [(1, serverInfo 1 models.ServerStatusOnline),
                (2, serverInfo 2 models.ServerStatusGMOnly),
                (3, serverInfo 3 models.ServerStatusDown)] }

/-- An empty character-count cache with a TTL of 300 (seconds, say). -/
def countRegistry : registry.InMemoryCharacterCountRegistry :=
  { data := [], cacheTTL := 300 }

/-- A stand-in for the package `net` that knows the networks `192.168.1.0/24`,
`10.0.0.5/32` and `0.0.0.0/0` and a few IPv4 literals, each in its 16-byte form. -/
def lanNet : NetLib :=
  { ParseCIDR := fun s =>
      if s = "192.168.1.0/24" then .ok { IP := [192, 168, 1, 0], Mask := [255, 255, 255, 0] }
      else if s = "10.0.0.5/32" then .ok { IP := [10, 0, 0, 5], Mask := [255, 255, 255, 255] }
      else if s = "0.0.0.0/0" then .ok { IP := [0, 0, 0, 0], Mask := [0, 0, 0, 0] }
      else .error "invalid CIDR address"
    ParseIP := fun s =>
      if s = "192.168.1.50" then some (List.replicate 10 0 ++ [255, 255, 192, 168, 1, 50])
      else if s = "192.168.1.10" then some (List.replicate 10 0 ++ [255, 255, 192, 168, 1, 10])
      else if s = "203.0.113.7" then some (List.replicate 10 0 ++ [255, 255, 203, 0, 113, 7])
      else if s = "8.8.8.8" then some (List.replicate 10 0 ++ [255, 255, 8, 8, 8, 8])
      else if s = "10.0.0.5" then some (List.replicate 10 0 ++ [255, 255, 10, 0, 0, 5])
      else if s = "0.0.0.0" then some (List.replicate 10 0 ++ [255, 255, 0, 0, 0, 0])
      else none }

/-- An AuthRequest for id 1 with the hosts list of two good pairs, a pair whose subnet
does not parse, and a trailing element. -/
def hostsRequest : ings.AuthRequest :=
  { version := 0, id := 1, acceptAlternate := false, reserveHost := false, port := 7777,
    maxPlayers := 100, hexID := [0xab], subnets := [],
    hosts := ["192.168.1.0/24", "192.168.1.10", "not-a-subnet", "8.8.8.8",
              "10.0.0.5", "203.0.113.7", "0.0.0.0/0"] }

/-- A stand-in for the name resolution of the package `net`: it splits one host:port
address and resolves no name. -/
def resolver : Resolver :=
  { SplitHostPort := fun s =>
      if s = "192.168.1.50:2106" then .ok "192.168.1.50"
      else .error "missing port in address"
    LookupIP := fun _ => .error "no such host" }

/-- The subnets and advertised addresses of `sample.lanServer`. -/
def lanPairs : List (models.IPNet × String) :=
  [({ IP := [10, 0, 0, 5], Mask := [255, 255, 255, 255] }, "203.0.113.7"),
   ({ IP := [192, 168, 1, 0], Mask := [255, 255, 255, 0] }, "192.168.1.10"),
   ({ IP := [0, 0, 0, 0], Mask := [0, 0, 0, 0] }, "8.8.8.8")]

/-- An online server with id 1 and the addresses of `sample.lanPairs`. -/
def lanServer : models.GameServerInfo :=
  { serverInfo 1 models.ServerStatusOnline with
    Addresses := lanPairs.map (fun p => { Subnet := some p.1, ServerAddress := p.2 }) }

/-- The server list of `sample.lanServer` for a client at `192.168.1.50:2106`. -/
def lanList : outclient.ServerList :=
  outclient.NewServerListWithCharCounts [lanServer, serverInfo 2 models.ServerStatusGMOnly] 1
    "192.168.1.50:2106" 0 [(1, 3), (9, 5)]

end sample

namespace sample

/-- An AuthRequest for the desired id `id`, without hosts. -/
def authRequestFor (id : Nat) : ings.AuthRequest :=
  { version := 0, id := id, acceptAlternate := false, reserveHost := false, port := 7777,
    maxPlayers := 100, hexID := [0xab], subnets := [], hosts := [] }

/-- The server state after the game servers 1 and 2 have registered, in this order, with
`sample.loginServer`. -/
def serversOneTwo : LoginServer :=
  (usecase.HandleAuthRequest netLib 1000
    (usecase.HandleAuthRequest netLib 1000 loginServer (authRequestFor 1)).2.2
    (authRequestFor 2)).2.2

/-- The server state after the game servers 2 and 1 have registered, in this order, with
`sample.loginServer`. -/
def serversTwoOne : LoginServer :=
  (usecase.HandleAuthRequest netLib 1000
    (usecase.HandleAuthRequest netLib 1000 loginServer (authRequestFor 2)).2.2
    (authRequestFor 1)).2.2

end sample

/-! ## Theorems -/

/-! ### Words and bits -/

theorem tb_ff (i : Nat) : Nat.testBit 0xff i = decide (i < 8) := by
  have : (0xff : Nat) = 2 ^ 8 - 1 := by norm_num
  rw [this, Nat.testBit_two_pow_sub_one]

theorem tb_ff00 (i : Nat) : Nat.testBit 0xff00 i = (decide (8 ≤ i) && decide (i < 16)) := by
  have : (0xff00 : Nat) = (2 ^ 8 - 1) <<< 8 := by decide
  rw [this, Nat.testBit_shiftLeft, Nat.testBit_two_pow_sub_one]
  by_cases h : 8 ≤ i
  · simp [h]; omega
  · simp [h]

theorem tb_ff0000 (i : Nat) : Nat.testBit 0xff0000 i = (decide (16 ≤ i) && decide (i < 24)) := by
  have : (0xff0000 : Nat) = (2 ^ 8 - 1) <<< 16 := by decide
  rw [this, Nat.testBit_shiftLeft, Nat.testBit_two_pow_sub_one]
  by_cases h : 16 ≤ i
  · simp [h]; omega
  · simp [h]

theorem tb_ff000000 (i : Nat) : Nat.testBit 0xff000000 i = (decide (24 ≤ i) && decide (i < 32)) := by
  have : (0xff000000 : Nat) = (2 ^ 8 - 1) <<< 24 := by decide
  rw [this, Nat.testBit_shiftLeft, Nat.testBit_two_pow_sub_one]
  by_cases h : 24 ≤ i
  · simp [h]; omega
  · simp [h]

theorem tb_hi (v i : Nat) (h : v < 2 ^ 32) (hi : 32 ≤ i) : v.testBit i = false := by
  apply Nat.testBit_lt_two_pow
  calc v < 2 ^ 32 := h
    _ ≤ 2 ^ i := Nat.pow_le_pow_right (by norm_num) hi

theorem word_bytes (v : Nat) (h : v < 2 ^ 32) :
    ((v &&& 0xff) &&& 0xff) ||| ((((v >>> 8) &&& 0xff) <<< 8) &&& 0xff00)
      ||| ((((v >>> 16) &&& 0xff) <<< 16) &&& 0xff0000)
      ||| ((((v >>> 24) &&& 0xff) <<< 24) &&& 0xff000000) = v := by
  apply Nat.eq_of_testBit_eq
  intro i
  simp only [Nat.testBit_or, Nat.testBit_and, Nat.testBit_shiftLeft, Nat.testBit_shiftRight,
    tb_ff, tb_ff00, tb_ff0000, tb_ff000000]
  rcases Nat.lt_or_ge i 8 with h1 | h1
  · have a1 : ¬ 8 ≤ i := by omega
    have a2 : ¬ 16 ≤ i := by omega
    have a3 : ¬ 24 ≤ i := by omega
    simp [h1, a1, a2, a3]
  rcases Nat.lt_or_ge i 16 with h2 | h2
  · have e : 8 + (i - 8) = i := by omega
    have a0 : ¬ i < 8 := by omega
    have a2 : ¬ 16 ≤ i := by omega
    have a3 : ¬ 24 ≤ i := by omega
    have a4 : i - 8 < 8 := by omega
    simp [h1, h2, e, a0, a2, a3, a4]
  rcases Nat.lt_or_ge i 24 with h3 | h3
  · have e : 16 + (i - 16) = i := by omega
    have a0 : ¬ i < 8 := by omega
    have a1 : ¬ i < 16 := by omega
    have a3 : ¬ 24 ≤ i := by omega
    have a4 : i - 16 < 8 := by omega
    have a5 : ¬ i - 8 < 8 := by omega
    simp [h1, h2, h3, e, a0, a1, a3, a4, a5]
  rcases Nat.lt_or_ge i 32 with h4 | h4
  · have e : 24 + (i - 24) = i := by omega
    have a0 : ¬ i < 8 := by omega
    have a1 : ¬ i < 16 := by omega
    have a2 : ¬ i < 24 := by omega
    have a4 : i - 24 < 8 := by omega
    have a5 : ¬ i - 8 < 8 := by omega
    have a6 : ¬ i - 16 < 8 := by omega
    simp [h1, h2, h3, h4, e, a0, a1, a2, a4, a5, a6]
  · rw [tb_hi v i h h4]
    have a0 : ¬ i < 8 := by omega
    have a1 : ¬ i < 16 := by omega
    have a2 : ¬ i < 24 := by omega
    have a3 : ¬ i < 32 := by omega
    simp [a0, a1, a2, a3]

/-- Bit `j` of the word read from four bytes is bit `j % 8` of byte `j / 8`. -/
theorem le32_testBit (b0 b1 b2 b3 j : Nat) (hj : j < 32) :
    ((b0 &&& 0xff) ||| ((b1 <<< 8) &&& 0xff00) ||| ((b2 <<< 16) &&& 0xff0000)
      ||| ((b3 <<< 24) &&& 0xff000000)).testBit j =
    ([b0, b1, b2, b3].getD (j / 8) 0).testBit (j % 8) := by
  simp only [Nat.testBit_or, Nat.testBit_and, Nat.testBit_shiftLeft,
    tb_ff, tb_ff00, tb_ff0000, tb_ff000000]
  rcases Nat.lt_or_ge j 8 with h1 | h1
  · have a1 : ¬ 8 ≤ j := by omega
    have a2 : ¬ 16 ≤ j := by omega
    have a3 : ¬ 24 ≤ j := by omega
    have e1 : j / 8 = 0 := by omega
    have e2 : j % 8 = j := by omega
    simp [h1, a1, a2, a3, e1, e2]
  rcases Nat.lt_or_ge j 16 with h2 | h2
  · have a0 : ¬ j < 8 := by omega
    have a2 : ¬ 16 ≤ j := by omega
    have a3 : ¬ 24 ≤ j := by omega
    have e1 : j / 8 = 1 := by omega
    have e2 : j % 8 = j - 8 := by omega
    simp [h1, h2, a0, a2, a3, e1, e2]
  rcases Nat.lt_or_ge j 24 with h3 | h3
  · have a0 : ¬ j < 8 := by omega
    have a1 : ¬ j < 16 := by omega
    have a3 : ¬ 24 ≤ j := by omega
    have e1 : j / 8 = 2 := by omega
    have e2 : j % 8 = j - 16 := by omega
    simp [h1, h2, h3, a0, a1, a3, e1, e2]
  · have a0 : ¬ j < 8 := by omega
    have a1 : ¬ j < 16 := by omega
    have a2 : ¬ j < 24 := by omega
    have e1 : j / 8 = 3 := by omega
    have e2 : j % 8 = j - 24 := by omega
    simp [h1, h2, h3, hj, a0, a1, a2, e1, e2]

theorem flip_testBit (b r : Nat) : (b ^^^ (1 <<< r)).testBit r = !b.testBit r := by
  rw [Nat.testBit_xor, Nat.one_shiftLeft, Nat.testBit_two_pow_self]
  simp

namespace crypt

theorem readWord_congr (raw raw' : List Nat) (i : Nat)
    (h : ∀ j, i ≤ j → j < i + 4 → raw'[j]? = raw[j]?) :
    readWord raw' i = readWord raw i := by
  unfold readWord
  rw [h i (by omega) (by omega), h (i + 1) (by omega) (by omega),
    h (i + 2) (by omega) (by omega), h (i + 3) (by omega) (by omega)]

theorem readWord_some (raw : List Nat) (i : Nat) (h : i + 3 < raw.length) :
    ∃ w, readWord raw i = some w ∧ w < 2 ^ 32 := by
  unfold readWord
  rw [List.getElem?_eq_getElem (by omega : i < raw.length),
    List.getElem?_eq_getElem (by omega : i + 1 < raw.length),
    List.getElem?_eq_getElem (by omega : i + 2 < raw.length),
    List.getElem?_eq_getElem h]
  refine ⟨_, rfl, ?_⟩
  have m1 : (0xff : Nat) < 2 ^ 32 := by norm_num
  have m2 : (0xff00 : Nat) < 2 ^ 32 := by norm_num
  have m3 : (0xff0000 : Nat) < 2 ^ 32 := by norm_num
  have m4 : (0xff000000 : Nat) < 2 ^ 32 := by norm_num
  exact Nat.or_lt_two_pow (Nat.or_lt_two_pow (Nat.or_lt_two_pow
    (Nat.and_lt_two_pow _ m1) (Nat.and_lt_two_pow _ m2)) (Nat.and_lt_two_pow _ m3))
    (Nat.and_lt_two_pow _ m4)

theorem readWord_lt {raw : List Nat} {i w : Nat} (h : readWord raw i = some w) :
    w < 2 ^ 32 := by
  by_cases hb : i + 3 < raw.length
  · obtain ⟨w', hw', hlt⟩ := readWord_some raw i hb
    rw [hw'] at h
    cases h
    exact hlt
  · have : raw[i + 3]? = none := List.getElem?_eq_none (by omega)
    unfold readWord at h
    rw [this] at h
    split at h <;> simp_all

theorem foldWords_congr (raw raw' : List Nat) (n i chk : Nat)
    (h : ∀ j, j < i + 4 * n → raw'[j]? = raw[j]?) :
    foldWords raw' n i chk = foldWords raw n i chk := by
  induction n generalizing i chk with
  | zero => rfl
  | succ n ih =>
    unfold foldWords
    rw [readWord_congr raw raw' i (fun j _ hj => h j (by omega))]
    cases readWord raw i with
    | none => rfl
    | some w => exact ih (i + 4) (chk ^^^ w) (fun j hj => h j (by omega))

theorem foldWords_some (raw : List Nat) (n i chk : Nat) (h : i + 4 * n ≤ raw.length)
    (hc : chk < 2 ^ 32) :
    ∃ c, foldWords raw n i chk = some (i + 4 * n, c) ∧ c < 2 ^ 32 := by
  induction n generalizing i chk with
  | zero => exact ⟨chk, rfl, hc⟩
  | succ n ih =>
    obtain ⟨w, hw, hlt⟩ := readWord_some raw i (by omega)
    obtain ⟨c, hc', hlt'⟩ := ih (i + 4) (chk ^^^ w) (by omega) (Nat.xor_lt_two_pow hc hlt)
    refine ⟨c, ?_, hlt'⟩
    unfold foldWords
    rw [hw]
    simp only
    rw [hc']
    congr 2
    omega

theorem writeWord_some (raw : List Nat) (i v : Nat) (h : i + 3 < raw.length) :
    ∃ raw', writeWord raw i v = some raw' := by
  unfold writeWord
  rw [if_pos h]
  exact ⟨_, rfl⟩

theorem writeWord_length {raw raw' : List Nat} {i v : Nat}
    (h : writeWord raw i v = some raw') : raw'.length = raw.length := by
  unfold writeWord at h
  split at h
  · cases h; simp
  · cases h

theorem writeWord_get_other {raw raw' : List Nat} {i v : Nat}
    (h : writeWord raw i v = some raw') (j : Nat) (hj : j < i ∨ i + 4 ≤ j) :
    raw'[j]? = raw[j]? := by
  unfold writeWord at h
  split at h
  · cases h
    rw [List.getElem?_set_ne (by omega), List.getElem?_set_ne (by omega),
      List.getElem?_set_ne (by omega), List.getElem?_set_ne (by omega)]
  · cases h

theorem readWord_writeWord {raw raw' : List Nat} {i v : Nat} (hv : v < 2 ^ 32)
    (h : writeWord raw i v = some raw') : readWord raw' i = some v := by
  unfold writeWord at h
  split at h
  · rename_i hb
    cases h
    unfold readWord
    have e0 : ((((raw.set i (v &&& 0xff)).set (i + 1) ((v >>> 8) &&& 0xff)).set (i + 2)
        ((v >>> 16) &&& 0xff)).set (i + 3) ((v >>> 24) &&& 0xff))[i]? = some (v &&& 0xff) := by
      rw [List.getElem?_set_ne (by omega), List.getElem?_set_ne (by omega),
        List.getElem?_set_ne (by omega), List.getElem?_set_eq_of_lt _ (by omega)]
    have e1 : ((((raw.set i (v &&& 0xff)).set (i + 1) ((v >>> 8) &&& 0xff)).set (i + 2)
        ((v >>> 16) &&& 0xff)).set (i + 3) ((v >>> 24) &&& 0xff))[i + 1]?
        = some ((v >>> 8) &&& 0xff) := by
      rw [List.getElem?_set_ne (by omega), List.getElem?_set_ne (by omega),
        List.getElem?_set_eq_of_lt _ (by simp; omega)]
    have e2 : ((((raw.set i (v &&& 0xff)).set (i + 1) ((v >>> 8) &&& 0xff)).set (i + 2)
        ((v >>> 16) &&& 0xff)).set (i + 3) ((v >>> 24) &&& 0xff))[i + 2]?
        = some ((v >>> 16) &&& 0xff) := by
      rw [List.getElem?_set_ne (by omega), List.getElem?_set_eq_of_lt _ (by simp; omega)]
    have e3 : ((((raw.set i (v &&& 0xff)).set (i + 1) ((v >>> 8) &&& 0xff)).set (i + 2)
        ((v >>> 16) &&& 0xff)).set (i + 3) ((v >>> 24) &&& 0xff))[i + 3]?
        = some ((v >>> 24) &&& 0xff) := by
      rw [List.getElem?_set_eq_of_lt _ (by simp; omega)]
    rw [e0, e1, e2, e3]
    simp only
    rw [word_bytes v hv]
  · cases h

end crypt

/-! ### AppendChecksum and VerifyChecksum (C5) -/

theorem and3_eq_zero {n : Nat} (h : n % 4 = 0) : n &&& 3 = 0 := by
  have := Nat.and_pow_two_sub_one_eq_mod n 2
  simpa [h] using this

namespace crypt

/-- C5: for every buffer whose length is a multiple of 4 and greater than 4, AppendChecksum
returns a buffer of the same length that agrees with the input on every byte before the
last four, and VerifyChecksum accepts it. -/
theorem appendChecksum_verifyChecksum (P : List Nat) (h4 : P.length % 4 = 0)
    (hlen : 4 < P.length) :
    ∃ Q, AppendChecksum P = some Q ∧ Q.length = P.length ∧
      (∀ j, j < P.length - 4 → Q[j]? = P[j]?) ∧ VerifyChecksum Q = some true := by
  have hit : 0 + 4 * iters (0 + P.length - 4) = P.length - 4 := by unfold iters; omega
  obtain ⟨c, hc, hlt⟩ := foldWords_some P (iters (0 + P.length - 4)) 0 0
    (by omega) (by norm_num)
  rw [hit] at hc
  obtain ⟨w, hw, _⟩ := readWord_some P (P.length - 4) (by omega)
  obtain ⟨Q, hQ⟩ := writeWord_some P (P.length - 4) c (by omega)
  have hA : AppendChecksum P = some Q := by
    unfold AppendChecksum
    simp only [hc, hw, hQ]
  have hl : Q.length = P.length := writeWord_length hQ
  have hpre : ∀ j, j < P.length - 4 → Q[j]? = P[j]? :=
    fun j hj => writeWord_get_other hQ j (Or.inl hj)
  refine ⟨Q, hA, hl, hpre, ?_⟩
  unfold VerifyChecksum
  have hg : ¬ ((Q.length &&& 3) ≠ 0 ∨ Q.length ≤ 4) := by
    rw [hl, and3_eq_zero h4]
    omega
  simp only [hg, if_false]
  rw [hl, foldWords_congr P Q _ 0 0 (fun j hj => hpre j (by omega)), hc]
  simp only
  rw [readWord_writeWord hlt hQ]
  simp

theorem appendChecksum_verifyChecksum_witness :
    [1, 2, 3, 4, 0, 0, 0, 0].length % 4 = 0 ∧ 4 < [1, 2, 3, 4, 0, 0, 0, 0].length ∧
    ∃ Q, AppendChecksum [1, 2, 3, 4, 0, 0, 0, 0] = some Q ∧
      Q.length = [1, 2, 3, 4, 0, 0, 0, 0].length ∧
      (∀ j, j < [1, 2, 3, 4, 0, 0, 0, 0].length - 4 → Q[j]? = [1, 2, 3, 4, 0, 0, 0, 0][j]?) ∧
      VerifyChecksum Q = some true :=
  ⟨by decide, by decide,
    appendChecksum_verifyChecksum [1, 2, 3, 4, 0, 0, 0, 0] (by decide) (by decide)⟩

end crypt

namespace GoMap

variable {K V : Type} [DecidableEq K]

/-! ### Go maps -/

theorem get_delete_self (m : GoMap K V) (k : K) : (m.delete k).get k = none := by
  unfold delete
  induction m with
  | nil => rfl
  | cons e rest ih =>
    obtain ⟨k', v⟩ := e
    by_cases h : k' = k
    · simp [List.filter, h, ih]
    · simp [List.filter, h, get, ih]

theorem get_delete_ne (m : GoMap K V) {k k' : K} (h : k' ≠ k) :
    (m.delete k).get k' = m.get k' := by
  unfold delete
  induction m with
  | nil => rfl
  | cons e rest ih =>
    obtain ⟨k0, v⟩ := e
    by_cases h0 : k0 = k
    · have h2 : ¬ k = k' := fun c => h c.symm
      subst h0
      simp [List.filter, get, h2, ih]
    · by_cases h1 : k0 = k'
      · subst h1
        simp [List.filter, h0, get]
      · simp [List.filter, h0, get, h1, ih]

theorem get_set_self (m : GoMap K V) (k : K) (v : V) : (m.set k v).get k = some v := by
  simp [set, get]

theorem get_set_ne (m : GoMap K V) {k k' : K} (v : V) (h : k' ≠ k) :
    (m.set k v).get k' = m.get k' := by
  have : k ≠ k' := fun c => h c.symm
  simp [set, get, this, get_delete_ne m h]

theorem get_eq_none_iff (m : GoMap K V) (k : K) : m.get k = none ↔ ∀ e ∈ m, e.1 ≠ k := by
  induction m with
  | nil => simp [get]
  | cons e rest ih =>
    obtain ⟨k', v⟩ := e
    by_cases h : k' = k
    · simp [get, h]
    · simp [get, h, ih]

theorem delete_of_get_none (m : GoMap K V) (k : K) (h : m.get k = none) :
    m.delete k = m := by
  unfold delete
  rw [List.filter_eq_self]
  intro e he
  have := (get_eq_none_iff m k).1 h e he
  simpa using this

theorem len_delete_of_get_some (m : GoMap K V) (k : K) (hwf : m.WF) (h : m.get k ≠ none) :
    (m.delete k).len + 1 = m.len := by
  induction m with
  | nil => simp [get] at h
  | cons e rest ih =>
    obtain ⟨k', v⟩ := e
    have hwf' : WF rest := (List.nodup_cons.1 hwf).2
    have hnot : k' ∉ rest.map Prod.fst := (List.nodup_cons.1 hwf).1
    by_cases hk : k' = k
    · subst hk
      have hnone : get rest k' = none := by
        rw [get_eq_none_iff]
        intro e he c
        exact hnot (List.mem_map.2 ⟨e, he, c⟩)
      have := delete_of_get_none rest k' hnone
      unfold delete at this
      simp [delete, len, List.filter, this]
    · have h' : get rest k ≠ none := by simpa [get, hk] using h
      have := ih hwf' h'
      simp only [delete, len] at this
      simp [delete, len, List.filter, hk, this]

theorem WF_delete (m : GoMap K V) (k : K) (hwf : m.WF) : (m.delete k).WF := by
  unfold WF delete at *
  exact List.Nodup.sublist (List.Sublist.map _ (List.filter_sublist _)) hwf

theorem WF_set (m : GoMap K V) (k : K) (v : V) (hwf : m.WF) : (m.set k v).WF := by
  unfold WF set
  rw [List.map_cons, List.nodup_cons]
  refine ⟨?_, WF_delete m k hwf⟩
  intro hmem
  obtain ⟨e, he, hk⟩ := List.mem_map.1 hmem
  have := (get_eq_none_iff (m.delete k) k).1 (get_delete_self m k) e he
  exact this hk

theorem len_set (m : GoMap K V) (k : K) (v : V) (hwf : m.WF) :
    (m.set k v).len = if (m.get k).isSome then m.len else m.len + 1 := by
  by_cases h : m.get k = none
  · simp [h, set, len, delete_of_get_none m k h]
  · have := len_delete_of_get_some m k hwf h
    simp only [len] at this
    have hs : (m.get k).isSome = true := by
      cases hg : m.get k with
      | none => exact absurd hg h
      | some _ => rfl
    simp [hs, set, len, this]

end GoMap

namespace usecase

open models

/-! ### The session ledger (C2, C1, C3) -/

theorem equals_iff (e k : SessionKey) :
    e.Equals k = true ↔ e.LoginKey1 = k.LoginKey1 ∧ e.LoginKey2 = k.LoginKey2 ∧
      e.PlayKey1 = k.PlayKey1 ∧ e.PlayKey2 = k.PlayKey2 := by
  simp [SessionKey.Equals, and_assoc]

theorem isExpired_iff (e : SessionKey) (now maxAge : Time) :
    e.IsExpired now maxAge = true ↔ now - e.CreatedAt > maxAge := by
  simp [SessionKey.IsExpired]

theorem not_isExpired_iff (e : SessionKey) (now maxAge : Time) :
    e.IsExpired now maxAge = false ↔ now - e.CreatedAt ≤ maxAge := by
  simp [SessionKey.IsExpired]

/-- The boolean ValidateSessionKey returns. -/
theorem validate_true_iff (uc : SessionUseCase) (now : Time) (account : String)
    (k : SessionKey) :
    (ValidateSessionKey uc now account k).1 = true ↔
      ∃ e, uc.sessionKeys.get account = some e ∧ now - e.CreatedAt ≤ uc.maxSessionAge ∧
        e.LoginKey1 = k.LoginKey1 ∧ e.LoginKey2 = k.LoginKey2 ∧
        e.PlayKey1 = k.PlayKey1 ∧ e.PlayKey2 = k.PlayKey2 := by
  unfold ValidateSessionKey
  cases hg : uc.sessionKeys.get account with
  | none => simp
  | some e =>
    simp only [Option.some.injEq, exists_eq_left']
    cases hx : e.IsExpired now uc.maxSessionAge with
    | true =>
      have h1 := (isExpired_iff e now uc.maxSessionAge).1 hx
      simp only [if_true]
      constructor
      · intro h; cases h
      · rintro ⟨h, _⟩; exact absurd h (not_le.2 h1)
    | false =>
      have h1 := (not_isExpired_iff e now uc.maxSessionAge).1 hx
      cases hq : e.Equals k with
      | true =>
        have h2 := (equals_iff e k).1 hq
        simp only [Bool.false_eq_true, if_false, Bool.not_true, true_iff]
        exact ⟨h1, h2⟩
      | false =>
        simp only [Bool.false_eq_true, if_false, Bool.not_false, if_true, false_iff]
        rintro ⟨_, h⟩
        have := (equals_iff e k).2 h
        rw [hq] at this
        cases this

/-- The error ValidateSessionKey returns is always nil. -/
theorem validate_err (uc : SessionUseCase) (now : Time) (account : String) (k : SessionKey) :
    (ValidateSessionKey uc now account k).2.1 = none := by
  unfold ValidateSessionKey
  cases uc.sessionKeys.get account with
  | none => rfl
  | some e =>
    simp only
    split
    · rfl
    · split <;> rfl

/-- The ledger after ValidateSessionKey. -/
theorem validate_state (uc : SessionUseCase) (now : Time) (account : String)
    (k : SessionKey) :
    (ValidateSessionKey uc now account k).2.2 =
      match uc.sessionKeys.get account with
      | none => uc
      | some e =>
        if now - e.CreatedAt > uc.maxSessionAge then
          { uc with sessionKeys := uc.sessionKeys.delete account }
        else uc := by
  unfold ValidateSessionKey
  cases hg : uc.sessionKeys.get account with
  | none => rfl
  | some e =>
    cases hx : e.IsExpired now uc.maxSessionAge with
    | true =>
      have h1 := (isExpired_iff e now uc.maxSessionAge).1 hx
      simp only [hx, if_true, h1]
    | false =>
      have h1 := (not_isExpired_iff e now uc.maxSessionAge).1 hx
      have h2 : ¬ now - e.CreatedAt > uc.maxSessionAge := not_lt.2 h1
      simp only [hx, Bool.false_eq_true, if_false, h2]
      cases e.Equals k <;> rfl

/-- C2: ValidateSessionKey(account, candidate) at time now returns true if and only if the
ledger has an entry for account, now - created_at <= TTL, and the four key halves of the
candidate equal the stored ones, whatever the candidate's other fields; when the entry is
found expired it is deleted (the account has no entry afterwards and every other account
keeps its own), and in every other case the ledger is unchanged. -/
theorem validateSessionKey_spec (uc : SessionUseCase) (now : Time) (account : String)
    (candidate : SessionKey) :
    ((ValidateSessionKey uc now account candidate).1 = true ↔
      ∃ e, uc.sessionKeys.get account = some e ∧ now - e.CreatedAt ≤ uc.maxSessionAge ∧
        e.LoginKey1 = candidate.LoginKey1 ∧ e.LoginKey2 = candidate.LoginKey2 ∧
        e.PlayKey1 = candidate.PlayKey1 ∧ e.PlayKey2 = candidate.PlayKey2) ∧
    (∀ acc srv t, (ValidateSessionKey uc now account
        { candidate with Account := acc, ServerID := srv, CreatedAt := t }).1 =
      (ValidateSessionKey uc now account candidate).1) ∧
    (∀ e, uc.sessionKeys.get account = some e → now - e.CreatedAt > uc.maxSessionAge →
      (ValidateSessionKey uc now account candidate).2.2 =
          { uc with sessionKeys := uc.sessionKeys.delete account } ∧
        (ValidateSessionKey uc now account candidate).2.2.sessionKeys.get account = none ∧
        ∀ b, b ≠ account →
          (ValidateSessionKey uc now account candidate).2.2.sessionKeys.get b =
            uc.sessionKeys.get b) ∧
    ((∀ e, uc.sessionKeys.get account = some e → now - e.CreatedAt ≤ uc.maxSessionAge) →
      (ValidateSessionKey uc now account candidate).2.2 = uc) := by
  refine ⟨validate_true_iff uc now account candidate, ?_, ?_, ?_⟩
  · intro acc srv t
    rw [Bool.eq_iff_iff, validate_true_iff, validate_true_iff]
  · intro e hg hx
    have hs := validate_state uc now account candidate
    rw [hg] at hs
    simp only [hx, if_true] at hs
    rw [hs]
    exact ⟨rfl, GoMap.get_delete_self _ _, fun b hb => GoMap.get_delete_ne _ hb⟩
  · intro h
    have hs := validate_state uc now account candidate
    cases hg : uc.sessionKeys.get account with
    | none => rw [hg] at hs; exact hs
    | some e =>
      rw [hg] at hs
      have : ¬ now - e.CreatedAt > uc.maxSessionAge := not_lt.2 (h e hg)
      simp only [this, if_false] at hs
      exact hs

theorem get_delete_of_none {K V : Type} [DecidableEq K] (m : GoMap K V) (a b : K)
    (h : m.get a = none) : (m.delete b).get a = none := by
  by_cases hab : a = b
  · subst hab; exact GoMap.get_delete_self m a
  · rw [GoMap.get_delete_ne m hab]; exact h

theorem remove_get_self (uc : SessionUseCase) (a : String) :
    (RemoveSessionKey uc a).2.sessionKeys.get a = none := by
  unfold RemoveSessionKey
  cases hg : uc.sessionKeys.get a with
  | none => exact hg
  | some e => exact GoMap.get_delete_self _ _

theorem remove_get_of_none (uc : SessionUseCase) (a b : String)
    (h : uc.sessionKeys.get a = none) : (RemoveSessionKey uc b).2.sessionKeys.get a = none := by
  unfold RemoveSessionKey
  cases uc.sessionKeys.get b with
  | none => exact h
  | some e => exact get_delete_of_none _ _ _ h

theorem validate_get_of_none (uc : SessionUseCase) (now : Time) (a b : String)
    (k : SessionKey) (h : uc.sessionKeys.get a = none) :
    (ValidateSessionKey uc now b k).2.2.sessionKeys.get a = none := by
  rw [validate_state]
  cases uc.sessionKeys.get b with
  | none => exact h
  | some e =>
    simp only
    split
    · exact get_delete_of_none _ _ _ h
    · exact h

theorem cleanup_fold_get_of_none (now maxAge : Time) (a : String)
    (entries : List (String × SessionKey)) (acc : Nat × GoMap String SessionKey)
    (h : acc.2.get a = none) :
    (entries.foldl
      (fun (acc : Nat × GoMap String SessionKey) (e : String × SessionKey) =>
        if e.2.IsExpired now maxAge then (acc.1 + 1, acc.2.delete e.1) else acc) acc).2.get a
      = none := by
  induction entries generalizing acc with
  | nil => exact h
  | cons e rest ih =>
    rw [List.foldl_cons]
    apply ih
    split
    · exact get_delete_of_none _ _ _ h
    · exact h

theorem cleanup_get_of_none (uc : SessionUseCase) (now : Time) (a : String)
    (h : uc.sessionKeys.get a = none) :
    (CleanupExpiredSessions uc now).2.sessionKeys.get a = none := by
  unfold CleanupExpiredSessions
  exact cleanup_fold_get_of_none now uc.maxSessionAge a uc.sessionKeys (0, uc.sessionKeys) h

theorem create_get_ne (uc : SessionUseCase) (now : Time) (r1 r2 : RandRead)
    (account : String) (serverID : Int) (l1 l2 : Nat) (b : String) (hb : b ≠ account) :
    (CreateSessionKey uc now r1 r2 account serverID l1 l2).2.sessionKeys.get b =
      uc.sessionKeys.get b := by
  unfold CreateSessionKey
  cases generateRandomUint32 r1 with
  | error e => rfl
  | ok p1 =>
    cases generateRandomUint32 r2 with
    | error e => rfl
    | ok p2 => exact GoMap.get_set_ne _ _ hb

/-- A call that does not mint a key for `a` leaves `a` without an entry. -/
theorem run_get_of_none (c : LedgerCall) (uc : SessionUseCase) (a : String)
    (hc : c.mints a = false) (h : uc.sessionKeys.get a = none) :
    (c.run uc).sessionKeys.get a = none := by
  cases c with
  | create now r1 r2 account serverID l1 l2 =>
    by_cases hb : a = account
    · subst hb
      cases r1 with
      | error e => exact h
      | ok p1 =>
        cases r2 with
        | error e =>
          obtain ⟨b0, b1, b2, b3⟩ := p1
          exact h
        | ok p2 => simp [LedgerCall.mints] at hc
    · simp only [LedgerCall.run]
      rw [create_get_ne _ _ _ _ _ _ _ _ _ hb]
      exact h
  | validate now account k => exact validate_get_of_none uc now a account k h
  | remove account => exact remove_get_of_none uc a account h
  | cleanup now => exact cleanup_get_of_none uc now a h

theorem runCalls_get_of_none (calls : List LedgerCall) (uc : SessionUseCase) (a : String)
    (hc : ∀ c ∈ calls, c.mints a = false) (h : uc.sessionKeys.get a = none) :
    (runCalls calls uc).sessionKeys.get a = none := by
  unfold runCalls
  induction calls generalizing uc with
  | nil => exact h
  | cons c rest ih =>
    rw [List.foldl_cons]
    exact ih (c.run uc) (fun c' hc' => hc c' (List.mem_cons_of_mem _ hc'))
      (run_get_of_none c uc a (hc c (List.mem_cons_self _ _)) h)

theorem validate_false_of_none (uc : SessionUseCase) (now : Time) (a : String)
    (k : SessionKey) (h : uc.sessionKeys.get a = none) :
    (ValidateSessionKey uc now a k).1 = false := by
  unfold ValidateSessionKey
  rw [h]

theorem handlePlayerAuth_success_iff (l : LoginServer) (now : Time)
    (req : ings.PlayerAuthRequest) :
    (HandlePlayerAuthRequest l now req).1.Success =
      (ValidateSessionKey l.session now req.account req.GetSessionKey).1 := by
  unfold HandlePlayerAuthRequest
  have he := validate_err l.session now req.account req.GetSessionKey
  rcases hv : ValidateSessionKey l.session now req.account req.GetSessionKey with ⟨v, e, s⟩
  rw [hv] at he
  simp only at he
  subst he
  simp only [ings.PlayerAuthRequest.GetAccount, hv]
  cases v <;> rfl

theorem handlePlayerAuth_state (l : LoginServer) (now : Time)
    (req : ings.PlayerAuthRequest)
    (h : (HandlePlayerAuthRequest l now req).1.Success = true) :
    (HandlePlayerAuthRequest l now req).2.2.session =
      (RemoveSessionKey (ValidateSessionKey l.session now req.account req.GetSessionKey).2.2
        req.account).2 := by
  have hs := handlePlayerAuth_success_iff l now req
  rw [h] at hs
  unfold HandlePlayerAuthRequest
  have he := validate_err l.session now req.account req.GetSessionKey
  rcases hv : ValidateSessionKey l.session now req.account req.GetSessionKey with ⟨v, e, s⟩
  rw [hv] at he hs
  simp only at he hs
  subst he
  subst hs
  simp only [ings.PlayerAuthRequest.GetAccount, hv]
  rfl

/-- C1: whenever HandlePlayerAuthRequest answers Success = true for account a, the ledger
holds no entry for a afterwards, and after any further calls of the ledger's methods that
mint no key for a, every ValidateSessionKey for a and every HandlePlayerAuthRequest for a
(with any keys, at any time) returns false. -/
theorem playerAuth_consume_once (l : LoginServer) (now : Time) (req : ings.PlayerAuthRequest)
    (h : (HandlePlayerAuthRequest l now req).1.Success = true) :
    (HandlePlayerAuthRequest l now req).2.2.session.sessionKeys.get req.account = none ∧
    ∀ calls : List LedgerCall, (∀ c ∈ calls, c.mints req.account = false) →
      ∀ (t : Time) (k : SessionKey),
        (ValidateSessionKey
          (runCalls calls (HandlePlayerAuthRequest l now req).2.2.session) t req.account k).1
            = false ∧
        ∀ (l' : LoginServer) (req' : ings.PlayerAuthRequest),
          l'.session = runCalls calls (HandlePlayerAuthRequest l now req).2.2.session →
          req'.account = req.account →
          (HandlePlayerAuthRequest l' t req').1.Success = false := by
  have h0 : (HandlePlayerAuthRequest l now req).2.2.session.sessionKeys.get req.account
      = none := by
    rw [handlePlayerAuth_state l now req h]
    exact remove_get_self _ _
  refine ⟨h0, ?_⟩
  intro calls hc t k
  have h1 := runCalls_get_of_none calls _ req.account hc h0
  refine ⟨validate_false_of_none _ t _ k h1, ?_⟩
  intro l' req' hl' hreq'
  rw [handlePlayerAuth_success_iff, hl', hreq']
  exact validate_false_of_none _ t _ _ h1

theorem playerAuth_consume_once_witness :
    (HandlePlayerAuthRequest sample.aliceServer 1000 sample.aliceAuth).1.Success = true ∧
    ((HandlePlayerAuthRequest sample.aliceServer 1000 sample.aliceAuth).2.2.session.sessionKeys.get
        sample.aliceAuth.account = none ∧
      ∀ calls : List LedgerCall, (∀ c ∈ calls, c.mints sample.aliceAuth.account = false) →
        ∀ (t : Time) (k : SessionKey),
          (ValidateSessionKey
            (runCalls calls
              (HandlePlayerAuthRequest sample.aliceServer 1000 sample.aliceAuth).2.2.session)
            t sample.aliceAuth.account k).1 = false ∧
          ∀ (l' : LoginServer) (req' : ings.PlayerAuthRequest),
            l'.session = runCalls calls
              (HandlePlayerAuthRequest sample.aliceServer 1000 sample.aliceAuth).2.2.session →
            req'.account = sample.aliceAuth.account →
            (HandlePlayerAuthRequest l' t req').1.Success = false) :=
  ⟨by decide, playerAuth_consume_once sample.aliceServer 1000 sample.aliceAuth (by decide)⟩

/-- C3 as stated fails: a ledger holds a key for `alice`; CreateSessionKey for `alice` with
the same login halves, whose two random reads return the play halves of the stored key,
replaces the entry, and the previous key still validates afterwards. -/
theorem createSessionKey_previous_key_validates :
    sample.aliceLedger.sessionKeys.get "alice" = some sample.aliceKey ∧
    (ValidateSessionKey
      (CreateSessionKey sample.aliceLedger 1000 (.ok (0x11, 0x11, 0x11, 0x11))
        (.ok (0x22, 0x22, 0x22, 0x22)) "alice" 2 0x03020100 0x07060504).2
      2000 "alice" sample.aliceKey).1 = true := by
  decide

/-- C3, amended: when both random reads succeed, CreateSessionKey(account, server_id, l1,
l2) returns a key with LoginKey1 = l1, LoginKey2 = l2, Account = account and ServerID =
server_id; afterwards the ledger maps account to exactly that key, every other account's
entry is unchanged, the session count grows by one if the account had no entry and is
unchanged otherwise, and a candidate validates for the account exactly when it is
presented within the TTL of the new key and its four key halves equal the new key's: so
the new key validates, and the previous key does not unless its four halves equal the new
ones. -/
theorem createSessionKey_spec (uc : SessionUseCase) (now : Time)
    (d1 d2 : Nat × Nat × Nat × Nat) (account : String) (serverID : Int) (l1 l2 : Nat)
    (hwf : uc.sessionKeys.WF) :
    ∃ key, (CreateSessionKey uc now (.ok d1) (.ok d2) account serverID l1 l2).1 = .ok key ∧
      key.LoginKey1 = l1 ∧ key.LoginKey2 = l2 ∧ key.Account = account ∧
      key.ServerID = serverID ∧
      (CreateSessionKey uc now (.ok d1) (.ok d2) account serverID l1 l2).2.sessionKeys.get
        account = some key ∧
      (∀ b, b ≠ account →
        (CreateSessionKey uc now (.ok d1) (.ok d2) account serverID l1 l2).2.sessionKeys.get b
          = uc.sessionKeys.get b) ∧
      (CreateSessionKey uc now (.ok d1) (.ok d2) account serverID l1 l2).2.sessionKeys.WF ∧
      GetSessionCount (CreateSessionKey uc now (.ok d1) (.ok d2) account serverID l1 l2).2 =
        (if (uc.sessionKeys.get account).isSome then GetSessionCount uc
          else GetSessionCount uc + 1) ∧
      ∀ (t : Time) (k : SessionKey),
        (ValidateSessionKey (CreateSessionKey uc now (.ok d1) (.ok d2) account serverID l1
          l2).2 t account k).1 = true ↔
        (t - now ≤ uc.maxSessionAge ∧ key.LoginKey1 = k.LoginKey1 ∧
          key.LoginKey2 = k.LoginKey2 ∧ key.PlayKey1 = k.PlayKey1 ∧
          key.PlayKey2 = k.PlayKey2) := by
  obtain ⟨a0, a1, a2, a3⟩ := d1
  obtain ⟨c0, c1, c2, c3⟩ := d2
  refine ⟨_, rfl, rfl, rfl, rfl, rfl, ?_, ?_, ?_, ?_, ?_⟩
  · exact GoMap.get_set_self _ _ _
  · intro b hb
    exact GoMap.get_set_ne _ _ hb
  · exact GoMap.WF_set _ _ _ hwf
  · exact GoMap.len_set _ _ _ hwf
  · intro t k
    rw [validate_true_iff]
    simp only [CreateSessionKey, generateRandomUint32, GoMap.get_set_self, Option.some.injEq,
      exists_eq_left']

theorem createSessionKey_spec_witness :
    sample.aliceLedger.sessionKeys.WF ∧
    ∃ key, (CreateSessionKey sample.aliceLedger 1000 (.ok (1, 2, 3, 4)) (.ok (5, 6, 7, 8))
        "bob" 2 10 20).1 = .ok key ∧
      key.LoginKey1 = 10 ∧ key.LoginKey2 = 20 ∧ key.Account = "bob" ∧
      key.ServerID = 2 ∧
      (CreateSessionKey sample.aliceLedger 1000 (.ok (1, 2, 3, 4)) (.ok (5, 6, 7, 8))
        "bob" 2 10 20).2.sessionKeys.get "bob" = some key ∧
      (∀ b, b ≠ "bob" →
        (CreateSessionKey sample.aliceLedger 1000 (.ok (1, 2, 3, 4)) (.ok (5, 6, 7, 8))
          "bob" 2 10 20).2.sessionKeys.get b = sample.aliceLedger.sessionKeys.get b) ∧
      (CreateSessionKey sample.aliceLedger 1000 (.ok (1, 2, 3, 4)) (.ok (5, 6, 7, 8))
        "bob" 2 10 20).2.sessionKeys.WF ∧
      GetSessionCount (CreateSessionKey sample.aliceLedger 1000 (.ok (1, 2, 3, 4))
          (.ok (5, 6, 7, 8)) "bob" 2 10 20).2 =
        (if (sample.aliceLedger.sessionKeys.get "bob").isSome
          then GetSessionCount sample.aliceLedger
          else GetSessionCount sample.aliceLedger + 1) ∧
      ∀ (t : Time) (k : SessionKey),
        (ValidateSessionKey (CreateSessionKey sample.aliceLedger 1000 (.ok (1, 2, 3, 4))
          (.ok (5, 6, 7, 8)) "bob" 2 10 20).2 t "bob" k).1 = true ↔
        (t - 1000 ≤ sample.aliceLedger.maxSessionAge ∧ key.LoginKey1 = k.LoginKey1 ∧
          key.LoginKey2 = k.LoginKey2 ∧ key.PlayKey1 = k.PlayKey1 ∧
          key.PlayKey2 = k.PlayKey2) :=
  ⟨by decide, createSessionKey_spec sample.aliceLedger 1000 (1, 2, 3, 4) (5, 6, 7, 8)
    "bob" 2 10 20 (by decide)⟩

end usecase

namespace crypt

/-! ### Checksum rejection on the client path (C6) -/

theorem mod4_of_and3 {n : Nat} (h : ¬ (n &&& 3) ≠ 0) : n % 4 = 0 := by
  have := Nat.and_pow_two_sub_one_eq_mod n 2
  have h' : n &&& 3 = 0 := not_not.1 h
  simpa [h'] using this.symm

/-- VerifyChecksum on a buffer whose size passes its guard. -/
theorem VerifyChecksum_eq (raw : List Nat) (h4 : raw.length % 4 = 0) (hl : 4 < raw.length) :
    ∃ c w, foldWords raw (iters (raw.length - 4)) 0 0 = some (raw.length - 4, c) ∧
      readWord raw (raw.length - 4) = some w ∧ VerifyChecksum raw = some (w == c) := by
  have hit : 0 + 4 * iters (raw.length - 4) = raw.length - 4 := by unfold iters; omega
  obtain ⟨c, hc, _⟩ := foldWords_some raw (iters (raw.length - 4)) 0 0 (by omega)
    (by norm_num)
  rw [hit] at hc
  obtain ⟨w, hw, _⟩ := readWord_some raw (raw.length - 4) (by omega)
  refine ⟨c, w, hc, hw, ?_⟩
  unfold VerifyChecksum
  have hg : ¬ ((raw.length &&& 3) ≠ 0 ∨ raw.length ≤ 4) := by
    rw [and3_eq_zero h4]
    omega
  simp only [hg, if_false, Nat.zero_add, hc, hw]

/-- VerifyChecksum never panics. -/
theorem VerifyChecksum_total (raw : List Nat) : ∃ b, VerifyChecksum raw = some b := by
  by_cases hg : (raw.length &&& 3) ≠ 0 ∨ raw.length ≤ 4
  · refine ⟨false, ?_⟩
    unfold VerifyChecksum
    simp only [hg, if_true]
  · have h4 : raw.length % 4 = 0 := mod4_of_and3 (fun c => hg (Or.inl c))
    obtain ⟨c, w, _, _, h⟩ := VerifyChecksum_eq raw h4 (by omega)
    exact ⟨_, h⟩

/-- VerifyChecksumClient on a buffer whose size passes its guard. -/
theorem VerifyChecksumClient_eq (raw : List Nat) (h4 : raw.length % 4 = 0)
    (hl : 16 ≤ raw.length) :
    ∃ c w, foldWords raw (iters (raw.length - 16)) 0 0 = some (raw.length - 16, c) ∧
      readWord raw (raw.length - 16) = some w ∧ VerifyChecksumClient raw = some (w == c) := by
  have hit : 0 + 4 * iters (raw.length - 16) = raw.length - 16 := by unfold iters; omega
  obtain ⟨c, hc, _⟩ := foldWords_some raw (iters (raw.length - 16)) 0 0 (by omega)
    (by norm_num)
  rw [hit] at hc
  obtain ⟨w, hw, _⟩ := readWord_some raw (raw.length - 16) (by omega)
  refine ⟨c, w, hc, hw, ?_⟩
  unfold VerifyChecksumClient
  have hg : ¬ ((raw.length &&& 3) ≠ 0 ∨ raw.length < 16) := by
    rw [and3_eq_zero h4]
    omega
  simp only [hg, if_false, Nat.zero_add, hc, hw]

/-- VerifyChecksumClient reads nothing of the last 12 bytes. -/
theorem VerifyChecksumClient_congr (raw raw' : List Nat) (hlen : raw'.length = raw.length)
    (h : ∀ i, i < raw.length - 12 → raw'[i]? = raw[i]?) :
    VerifyChecksumClient raw' = VerifyChecksumClient raw := by
  by_cases hg : (raw.length &&& 3) ≠ 0 ∨ raw.length < 16
  · unfold VerifyChecksumClient
    simp only [hlen, hg, if_true]
  · have h4 : raw.length % 4 = 0 := mod4_of_and3 (fun c => hg (Or.inl c))
    have hit : 0 + 4 * iters (raw.length - 16) = raw.length - 16 := by unfold iters; omega
    unfold VerifyChecksumClient
    simp only [hlen, hg, if_false, Nat.zero_add]
    rw [foldWords_congr raw raw' _ 0 0 (fun i hi => h i (by omega)),
      readWord_congr raw raw' _ (fun i _ hi => h i (by omega))]

/-- Bit `j` of the word read at `i` is bit `j % 8` of the byte at `i + j / 8`. -/
theorem readWord_testBit {raw : List Nat} {i w : Nat} (h : readWord raw i = some w)
    (j : Nat) (hj : j < 32) : w.testBit j = (raw.getD (i + j / 8) 0).testBit (j % 8) := by
  unfold readWord at h
  cases h0 : raw[i]? with
  | none => rw [h0] at h; simp at h
  | some b0 =>
    cases h1 : raw[i + 1]? with
    | none => rw [h0, h1] at h; simp at h
    | some b1 =>
      cases h2 : raw[i + 2]? with
      | none => rw [h0, h1, h2] at h; simp at h
      | some b2 =>
        cases h3 : raw[i + 3]? with
        | none => rw [h0, h1, h2, h3] at h; simp at h
        | some b3 =>
          rw [h0, h1, h2, h3] at h
          simp only [Option.some.injEq] at h
          rw [← h, le32_testBit b0 b1 b2 b3 j hj]
          have hk : j / 8 = 0 ∨ j / 8 = 1 ∨ j / 8 = 2 ∨ j / 8 = 3 := by omega
          rcases hk with hk | hk | hk | hk <;> rw [hk] <;>
            simp [List.getD_eq_getElem?_getD, h0, h1, h2, h3]

end crypt

namespace transport

open crypt

theorem flip_length (data : List Nat) (j : Nat) :
    (flipLastWordBit data j).length = data.length := by
  simp [flipLastWordBit]

theorem flip_get_other (data : List Nat) (j i : Nat) (hi : i ≠ data.length - 4 + j / 8) :
    (flipLastWordBit data j)[i]? = data[i]? := by
  unfold flipLastWordBit
  exact List.getElem?_set_ne (fun c => hi c.symm)

/-- Flipping a bit of the last word changes the word that VerifyChecksum compares. -/
theorem flip_readWord_ne (data : List Nat) (j w w' : Nat) (hj : j < 32)
    (hl : 4 ≤ data.length) (hw : readWord data (data.length - 4) = some w)
    (hw' : readWord (flipLastWordBit data j) (data.length - 4) = some w') : w' ≠ w := by
  intro c
  have t := readWord_testBit hw j hj
  have t' := readWord_testBit hw' j hj
  have hidx : data.length - 4 + j / 8 < data.length := by omega
  have e : (flipLastWordBit data j).getD (data.length - 4 + j / 8) 0
      = data.getD (data.length - 4 + j / 8) 0 ^^^ (1 <<< (j % 8)) := by
    unfold flipLastWordBit
    rw [List.getD_eq_getElem?_getD, List.getElem?_set_eq_of_lt _ hidx]
    rfl
  rw [e, flip_testBit, ← t, c] at t'
  cases hb : w.testBit j <;> rw [hb] at t' <;> cases t'

/-- A flipped bit in the last word makes VerifyChecksum fail where it held. -/
theorem VerifyChecksum_flip (data : List Nat) (j : Nat) (hj : j < 32)
    (h : VerifyChecksum data = some true) :
    VerifyChecksum (flipLastWordBit data j) = some false := by
  by_cases hg : (data.length &&& 3) ≠ 0 ∨ data.length ≤ 4
  · unfold VerifyChecksum at h
    simp only [hg, if_true] at h
    cases h
  · have h4 : data.length % 4 = 0 := mod4_of_and3 (fun c => hg (Or.inl c))
    have hl : 4 < data.length := by omega
    obtain ⟨c, w, hc, hw, hv⟩ := VerifyChecksum_eq data h4 hl
    have hfl := flip_length data j
    obtain ⟨c', w', hc', hw', hv'⟩ := VerifyChecksum_eq (flipLastWordBit data j)
      (by rw [hfl]; exact h4) (by rw [hfl]; exact hl)
    rw [hfl] at hc' hw'
    have hit : 0 + 4 * iters (data.length - 4) = data.length - 4 := by unfold iters; omega
    rw [foldWords_congr data (flipLastWordBit data j) _ 0 0
      (fun i hi => flip_get_other data j i (by omega)), hc] at hc'
    simp only [Option.some.injEq, Prod.mk.injEq, true_and] at hc'
    subst hc'
    rw [hv] at h
    simp only [Option.some.injEq, beq_iff_eq] at h
    subst h
    rw [hv']
    have := flip_readWord_ne data j w w' hj (by omega) hw hw'
    simp [this]

/-- Flipping a bit of the last word does not change what VerifyChecksumClient returns. -/
theorem VerifyChecksumClient_flip (data : List Nat) (j : Nat) :
    VerifyChecksumClient (flipLastWordBit data j) = VerifyChecksumClient data :=
  VerifyChecksumClient_congr data _ (flip_length data j)
    (fun i hi => flip_get_other data j i (by omega))

/-- The check of Client.Receive on a packet with a flipped bit in its last word. -/
theorem checksumValid_flip (data : List Nat) (j : Nat) (hj : j < 32)
    (h : checksumValid data = some true) :
    checksumValid (flipLastWordBit data j) = VerifyChecksumClient data := by
  obtain ⟨b, hb⟩ := VerifyChecksum_total data
  obtain ⟨b', hb'⟩ := VerifyChecksum_total (flipLastWordBit data j)
  cases b with
  | true =>
    have := VerifyChecksum_flip data j hj hb
    unfold checksumValid
    rw [this]
    exact VerifyChecksumClient_flip data j
  | false =>
    unfold checksumValid at h
    rw [hb] at h
    simp only at h
    unfold checksumValid
    rw [hb']
    cases b' with
    | true => exact h.symm
    | false => exact VerifyChecksumClient_flip data j

open crypt handlers

/-- C6 as stated fails: the 16-byte packet of zeros passes the check of Client.Receive, and
so does the packet with the lowest bit of its last word flipped. -/
theorem checksumValid_flip_accepted :
    checksumValid sample.zeroPacket = some true ∧
    flipLastWordBit sample.zeroPacket 0 = [0, 0, 0, 0, 0, 0, 0, 0, 0, 0, 0, 0, 1, 0, 0, 0] ∧
    checksumValid (flipLastWordBit sample.zeroPacket 0) = some true := by
  decide

/-- C6, amended: for every decrypted client packet that the check of Client.Receive
accepts, the packet with any single bit of its last 4-byte word flipped fails
VerifyChecksum if the packet passed it, and the check answers for it what
VerifyChecksumClient answers for the original packet, which does not read the last 12
bytes. So when VerifyChecksumClient rejects the original packet, Receive returns the
checksum error for the flipped one, handleConnection returns and closes the socket, and
nothing is written to it; when VerifyChecksumClient accepts the original packet, Receive
delivers the flipped one. -/
theorem receive_flipped_last_word (newCipher : blowfish.NewCipher) (c : Client)
    (r1 r2 r2' : ReadResult) (data : List Nat) (j opcode : Nat) (rest : List Nat)
    (hj : j < 32)
    (hacc : Client.Receive newCipher c r1 r2 = .packet opcode rest)
    (hdec : BlowfishDecrypt newCipher r2.bytes c.BlowfishKey = .ok data)
    (hdec' : BlowfishDecrypt newCipher r2'.bytes c.BlowfishKey
      = .ok (flipLastWordBit data j))
    (hlen' : r2'.bytes.length = r2.bytes.length) (herr' : r2'.err = none) :
    checksumValid data = some true ∧
    (VerifyChecksum data = some true →
      VerifyChecksum (flipLastWordBit data j) = some false) ∧
    checksumValid (flipLastWordBit data j) = VerifyChecksumClient data ∧
    (VerifyChecksumClient data = some false →
      Client.Receive newCipher c r1 r2' = .error "packet checksum verification failed" ∧
      ∀ (handlePacket : PacketHandler) (l : LoginServer),
        handleConnectionPass handlePacket l c (Client.Receive newCipher c r1 r2')
          = .returned l (closeSocket c) ∧
        (closeSocket c).Socket.written = c.Socket.written ∧
        (closeSocket c).Socket.closed = true) ∧
    (VerifyChecksumClient data = some true →
      ∃ opcode' rest', Client.Receive newCipher c r1 r2' = .packet opcode' rest') := by
  unfold Client.Receive at hacc
  by_cases g1 : r1.bytes.length ≠ 2 ∨ r1.err ≠ none
  · rw [if_pos g1] at hacc
    split at hacc <;> cases hacc
  rw [if_neg g1] at hacc
  simp only at hacc
  by_cases g2 : r1.bytes.getD 0 0 + r1.bytes.getD 1 0 * 256 < 2
  · rw [if_pos g2] at hacc
    cases hacc
  rw [if_neg g2] at hacc
  by_cases g3 : r2.bytes.length ≠ r1.bytes.getD 0 0 + r1.bytes.getD 1 0 * 256 - 2
      ∨ r2.err ≠ none
  · rw [if_pos g3] at hacc
    cases hacc
  rw [if_neg g3, hdec] at hacc
  simp only at hacc
  have hok : checksumValid data = some true := by
    cases hcv : checksumValid data with
    | none => rw [hcv] at hacc; cases hacc
    | some b =>
      cases b with
      | false => rw [hcv] at hacc; cases hacc
      | true => rfl
  have hflip := checksumValid_flip data j hj hok
  have g3' : ¬ (r2'.bytes.length ≠ r1.bytes.getD 0 0 + r1.bytes.getD 1 0 * 256 - 2
      ∨ r2'.err ≠ none) := by
    rw [hlen', herr']
    intro c0
    rcases c0 with c0 | c0
    · exact g3 (Or.inl c0)
    · exact c0 rfl
  have hrecv : Client.Receive newCipher c r1 r2' =
      match checksumValid (flipLastWordBit data j) with
      | none => .panic
      | some false => .error "packet checksum verification failed"
      | some true =>
        match flipLastWordBit data j with
        | [] => .panic
        | opcode :: rest => .packet opcode rest := by
    unfold Client.Receive
    rw [if_neg g1]
    simp only
    rw [if_neg g2, if_neg g3', hdec']
  refine ⟨hok, VerifyChecksum_flip data j hj, hflip, ?_, ?_⟩
  · intro hcl
    have hr : Client.Receive newCipher c r1 r2'
        = .error "packet checksum verification failed" := by
      rw [hrecv, hflip, hcl]
    refine ⟨hr, ?_⟩
    intro handlePacket l
    rw [hr]
    exact ⟨rfl, rfl, rfl⟩
  · intro hcl
    rw [hrecv, hflip, hcl]
    simp only
    cases hd : flipLastWordBit data j with
    | nil =>
      have hl := flip_length data j
      rw [hd] at hl
      have hnil : data = [] := List.eq_nil_of_length_eq_zero hl.symm
      rw [hnil] at hcl
      simp [VerifyChecksumClient] at hcl
    | cons a as => exact ⟨a, as, rfl⟩

theorem receive_flipped_last_word_witness :
    (0 < 32 ∧
      Client.Receive sample.toyNewCipher sample.client sample.header10 sample.checkedBody
        = .packet 1 [2, 3, 4, 1, 2, 3, 4] ∧
      BlowfishDecrypt sample.toyNewCipher sample.checkedBody.bytes sample.client.BlowfishKey
        = .ok sample.checkedPacket ∧
      BlowfishDecrypt sample.toyNewCipher sample.flippedBody.bytes sample.client.BlowfishKey
        = .ok (flipLastWordBit sample.checkedPacket 0) ∧
      sample.flippedBody.bytes.length = sample.checkedBody.bytes.length ∧
      sample.flippedBody.err = none) ∧
    (checksumValid sample.checkedPacket = some true ∧
      (VerifyChecksum sample.checkedPacket = some true →
        VerifyChecksum (flipLastWordBit sample.checkedPacket 0) = some false) ∧
      checksumValid (flipLastWordBit sample.checkedPacket 0)
        = VerifyChecksumClient sample.checkedPacket ∧
      (VerifyChecksumClient sample.checkedPacket = some false →
        Client.Receive sample.toyNewCipher sample.client sample.header10 sample.flippedBody
          = .error "packet checksum verification failed" ∧
        ∀ (handlePacket : PacketHandler) (l : LoginServer),
          handleConnectionPass handlePacket l sample.client
            (Client.Receive sample.toyNewCipher sample.client sample.header10
              sample.flippedBody) = .returned l (closeSocket sample.client) ∧
          (closeSocket sample.client).Socket.written = sample.client.Socket.written ∧
          (closeSocket sample.client).Socket.closed = true) ∧
      (VerifyChecksumClient sample.checkedPacket = some true →
        ∃ opcode' rest',
          Client.Receive sample.toyNewCipher sample.client sample.header10 sample.flippedBody
            = .packet opcode' rest')) :=
  ⟨⟨by decide, by decide, rfl, rfl, by decide, by decide⟩,
    receive_flipped_last_word sample.toyNewCipher sample.client sample.header10
      sample.checkedBody sample.flippedBody sample.checkedPacket 0 1 [2, 3, 4, 1, 2, 3, 4]
      (by decide) (by decide) rfl rfl (by decide) (by decide)⟩

end transport

namespace packets

/-! ### Modulus scramble (C10) -/

theorem xorLoop_length (dst src n : Nat) (mods : List Nat) :
    (xorLoop dst src n mods).length = mods.length := by
  induction n with
  | zero => rfl
  | succ n ih => simp [xorLoop, ih]

theorem swapLoop_length (a b n : Nat) (mods : List Nat) :
    (swapLoop a b n mods).length = mods.length := by
  induction n with
  | zero => rfl
  | succ n ih => simp [swapLoop, ih]

/-- Pointwise description of `xorLoop` when the source range is not overwritten. -/
theorem xorLoop_get (dst src n : Nat) (mods : List Nat)
    (hd : dst + n ≤ mods.length) (hdis : src + n ≤ dst ∨ dst + n ≤ src) (j : Nat) :
    (xorLoop dst src n mods)[j]?.getD 0 =
      if dst ≤ j ∧ j < dst + n then mods[j]?.getD 0 ^^^ mods[src + (j - dst)]?.getD 0
      else mods[j]?.getD 0 := by
  induction n generalizing j with
  | zero =>
    have : ¬ (dst ≤ j ∧ j < dst + 0) := by omega
    rw [if_neg this]
    rfl
  | succ n ih =>
    simp only [xorLoop]
    have hlen := xorLoop_length dst src n mods
    by_cases hj : j = dst + n
    · subst hj
      rw [List.getElem?_set_eq_of_lt _ (by rw [hlen]; omega)]
      rw [ih (by omega) (by omega) (dst + n), ih (by omega) (by omega) (src + n)]
      have c1 : ¬ (dst ≤ dst + n ∧ dst + n < dst + n) := by omega
      have c2 : ¬ (dst ≤ src + n ∧ src + n < dst + n) := by omega
      have c3 : dst ≤ dst + n ∧ dst + n < dst + (n + 1) := by omega
      have e : src + (dst + n - dst) = src + n := by omega
      rw [if_neg c1, if_neg c2, if_pos c3, e]
      rfl
    · rw [List.getElem?_set_ne (by omega)]
      rw [ih (by omega) (by omega) j]
      by_cases c : dst ≤ j ∧ j < dst + n
      · have c' : dst ≤ j ∧ j < dst + (n + 1) := by omega
        rw [if_pos c, if_pos c']
      · have c' : ¬ (dst ≤ j ∧ j < dst + (n + 1)) := by omega
        rw [if_neg c, if_neg c']

/-- Pointwise description of `swapLoop` on disjoint ranges. -/
theorem swapLoop_get (a b n : Nat) (mods : List Nat)
    (ha : a + n ≤ mods.length) (hb : b + n ≤ mods.length)
    (hdis : a + n ≤ b ∨ b + n ≤ a) (j : Nat) :
    (swapLoop a b n mods)[j]?.getD 0 =
      if a ≤ j ∧ j < a + n then mods[b + (j - a)]?.getD 0
      else if b ≤ j ∧ j < b + n then mods[a + (j - b)]?.getD 0
      else mods[j]?.getD 0 := by
  induction n generalizing j with
  | zero =>
    have c1 : ¬ (a ≤ j ∧ j < a + 0) := by omega
    have c2 : ¬ (b ≤ j ∧ j < b + 0) := by omega
    rw [if_neg c1, if_neg c2]
    rfl
  | succ n ih =>
    simp only [swapLoop]
    have hlen := swapLoop_length a b n mods
    have iha := ih (by omega) (by omega) (by omega) (a + n)
    have ihb := ih (by omega) (by omega) (by omega) (b + n)
    have ca1 : ¬ (a ≤ a + n ∧ a + n < a + n) := by omega
    have ca2 : ¬ (b ≤ a + n ∧ a + n < b + n) := by omega
    have cb1 : ¬ (a ≤ b + n ∧ b + n < a + n) := by omega
    have cb2 : ¬ (b ≤ b + n ∧ b + n < b + n) := by omega
    simp only [ca1, ca2, cb1, cb2, if_false] at iha ihb
    by_cases hjb : j = b + n
    · subst hjb
      rw [List.getElem?_set_eq_of_lt _ (by simp [hlen]; omega), iha]
      have c1 : ¬ (a ≤ b + n ∧ b + n < a + (n + 1)) := by omega
      have c2 : b ≤ b + n ∧ b + n < b + (n + 1) := by omega
      have e : a + (b + n - b) = a + n := by omega
      rw [if_neg c1, if_pos c2, e]
      rfl
    · rw [List.getElem?_set_ne (by omega)]
      by_cases hja : j = a + n
      · subst hja
        rw [List.getElem?_set_eq_of_lt _ (by rw [hlen]; omega), ihb]
        have c1 : a ≤ a + n ∧ a + n < a + (n + 1) := by omega
        have e : b + (a + n - a) = b + n := by omega
        rw [if_pos c1, e]
        rfl
      · rw [List.getElem?_set_ne (by omega), ih (by omega) (by omega) (by omega) j]
        by_cases c : a ≤ j ∧ j < a + n
        · have c' : a ≤ j ∧ j < a + (n + 1) := by omega
          rw [if_pos c, if_pos c']
        · have c' : ¬ (a ≤ j ∧ j < a + (n + 1)) := by omega
          by_cases d : b ≤ j ∧ j < b + n
          · have d' : b ≤ j ∧ j < b + (n + 1) := by omega
            rw [if_neg c, if_neg c', if_pos d, if_pos d']
          · have d' : ¬ (b ≤ j ∧ j < b + (n + 1)) := by omega
            rw [if_neg c, if_neg c', if_neg d, if_neg d']

theorem ext_getD {l₁ l₂ : List Nat} (hl : l₁.length = l₂.length)
    (h : ∀ j, j < l₁.length → l₁[j]?.getD 0 = l₂[j]?.getD 0) : l₁ = l₂ := by
  apply List.ext_getElem hl
  intro j h1 h2
  have := h j h1
  rw [List.getElem?_eq_getElem h1, List.getElem?_eq_getElem h2] at this
  simpa using this

/-- An XOR loop over disjoint ranges undoes itself. -/
theorem xorLoop_involutive (dst src n : Nat) (mods : List Nat)
    (hd : dst + n ≤ mods.length) (hdis : src + n ≤ dst ∨ dst + n ≤ src) :
    xorLoop dst src n (xorLoop dst src n mods) = mods := by
  have hlen := xorLoop_length dst src n mods
  apply ext_getD (by rw [xorLoop_length, hlen])
  intro j _
  rw [xorLoop_get dst src n _ (by rw [hlen]; exact hd) hdis j,
    xorLoop_get dst src n mods hd hdis j,
    xorLoop_get dst src n mods hd hdis (src + (j - dst))]
  by_cases c : dst ≤ j ∧ j < dst + n
  · have c2 : ¬ (dst ≤ src + (j - dst) ∧ src + (j - dst) < dst + n) := by omega
    simp only [c, c2, and_self, if_true, if_false]
    exact Nat.xor_cancel_right _ _
  · simp only [c, if_false]

/-- A swap loop over disjoint ranges undoes itself. -/
theorem swapLoop_involutive (a b n : Nat) (mods : List Nat)
    (ha : a + n ≤ mods.length) (hb : b + n ≤ mods.length)
    (hdis : a + n ≤ b ∨ b + n ≤ a) :
    swapLoop a b n (swapLoop a b n mods) = mods := by
  have hlen := swapLoop_length a b n mods
  apply ext_getD (by rw [swapLoop_length, hlen])
  intro j _
  rw [swapLoop_get a b n _ (by rw [hlen]; exact ha) (by rw [hlen]; exact hb) hdis j]
  by_cases c : a ≤ j ∧ j < a + n
  · rw [if_pos c, swapLoop_get a b n mods ha hb hdis (b + (j - a))]
    have c1 : ¬ (a ≤ b + (j - a) ∧ b + (j - a) < a + n) := by omega
    have c2 : b ≤ b + (j - a) ∧ b + (j - a) < b + n := by omega
    have e : a + (b + (j - a) - b) = j := by omega
    rw [if_neg c1, if_pos c2, e]
  · rw [if_neg c]
    by_cases d : b ≤ j ∧ j < b + n
    · rw [if_pos d, swapLoop_get a b n mods ha hb hdis (a + (j - b))]
      have c1 : a ≤ a + (j - b) ∧ a + (j - b) < a + n := by omega
      have e : b + (a + (j - b) - a) = j := by omega
      rw [if_pos c1, e]
    · rw [if_neg d, swapLoop_get a b n mods ha hb hdis j, if_neg c, if_neg d]

theorem ScrambleModulus_length (mods : List Nat) :
    (ScrambleModulus mods).length = mods.length := by
  unfold ScrambleModulus
  split
  · rfl
  · simp [xorLoop_length, swapLoop_length]

theorem UnscrambleModulus_length (mods : List Nat) :
    (UnscrambleModulus mods).length = mods.length := by
  unfold UnscrambleModulus
  split
  · rfl
  · simp [xorLoop_length, swapLoop_length]

/-- C10: for every 128-byte sequence M, UnscrambleModulus (ScrambleModulus M) = M and
ScrambleModulus (UnscrambleModulus M) = M. -/
theorem scramble_roundtrip (M : List Nat) (hM : M.length = 128) :
    UnscrambleModulus (ScrambleModulus M) = M ∧ ScrambleModulus (UnscrambleModulus M) = M := by
  constructor
  · have hl := ScrambleModulus_length M
    unfold UnscrambleModulus
    rw [if_neg (by rw [hl, hM]; simp)]
    unfold ScrambleModulus
    rw [if_neg (by rw [hM]; simp)]
    simp only
    rw [xorLoop_involutive _ _ _ _ (by simp [xorLoop_length, swapLoop_length, hM]) (by omega),
      xorLoop_involutive _ _ _ _ (by simp [xorLoop_length, swapLoop_length, hM]) (by omega),
      xorLoop_involutive _ _ _ _ (by simp [xorLoop_length, swapLoop_length, hM]) (by omega),
      swapLoop_involutive _ _ _ _ (by omega) (by omega) (by omega)]
  · have hl := UnscrambleModulus_length M
    unfold ScrambleModulus
    rw [if_neg (by rw [hl, hM]; simp)]
    unfold UnscrambleModulus
    rw [if_neg (by rw [hM]; simp)]
    simp only
    rw [swapLoop_involutive _ _ _ _ (by simp [xorLoop_length, swapLoop_length, hM])
        (by simp [xorLoop_length, swapLoop_length, hM]) (by omega),
      xorLoop_involutive _ _ _ _ (by simp [xorLoop_length, swapLoop_length, hM]) (by omega),
      xorLoop_involutive _ _ _ _ (by simp [xorLoop_length, swapLoop_length, hM]) (by omega),
      xorLoop_involutive _ _ _ _ (by omega) (by omega)]

theorem scramble_roundtrip_witness :
    (List.range 128).length = 128 ∧
    (UnscrambleModulus (ScrambleModulus (List.range 128)) = List.range 128 ∧
      ScrambleModulus (UnscrambleModulus (List.range 128)) = List.range 128) :=
  ⟨List.length_range 128, scramble_roundtrip (List.range 128) (List.length_range 128)⟩

end packets

namespace crypt

/-! ### XOR pass (C7) -/

/-- C7 fails on the code: on the 16-byte buffer `01 02 03 04 05 06 07 08` followed by 8
zero bytes and the key 7, EncXORPass obfuscates the word at offset 4 and stores the final
key `0x0807060C` at offset 8 (the 4 bytes before the last 4); DecXORPass then takes its key
from the last 4 bytes, which are zero, and leaves the word at offset 4 as `09 00 00 00`
instead of restoring `05 06 07 08`. -/
theorem xorPass_roundtrip_fails :
    EncXORPass sample.xorInput 0 16 7
      = some [1, 2, 3, 4, 9, 0, 0, 0, 12, 6, 7, 8, 0, 0, 0, 0] ∧
    DecXORPass [1, 2, 3, 4, 9, 0, 0, 0, 12, 6, 7, 8, 0, 0, 0, 0] 0 16
      = some [1, 2, 3, 4, 9, 0, 0, 0, 12, 6, 7, 8, 0, 0, 0, 0] ∧
    (EncXORPass sample.xorInput 0 16 7).bind (fun raw => DecXORPass raw 0 16)
      ≠ some sample.xorInput := by
  decide

end crypt

namespace outclient

open packets

/-! ### Init packet (C8) -/

theorem slice_mid (a m r : List Nat) (n k : Nat) (ha : a.length = n) (hm : m.length = k) :
    ((a ++ m ++ r).drop n).take k = m := by
  subst ha hm
  rw [List.append_assoc, List.drop_left, List.take_left]

/-- C8: for every connection with a 16-byte session id, a 128-byte RSA modulus M and a
16-byte dynamic Blowfish key, NewInitPacket returns exactly 170 bytes: byte 0 = 0x00, bytes
[1..5) = SessionID[0..4), bytes [5..9) = 21 C6 00 00, bytes [9..137) = ScrambleModulus(M),
bytes [137..153) = 4E 95 DD 29 FC 9C C3 77 20 B6 AD 97 F7 E0 BD 07, bytes [153..169) = the
dynamic key, byte 169 = 0x00. -/
theorem newInitPacket_layout (c : transport.Client) (hs : c.SessionID.length = 16)
    (hm : (bigBytes c.PrivateKey.N).length = 128) (hk : c.BlowfishKey.length = 16) :
    ∃ p, NewInitPacket c = some p ∧ p.length = 170 ∧
      p.take 1 = [0x00] ∧
      (p.drop 1).take 4 = c.SessionID.take 4 ∧
      (p.drop 5).take 4 = [0x21, 0xC6, 0x00, 0x00] ∧
      (p.drop 9).take 128 = ScrambleModulus (bigBytes c.PrivateKey.N) ∧
      (p.drop 137).take 16 = [0x4E, 0x95, 0xDD, 0x29, 0xFC, 0x9C, 0xC3, 0x77, 0x20, 0xB6,
        0xAD, 0x97, 0xF7, 0xE0, 0xBD, 0x07] ∧
      (p.drop 153).take 16 = c.BlowfishKey ∧
      p.drop 169 = [0x00] := by
  have hsl : sliceOf c.SessionID 0 4 = some (c.SessionID.take 4) := by
    unfold sliceOf
    rw [if_pos (by omega)]
    simp
  have h4 : (c.SessionID.take 4).length = 4 := by simp [hs]
  have hsc : (ScrambleModulus (bigBytes c.PrivateKey.N)).length = 128 := by
    rw [ScrambleModulus_length, hm]
  unfold NewInitPacket
  rw [hsl]
  refine ⟨_, rfl, ?_, ?_, ?_, ?_, ?_, ?_, ?_, ?_⟩
  · simp [WriteUInt32, h4, hsc, hk]
  · rfl
  · have := slice_mid [0x00] (c.SessionID.take 4) (WriteUInt32 0x0000c621
      ++ ScrambleModulus (bigBytes c.PrivateKey.N) ++ WriteUInt32 0x29DD954E
      ++ WriteUInt32 0x77C39CFC ++ WriteUInt32 0x97ADB620 ++ WriteUInt32 0x07BDE0F7
      ++ c.BlowfishKey ++ [0x00]) 1 4 rfl h4
    simpa [List.append_assoc] using this
  · have := slice_mid ([0x00] ++ c.SessionID.take 4) (WriteUInt32 0x0000c621)
      (ScrambleModulus (bigBytes c.PrivateKey.N) ++ WriteUInt32 0x29DD954E
      ++ WriteUInt32 0x77C39CFC ++ WriteUInt32 0x97ADB620 ++ WriteUInt32 0x07BDE0F7
      ++ c.BlowfishKey ++ [0x00]) 5 4 (by simp [h4]) rfl
    have e : WriteUInt32 0x0000c621 = [0x21, 0xC6, 0x00, 0x00] := by decide
    rw [e] at this
    rw [e]
    simpa [List.append_assoc] using this
  · have := slice_mid ([0x00] ++ c.SessionID.take 4 ++ WriteUInt32 0x0000c621)
      (ScrambleModulus (bigBytes c.PrivateKey.N)) (WriteUInt32 0x29DD954E
      ++ WriteUInt32 0x77C39CFC ++ WriteUInt32 0x97ADB620 ++ WriteUInt32 0x07BDE0F7
      ++ c.BlowfishKey ++ [0x00]) 9 128 (by simp [h4, WriteUInt32]) hsc
    simpa [List.append_assoc] using this
  · have := slice_mid ([0x00] ++ c.SessionID.take 4 ++ WriteUInt32 0x0000c621
      ++ ScrambleModulus (bigBytes c.PrivateKey.N)) (WriteUInt32 0x29DD954E
      ++ WriteUInt32 0x77C39CFC ++ WriteUInt32 0x97ADB620 ++ WriteUInt32 0x07BDE0F7)
      (c.BlowfishKey ++ [0x00]) 137 16 (by simp [h4, hsc, WriteUInt32]) rfl
    have e : WriteUInt32 0x29DD954E ++ WriteUInt32 0x77C39CFC ++ WriteUInt32 0x97ADB620
        ++ WriteUInt32 0x07BDE0F7 = [0x4E, 0x95, 0xDD, 0x29, 0xFC, 0x9C, 0xC3, 0x77, 0x20,
          0xB6, 0xAD, 0x97, 0xF7, 0xE0, 0xBD, 0x07] := by decide
    rw [e] at this
    rw [← this]
    simp [List.append_assoc, WriteUInt32]
  · have := slice_mid ([0x00] ++ c.SessionID.take 4 ++ WriteUInt32 0x0000c621
      ++ ScrambleModulus (bigBytes c.PrivateKey.N) ++ WriteUInt32 0x29DD954E
      ++ WriteUInt32 0x77C39CFC ++ WriteUInt32 0x97ADB620 ++ WriteUInt32 0x07BDE0F7)
      c.BlowfishKey [0x00] 153 16 (by simp [h4, hsc, WriteUInt32]) hk
    simpa [List.append_assoc] using this
  · have hl : ([0x00] ++ c.SessionID.take 4 ++ WriteUInt32 0x0000c621
      ++ ScrambleModulus (bigBytes c.PrivateKey.N) ++ WriteUInt32 0x29DD954E
      ++ WriteUInt32 0x77C39CFC ++ WriteUInt32 0x97ADB620 ++ WriteUInt32 0x07BDE0F7
      ++ c.BlowfishKey).length = 169 := by simp [h4, hsc, hk, WriteUInt32]
    rw [← hl, List.drop_left]

set_option maxRecDepth 100000 in
theorem newInitPacket_layout_witness :
    (sample.client.SessionID.length = 16 ∧
      (bigBytes sample.client.PrivateKey.N).length = 128 ∧
      sample.client.BlowfishKey.length = 16) ∧
    ∃ p, NewInitPacket sample.client = some p ∧ p.length = 170 ∧
      p.take 1 = [0x00] ∧
      (p.drop 1).take 4 = sample.client.SessionID.take 4 ∧
      (p.drop 5).take 4 = [0x21, 0xC6, 0x00, 0x00] ∧
      (p.drop 9).take 128 = ScrambleModulus (bigBytes sample.client.PrivateKey.N) ∧
      (p.drop 137).take 16 = [0x4E, 0x95, 0xDD, 0x29, 0xFC, 0x9C, 0xC3, 0x77, 0x20, 0xB6,
        0xAD, 0x97, 0xF7, 0xE0, 0xBD, 0x07] ∧
      (p.drop 153).take 16 = sample.client.BlowfishKey ∧
      p.drop 169 = [0x00] :=
  ⟨by decide, newInitPacket_layout sample.client (by decide) (by decide) (by decide)⟩

end outclient

namespace crypt

/-! ### Blowfish block loop and SendStatic (C9) -/

theorem mapBlocks_snoc (f : List Nat → List Nat) (n : Nat) (src : List Nat) :
    mapBlocks f (n + 1) src = mapBlocks f n src ++ f ((src.drop (n * 8)).take 8) := by
  induction n generalizing src with
  | zero => simp [mapBlocks]
  | succ n ih =>
    rw [mapBlocks, ih (src.drop 8), mapBlocks, List.append_assoc, List.drop_drop]
    have e : 8 + n * 8 = (n + 1) * 8 := by ring
    rw [e]

theorem mapBlocks_length (f : List Nat → List Nat)
    (hf : ∀ b : List Nat, b.length = 8 → (f b).length = 8) (n : Nat) (src : List Nat)
    (h : n * 8 ≤ src.length) : (mapBlocks f n src).length = n * 8 := by
  induction n generalizing src with
  | zero => simp [mapBlocks]
  | succ n ih =>
    rw [mapBlocks, List.length_append, hf _ (by rw [List.length_take]; omega),
      ih (src.drop 8) (by rw [List.length_drop]; omega)]
    ring

/-- The block loop maps the first `n` blocks and leaves the rest of `dst`. -/
theorem blockLoop_eq (f : List Nat → List Nat)
    (hf : ∀ b : List Nat, b.length = 8 → (f b).length = 8) (src dst : List Nat) (n : Nat)
    (hs : n * 8 ≤ src.length) (hd : n * 8 ≤ dst.length) :
    blockLoop f src n dst = mapBlocks f n src ++ dst.drop (n * 8) := by
  induction n with
  | zero => simp [blockLoop, mapBlocks]
  | succ n ih =>
    have ih' := ih (by omega) (by omega)
    have hl := mapBlocks_length f hf n src (by omega)
    simp only [blockLoop]
    rw [ih', mapBlocks_snoc, List.take_left' hl]
    have e : n * 8 + 8 = (mapBlocks f n src).length + 8 := by rw [hl]
    rw [e, List.drop_append, List.drop_drop]
    have e2 : n * 8 + 8 = (n + 1) * 8 := by ring
    rw [e2]

theorem mapBlocks_roundtrip (enc dec : List Nat → List Nat)
    (he : ∀ b : List Nat, b.length = 8 → (enc b).length = 8)
    (hinv : ∀ b : List Nat, b.length = 8 → dec (enc b) = b) (n : Nat) (P : List Nat)
    (h : n * 8 ≤ P.length) : mapBlocks dec n (mapBlocks enc n P) = P.take (n * 8) := by
  induction n generalizing P with
  | zero => simp [mapBlocks]
  | succ n ih =>
    have h8 : (P.take 8).length = 8 := by rw [List.length_take]; omega
    have hl := he _ h8
    rw [mapBlocks, mapBlocks, List.take_left' hl, List.drop_left' hl, hinv _ h8,
      ih (P.drop 8) (by rw [List.length_drop]; omega)]
    have e : (n + 1) * 8 = 8 + n * 8 := by ring
    rw [e, List.take_add]

/-- BlowfishEncrypt on a block-aligned buffer under a valid key. -/
theorem BlowfishEncrypt_eq (newCipher : blowfish.NewCipher) (cipher : blowfish.Cipher)
    (key P : List Nat) (hnew : newCipher key = some cipher) (hwf : cipher.WF)
    (h8 : P.length % 8 = 0) :
    BlowfishEncrypt newCipher P key = .ok (mapBlocks cipher.Encrypt (P.length / 8) P) := by
  unfold BlowfishEncrypt
  rw [hnew]
  simp only [h8, ne_eq, not_true_eq_false, if_false]
  rw [blockLoop_eq cipher.Encrypt (fun b hb => (hwf b hb).1) P _ _ (by omega)
    (by rw [List.length_replicate]; omega)]
  have e : P.length / 8 * 8 = (List.replicate P.length 0).length := by
    rw [List.length_replicate]; omega
  rw [e, List.drop_length, List.append_nil]

/-- BlowfishDecrypt on a block-aligned buffer under a valid key. -/
theorem BlowfishDecrypt_eq (newCipher : blowfish.NewCipher) (cipher : blowfish.Cipher)
    (key P : List Nat) (hnew : newCipher key = some cipher) (hwf : cipher.WF)
    (h8 : P.length % 8 = 0) :
    BlowfishDecrypt newCipher P key = .ok (mapBlocks cipher.Decrypt (P.length / 8) P) := by
  unfold BlowfishDecrypt
  rw [hnew]
  simp only [h8, ne_eq, not_true_eq_false, if_false]
  rw [blockLoop_eq cipher.Decrypt (fun b hb => (hwf b hb).2.1) P _ _ (by omega)
    (by rw [List.length_replicate]; omega)]
  have e : P.length / 8 * 8 = (List.replicate P.length 0).length := by
    rw [List.length_replicate]; omega
  rw [e, List.drop_length, List.append_nil]

/-- Decrypting what BlowfishEncrypt returns gives the buffer back. -/
theorem BlowfishDecrypt_BlowfishEncrypt (newCipher : blowfish.NewCipher)
    (cipher : blowfish.Cipher) (key P : List Nat) (hnew : newCipher key = some cipher)
    (hwf : cipher.WF) (hinv : cipher.Inverts) (h8 : P.length % 8 = 0) :
    ∃ wire, BlowfishEncrypt newCipher P key = .ok wire ∧ wire.length = P.length ∧
      BlowfishDecrypt newCipher wire key = .ok P := by
  have hl : (mapBlocks cipher.Encrypt (P.length / 8) P).length = P.length := by
    rw [mapBlocks_length _ (fun b hb => (hwf b hb).1) _ _ (by omega)]
    omega
  refine ⟨_, BlowfishEncrypt_eq newCipher cipher key P hnew hwf h8, hl, ?_⟩
  rw [BlowfishDecrypt_eq newCipher cipher key _ hnew hwf (by rw [hl]; exact h8), hl,
    mapBlocks_roundtrip _ _ (fun b hb => (hwf b hb).1) hinv _ _ (by omega)]
  have e : P.length / 8 * 8 = P.length := by omega
  rw [e, List.take_length]

theorem readWordX_some (raw : List Nat) (i : Nat) (h : i + 3 < raw.length) :
    ∃ w, readWordX raw i = some w := by
  unfold readWordX
  rw [List.getElem?_eq_getElem (by omega : i < raw.length),
    List.getElem?_eq_getElem (by omega : i + 1 < raw.length),
    List.getElem?_eq_getElem (by omega : i + 2 < raw.length),
    List.getElem?_eq_getElem h]
  exact ⟨_, rfl⟩

/-- The loop of EncXORPass does not panic inside the buffer and keeps its length. -/
theorem encLoop_some (n : Nat) (raw : List Nat) (pos ecx : Nat)
    (h : pos + 4 * n ≤ raw.length) :
    ∃ raw1 ecx1, encLoop raw n pos ecx = some (raw1, pos + 4 * n, ecx1) ∧
      raw1.length = raw.length := by
  induction n generalizing raw pos ecx with
  | zero => exact ⟨raw, ecx, rfl, rfl⟩
  | succ n ih =>
    obtain ⟨w, hw⟩ := readWordX_some raw pos (by omega)
    obtain ⟨raw', hraw'⟩ := writeWord_some raw pos (w ^^^ ((ecx + w) % 2 ^ 32)) (by omega)
    have hl := writeWord_length hraw'
    obtain ⟨raw1, ecx1, h1, hl1⟩ := ih raw' (pos + 4) ((ecx + w) % 2 ^ 32)
      (by rw [hl]; omega)
    refine ⟨raw1, ecx1, ?_, by rw [hl1, hl]⟩
    unfold encLoop
    rw [hw]
    simp only
    rw [hraw']
    simp only
    rw [h1]
    congr 3
    omega

/-- EncXORPass over a whole buffer of at least 8 bytes, a multiple of 4, does not panic
and keeps the length. -/
theorem EncXORPass_some (raw : List Nat) (key : Nat) (h4 : raw.length % 4 = 0)
    (h8 : 8 ≤ raw.length) :
    ∃ out, EncXORPass raw 0 raw.length key = some out ∧ out.length = raw.length := by
  have hit : 4 + 0 + 4 * iters (0 + raw.length - 8 - (4 + 0)) ≤ raw.length - 4 := by
    unfold iters; omega
  obtain ⟨raw1, ecx1, h1, hl1⟩ := encLoop_some (iters (0 + raw.length - 8 - (4 + 0))) raw
    (4 + 0) key (by omega)
  obtain ⟨out, hout⟩ := writeWord_some raw1
    (4 + 0 + 4 * iters (0 + raw.length - 8 - (4 + 0))) ecx1 (by rw [hl1]; omega)
  refine ⟨out, ?_, by rw [writeWord_length hout, hl1]⟩
  unfold EncXORPass
  simp only [h1, hout]

end crypt

namespace transport

open crypt

theorem padToBlock_eq (data : List Nat) :
    padToBlock data = data ++ List.replicate ((padToBlock data).length - data.length) 0 ∧
      (padToBlock data).length % 8 = 0 ∧ data.length ≤ (padToBlock data).length := by
  by_cases h : data.length % 8 ≠ 0
  · have e : padToBlock data = data ++ List.replicate (8 - data.length % 8) 0 := by
      show (if data.length % 8 ≠ 0 then _ else _) = _
      rw [if_pos h]
    rw [e]
    simp only [List.length_append, List.length_replicate]
    refine ⟨?_, by omega, by omega⟩
    congr 2
    omega
  · have e : padToBlock data = data := by
      show (if data.length % 8 ≠ 0 then _ else _) = _
      rw [if_neg h]
    rw [e]
    refine ⟨by simp, by omega, le_refl _⟩

/-- The buffer of SendStatic before the XOR pass is the data followed by zero bytes
only. -/
theorem staticBuffer_eq (B : List Nat) :
    padToBlock (B ++ [0x00, 0x00, 0x00, 0x00] ++ [0x00, 0x00, 0x00, 0x00]) =
      B ++ List.replicate
        ((padToBlock (B ++ [0x00, 0x00, 0x00, 0x00] ++ [0x00, 0x00, 0x00, 0x00])).length
          - B.length) 0 ∧
    (padToBlock (B ++ [0x00, 0x00, 0x00, 0x00] ++ [0x00, 0x00, 0x00, 0x00])).length % 8 = 0 ∧
    B.length + 8 ≤
      (padToBlock (B ++ [0x00, 0x00, 0x00, 0x00] ++ [0x00, 0x00, 0x00, 0x00])).length := by
  obtain ⟨h1, h2, h3⟩ := padToBlock_eq (B ++ [0x00, 0x00, 0x00, 0x00] ++ [0x00, 0x00, 0x00, 0x00])
  have hl : (B ++ [0x00, 0x00, 0x00, 0x00] ++ [0x00, 0x00, 0x00, 0x00]).length
      = B.length + 8 := by simp
  rw [hl] at h1 h3
  refine ⟨?_, h2, h3⟩
  have e : B ++ [0x00, 0x00, 0x00, 0x00] ++ [0x00, 0x00, 0x00, 0x00]
      = B ++ List.replicate 8 0 := by simp [List.replicate]
  generalize padToBlock (B ++ [0x00, 0x00, 0x00, 0x00] ++ [0x00, 0x00, 0x00, 0x00]) = p
    at h1 h3 ⊢
  rw [h1, e, List.append_assoc, ← List.replicate_add]
  congr 2
  simp only [List.length_append, List.length_replicate]
  omega

open crypt outclient

/-- The last word of a buffer that ends in at least 4 zero bytes reads as zero. -/
theorem readWord_zero_tail (B : List Nat) (m : Nat) (hm : 4 ≤ m) :
    readWord (B ++ List.replicate m 0) ((B ++ List.replicate m 0).length - 4) = some 0 := by
  have hl : (B ++ List.replicate m 0).length = B.length + m := by simp
  have hz : ∀ k, k < 4 →
      (B ++ List.replicate m 0)[(B ++ List.replicate m 0).length - 4 + k]? = some 0 := by
    intro k hk
    rw [List.getElem?_append_right (by rw [hl]; omega), List.getElem?_replicate,
      if_pos (by rw [hl]; omega)]
  unfold readWord
  have h0 := hz 0 (by omega)
  rw [Nat.add_zero] at h0
  rw [h0, hz 1 (by omega), hz 2 (by omega), hz 3 (by omega)]
  rfl

set_option maxRecDepth 100000 in
/-- C9 as stated fails: for the Init body of the sample connection and the XOR key
`0x12345678`, SendStatic hands a 184-byte buffer to Blowfish; on that buffer, which is
what decrypting the frame with the static key gives back, DecXORPass followed by
VerifyChecksum returns false, and VerifyChecksum is false already on the buffer before the
XOR pass, in which no checksum was stored. -/
theorem sendStatic_checksum_invalid :
    ((NewInitPacket sample.client).bind (fun B => staticPlain B 0x12345678)).map List.length
      = some 184 ∧
    (NewInitPacket sample.client).bind (fun B =>
      (staticPlain B 0x12345678).bind (fun plain =>
        (DecXORPass plain 0 plain.length).bind VerifyChecksum)) = some false ∧
    (NewInitPacket sample.client).bind (fun B =>
      VerifyChecksum (padToBlock (B ++ [0x00, 0x00, 0x00, 0x00] ++ [0x00, 0x00, 0x00, 0x00])))
      = some false := by
  decide

/-- C9, amended: the Init frame carries no checksum. For every Init body B and XOR key,
the buffer SendStatic builds is B followed by zero bytes only (4 for the checksum slot, 4
for the XOR key slot, padding to a multiple of 8), to which EncXORPass is applied without
a panic; AppendChecksum is not applied, so VerifyChecksum accepts the buffer before the XOR
pass only if the XOR of its words before the last is zero. On a healthy socket SendStatic
writes exactly the frame of the Blowfish encryption of the XOR-passed buffer under the
static client key, and decrypting that with the static client key gives the XOR-passed
buffer back (for a block cipher whose decryption inverts its encryption). -/
theorem sendStatic_carries_no_checksum (newCipher : blowfish.NewCipher)
    (cipher : blowfish.Cipher) (c : Client) (B : List Nat) (xorKey : Nat)
    (hnew : newCipher StaticBlowfishKey = some cipher) (hwf : cipher.WF)
    (hinv : cipher.Inverts) (hsock : (c.Socket.broken || c.Socket.closed) = false) :
    ∃ pre plain wire,
      pre = padToBlock (B ++ [0x00, 0x00, 0x00, 0x00] ++ [0x00, 0x00, 0x00, 0x00]) ∧
      pre = B ++ List.replicate (pre.length - B.length) 0 ∧
      B.length + 8 ≤ pre.length ∧ pre.length % 8 = 0 ∧
      EncXORPass pre 0 pre.length xorKey = some plain ∧ plain.length = pre.length ∧
      BlowfishEncryptStatic newCipher plain = .ok wire ∧ wire.length = plain.length ∧
      Client.SendStatic newCipher c B xorKey =
        some (none, { c with Socket :=
          { c.Socket with written := c.Socket.written ++ [frame wire] } }) ∧
      BlowfishDecrypt newCipher wire StaticBlowfishKey = .ok plain ∧
      ∃ chksum, foldWords pre (iters (pre.length - 4)) 0 0 = some (pre.length - 4, chksum) ∧
        VerifyChecksum pre = some (0 == chksum) := by
  obtain ⟨hp1, hp2, hp3⟩ := staticBuffer_eq B
  generalize hpre : padToBlock (B ++ [0x00, 0x00, 0x00, 0x00] ++ [0x00, 0x00, 0x00, 0x00])
    = pre at hp1 hp2 hp3
  obtain ⟨plain, hplain, hpl⟩ := EncXORPass_some pre xorKey (by omega) (by omega)
  obtain ⟨wire, hwire, hwl, hdec⟩ := BlowfishDecrypt_BlowfishEncrypt newCipher cipher
    StaticBlowfishKey plain hnew hwf hinv (by rw [hpl]; exact hp2)
  refine ⟨pre, plain, wire, rfl, hp1, hp3, hp2, hplain, hpl, hwire, hwl, ?_, hdec, ?_⟩
  · have hsp : staticPlain B xorKey = some plain := by
      unfold staticPlain
      simp only [hpre]
      exact hplain
    unfold Client.SendStatic
    rw [hsp]
    simp only
    unfold BlowfishEncryptStatic
    rw [hwire]
    simp only [Conn.Write, hsock]
    rfl
  · obtain ⟨chk, w, hc, hw, hv⟩ := VerifyChecksum_eq pre (by omega) (by omega)
    refine ⟨chk, hc, ?_⟩
    have hz := readWord_zero_tail B (pre.length - B.length) (by omega)
    rw [← hp1, hw] at hz
    simp only [Option.some.injEq] at hz
    rw [hv, hz]

end transport

namespace sample

theorem toyCipher_WF : toyCipher.WF := by
  intro b hb
  have hx : IsBytes b → IsBytes (b.map (fun x => x ^^^ 0x5a)) := by
    intro h y hy
    obtain ⟨x, hx, rfl⟩ := List.mem_map.1 hy
    exact Nat.xor_lt_two_pow (n := 8) (h x hx) (by norm_num)
  exact ⟨by simp [toyCipher, hb], by simp [toyCipher, hb], fun h => ⟨hx h, hx h⟩⟩

theorem toyCipher_Inverts : toyCipher.Inverts := by
  intro b _
  simp only [toyCipher, List.map_map]
  have : ((fun x => x ^^^ 0x5a) ∘ fun x => x ^^^ 0x5a) = (id : Nat → Nat) := by
    funext x
    exact Nat.xor_cancel_right 0x5a x
  rw [this, List.map_id]

end sample

namespace transport

open crypt outclient

theorem sendStatic_carries_no_checksum_witness :
    (sample.toyNewCipher StaticBlowfishKey = some sample.toyCipher ∧
      sample.toyCipher.WF ∧ sample.toyCipher.Inverts ∧
      (sample.client.Socket.broken || sample.client.Socket.closed) = false) ∧
    ∃ pre plain wire,
      pre = padToBlock ([0x00, 0x01, 0x02] ++ [0x00, 0x00, 0x00, 0x00]
        ++ [0x00, 0x00, 0x00, 0x00]) ∧
      pre = [0x00, 0x01, 0x02] ++ List.replicate (pre.length - [0x00, 0x01, 0x02].length) 0 ∧
      [0x00, 0x01, 0x02].length + 8 ≤ pre.length ∧ pre.length % 8 = 0 ∧
      EncXORPass pre 0 pre.length 7 = some plain ∧ plain.length = pre.length ∧
      BlowfishEncryptStatic sample.toyNewCipher plain = .ok wire ∧
      wire.length = plain.length ∧
      Client.SendStatic sample.toyNewCipher sample.client [0x00, 0x01, 0x02] 7 =
        some (none, { sample.client with Socket :=
          { sample.client.Socket with
            written := sample.client.Socket.written ++ [frame wire] } }) ∧
      BlowfishDecrypt sample.toyNewCipher wire StaticBlowfishKey = .ok plain ∧
      ∃ chksum, foldWords pre (iters (pre.length - 4)) 0 0 = some (pre.length - 4, chksum) ∧
        VerifyChecksum pre = some (0 == chksum) :=
  ⟨⟨rfl, sample.toyCipher_WF, sample.toyCipher_Inverts, by decide⟩,
    sendStatic_carries_no_checksum sample.toyNewCipher sample.toyCipher sample.client
      [0x00, 0x01, 0x02] 7 rfl sample.toyCipher_WF sample.toyCipher_Inverts (by decide)⟩

end transport

namespace crypt

/-! ### Client handlers (C4) -/

/-- AppendChecksum does not panic on a buffer of at least 4 bytes, a multiple of 4. -/
theorem AppendChecksum_some (raw : List Nat) (h4 : raw.length % 4 = 0)
    (hl : 4 ≤ raw.length) : ∃ out, AppendChecksum raw = some out ∧ out.length = raw.length := by
  have hit : 0 + 4 * iters (0 + raw.length - 4) = raw.length - 4 := by unfold iters; omega
  obtain ⟨c, hc, _⟩ := foldWords_some raw (iters (0 + raw.length - 4)) 0 0 (by omega)
    (by norm_num)
  rw [hit] at hc
  obtain ⟨w, hw, _⟩ := readWord_some raw (raw.length - 4) (by omega)
  obtain ⟨out, hout⟩ := writeWord_some raw (raw.length - 4) c (by omega)
  refine ⟨out, ?_, writeWord_length hout⟩
  unfold AppendChecksum
  simp only [hc, hw, hout]

end crypt

namespace transport

open crypt

/-- Client.Send without `params` does not panic, and changes nothing of the client but
its socket. -/
theorem Send_some (newCipher : blowfish.NewCipher) (c : Client) (data : List Nat) :
    ∃ e s, c.Send newCipher data [] = some (e, { c with Socket := s }) := by
  obtain ⟨_, h8, hle⟩ := padToBlock_eq (data ++ [0x00, 0x00, 0x00, 0x00])
  have hl : 4 ≤ (padToBlock (data ++ [0x00, 0x00, 0x00, 0x00])).length := by
    have : (data ++ [0x00, 0x00, 0x00, 0x00]).length = data.length + 4 := by simp
    omega
  obtain ⟨out, hout, _⟩ := AppendChecksum_some
    (padToBlock (data ++ [0x00, 0x00, 0x00, 0x00])) (by omega) hl
  have e1 : (!(decide (([] : List Bool).length ≥ 1) && ([] : List Bool).getD 0 true == false))
      = true := by decide
  have e2 : (!(decide (([] : List Bool).length ≥ 2) && ([] : List Bool).getD 1 true == false))
      = true := by decide
  unfold Client.Send
  simp only [e1, e2, if_true, hout]
  cases BlowfishEncrypt newCipher out c.BlowfishKey with
  | error e => exact ⟨some e, c.Socket, rfl⟩
  | ok data2 =>
    rcases hw : c.Socket.Write (frame data2) with ⟨e, s⟩
    cases e with
    | none => exact ⟨none, s, by simp only [hw]⟩
    | some e => exact ⟨some "The packet couldn't be sent.", s, by simp only [hw]⟩

end transport

namespace handlers

open packets outclient transport

theorem sendDropErr_some (env : Env) (c : Client) (data : List Nat) :
    ∃ e s, c.Send env.newCipher data [] = some (e, { c with Socket := s }) ∧
      sendDropErr env c data = some { c with Socket := s } := by
  obtain ⟨e, s, h⟩ := Send_some env.newCipher c data
  refine ⟨e, s, h, ?_⟩
  unfold sendDropErr
  rw [h]

theorem Uint32At_some (s : List Nat) (lo : Nat) (h : lo + 4 ≤ s.length) :
    ∃ v, Uint32At s lo = some v := by
  unfold Uint32At
  rw [if_pos h]
  exact ⟨_, rfl⟩

theorem NewLoginOkPacket_some (sessionID : List Nat) (h : 8 ≤ sessionID.length) :
    ∃ p, NewLoginOkPacket sessionID = some p := by
  unfold NewLoginOkPacket sliceOf
  rw [if_pos (by omega), if_pos (by omega)]
  exact ⟨_, rfl⟩

/-- HandleAuthLogin writes nothing but the accounts table. -/
theorem HandleAuthLogin_session (env : Env) (now : Time) (l l1 : LoginServer)
    (request : Option inclient.RequestAuthLogin) (r : Except usecase.AuthError models.Account)
    (h : usecase.HandleAuthLogin env now l request = some (r, l1)) :
    l1.session = l.session ∧ l1.eventBus = l.eventBus ∧
      l1.gameServerRegistry = l.gameServerRegistry := by
  unfold usecase.HandleAuthLogin at h
  cases request with
  | none => cases h
  | some req =>
    simp only at h
    split at h
    · cases h; exact ⟨rfl, rfl, rfl⟩
    · split at h
      · cases h; exact ⟨rfl, rfl, rfl⟩
      · split at h <;> (cases h; exact ⟨rfl, rfl, rfl⟩)
    · split at h
      · split at h
        · cases h; exact ⟨rfl, rfl, rfl⟩
        · split at h <;> (cases h; exact ⟨rfl, rfl, rfl⟩)
      · cases h; exact ⟨rfl, rfl, rfl⟩

theorem RequestCharacterCounts_session (l : LoginServer) (account : String) :
    (usecase.RequestCharacterCountsFromAllServers l account).2.session = l.session := by
  unfold usecase.RequestCharacterCountsFromAllServers
  cases l.eventBus <;> rfl

open packets outclient transport usecase

/-- The payload of a RequestServerLogin with the session echo `echo` and server id `s`. -/
theorem NewRequestServerLogin_serverID (echo : List Nat) (s : Nat) (rest : List Nat)
    (h : echo.length = 8) :
    (inclient.NewRequestServerLogin (echo ++ s :: rest)).ServerID = s := by
  unfold inclient.NewRequestServerLogin Reader.ReadBytes Reader.ReadUInt8
  have h1 : ¬ (echo ++ s :: rest).length < 8 := by simp [h]
  simp only [h1, if_false]
  have h2 : List.drop 8 (echo ++ s :: rest) = s :: rest := by
    rw [← h, List.drop_left]
  rw [h2]
  simp

/-- C4: a successful RequestAuthLogin (the payload parses and HandleAuthLogin returns an
account) on a connection with a 16-byte session id replies LoginOk, by one Send of the
LoginOk packet, and leaves the session ledger unchanged; a subsequent RequestServerLogin
with server id s on that connection, in whatever state the server is by then and with both
random reads succeeding, mints a key for (account, s) whose LoginKey1/2 are the
connection's LoginOkID1/2, leaves every other account's entry as it is, replies PlayOk, by
one Send, carrying exactly the PlayKey1/PlayKey2 stored in the ledger, and sets the
connection's LastServer to s. -/
theorem mint_timing (env : Env) (now now' : Time) (l lA l' : LoginServer) (c : Client)
    (data echo rest : List Nat) (s : Nat) (req : inclient.RequestAuthLogin)
    (account : models.Account) (d1 d2 : Nat × Nat × Nat × Nat)
    (hsid : c.SessionID.length = 16)
    (hparse : inclient.NewRequestAuthLogin env c data = some (.ok req))
    (hauth : HandleAuthLogin env now l (some req) = some (.ok account, lA))
    (hecho : echo.length = 8) :
    ∃ l1 c1 loginOk id1 id2 e1,
      handleRequestAuthLogin env now l c data = some (none, l1, c1) ∧
      NewLoginOkPacket c.SessionID = some loginOk ∧
      Uint32At c.SessionID 0 = some id1 ∧ Uint32At c.SessionID 4 = some id2 ∧
      Client.Send env.newCipher
        { c with Account := some account, AccessLevel := account.AccessLevel,
                 LoginOkID1 := id1, LoginOkID2 := id2 } loginOk [] = some (e1, c1) ∧
      l1.session = l.session ∧
      ∃ key l2 c2 e2,
        handleRequestServerLogin env now' (.ok d1) (.ok d2) l' c1 (echo ++ s :: rest)
          = some (none, l2, c2) ∧
        l2.session.sessionKeys.get account.Username = some key ∧
        (∀ b, b ≠ account.Username →
          l2.session.sessionKeys.get b = l'.session.sessionKeys.get b) ∧
        key.Account = account.Username ∧ key.ServerID = (s : Int) ∧
        key.LoginKey1 = c1.LoginOkID1 ∧ key.LoginKey2 = c1.LoginOkID2 ∧
        c1.LoginOkID1 = id1 ∧ c1.LoginOkID2 = id2 ∧
        Client.Send env.newCipher { c1 with LastServer := (s : Int) }
          (NewPlayOk key.PlayKey1 key.PlayKey2).GetData [] = some (e2, c2) ∧
        c2.LastServer = (s : Int) := by
  obtain ⟨id1, hid1⟩ := Uint32At_some c.SessionID 0 (by omega)
  obtain ⟨id2, hid2⟩ := Uint32At_some c.SessionID 4 (by omega)
  obtain ⟨loginOk, hok⟩ := NewLoginOkPacket_some c.SessionID (by omega)
  obtain ⟨e1, s1, hsend1, hdrop1⟩ := sendDropErr_some env
    { c with Account := some account, AccessLevel := account.AccessLevel,
             LoginOkID1 := id1, LoginOkID2 := id2 } loginOk
  have hsess := (HandleAuthLogin_session env now l lA (some req) _ hauth).1
  have hA : handleRequestAuthLogin env now l c data =
      some (none, (RequestCharacterCountsFromAllServers lA account.Username).2,
        { c with Account := some account, AccessLevel := account.AccessLevel,
                 LoginOkID1 := id1, LoginOkID2 := id2, Socket := s1 }) := by
    unfold handleRequestAuthLogin
    simp only [hparse, hauth, hid1, hid2, hok, hdrop1]
  refine ⟨_, _, loginOk, id1, id2, e1, hA, hok, hid1, hid2, hsend1, ?_, ?_⟩
  · rw [RequestCharacterCounts_session, hsess]
  · obtain ⟨a0, a1, a2, a3⟩ := d1
    obtain ⟨b0, b1, b2, b3⟩ := d2
    have hsrv := NewRequestServerLogin_serverID echo s rest hecho
    obtain ⟨e2, s2, hsend2, hdrop2⟩ := sendDropErr_some env
      { c with Account := some account, AccessLevel := account.AccessLevel,
               LoginOkID1 := id1, LoginOkID2 := id2, Socket := s1, LastServer := (s : Int) }
      (NewPlayOk (a0 ||| a1 <<< 8 ||| a2 <<< 16 ||| a3 <<< 24)
        (b0 ||| b1 <<< 8 ||| b2 <<< 16 ||| b3 <<< 24)).GetData
    refine ⟨⟨id1, id2, a0 ||| a1 <<< 8 ||| a2 <<< 16 ||| a3 <<< 24,
        b0 ||| b1 <<< 8 ||| b2 <<< 16 ||| b3 <<< 24, account.Username, (s : Int), now'⟩,
      { l' with session := ⟨GoMap.set l'.session.sessionKeys account.Username
          ⟨id1, id2, a0 ||| a1 <<< 8 ||| a2 <<< 16 ||| a3 <<< 24,
            b0 ||| b1 <<< 8 ||| b2 <<< 16 ||| b3 <<< 24, account.Username, (s : Int), now'⟩,
          l'.session.maxSessionAge⟩ },
      { c with Account := some account, AccessLevel := account.AccessLevel,
               LoginOkID1 := id1, LoginOkID2 := id2, Socket := s2,
               LastServer := (s : Int) },
      e2, ?_, ?_, ?_, rfl, rfl, rfl, rfl, rfl, rfl, hsend2, rfl⟩
    · unfold handleRequestServerLogin HandleRequestServerLogin CreateSessionKey
        generateRandomUint32
      simp only [hsrv, Bool.not_true, Bool.false_eq_true, if_false, hdrop2]
    · exact GoMap.get_set_self _ _ _
    · intro b hb
      exact GoMap.get_set_ne _ _ hb

set_option maxRecDepth 100000 in
theorem mint_timing_witness :
    (sample.client.SessionID.length = 16 ∧
      inclient.NewRequestAuthLogin sample.env sample.client sample.authPayload
        = some (.ok { Username := "alice", Password := "secret" }) ∧
      HandleAuthLogin sample.env 1000 sample.loginServer
        (some { Username := "alice", Password := "secret" })
        = some (.ok sample.aliceAccount, sample.loginServer) ∧
      (List.range 8).length = 8) ∧
    ∃ l1 c1 loginOk id1 id2 e1,
      handleRequestAuthLogin sample.env 1000 sample.loginServer sample.client
        sample.authPayload = some (none, l1, c1) ∧
      NewLoginOkPacket sample.client.SessionID = some loginOk ∧
      Uint32At sample.client.SessionID 0 = some id1 ∧
      Uint32At sample.client.SessionID 4 = some id2 ∧
      Client.Send sample.env.newCipher
        { sample.client with Account := some sample.aliceAccount,
                             AccessLevel := sample.aliceAccount.AccessLevel,
                             LoginOkID1 := id1, LoginOkID2 := id2 } loginOk []
        = some (e1, c1) ∧
      l1.session = sample.loginServer.session ∧
      ∃ key l2 c2 e2,
        handleRequestServerLogin sample.env 2000 (.ok (0x11, 0x11, 0x11, 0x11))
          (.ok (0x22, 0x22, 0x22, 0x22)) sample.loginServer c1 (List.range 8 ++ 1 :: [])
          = some (none, l2, c2) ∧
        l2.session.sessionKeys.get sample.aliceAccount.Username = some key ∧
        (∀ b, b ≠ sample.aliceAccount.Username →
          l2.session.sessionKeys.get b = sample.loginServer.session.sessionKeys.get b) ∧
        key.Account = sample.aliceAccount.Username ∧ key.ServerID = ((1 : Nat) : Int) ∧
        key.LoginKey1 = c1.LoginOkID1 ∧ key.LoginKey2 = c1.LoginOkID2 ∧
        c1.LoginOkID1 = id1 ∧ c1.LoginOkID2 = id2 ∧
        Client.Send sample.env.newCipher { c1 with LastServer := ((1 : Nat) : Int) }
          (NewPlayOk key.PlayKey1 key.PlayKey2).GetData [] = some (e2, c2) ∧
        c2.LastServer = ((1 : Nat) : Int) :=
  ⟨⟨by decide, rfl, rfl, by decide⟩,
    mint_timing sample.env 1000 2000 sample.loginServer sample.loginServer
      sample.loginServer sample.client sample.authPayload (List.range 8) [] 1
      { Username := "alice", Password := "secret" } sample.aliceAccount
      (0x11, 0x11, 0x11, 0x11) (0x22, 0x22, 0x22, 0x22) (by decide) rfl rfl (by decide)⟩

end handlers

namespace crypt

/-! ### Blowfish round trip (C11) -/

/-- C11: under a key that the cipher accepts, whose block operations map 8-byte blocks to
8-byte blocks and whose block decryption inverts its block encryption, BlowfishEncrypt of
a buffer whose length is a multiple of 8 succeeds with an output of the same length, and
BlowfishDecrypt of that output under the same key returns the buffer; on a buffer whose
length is not a multiple of 8 both functions return an error and no data, under any
key. -/
theorem blowfish_roundtrip (newCipher : blowfish.NewCipher) (K P : List Nat) :
    (∀ cipher, newCipher K = some cipher → cipher.WF → cipher.Inverts → P.length % 8 = 0 →
      ∃ E, BlowfishEncrypt newCipher P K = .ok E ∧ E.length = P.length ∧
        BlowfishDecrypt newCipher E K = .ok P) ∧
    (P.length % 8 ≠ 0 →
      (∃ e, BlowfishEncrypt newCipher P K = .error e) ∧
      (∃ e, BlowfishDecrypt newCipher P K = .error e)) := by
  refine ⟨fun cipher hnew hwf hinv h8 =>
    BlowfishDecrypt_BlowfishEncrypt newCipher cipher K P hnew hwf hinv h8, fun h8 => ?_⟩
  unfold BlowfishEncrypt BlowfishDecrypt
  cases newCipher K with
  | none => exact ⟨⟨_, rfl⟩, ⟨_, rfl⟩⟩
  | some cipher =>
    simp only [h8, ne_eq, not_false_eq_true, if_true]
    exact ⟨⟨_, rfl⟩, ⟨_, rfl⟩⟩

end crypt

namespace crypt

theorem blowfish_roundtrip_witness :
    (sample.toyNewCipher StaticBlowfishKey = some sample.toyCipher ∧ sample.toyCipher.WF ∧
      sample.toyCipher.Inverts ∧ sample.checkedPacket.length % 8 = 0 ∧
      [1, 2, 3].length % 8 ≠ 0) ∧
    (∃ E, BlowfishEncrypt sample.toyNewCipher sample.checkedPacket StaticBlowfishKey = .ok E ∧
      E.length = sample.checkedPacket.length ∧
      BlowfishDecrypt sample.toyNewCipher E StaticBlowfishKey = .ok sample.checkedPacket) ∧
    ((∃ e, BlowfishEncrypt sample.toyNewCipher [1, 2, 3] StaticBlowfishKey = .error e) ∧
      (∃ e, BlowfishDecrypt sample.toyNewCipher [1, 2, 3] StaticBlowfishKey = .error e)) :=
  ⟨⟨rfl, sample.toyCipher_WF, sample.toyCipher_Inverts, by decide, by decide⟩,
    (blowfish_roundtrip sample.toyNewCipher StaticBlowfishKey sample.checkedPacket).1
      sample.toyCipher rfl sample.toyCipher_WF sample.toyCipher_Inverts (by decide),
    (blowfish_roundtrip sample.toyNewCipher StaticBlowfishKey [1, 2, 3]).2 (by decide)⟩

end crypt

/-! ### Plaintext layout of Send (C12) -/

namespace crypt

/-- What AppendChecksum does to a buffer whose length is a multiple of 4, at least 8: the
bytes before the last four stay, and the last four then read as the XOR of the words before
them, so that VerifyChecksum accepts the result. -/
theorem AppendChecksum_layout (P : List Nat) (h4 : P.length % 4 = 0) (hlen : 4 < P.length) :
    ∃ Q chksum, AppendChecksum P = some Q ∧ Q.length = P.length ∧
      (∀ j, j < P.length - 4 → Q[j]? = P[j]?) ∧
      foldWords Q (iters (Q.length - 4)) 0 0 = some (Q.length - 4, chksum) ∧
      readWord Q (Q.length - 4) = some chksum ∧ VerifyChecksum Q = some true := by
  have hit : 0 + 4 * iters (0 + P.length - 4) = P.length - 4 := by unfold iters; omega
  obtain ⟨c, hc, hlt⟩ := foldWords_some P (iters (0 + P.length - 4)) 0 0
    (by omega) (by norm_num)
  rw [hit] at hc
  obtain ⟨w, hw, _⟩ := readWord_some P (P.length - 4) (by omega)
  obtain ⟨Q, hQ⟩ := writeWord_some P (P.length - 4) c (by omega)
  have hA : AppendChecksum P = some Q := by
    unfold AppendChecksum
    simp only [hc, hw, hQ]
  have hl : Q.length = P.length := writeWord_length hQ
  have hpre : ∀ j, j < P.length - 4 → Q[j]? = P[j]? :=
    fun j hj => writeWord_get_other hQ j (Or.inl hj)
  simp only [Nat.zero_add] at hc hit
  have hfold : foldWords Q (iters (Q.length - 4)) 0 0 = some (Q.length - 4, c) := by
    rw [hl, foldWords_congr P Q _ 0 0 (fun j hj => hpre j (by omega))]
    exact hc
  have hread : readWord Q (Q.length - 4) = some c := by
    rw [hl]; exact readWord_writeWord hlt hQ
  refine ⟨Q, c, hA, hl, hpre, hfold, hread, ?_⟩
  obtain ⟨c', w', h1, h2, h3⟩ := VerifyChecksum_eq Q (by omega) (by omega)
  rw [hfold] at h1
  rw [hread] at h2
  cases h1
  cases h2
  rw [h3]
  simp

end crypt

namespace transport

open crypt

/-- The buffer of Send before the checksum is the data followed by zero bytes only, up to
the first multiple of 8 that leaves room for 4 bytes. -/
theorem checkedBuffer_eq (D : List Nat) :
    padToBlock (D ++ [0x00, 0x00, 0x00, 0x00]) =
      D ++ List.replicate ((padToBlock (D ++ [0x00, 0x00, 0x00, 0x00])).length - D.length) 0 ∧
    (padToBlock (D ++ [0x00, 0x00, 0x00, 0x00])).length % 8 = 0 ∧
    D.length + 4 ≤ (padToBlock (D ++ [0x00, 0x00, 0x00, 0x00])).length ∧
    (padToBlock (D ++ [0x00, 0x00, 0x00, 0x00])).length < D.length + 12 := by
  have hl : (D ++ [0x00, 0x00, 0x00, 0x00]).length = D.length + 4 := by simp
  have hlt : (padToBlock (D ++ [0x00, 0x00, 0x00, 0x00])).length < D.length + 12 := by
    unfold padToBlock
    simp only
    split
    · rw [List.length_append, List.length_replicate, hl]; omega
    · omega
  obtain ⟨h1, h2, h3⟩ := padToBlock_eq (D ++ [0x00, 0x00, 0x00, 0x00])
  rw [hl] at h1 h3
  refine ⟨?_, h2, h3, hlt⟩
  have e : D ++ [0x00, 0x00, 0x00, 0x00] = D ++ List.replicate 4 0 := by simp [List.replicate]
  generalize padToBlock (D ++ [0x00, 0x00, 0x00, 0x00]) = p at h1 h3 ⊢
  rw [h1, e, List.append_assoc, ← List.replicate_add]
  congr 2
  simp only [List.length_append, List.length_replicate]
  omega

/-- The layout of the buffer that Send hands to Blowfish. -/
theorem checkedPlain_layout (D : List Nat) :
    ∃ plain chksum, checkedPlain D = some plain ∧
      plain.length % 8 = 0 ∧ D.length + 4 ≤ plain.length ∧ plain.length < D.length + 12 ∧
      (∀ j, j < D.length → plain[j]? = D[j]?) ∧
      (∀ j, D.length ≤ j → j < plain.length - 4 → plain[j]? = some 0) ∧
      foldWords plain (iters (plain.length - 4)) 0 0 = some (plain.length - 4, chksum) ∧
      readWord plain (plain.length - 4) = some chksum ∧
      VerifyChecksum plain = some true := by
  obtain ⟨h1, h2, h3, h4⟩ := checkedBuffer_eq D
  obtain ⟨Q, c, hA, hl, hpre, hfold, hread, hv⟩ :=
    AppendChecksum_layout (padToBlock (D ++ [0x00, 0x00, 0x00, 0x00])) (by omega) (by omega)
  refine ⟨Q, c, hA, by omega, by omega, by omega, ?_, ?_, hfold, hread, hv⟩
  · intro j hj
    rw [hpre j (by omega), h1, List.getElem?_append_left hj]
  · intro j hj1 hj2
    rw [hpre j (by omega), h1, List.getElem?_append_right hj1, List.getElem?_replicate,
      if_pos (by omega)]

/-- Client.Send without `params` is the Blowfish encryption and framing of
`checkedPlain`. -/
theorem Client_Send_eq (newCipher : blowfish.NewCipher) (c : Client) (D plain : List Nat)
    (h : checkedPlain D = some plain) :
    c.Send newCipher D [] =
      match BlowfishEncrypt newCipher plain c.BlowfishKey with
      | .error e => some (some e, c)
      | .ok wire =>
        match c.Socket.Write (frame wire) with
        | (some _, s) => some (some "The packet couldn't be sent.", { c with Socket := s })
        | (none, s) => some (none, { c with Socket := s }) := by
  have e1 : (!(decide (([] : List Bool).length ≥ 1) && ([] : List Bool).getD 0 true == false))
      = true := by decide
  have e2 : (!(decide (([] : List Bool).length ≥ 2) && ([] : List Bool).getD 1 true == false))
      = true := by decide
  unfold checkedPlain at h
  unfold Client.Send
  simp only [e1, e2, if_true, h]

/-- GameServer.Send is the Blowfish encryption and framing of `checkedPlain`. -/
theorem GameServer_Send_eq (newCipher : blowfish.NewCipher) (gs : GameServer)
    (D plain : List Nat) (h : checkedPlain D = some plain) :
    gs.Send newCipher D =
      match (match gs.DynamicBlowfishKey with
        | some key => BlowfishEncrypt newCipher plain key
        | none => BlowfishEncryptGameServer newCipher plain) with
      | .error e => some (some ("error encrypting packet: " ++ e), gs)
      | .ok wire =>
        match gs.Socket.Write (frame wire) with
        | (some e, s) => some (some ("error sending packet: " ++ e), { gs with Socket := s })
        | (none, s) => some (none, { gs with Socket := s }) := by
  unfold GameServer.Send
  simp only [h]

/-- C12 as stated fails: for the 5-byte payload `01 02 03 04 05`, Client.Send on the sample
connection writes one frame whose body decrypts, under the connection key, to the 16 bytes
`01 02 03 04 05 00 00 00 00 00 00 00 04 02 03 04`, which is the buffer `checkedPlain` that
GameServer.Send encrypts as well: the checksum `04 02 03 04` is in the last four bytes,
after the zero padding, and the buffer is not the payload followed by four bytes followed
by zero bytes only. -/
theorem send_checksum_after_padding :
    checkedPlain [1, 2, 3, 4, 5] = some [1, 2, 3, 4, 5, 0, 0, 0, 0, 0, 0, 0, 4, 2, 3, 4] ∧
    (∃ wire,
      sample.client.Send sample.toyNewCipher [1, 2, 3, 4, 5] [] =
        some (none, { sample.client with Socket :=
          { sample.client.Socket with written := [frame wire] } }) ∧
      BlowfishDecrypt sample.toyNewCipher wire sample.client.BlowfishKey =
        .ok [1, 2, 3, 4, 5, 0, 0, 0, 0, 0, 0, 0, 4, 2, 3, 4]) ∧
    ¬ ∃ chk pad, chk.length = 4 ∧ (∀ b ∈ pad, b = 0) ∧
      [1, 2, 3, 4, 5, 0, 0, 0, 0, 0, 0, 0, 4, 2, 3, 4] = [1, 2, 3, 4, 5] ++ chk ++ pad := by
  refine ⟨by decide, ⟨_, rfl, rfl⟩, ?_⟩
  rintro ⟨chk, pad, hchk, hpad, h⟩
  have h1 : [0, 0, 0, 0, 0, 0, 0, 4, 2, 3, 4] = chk ++ pad := by
    rw [List.append_assoc] at h
    have h0 : [1, 2, 3, 4, 5] ++ [0, 0, 0, 0, 0, 0, 0, 4, 2, 3, 4]
        = [1, 2, 3, 4, 5] ++ (chk ++ pad) := h
    exact List.append_cancel_left h0
  have h2 : pad = [0, 0, 0, 4, 2, 3, 4] := by
    have := congrArg (List.drop 4) h1
    rw [List.drop_left' hchk] at this
    exact this.symm
  have := hpad 4 (by rw [h2]; decide)
  omega

/-- C12, amended: for every payload `D`, Client.Send (without `params`) and GameServer.Send
hand the same buffer to Blowfish; its length is the first multiple of 8 that is at least
`len(D) + 4`; it is `D`, followed by zero bytes up to its last four bytes, followed by the
4-byte checksum in its last four bytes, which is the XOR of all the words before it, so
that VerifyChecksum accepts the buffer. -/
theorem send_plaintext_layout (newCipher : blowfish.NewCipher) (c : Client) (gs : GameServer)
    (D : List Nat) :
    ∃ plain chksum,
      (c.Send newCipher D [] =
        match BlowfishEncrypt newCipher plain c.BlowfishKey with
        | .error e => some (some e, c)
        | .ok wire =>
          match c.Socket.Write (frame wire) with
          | (some _, s) => some (some "The packet couldn't be sent.", { c with Socket := s })
          | (none, s) => some (none, { c with Socket := s })) ∧
      (gs.Send newCipher D =
        match (match gs.DynamicBlowfishKey with
          | some key => BlowfishEncrypt newCipher plain key
          | none => BlowfishEncryptGameServer newCipher plain) with
        | .error e => some (some ("error encrypting packet: " ++ e), gs)
        | .ok wire =>
          match gs.Socket.Write (frame wire) with
          | (some e, s) => some (some ("error sending packet: " ++ e), { gs with Socket := s })
          | (none, s) => some (none, { gs with Socket := s })) ∧
      plain.length % 8 = 0 ∧ D.length + 4 ≤ plain.length ∧ plain.length < D.length + 12 ∧
      (∀ j, j < D.length → plain[j]? = D[j]?) ∧
      (∀ j, D.length ≤ j → j < plain.length - 4 → plain[j]? = some 0) ∧
      foldWords plain (iters (plain.length - 4)) 0 0 = some (plain.length - 4, chksum) ∧
      readWord plain (plain.length - 4) = some chksum ∧
      VerifyChecksum plain = some true := by
  obtain ⟨plain, chksum, h, rest⟩ := checkedPlain_layout D
  exact ⟨plain, chksum, Client_Send_eq newCipher c D plain h,
    GameServer_Send_eq newCipher gs D plain h, rest⟩

end transport

/-! ### Frame lengths on Receive (C13) -/

namespace transport

open crypt

/-- Client.Receive returns an error for a frame whose body length is not a multiple
of 8. -/
theorem Client_Receive_misaligned (newCipher : blowfish.NewCipher) (c : Client)
    (r1 r2 : ReadResult) (hn : r1.bytes.length = 2) (he : r1.err = none)
    (hs : 2 ≤ r1.bytes.getD 0 0 + r1.bytes.getD 1 0 * 256)
    (h8 : (r1.bytes.getD 0 0 + r1.bytes.getD 1 0 * 256 - 2) % 8 ≠ 0) :
    ∃ msg, c.Receive newCipher r1 r2 = .error msg := by
  unfold Client.Receive
  have g1 : ¬ (r1.bytes.length ≠ 2 ∨ r1.err ≠ none) := by simp [hn, he]
  have g2 : ¬ (r1.bytes.getD 0 0 + r1.bytes.getD 1 0 * 256 < 2) := by omega
  simp only [g1, g2, if_false]
  split
  · exact ⟨_, rfl⟩
  · rename_i hr
    have hl : r2.bytes.length % 8 ≠ 0 := by
      have : r2.bytes.length = r1.bytes.getD 0 0 + r1.bytes.getD 1 0 * 256 - 2 := by
        by_contra hne
        exact hr (Or.inl hne)
      rw [this]; exact h8
    have hd : ∃ e, BlowfishDecrypt newCipher r2.bytes c.BlowfishKey = .error e := by
      unfold BlowfishDecrypt
      cases newCipher c.BlowfishKey with
      | none => exact ⟨_, rfl⟩
      | some cipher =>
        simp only [hl, ne_eq, not_false_eq_true, if_true]
        exact ⟨_, rfl⟩
    obtain ⟨e, hd⟩ := hd
    rw [hd]
    exact ⟨_, rfl⟩

/-- GameServer.Receive guards the allocation: a header whose length is below 2 is answered
with the error `invalid packet size`. -/
theorem GameServer_Receive_short (newCipher : blowfish.NewCipher) (gs : GameServer)
    (r1 r2 : ReadResult) (hn : r1.bytes.length = 2) (he : r1.err = none)
    (hs : r1.bytes.getD 0 0 + r1.bytes.getD 1 0 * 256 < 2) :
    gs.Receive newCipher r1 r2 = .error "invalid packet size" := by
  unfold GameServer.Receive
  rw [he]
  simp only [hn, ne_eq, not_true_eq_false, if_false, hs, if_true]

/-- C13: on a 2-byte header whose little-endian length is less than 2, Client.Receive does
not return an error: it has no guard before `make([]byte, size-2)`, whose negative length
is a run-time panic. -/
theorem client_receive_short_length_panics (newCipher : blowfish.NewCipher) (c : Client)
    (r1 r2 : ReadResult) (hn : r1.bytes.length = 2) (he : r1.err = none)
    (hs : r1.bytes.getD 0 0 + r1.bytes.getD 1 0 * 256 < 2) :
    c.Receive newCipher r1 r2 = .panic := by
  unfold Client.Receive
  have g1 : ¬ (r1.bytes.length ≠ 2 ∨ r1.err ≠ none) := by simp [hn, he]
  simp only [g1, hs, if_false, if_true]

end transport

namespace transport

theorem client_receive_short_length_panics_witness :
    (sample.header1.bytes.length = 2 ∧ sample.header1.err = none ∧
      sample.header1.bytes.getD 0 0 + sample.header1.bytes.getD 1 0 * 256 < 2) ∧
    sample.client.Receive sample.toyNewCipher sample.header1 sample.checkedBody = .panic :=
  ⟨⟨by decide, by decide, by decide⟩,
    client_receive_short_length_panics sample.toyNewCipher sample.client sample.header1
      sample.checkedBody (by decide) (by decide) (by decide)⟩

end transport

/-! ### Credential extraction (C14) -/

namespace inclient

/-- The cutset of trimASCII is NUL, space, tab, CR and LF. -/
theorem inCutset_iff (b : Nat) :
    inCutset b = true ↔ b = 0x00 ∨ b = 0x20 ∨ b = 0x09 ∨ b = 0x0d ∨ b = 0x0a := by
  unfold inCutset
  simp only [Bool.or_eq_true, beq_iff_eq]
  tauto

/-- What trimASCII returns is what is left of the bytes after a leading and a trailing run
of cutset bytes are removed, and it neither starts nor ends with a cutset byte. -/
theorem trimASCII_spec (b : List Nat) :
    ∃ pre post, b = pre ++ trimASCII b ++ post ∧
      (∀ x ∈ pre, inCutset x = true) ∧ (∀ x ∈ post, inCutset x = true) ∧
      (∀ x, (trimASCII b).head? = some x → inCutset x = false) ∧
      (∀ x, (trimASCII b).getLast? = some x → inCutset x = false) := by
  have hd : (b.dropWhile inCutset) =
      trimASCII b ++ ((b.dropWhile inCutset).reverse.takeWhile inCutset).reverse := by
    unfold trimASCII
    rw [← List.reverse_append, List.takeWhile_append_dropWhile, List.reverse_reverse]
  refine ⟨b.takeWhile inCutset, ((b.dropWhile inCutset).reverse.takeWhile inCutset).reverse,
    ?_, ?_, ?_, ?_, ?_⟩
  · rw [List.append_assoc, ← hd, List.takeWhile_append_dropWhile]
  · intro x hx
    exact List.mem_takeWhile_imp hx
  · intro x hx
    exact List.mem_takeWhile_imp (List.mem_reverse.1 hx)
  · intro x hx
    have h1 := List.head?_dropWhile_not inCutset b
    have h2 : (b.dropWhile inCutset).head? = some x := by
      rw [hd, List.head?_append, hx]
      rfl
    rw [h2] at h1
    exact h1
  · intro x hx
    have h1 := List.head?_dropWhile_not inCutset (b.dropWhile inCutset).reverse
    have h2 : ((b.dropWhile inCutset).reverse.dropWhile inCutset).head? = some x := by
      unfold trimASCII at hx
      rw [List.getLast?_reverse] at hx
      exact hx
    rw [h2] at h1
    exact h1

/-- The test of plausibleUser, spelled out. -/
theorem plausibleUser_iff (s : List Nat) :
    plausibleUser s = true ↔
      1 ≤ s.length ∧ s.length ≤ 14 ∧
        ∀ c ∈ s, (0x41 ≤ c ∧ c ≤ 0x5a) ∨ (0x61 ≤ c ∧ c ≤ 0x7a) ∨ (0x30 ≤ c ∧ c ≤ 0x39)
          ∨ c = 0x2e ∨ c = 0x5f ∨ c = 0x2d := by
  unfold plausibleUser
  by_cases hl : s.length = 0 ∨ s.length > 14
  · rw [if_pos hl]
    constructor
    · intro h; cases h
    · intro h; omega
  · rw [if_neg hl, List.all_eq_true]
    have hl' : 1 ≤ s.length ∧ s.length ≤ 14 := by omega
    constructor
    · intro h
      refine ⟨hl'.1, hl'.2, fun c hc => ?_⟩
      have := h c hc
      unfold userRune at this
      simp only [Bool.and_eq_true, Bool.not_eq_true', Bool.or_eq_false_iff, Bool.or_eq_true,
        decide_eq_true_eq, decide_eq_false_iff_not, beq_iff_eq] at this
      tauto
    · rintro ⟨_, _, h⟩ c hc
      have := h c hc
      unfold userRune
      simp only [Bool.and_eq_true, Bool.not_eq_true', Bool.or_eq_false_iff, Bool.or_eq_true,
        decide_eq_true_eq, decide_eq_false_iff_not, beq_iff_eq]
      omega

/-- The test of plausiblePass, spelled out. -/
theorem plausiblePass_iff (s : List Nat) :
    plausiblePass s = true ↔
      3 ≤ s.length ∧ s.length ≤ 16 ∧ ∀ c ∈ s, 0x20 ≤ c ∧ c ≤ 0x7e := by
  unfold plausiblePass
  by_cases hl : s.length < 3 ∨ s.length > 16
  · rw [if_pos hl]
    constructor
    · intro h; cases h
    · intro h; omega
  · rw [if_neg hl, List.all_eq_true]
    have hl' : 3 ≤ s.length ∧ s.length ≤ 16 := by omega
    constructor
    · intro h
      refine ⟨hl'.1, hl'.2, fun c hc => ?_⟩
      have := h c hc
      simp only [Bool.not_eq_true', Bool.or_eq_false_iff, decide_eq_false_iff_not] at this
      omega
    · rintro ⟨_, _, h⟩ c hc
      have := h c hc
      simp only [Bool.not_eq_true', Bool.or_eq_false_iff, decide_eq_false_iff_not]
      omega

/-- A lowered string holds no byte `A`..`Z`, when the Unicode lowering yields none. -/
theorem toLower_no_upper (env : Env)
    (hlow : ∀ s, ∀ c ∈ env.mapToLower s, ¬ (0x41 ≤ c ∧ c ≤ 0x5a)) (s : List Nat) :
    ∀ c ∈ toLower env s, ¬ (0x41 ≤ c ∧ c ≤ 0x5a) := by
  intro c hc
  unfold toLower at hc
  split at hc
  · obtain ⟨a, _, rfl⟩ := List.mem_map.1 hc
    split <;> omega
  · exact hlow s c hc

theorem toNat_ofNat_small (n : Nat) (h : n < 0xd800) : (Char.ofNat n).toNat = n := by
  have hv : n.isValidChar := Or.inl h
  unfold Char.ofNat
  rw [dif_pos hv]
  rfl

/-- C14: for every 128-byte decrypted block, extractCredsFromDecrypted128 works on the
username bytes `[0x5E, 0x6C)` and the password bytes `[0x6C, 0x7C)`, each with its leading
and trailing NUL, space, tab, CR and LF bytes removed, the username then lowered (byte by
byte when it is pure ASCII). It returns that username and that password when the username
has 1 to 14 bytes, all ASCII letters, digits, `.`, `_` or `-`, and the password has 3 to 16
bytes, all in `0x20..0x7E`, and it returns an error otherwise; no username it returns holds
an upper-case letter. The Unicode lowering of the library is assumed to yield no byte
`A`..`Z`. -/
theorem extractCreds_spec (env : Env) (dec : List Nat) (hlen : dec.length = 128)
    (hlow : ∀ s, ∀ c ∈ env.mapToLower s, ¬ (0x41 ≤ c ∧ c ≤ 0x5a)) :
    ∃ userTrim user pass,
      (∃ pre post, (dec.drop 0x5E).take 14 = pre ++ userTrim ++ post ∧
        (∀ x ∈ pre, x = 0x00 ∨ x = 0x20 ∨ x = 0x09 ∨ x = 0x0d ∨ x = 0x0a) ∧
        (∀ x ∈ post, x = 0x00 ∨ x = 0x20 ∨ x = 0x09 ∨ x = 0x0d ∨ x = 0x0a) ∧
        (∀ x, userTrim.head? = some x ∨ userTrim.getLast? = some x →
          ¬ (x = 0x00 ∨ x = 0x20 ∨ x = 0x09 ∨ x = 0x0d ∨ x = 0x0a))) ∧
      (∃ pre post, (dec.drop 0x6C).take 16 = pre ++ pass ++ post ∧
        (∀ x ∈ pre, x = 0x00 ∨ x = 0x20 ∨ x = 0x09 ∨ x = 0x0d ∨ x = 0x0a) ∧
        (∀ x ∈ post, x = 0x00 ∨ x = 0x20 ∨ x = 0x09 ∨ x = 0x0d ∨ x = 0x0a) ∧
        (∀ x, pass.head? = some x ∨ pass.getLast? = some x →
          ¬ (x = 0x00 ∨ x = 0x20 ∨ x = 0x09 ∨ x = 0x0d ∨ x = 0x0a))) ∧
      user = toLower env userTrim ∧
      ((∀ c ∈ userTrim, c < 0x80) →
        user = userTrim.map (fun c => if 0x41 ≤ c ∧ c ≤ 0x5a then c + 0x20 else c)) ∧
      ((1 ≤ user.length ∧ user.length ≤ 14 ∧
          (∀ c ∈ user, (0x41 ≤ c ∧ c ≤ 0x5a) ∨ (0x61 ≤ c ∧ c ≤ 0x7a) ∨ (0x30 ≤ c ∧ c ≤ 0x39)
            ∨ c = 0x2e ∨ c = 0x5f ∨ c = 0x2d)) ∧
        (3 ≤ pass.length ∧ pass.length ≤ 16 ∧ ∀ c ∈ pass, 0x20 ≤ c ∧ c ≤ 0x7e) →
        extractCredsFromDecrypted128 env dec = .ok (asciiString user, asciiString pass)) ∧
      (¬ ((1 ≤ user.length ∧ user.length ≤ 14 ∧
          (∀ c ∈ user, (0x41 ≤ c ∧ c ≤ 0x5a) ∨ (0x61 ≤ c ∧ c ≤ 0x7a) ∨ (0x30 ≤ c ∧ c ≤ 0x39)
            ∨ c = 0x2e ∨ c = 0x5f ∨ c = 0x2d)) ∧
        (3 ≤ pass.length ∧ pass.length ≤ 16 ∧ ∀ c ∈ pass, 0x20 ≤ c ∧ c ≤ 0x7e)) →
        ∃ e, extractCredsFromDecrypted128 env dec = .error e) ∧
      (∀ u p, extractCredsFromDecrypted128 env dec = .ok (u, p) →
        ∀ ch ∈ u.data, ch.isUpper = false) := by
  have hcut : ∀ b : List Nat, ∃ pre post, b = pre ++ trimASCII b ++ post ∧
      (∀ x ∈ pre, x = 0x00 ∨ x = 0x20 ∨ x = 0x09 ∨ x = 0x0d ∨ x = 0x0a) ∧
      (∀ x ∈ post, x = 0x00 ∨ x = 0x20 ∨ x = 0x09 ∨ x = 0x0d ∨ x = 0x0a) ∧
      (∀ x, (trimASCII b).head? = some x ∨ (trimASCII b).getLast? = some x →
        ¬ (x = 0x00 ∨ x = 0x20 ∨ x = 0x09 ∨ x = 0x0d ∨ x = 0x0a)) := by
    intro b
    obtain ⟨pre, post, h, h1, h2, h3, h4⟩ := trimASCII_spec b
    refine ⟨pre, post, h, fun x hx => (inCutset_iff x).1 (h1 x hx),
      fun x hx => (inCutset_iff x).1 (h2 x hx), ?_⟩
    intro x hx hc
    have hc' := (inCutset_iff x).2 hc
    rcases hx with hx | hx
    · rw [h3 x hx] at hc'; cases hc'
    · rw [h4 x hx] at hc'; cases hc'
  have hg : ¬ dec.length < 128 := by omega
  have hex : extractCredsFromDecrypted128 env dec =
      if !plausibleUser (toLower env (trimASCII ((dec.drop 0x5E).take 14))) then
        .error "username not plausible"
      else if !plausiblePass (trimASCII ((dec.drop 0x6C).take 16)) then
        .error "password not plausible"
      else .ok (asciiString (toLower env (trimASCII ((dec.drop 0x5E).take 14))),
        asciiString (trimASCII ((dec.drop 0x6C).take 16))) := by
    unfold extractCredsFromDecrypted128
    rw [if_neg hg]
  refine ⟨trimASCII ((dec.drop 0x5E).take 14),
    toLower env (trimASCII ((dec.drop 0x5E).take 14)), trimASCII ((dec.drop 0x6C).take 16),
    hcut _, hcut _, rfl, ?_, ?_, ?_, ?_⟩
  · intro hascii
    unfold toLower
    rw [if_pos]
    rw [List.all_eq_true]
    intro c hc
    exact decide_eq_true (hascii c hc)
  · rintro ⟨hu, hp⟩
    rw [hex, (plausibleUser_iff _).2 hu, (plausiblePass_iff _).2 hp]
    rfl
  · intro hn
    rw [hex]
    cases hU : plausibleUser (toLower env (trimASCII ((dec.drop 0x5E).take 14)))
    · exact ⟨_, rfl⟩
    · cases hP : plausiblePass (trimASCII ((dec.drop 0x6C).take 16))
      · exact ⟨_, rfl⟩
      · exact absurd ⟨(plausibleUser_iff _).1 hU, (plausiblePass_iff _).1 hP⟩ hn
  · intro u p hok ch hch
    rw [hex] at hok
    cases hU : plausibleUser (toLower env (trimASCII ((dec.drop 0x5E).take 14)))
    · rw [hU] at hok; cases hok
    · cases hP : plausiblePass (trimASCII ((dec.drop 0x6C).take 16))
      · rw [hU, hP] at hok; cases hok
      · rw [hU, hP] at hok
        have hu : u = asciiString (toLower env (trimASCII ((dec.drop 0x5E).take 14))) := by
          have := Except.ok.inj hok
          exact (congrArg Prod.fst this).symm
        rw [hu] at hch
        unfold asciiString at hch
        obtain ⟨c, hc, rfl⟩ := List.mem_map.1 hch
        have hno := toLower_no_upper env hlow _ c hc
        have hr := ((plausibleUser_iff _).1 hU).2.2 c hc
        have hsmall : c < 0xd800 := by omega
        have hv : (Char.ofNat c).val.toNat = c := toNat_ofNat_small c hsmall
        unfold Char.isUpper
        simp only [Bool.and_eq_false_iff, decide_eq_false_iff_not, ge_iff_le]
        have h65 : ((65 : UInt32) ≤ (Char.ofNat c).val) ↔ 65 ≤ (Char.ofNat c).val.toNat :=
          Iff.rfl
        have h90 : ((Char.ofNat c).val ≤ (90 : UInt32)) ↔ (Char.ofNat c).val.toNat ≤ 90 :=
          Iff.rfl
        rw [h65, h90, hv]
        omega

end inclient

namespace sample

theorem lowerEnv_lowers :
    ∀ s, ∀ c ∈ lowerEnv.mapToLower s, ¬ (0x41 ≤ c ∧ c ≤ 0x5a) := by
  intro s c hc
  obtain ⟨a, _, rfl⟩ := List.mem_map.1 hc
  split <;> omega

end sample

namespace inclient

set_option maxRecDepth 100000 in
theorem extractCreds_spec_witness :
    (sample.authPayload.length = 128 ∧
      ∀ s, ∀ c ∈ sample.lowerEnv.mapToLower s, ¬ (0x41 ≤ c ∧ c ≤ 0x5a)) ∧
    ∃ userTrim user pass,
      (∃ pre post, (sample.authPayload.drop 0x5E).take 14 = pre ++ userTrim ++ post ∧
        (∀ x ∈ pre, x = 0x00 ∨ x = 0x20 ∨ x = 0x09 ∨ x = 0x0d ∨ x = 0x0a) ∧
        (∀ x ∈ post, x = 0x00 ∨ x = 0x20 ∨ x = 0x09 ∨ x = 0x0d ∨ x = 0x0a) ∧
        (∀ x, userTrim.head? = some x ∨ userTrim.getLast? = some x →
          ¬ (x = 0x00 ∨ x = 0x20 ∨ x = 0x09 ∨ x = 0x0d ∨ x = 0x0a))) ∧
      (∃ pre post, (sample.authPayload.drop 0x6C).take 16 = pre ++ pass ++ post ∧
        (∀ x ∈ pre, x = 0x00 ∨ x = 0x20 ∨ x = 0x09 ∨ x = 0x0d ∨ x = 0x0a) ∧
        (∀ x ∈ post, x = 0x00 ∨ x = 0x20 ∨ x = 0x09 ∨ x = 0x0d ∨ x = 0x0a) ∧
        (∀ x, pass.head? = some x ∨ pass.getLast? = some x →
          ¬ (x = 0x00 ∨ x = 0x20 ∨ x = 0x09 ∨ x = 0x0d ∨ x = 0x0a))) ∧
      user = toLower sample.lowerEnv userTrim ∧
      ((∀ c ∈ userTrim, c < 0x80) →
        user = userTrim.map (fun c => if 0x41 ≤ c ∧ c ≤ 0x5a then c + 0x20 else c)) ∧
      ((1 ≤ user.length ∧ user.length ≤ 14 ∧
          (∀ c ∈ user, (0x41 ≤ c ∧ c ≤ 0x5a) ∨ (0x61 ≤ c ∧ c ≤ 0x7a) ∨ (0x30 ≤ c ∧ c ≤ 0x39)
            ∨ c = 0x2e ∨ c = 0x5f ∨ c = 0x2d)) ∧
        (3 ≤ pass.length ∧ pass.length ≤ 16 ∧ ∀ c ∈ pass, 0x20 ≤ c ∧ c ≤ 0x7e) →
        extractCredsFromDecrypted128 sample.lowerEnv sample.authPayload
          = .ok (asciiString user, asciiString pass)) ∧
      (¬ ((1 ≤ user.length ∧ user.length ≤ 14 ∧
          (∀ c ∈ user, (0x41 ≤ c ∧ c ≤ 0x5a) ∨ (0x61 ≤ c ∧ c ≤ 0x7a) ∨ (0x30 ≤ c ∧ c ≤ 0x39)
            ∨ c = 0x2e ∨ c = 0x5f ∨ c = 0x2d)) ∧
        (3 ≤ pass.length ∧ pass.length ≤ 16 ∧ ∀ c ∈ pass, 0x20 ≤ c ∧ c ≤ 0x7e)) →
        ∃ e, extractCredsFromDecrypted128 sample.lowerEnv sample.authPayload = .error e) ∧
      (∀ u p, extractCredsFromDecrypted128 sample.lowerEnv sample.authPayload = .ok (u, p) →
        ∀ ch ∈ u.data, ch.isUpper = false) :=
  ⟨⟨rfl, sample.lowerEnv_lowers⟩,
    extractCreds_spec sample.lowerEnv sample.authPayload rfl sample.lowerEnv_lowers⟩

end inclient

/-! ### RequestAuthLogin failures (C15, C16, C17, C18) -/

namespace handlers

open packets outclient transport usecase

/-- The bytes of the three LoginFail packets that handleRequestAuthLogin sends. -/
theorem NewLoginFailPacket_bytes :
    NewLoginFailPacket packets.REASON_ACCESS_FAILED = [0x01, 0x15, 0x00, 0x00, 0x00] ∧
    NewLoginFailPacket packets.REASON__PASS_WRONG = [0x01, 0x02, 0x00, 0x00, 0x00] ∧
    NewLoginFailPacket packets.REASON_ACCOUNT_SUSPENDED_CALL
      = [0x01, 0x28, 0x00, 0x00, 0x00] := by
  decide

/-- When HandleAuthLogin returns an error for a parsed request, handleRequestAuthLogin
sends one LoginFail packet with the reason of that error, changes nothing else of the
connection, and returns nil. -/
theorem handleRequestAuthLogin_error (env : Env) (now : Time) (l l1 : LoginServer)
    (client : Client) (data : List Nat) (req : inclient.RequestAuthLogin) (err : AuthError)
    (hparse : inclient.NewRequestAuthLogin env client data = some (.ok req))
    (hauth : HandleAuthLogin env now l (some req) = some (.error err, l1)) :
    ∃ e s,
      client.Send env.newCipher
        (NewLoginFailPacket (match err with
          | .ErrAccountBanned => packets.REASON_ACCOUNT_SUSPENDED_CALL
          | .ErrAccountNotFound => packets.REASON__PASS_WRONG
          | .other _ => packets.REASON_ACCESS_FAILED)) []
        = some (e, { client with Socket := s }) ∧
      handleRequestAuthLogin env now l client data
        = some (none, l1, { client with Socket := s }) := by
  cases err with
  | ErrAccountBanned =>
    obtain ⟨e, s, hsend, hdrop⟩ := sendDropErr_some env client
      (NewLoginFailPacket packets.REASON_ACCOUNT_SUSPENDED_CALL)
    refine ⟨e, s, hsend, ?_⟩
    unfold handleRequestAuthLogin
    simp only [hparse, hauth, hdrop]
  | ErrAccountNotFound =>
    obtain ⟨e, s, hsend, hdrop⟩ := sendDropErr_some env client
      (NewLoginFailPacket packets.REASON__PASS_WRONG)
    refine ⟨e, s, hsend, ?_⟩
    unfold handleRequestAuthLogin
    simp only [hparse, hauth, hdrop]
  | other msg =>
    obtain ⟨e, s, hsend, hdrop⟩ := sendDropErr_some env client
      (NewLoginFailPacket packets.REASON_ACCESS_FAILED)
    refine ⟨e, s, hsend, ?_⟩
    unfold handleRequestAuthLogin
    simp only [hparse, hauth, hdrop]

/-- C15: when parsing a RequestAuthLogin fails, handleRequestAuthLogin sends
LoginFail(0x15), by a Send that returns, and does not return after it: it goes on to call
HandleAuthLogin with the nil request, whose first statement dereferences it, so that the
handler ends in a run-time panic. -/
theorem authLogin_parse_failure_panics (env : Env) (now : Time) (l : LoginServer)
    (client : Client) (data : List Nat) (e : String)
    (hparse : inclient.NewRequestAuthLogin env client data = some (.error e)) :
    (∃ err s, client.Send env.newCipher
        (NewLoginFailPacket packets.REASON_ACCESS_FAILED) []
        = some (err, { client with Socket := s })) ∧
    NewLoginFailPacket packets.REASON_ACCESS_FAILED = [0x01, 0x15, 0x00, 0x00, 0x00] ∧
    (∀ l', HandleAuthLogin env now l' none = none) ∧
    handleRequestAuthLogin env now l client data = none := by
  obtain ⟨err, s, hsend, hdrop⟩ := sendDropErr_some env client
    (NewLoginFailPacket packets.REASON_ACCESS_FAILED)
  refine ⟨⟨err, s, hsend⟩, by decide, fun _ => rfl, ?_⟩
  unfold handleRequestAuthLogin
  simp only [hparse, hdrop]
  rfl

set_option maxRecDepth 100000 in
theorem authLogin_parse_failure_panics_witness :
    inclient.NewRequestAuthLogin sample.env sample.client (List.replicate 128 0)
      = some (.error "username not plausible") ∧
    (∃ err s, sample.client.Send sample.env.newCipher
        (NewLoginFailPacket packets.REASON_ACCESS_FAILED) []
        = some (err, { sample.client with Socket := s })) ∧
    NewLoginFailPacket packets.REASON_ACCESS_FAILED = [0x01, 0x15, 0x00, 0x00, 0x00] ∧
    (∀ l', HandleAuthLogin sample.env 1000 l' none = none) ∧
    handleRequestAuthLogin sample.env 1000 sample.loginServer sample.client
      (List.replicate 128 0) = none :=
  ⟨rfl, authLogin_parse_failure_panics sample.env 1000 sample.loginServer sample.client
    (List.replicate 128 0) "username not plausible" rfl⟩

end handlers

namespace inclient

/-- C16: on a payload shorter than 128 bytes NewRequestAuthLogin does not reach the length
check of RsaDecryptNoPadding: the slice expression `request[:128]` in its argument is a
run-time panic. -/
theorem newRequestAuthLogin_short_payload_panics (env : Env) (client : transport.Client)
    (request : List Nat) (h : request.length < 128) :
    NewRequestAuthLogin env client request = none := by
  unfold NewRequestAuthLogin packets.sliceOf
  have g : ¬ (0 ≤ 128 ∧ 128 ≤ request.length) := by omega
  simp only [g, if_false]

theorem newRequestAuthLogin_short_payload_panics_witness :
    [0x01, 0x02, 0x03].length < 128 ∧
    NewRequestAuthLogin sample.env sample.client [0x01, 0x02, 0x03] = none :=
  ⟨by decide,
    newRequestAuthLogin_short_payload_panics sample.env sample.client [0x01, 0x02, 0x03]
      (by decide)⟩

end inclient

namespace handlers

open packets outclient transport usecase

/-- C17: for a RequestAuthLogin whose account row exists and is not banned and whose
password does not verify, HandleAuthLogin returns the error of the comparison, which is
neither of its two sentinel errors, and handleRequestAuthLogin answers it in the default
arm of its switch: the client is sent LoginFail with reason 0x15, not 0x02; no LoginOk is
sent and the connection's account stays as it was. -/
theorem wrong_password_reason (env : Env) (now : Time) (l : LoginServer) (client : Client)
    (data : List Nat) (req : inclient.RequestAuthLogin) (account : models.Account)
    (err : String)
    (hparse : inclient.NewRequestAuthLogin env client data = some (.ok req))
    (hrow : l.repo.GetByUsername req.Username = .ok (some account))
    (hban : account.AccessLevel ≠ ACCESS_LEVEL_BANNED)
    (hpw : env.CompareHashAndPassword account.Password req.Password = some err) :
    ∃ e s,
      client.Send env.newCipher (NewLoginFailPacket packets.REASON_ACCESS_FAILED) []
        = some (e, { client with Socket := s }) ∧
      handleRequestAuthLogin env now l client data
        = some (none, l, { client with Socket := s }) ∧
      NewLoginFailPacket packets.REASON_ACCESS_FAILED = [0x01, 0x15, 0x00, 0x00, 0x00] ∧
      NewLoginFailPacket packets.REASON__PASS_WRONG = [0x01, 0x02, 0x00, 0x00, 0x00] := by
  have hauth : HandleAuthLogin env now l (some req) = some (.error (.other err), l) := by
    unfold HandleAuthLogin
    simp only [hrow, hban, if_false, hpw]
  obtain ⟨e, s, h1, h2⟩ := handleRequestAuthLogin_error env now l l client data req
    (.other err) hparse hauth
  exact ⟨e, s, h1, h2, by decide, by decide⟩

set_option maxRecDepth 100000 in
theorem wrong_password_reason_witness :
    (inclient.NewRequestAuthLogin sample.env sample.client sample.wrongPassPayload
        = some (.ok { Username := "alice", Password := "wrongpw" }) ∧
      sample.loginServer.repo.GetByUsername "alice" = .ok (some sample.aliceAccount) ∧
      sample.aliceAccount.AccessLevel ≠ ACCESS_LEVEL_BANNED ∧
      sample.env.CompareHashAndPassword sample.aliceAccount.Password "wrongpw"
        = some "mismatch") ∧
    ∃ e s,
      sample.client.Send sample.env.newCipher
          (NewLoginFailPacket packets.REASON_ACCESS_FAILED) []
        = some (e, { sample.client with Socket := s }) ∧
      handleRequestAuthLogin sample.env 1000 sample.loginServer sample.client
          sample.wrongPassPayload
        = some (none, sample.loginServer, { sample.client with Socket := s }) ∧
      NewLoginFailPacket packets.REASON_ACCESS_FAILED = [0x01, 0x15, 0x00, 0x00, 0x00] ∧
      NewLoginFailPacket packets.REASON__PASS_WRONG = [0x01, 0x02, 0x00, 0x00, 0x00] :=
  ⟨⟨rfl, rfl, by decide, rfl⟩,
    wrong_password_reason sample.env 1000 sample.loginServer sample.client
      sample.wrongPassPayload { Username := "alice", Password := "wrongpw" }
      sample.aliceAccount "mismatch" rfl rfl (by decide) rfl⟩

/-- C18: for a RequestAuthLogin whose account row exists with access level -1, whatever
the supplied password and whatever the password comparison would answer,
handleRequestAuthLogin sends LoginFail(0x28), by one Send, and nothing else; it returns nil
with the server state unchanged (no character-count request is published) and with the
connection unchanged but for its socket (the account and LoginOkID1/2 stay as they
were). -/
theorem banned_account_rejected (env : Env) (now : Time) (l : LoginServer) (client : Client)
    (data : List Nat) (req : inclient.RequestAuthLogin) (account : models.Account)
    (hparse : inclient.NewRequestAuthLogin env client data = some (.ok req))
    (hrow : l.repo.GetByUsername req.Username = .ok (some account))
    (hban : account.AccessLevel = -1) :
    ∃ e s,
      client.Send env.newCipher
        (NewLoginFailPacket packets.REASON_ACCOUNT_SUSPENDED_CALL) []
        = some (e, { client with Socket := s }) ∧
      NewLoginFailPacket packets.REASON_ACCOUNT_SUSPENDED_CALL
        = [0x01, 0x28, 0x00, 0x00, 0x00] ∧
      (∀ cmp, handleRequestAuthLogin { env with CompareHashAndPassword := cmp } now l client
        data = some (none, l, { client with Socket := s })) ∧
      handleRequestAuthLogin env now l client data
        = some (none, l, { client with Socket := s }) ∧
      ({ client with Socket := s } : Client).Account = client.Account ∧
      ({ client with Socket := s } : Client).LoginOkID1 = client.LoginOkID1 ∧
      ({ client with Socket := s } : Client).LoginOkID2 = client.LoginOkID2 := by
  have hauth : ∀ cmp, HandleAuthLogin { env with CompareHashAndPassword := cmp } now l
      (some req) = some (.error .ErrAccountBanned, l) := by
    intro cmp
    unfold HandleAuthLogin
    have hb : account.AccessLevel = ACCESS_LEVEL_BANNED := hban
    simp only [hrow, hb, if_true]
  obtain ⟨e, s, h1, h2⟩ := handleRequestAuthLogin_error env now l l client data req
    .ErrAccountBanned hparse (hauth env.CompareHashAndPassword)
  refine ⟨e, s, h1, by decide, ?_, h2, rfl, rfl, rfl⟩
  intro cmp
  obtain ⟨e', s', h1', h2'⟩ := handleRequestAuthLogin_error
    { env with CompareHashAndPassword := cmp } now l l client data req
    .ErrAccountBanned hparse (hauth cmp)
  have hs : s' = s := by
    have h3 : client.Send env.newCipher
        (NewLoginFailPacket packets.REASON_ACCOUNT_SUSPENDED_CALL) []
        = some (e', { client with Socket := s' }) := h1'
    rw [h1] at h3
    have h4 := congrArg (fun c : Client => c.Socket)
      (congrArg Prod.snd (Option.some.inj h3))
    exact h4.symm
  rw [← hs]
  exact h2'

set_option maxRecDepth 100000 in
theorem banned_account_rejected_witness :
    (inclient.NewRequestAuthLogin sample.env sample.client sample.authPayload
        = some (.ok { Username := "alice", Password := "secret" }) ∧
      sample.bannedServer.repo.GetByUsername "alice"
        = .ok (some { sample.aliceAccount with AccessLevel := -1 }) ∧
      ({ sample.aliceAccount with AccessLevel := -1 } : models.Account).AccessLevel = -1) ∧
    ∃ e s,
      sample.client.Send sample.env.newCipher
        (NewLoginFailPacket packets.REASON_ACCOUNT_SUSPENDED_CALL) []
        = some (e, { sample.client with Socket := s }) ∧
      NewLoginFailPacket packets.REASON_ACCOUNT_SUSPENDED_CALL
        = [0x01, 0x28, 0x00, 0x00, 0x00] ∧
      (∀ cmp, handleRequestAuthLogin { sample.env with CompareHashAndPassword := cmp } 1000
        sample.bannedServer sample.client sample.authPayload
          = some (none, sample.bannedServer, { sample.client with Socket := s })) ∧
      handleRequestAuthLogin sample.env 1000 sample.bannedServer sample.client
          sample.authPayload
        = some (none, sample.bannedServer, { sample.client with Socket := s }) ∧
      ({ sample.client with Socket := s } : Client).Account = sample.client.Account ∧
      ({ sample.client with Socket := s } : Client).LoginOkID1 = sample.client.LoginOkID1 ∧
      ({ sample.client with Socket := s } : Client).LoginOkID2 = sample.client.LoginOkID2 :=
  ⟨⟨rfl, rfl, rfl⟩,
    banned_account_rejected sample.env 1000 sample.bannedServer sample.client
      sample.authPayload { Username := "alice", Password := "secret" }
      { sample.aliceAccount with AccessLevel := -1 } rfl rfl rfl⟩

end handlers

/-! ### Game server opcodes before authentication (C19, C20) -/

namespace transport

open crypt

/-- GameServer.Send does not panic, and changes nothing of the connection but its
socket. -/
theorem GameServer_Send_some (newCipher : blowfish.NewCipher) (gs : GameServer)
    (data : List Nat) :
    ∃ e s, gs.Send newCipher data = some (e, { gs with Socket := s }) := by
  obtain ⟨plain, _, h, _⟩ := checkedPlain_layout data
  rw [GameServer_Send_eq newCipher gs data plain h]
  split
  · exact ⟨_, gs.Socket, rfl⟩
  · split
    · exact ⟨_, _, rfl⟩
    · exact ⟨_, _, rfl⟩

end transport

namespace handlers

namespace gameserver

open transport usecase

/-- C19: on a connection with Authenticated = false, handlePacket answers each of the
opcodes 0x02, 0x03, 0x05, 0x06, 0x07, 0x08, with any payload, with the error `GameServer
not authenticated`; it answers every opcode outside 0x00..0x03 and 0x05..0x08 with the
error `unknown GameServer packet opcode`. In both cases the server state (session ledger,
server registry, character-count cache) and the connection (nothing is written to its
socket) are returned as they were, and the pass of handleConnection that received the
packet returns, which closes the socket. -/
theorem handlePacket_unauthenticated (env : Env) (net : NetLib) (now : Time)
    (l : LoginServer) (gs : GameServer) (opcode : Nat) (data : List Nat) :
    (gs.Authenticated = false →
      opcode = 0x02 ∨ opcode = 0x03 ∨ opcode = 0x05 ∨ opcode = 0x06 ∨ opcode = 0x07
        ∨ opcode = 0x08 →
      handlePacket env net now l gs opcode data
        = some (some "GameServer not authenticated", l, gs) ∧
      handleConnectionPass env net now l gs (.packet opcode data)
        = .returned l (closeSocket gs)) ∧
    (opcode ≠ 0x00 ∧ opcode ≠ 0x01 ∧ opcode ≠ 0x02 ∧ opcode ≠ 0x03 ∧ opcode ≠ 0x05
        ∧ opcode ≠ 0x06 ∧ opcode ≠ 0x07 ∧ opcode ≠ 0x08 →
      handlePacket env net now l gs opcode data
        = some (some ("unknown GameServer packet opcode: " ++ hexByte opcode), l, gs) ∧
      handleConnectionPass env net now l gs (.packet opcode data)
        = .returned l (closeSocket gs)) := by
  have hpass : ∀ e, handlePacket env net now l gs opcode data = some (some e, l, gs) →
      handleConnectionPass env net now l gs (.packet opcode data)
        = .returned l (closeSocket gs) := by
    intro e he
    unfold handleConnectionPass
    simp only [he]
  have h1 : gs.Authenticated = false →
      opcode = 0x02 ∨ opcode = 0x03 ∨ opcode = 0x05 ∨ opcode = 0x06 ∨ opcode = 0x07
        ∨ opcode = 0x08 →
      handlePacket env net now l gs opcode data
        = some (some "GameServer not authenticated", l, gs) := by
    intro ha hop
    have hn : (!gs.Authenticated) = true := by rw [ha]; rfl
    rcases hop with h | h | h | h | h | h <;> subst h
    · show handlePlayerInGame l gs data = _
      unfold handlePlayerInGame
      rw [if_pos hn]
    · show handlePlayerLogout l gs data = _
      unfold handlePlayerLogout
      rw [if_pos hn]
    · show handlePlayerAuthRequest env now l gs data = _
      unfold handlePlayerAuthRequest
      rw [if_pos hn]
    · show handleServerStatus l gs data = _
      unfold handleServerStatus
      rw [if_pos hn]
    · show handlePlayerTracert l gs data = _
      unfold handlePlayerTracert
      rw [if_pos hn]
    · show handleReplyCharacters now l gs data = _
      unfold handleReplyCharacters
      rw [if_pos hn]
  have h2 : opcode ≠ 0x00 ∧ opcode ≠ 0x01 ∧ opcode ≠ 0x02 ∧ opcode ≠ 0x03 ∧ opcode ≠ 0x05
        ∧ opcode ≠ 0x06 ∧ opcode ≠ 0x07 ∧ opcode ≠ 0x08 →
      handlePacket env net now l gs opcode data
        = some (some ("unknown GameServer packet opcode: " ++ hexByte opcode), l, gs) := by
    rintro ⟨h0, h1, h2, h3, h5, h6, h7, h8⟩
    unfold handlePacket
    rw [if_neg h0, if_neg h1, if_neg h2, if_neg h3, if_neg h5, if_neg h6, if_neg h7,
      if_neg h8]
  exact ⟨fun ha hop => ⟨h1 ha hop, hpass _ (h1 ha hop)⟩, fun hop => ⟨h2 hop, hpass _ (h2 hop)⟩⟩

theorem handlePacket_unauthenticated_witness :
    sample.gameServer.Authenticated = false ∧
    (handlePacket sample.env sample.netLib 1000 sample.loginServer sample.gameServer 0x05
        sample.authRequestPayload
      = some (some "GameServer not authenticated", sample.loginServer, sample.gameServer) ∧
      handleConnectionPass sample.env sample.netLib 1000 sample.loginServer sample.gameServer
        (.packet 0x05 sample.authRequestPayload)
      = .returned sample.loginServer (closeSocket sample.gameServer)) ∧
    (handlePacket sample.env sample.netLib 1000 sample.loginServer sample.gameServer 0x04
        sample.authRequestPayload
      = some (some ("unknown GameServer packet opcode: " ++ hexByte 0x04),
          sample.loginServer, sample.gameServer) ∧
      handleConnectionPass sample.env sample.netLib 1000 sample.loginServer sample.gameServer
        (.packet 0x04 sample.authRequestPayload)
      = .returned sample.loginServer (closeSocket sample.gameServer)) :=
  ⟨rfl,
    (handlePacket_unauthenticated sample.env sample.netLib 1000 sample.loginServer
      sample.gameServer 0x05 sample.authRequestPayload).1 rfl (by decide),
    (handlePacket_unauthenticated sample.env sample.netLib 1000 sample.loginServer
      sample.gameServer 0x04 sample.authRequestPayload).2 (by decide)⟩

end gameserver

end handlers

namespace usecase

/-- AddServerAddress changes nothing of the server info but its addresses. -/
theorem AddServerAddress_fields (net : NetLib) (info : models.GameServerInfo)
    (subnet serverAddr : String) :
    (info.AddServerAddress net subnet serverAddr).2.ID = info.ID ∧
    (info.AddServerAddress net subnet serverAddr).2.Name = info.Name ∧
    (info.AddServerAddress net subnet serverAddr).2.Status = info.Status := by
  unfold models.GameServerInfo.AddServerAddress
  split
  · exact ⟨rfl, rfl, rfl⟩
  · split <;> exact ⟨rfl, rfl, rfl⟩

/-- The host pairs of an AuthRequest change nothing of the server info but its
addresses. -/
theorem addHostPairs_fields (net : NetLib) (n : Nat) :
    ∀ (hosts : List String) (info : models.GameServerInfo), hosts.length ≤ n →
      (addHostPairs net hosts info).ID = info.ID ∧
      (addHostPairs net hosts info).Name = info.Name ∧
      (addHostPairs net hosts info).Status = info.Status := by
  induction n with
  | zero =>
    intro hosts info h
    match hosts, h with
    | [], _ => exact ⟨rfl, rfl, rfl⟩
  | succ n ih =>
    intro hosts info h
    match hosts, h with
    | [], _ => exact ⟨rfl, rfl, rfl⟩
    | [_], _ => exact ⟨rfl, rfl, rfl⟩
    | subnet :: serverAddr :: rest, h =>
      have hlt : rest.length ≤ n := by
        simp only [List.length_cons] at h
        omega
      obtain ⟨a1, a2, a3⟩ := ih rest (info.AddServerAddress net subnet serverAddr).2 hlt
      obtain ⟨b1, b2, b3⟩ := AddServerAddress_fields net info subnet serverAddr
      show (addHostPairs net rest (info.AddServerAddress net subnet serverAddr).2).ID = _ ∧
        (addHostPairs net rest (info.AddServerAddress net subnet serverAddr).2).Name = _ ∧
        (addHostPairs net rest (info.AddServerAddress net subnet serverAddr).2).Status = _
      exact ⟨a1.trans b1, a2.trans b2, a3.trans b3⟩

/-- HandleAuthRequest: a desired id of 0 is refused by the registry, which stays as it was;
any other id is registered, online, under its generated name. -/
theorem HandleAuthRequest_spec (net : NetLib) (now : Time) (l : LoginServer)
    (req : ings.AuthRequest) :
    (req.id = 0 →
      ∃ res e, HandleAuthRequest net now l req = (res, some e, l)) ∧
    (req.id ≠ 0 →
      ∃ info, HandleAuthRequest net now l req =
          ({ Success := true, ServerID := (req.id : Int),
             ServerName := generateServerName (req.id : Int), Reason := "" }, none,
            { l with gameServerRegistry :=
                { servers := l.gameServerRegistry.servers.set (req.id : Int) info } }) ∧
        info.ID = (req.id : Int) ∧ info.Name = generateServerName (req.id : Int) ∧
        info.Status = models.ServerStatusOnline ∧ info.LastUpdate = now) := by
  obtain ⟨f1, f2, f3⟩ := addHostPairs_fields net req.GetHosts.length req.GetHosts
    { ID := req.GetID, Name := generateServerName req.GetID, Port := req.GetPort,
      Status := models.ServerStatusOnline, CurrentPlayers := 0,
      MaxPlayers := req.GetMaxPlayers, PvP := true, AgeLimit := 0, ServerType := 1,
      ShowBrackets := false, LastUpdate := 0, Addresses := [] } (le_refl _)
  simp only at f1 f2 f3
  constructor
  · intro h0
    have hid : req.GetID = 0 := by unfold ings.AuthRequest.GetID; rw [h0]; rfl
    unfold HandleAuthRequest registry.gameServerRegistry.Register
    simp only [f1]
    simp only [hid, le_refl, if_true]
    cases l
    exact ⟨_, _, rfl⟩
  · intro h0
    have hid : ¬ req.GetID ≤ 0 := by
      unfold ings.AuthRequest.GetID
      omega
    unfold HandleAuthRequest registry.gameServerRegistry.Register
    simp only [f1, hid, if_false]
    exact ⟨_, rfl, rfl, f2, f3, rfl⟩

end usecase

namespace handlers

namespace gameserver

open transport usecase

set_option maxRecDepth 100000 in
/-- C20 as stated fails: on the sample connection, which has received no BlowFishKey
(DynamicBlowfishKey unset) and is not authenticated, handlePacket answers an AuthRequest
for the desired id 1 with nil: the server is registered under id 1, the connection becomes
authenticated with ID 1, still without a dynamic key, and one frame (the AuthResponse,
under the static game server key) is written to its socket. -/
theorem authRequest_without_key_accepted :
    sample.gameServer.DynamicBlowfishKey = none ∧ sample.gameServer.Authenticated = false ∧
    sample.loginServer.gameServerRegistry.servers.get 1 = none ∧
    ∃ l gs, handlePacket sample.env sample.netLib 5 sample.loginServer sample.gameServer 0x01
        sample.authRequestPayload = some (none, l, gs) ∧
      (l.gameServerRegistry.servers.get 1).isSome = true ∧
      gs.Authenticated = true ∧ gs.ID = 1 ∧ gs.DynamicBlowfishKey = none ∧
      gs.Socket.written.length = 1 :=
  ⟨rfl, rfl, rfl, _, _, rfl, rfl, rfl, rfl, rfl, rfl⟩

/-- C20, amended: on a connection that has received no BlowFishKey (DynamicBlowfishKey
unset), handlePacket rejects an AuthRequest exactly when its
payload does not parse or its desired id is 0: it then returns an error, and the server
state and the connection are as they were (nothing is registered, Authenticated stays
false). Any other AuthRequest is accepted: the server is registered, online, under the
desired id, the connection gets that ID and Authenticated = true, still without a dynamic
key, and the AuthResponse is sent by one GameServer.Send, whose error, if any, is what
handlePacket returns. -/
theorem authRequest_without_key (env : Env) (net : NetLib) (now : Time) (l : LoginServer)
    (gs : GameServer) (data : List Nat) (hkey : gs.DynamicBlowfishKey = none) :
    (ings.NewAuthRequest data = none →
      handlePacket env net now l gs 0x01 data
        = some (some "failed to parse AuthRequest packet", l, gs)) ∧
    (∀ req, ings.NewAuthRequest data = some req → req.id = 0 →
      ∃ e, handlePacket env net now l gs 0x01 data = some (some e, l, gs)) ∧
    (∀ req, ings.NewAuthRequest data = some req → req.id ≠ 0 →
      ∃ info sendErr s,
        ({ gs with ID := (req.id : Int), Authenticated := true } : GameServer).Send
            env.newCipher
            (outgs.NewAuthResponseData (req.id : Int) (generateServerName (req.id : Int)))
          = some (sendErr,
              { gs with ID := (req.id : Int), Authenticated := true, Socket := s }) ∧
        handlePacket env net now l gs 0x01 data =
          some (sendErr.map (fun e => "failed to send AuthResponse: " ++ e),
            { l with gameServerRegistry :=
                { servers := l.gameServerRegistry.servers.set (req.id : Int) info } },
            { gs with ID := (req.id : Int), Authenticated := true, Socket := s }) ∧
        (l.gameServerRegistry.servers.set (req.id : Int) info).get (req.id : Int)
          = some info ∧
        info.ID = (req.id : Int) ∧ info.Name = generateServerName (req.id : Int) ∧
        info.Status = models.ServerStatusOnline ∧ info.LastUpdate = now ∧
        ({ gs with ID := (req.id : Int), Authenticated := true, Socket := s }
          : GameServer).DynamicBlowfishKey = none) := by
  refine ⟨?_, ?_, ?_⟩
  · intro hp
    show handleAuthRequest env net now l gs data = _
    unfold handleAuthRequest
    rw [hp]
  · intro req hp h0
    obtain ⟨res, e, hr⟩ := (HandleAuthRequest_spec net now l req).1 h0
    refine ⟨e, ?_⟩
    show handleAuthRequest env net now l gs data = _
    unfold handleAuthRequest
    rw [hp]
    simp only [hr]
  · intro req hp h0
    obtain ⟨info, hr, i1, i2, i3, i4⟩ := (HandleAuthRequest_spec net now l req).2 h0
    obtain ⟨sendErr, s, hs⟩ := GameServer_Send_some env.newCipher
      { gs with ID := (req.id : Int), Authenticated := true }
      (outgs.NewAuthResponseData (req.id : Int) (generateServerName (req.id : Int)))
    refine ⟨info, sendErr, s, hs, ?_, GoMap.get_set_self _ _ _, i1, i2, i3, i4, hkey⟩
    show handleAuthRequest env net now l gs data = _
    unfold handleAuthRequest
    rw [hp]
    simp only [hr, Bool.not_true, Bool.false_eq_true, if_false, hs]
    cases sendErr <;> rfl

theorem authRequest_without_key_witness :
    sample.gameServer.DynamicBlowfishKey = none ∧
    (ings.NewAuthRequest sample.authRequestPayload = none →
      handlePacket sample.env sample.netLib 1000 sample.loginServer sample.gameServer 0x01
          sample.authRequestPayload
        = some (some "failed to parse AuthRequest packet", sample.loginServer,
            sample.gameServer)) ∧
    (∀ req, ings.NewAuthRequest sample.authRequestPayload = some req → req.id = 0 →
      ∃ e, handlePacket sample.env sample.netLib 1000 sample.loginServer sample.gameServer
          0x01 sample.authRequestPayload
        = some (some e, sample.loginServer, sample.gameServer)) ∧
    (∀ req, ings.NewAuthRequest sample.authRequestPayload = some req → req.id ≠ 0 →
      ∃ info sendErr s,
        ({ sample.gameServer with ID := (req.id : Int), Authenticated := true }
            : GameServer).Send sample.env.newCipher
            (outgs.NewAuthResponseData (req.id : Int) (generateServerName (req.id : Int)))
          = some (sendErr,
              { sample.gameServer with
                ID := (req.id : Int), Authenticated := true, Socket := s }) ∧
        handlePacket sample.env sample.netLib 1000 sample.loginServer sample.gameServer 0x01
            sample.authRequestPayload =
          some (sendErr.map (fun e => "failed to send AuthResponse: " ++ e),
            { sample.loginServer with gameServerRegistry :=
                { servers :=
                    sample.loginServer.gameServerRegistry.servers.set (req.id : Int) info } },
            { sample.gameServer with
              ID := (req.id : Int), Authenticated := true, Socket := s }) ∧
        (sample.loginServer.gameServerRegistry.servers.set (req.id : Int) info).get
            (req.id : Int) = some info ∧
        info.ID = (req.id : Int) ∧ info.Name = generateServerName (req.id : Int) ∧
        info.Status = models.ServerStatusOnline ∧ info.LastUpdate = 1000 ∧
        ({ sample.gameServer with ID := (req.id : Int), Authenticated := true, Socket := s }
          : GameServer).DynamicBlowfishKey = none) :=
  ⟨rfl,
    authRequest_without_key sample.env sample.netLib 1000 sample.loginServer
      sample.gameServer sample.authRequestPayload rfl⟩

end gameserver

end handlers

/-! ### Key extraction of DecryptKey (C21) -/

namespace ings

theorem firstNonZero_padding (n : Nat) (k0 : Nat) (rest : List Nat) (h : k0 ≠ 0) :
    firstNonZero (List.replicate n 0 ++ k0 :: rest) = some n := by
  induction n with
  | zero => simp [firstNonZero, h]
  | succ n ih =>
    rw [List.replicate_succ, List.cons_append, firstNonZero, ih]
    simp

set_option maxRecDepth 100000 in
/-- C21, as claimed, fails: the 40-byte key `sample.zeroLedKey` begins with zero bytes;
from the 128-byte block of zero padding followed by that key, DecryptKey yields the 21
bytes that follow the zeros, which is neither the key nor 40 or 22 bytes long. -/
theorem decryptKey_zero_led_key :
    sample.zeroLedKey.length = 40 ∧
    rsaDecryptNoPadding sample.gameServer.PrivateKey sample.zeroLedBlowFishKey.encryptedKey
      = .ok (List.replicate 88 0 ++ sample.zeroLedKey) ∧
    sample.zeroLedBlowFishKey.DecryptKey sample.gameServer.PrivateKey
      = .ok [1, 2, 3, 4, 5, 6, 7, 8, 9, 10, 11, 12, 13, 14, 15, 16, 17, 18, 19, 20, 21] ∧
    [1, 2, 3, 4, 5, 6, 7, 8, 9, 10, 11, 12, 13, 14, 15, 16, 17, 18, 19, 20, 21]
      ≠ sample.zeroLedKey :=
  ⟨rfl, rfl, rfl, by decide⟩

/-- C21, amended: when the decrypted block is zero padding followed by a key K of 40 or of
22 bytes whose first byte is not zero, DecryptKey yields exactly K (so a key of 40 or 22
bytes). -/
theorem decryptKey_recovers_key (bfk : BlowFishKey) (priv : transport.PrivateKey) (n : Nat)
    (K : List Nat)
    (hdec : rsaDecryptNoPadding priv bfk.encryptedKey = .ok (List.replicate n 0 ++ K))
    (hlen : K.length = 40 ∨ K.length = 22) (hfirst : K.head? ≠ some 0) :
    bfk.DecryptKey priv = .ok K := by
  match K, hlen, hfirst with
  | k0 :: rest, hlen, hfirst =>
    have hk0 : k0 ≠ 0 := by
      intro h
      apply hfirst
      simp [h]
    unfold BlowFishKey.DecryptKey
    rw [hdec]
    simp only [firstNonZero_padding n k0 rest hk0, List.length_append, List.length_replicate,
      Nat.add_sub_cancel_left]
    have hd : List.drop n (List.replicate n 0 ++ k0 :: rest) = k0 :: rest := by
      rw [List.drop_append_of_le_length (by simp)]
      simp
    rw [hd]
    rcases hlen with h | h
    · have h40 : (k0 :: rest).length ≥ 40 := by omega
      have h22 : (k0 :: rest).length ≥ 22 := by omega
      rw [if_pos h22, if_pos h40, ← h, List.take_length]
    · have h40 : ¬ (k0 :: rest).length ≥ 40 := by omega
      have h22 : (k0 :: rest).length ≥ 22 := by omega
      rw [if_pos h22, if_neg h40, ← h, List.take_length]

set_option maxRecDepth 100000 in
theorem decryptKey_recovers_key_witness :
    (rsaDecryptNoPadding sample.gameServer.PrivateKey sample.dynamicBlowFishKey.encryptedKey
        = .ok (List.replicate 88 0 ++ sample.dynamicKey) ∧
      (sample.dynamicKey.length = 40 ∨ sample.dynamicKey.length = 22) ∧
      sample.dynamicKey.head? ≠ some 0) ∧
    sample.dynamicBlowFishKey.DecryptKey sample.gameServer.PrivateKey
      = .ok sample.dynamicKey :=
  ⟨⟨rfl, Or.inl rfl, by decide⟩,
    decryptKey_recovers_key sample.dynamicBlowFishKey sample.gameServer.PrivateKey 88
      sample.dynamicKey rfl (Or.inl rfl) (by decide)⟩

end ings

/-! ### Address resolution (C22) -/

namespace models

theorem To4_length (ip quad : List Nat) (h : To4 ip = some quad) : quad.length = 4 := by
  unfold To4 at h
  split at h
  · cases h
    assumption
  · split at h
    · cases h
      rw [List.length_drop]
      omega
    · cases h

theorem quad_eq (quad : List Nat) (h : quad.length = 4) :
    [quad.getD 0 0, quad.getD 1 0, quad.getD 2 0, quad.getD 3 0] = quad := by
  match quad, h with
  | [a, b, c, d], _ => rfl

/-- The loop of GetServerAddress stops at the first subnet that contains the address. -/
theorem findServerAddress_first (c : List Nat) (pairs : List (IPNet × String)) (i : Nat)
    (S : IPNet) (a : String) (hi : pairs[i]? = some (S, a)) (hc : S.Contains c = true)
    (hfirst : ∀ j S' a', j < i → pairs[j]? = some (S', a') → S'.Contains c = false) :
    findServerAddress
      (pairs.map (fun p => ({ Subnet := some p.1, ServerAddress := p.2 } : GameServerAddress)))
      c = some (some a) := by
  induction pairs generalizing i with
  | nil => simp at hi
  | cons p rest ih =>
    cases i with
    | zero =>
      simp only [List.getElem?_cons_zero, Option.some.injEq] at hi
      subst hi
      simp [findServerAddress, hc]
    | succ i =>
      have h0 : p.1.Contains c = false := hfirst 0 p.1 p.2 (by omega) (by simp)
      rw [List.getElem?_cons_succ] at hi
      have := ih i hi (fun j S' a' hj hp => hfirst (j + 1) S' a' (by omega)
        (by rw [List.getElem?_cons_succ]; exact hp))
      simp [findServerAddress, h0, this]

theorem findServerAddress_none (c : List Nat) (pairs : List (IPNet × String))
    (hno : ∀ p ∈ pairs, p.1.Contains c = false) :
    findServerAddress
      (pairs.map (fun p => ({ Subnet := some p.1, ServerAddress := p.2 } : GameServerAddress)))
      c = some none := by
  induction pairs with
  | nil => rfl
  | cons p rest ih =>
    have h0 := hno p (List.mem_cons_self _ _)
    have := ih (fun q hq => hno q (List.mem_cons_of_mem _ hq))
    simp [findServerAddress, h0, this]

/-- The loop of GetServerAddress yields an advertised address of the list or nothing. -/
theorem findServerAddress_mem (c : List Nat) (pairs : List (IPNet × String)) :
    findServerAddress
        (pairs.map (fun p => ({ Subnet := some p.1, ServerAddress := p.2 }
          : GameServerAddress))) c = some none ∨
      ∃ p ∈ pairs, findServerAddress
        (pairs.map (fun p => ({ Subnet := some p.1, ServerAddress := p.2 }
          : GameServerAddress))) c = some (some p.2) := by
  induction pairs with
  | nil => exact Or.inl rfl
  | cons p rest ih =>
    by_cases h0 : p.1.Contains c = true
    · right
      exact ⟨p, List.mem_cons_self _ _, by simp [findServerAddress, h0]⟩
    · rcases ih with h | ⟨q, hq, h⟩
      · left
        simp [findServerAddress, h0, h]
      · right
        exact ⟨q, List.mem_cons_of_mem _ hq, by simp [findServerAddress, h0, h]⟩

/-- GetServerAddress of a server with addresses yields one of its advertised addresses. -/
theorem GetServerAddress_mem (info : GameServerInfo) (pairs : List (IPNet × String))
    (c : List Nat)
    (haddr : info.Addresses = pairs.map
      (fun p => ({ Subnet := some p.1, ServerAddress := p.2 } : GameServerAddress)))
    (hne : pairs ≠ []) :
    ∃ p ∈ pairs, info.GetServerAddress c = some p.2 := by
  unfold GameServerInfo.GetServerAddress
  rw [haddr]
  rcases findServerAddress_mem c pairs with h | ⟨q, hq, h⟩
  · rw [h]
    match pairs, hne with
    | p :: rest, _ => exact ⟨p, List.mem_cons_self _ _, rfl⟩
  · rw [h]
    exact ⟨q, hq, rfl⟩

end models

namespace outclient

open models

/-- ServerList.getServerIP once the client address is resolved and an advertised address
that is an IPv4 literal is selected. -/
theorem getServerIP_selected (net : NetLib) (res : Resolver) (p : ServerList)
    (info : GameServerInfo) (c : List Nat) (a : String) (ip quad : List Nat)
    (hclient : net.ParseIP p.clientAddr = some c ∨
      (net.ParseIP p.clientAddr = none ∧
        ∃ host, res.SplitHostPort p.clientAddr = .ok host ∧ net.ParseIP host = some c))
    (hsel : info.GetServerAddress c = some a) (hparse : net.ParseIP a = some ip)
    (h4 : To4 ip = some quad) (hempty : net.ParseIP "" = none) :
    p.getServerIP net res info = some quad := by
  have hane : a ≠ "" := by
    intro h
    rw [h, hempty] at hparse
    cases hparse
  have hq := quad_eq quad (To4_length ip quad h4)
  unfold ServerList.getServerIP
  rcases hclient with h | ⟨h, host, hs, hh⟩
  · simp only [h, hsel, hane, if_false, hparse, h4, hq]
  · simp only [h, hs, hh, hsel, hane, if_false, hparse, h4, hq]

/-- C22: for a server whose address list is [(S1,IP1),...,(Sn,IPn)] and every client IP c,
GetServerAddress yields IPi for the smallest i with c in Si, IP1 if no subnet contains c,
and the empty string if the list is empty. When the advertised addresses are IPv4 literals
and the client address is an IP or host:port with an IP as host, the 4-byte address of the
ServerList packet is the IPv4 form of that result; it is 127.0.0.1 when the server has no
addresses. -/
theorem getServerAddress_spec (net : NetLib) (res : Resolver) (p : ServerList)
    (info : GameServerInfo) (pairs : List (IPNet × String))
    (haddr : info.Addresses = pairs.map
      (fun p => ({ Subnet := some p.1, ServerAddress := p.2 } : GameServerAddress))) :
    (∀ (c : List Nat) (i : Nat) (S : IPNet) (a : String), pairs[i]? = some (S, a) →
      S.Contains c = true →
      (∀ (j : Nat) (S' : IPNet) (a' : String), j < i → pairs[j]? = some (S', a') →
        S'.Contains c = false) →
      info.GetServerAddress c = some a) ∧
    (∀ (c : List Nat) (S : IPNet) (a : String) (rest : List (IPNet × String)),
      pairs = (S, a) :: rest → (∀ q ∈ pairs, q.1.Contains c = false) →
      info.GetServerAddress c = some a) ∧
    (∀ c, pairs = [] → info.GetServerAddress c = some "") ∧
    (∀ c, pairs ≠ [] → net.ParseIP "" = none →
      (∀ q ∈ pairs, ∃ ip quad, net.ParseIP q.2 = some ip ∧ To4 ip = some quad) →
      (net.ParseIP p.clientAddr = some c ∨
        (net.ParseIP p.clientAddr = none ∧
          ∃ host, res.SplitHostPort p.clientAddr = .ok host ∧ net.ParseIP host = some c)) →
      ∃ a ip quad, info.GetServerAddress c = some a ∧ net.ParseIP a = some ip ∧
        To4 ip = some quad ∧ quad.length = 4 ∧ p.getServerIP net res info = some quad) ∧
    (pairs = [] → p.getServerIP net res info = some [127, 0, 0, 1]) := by
  have hnil : ∀ c, pairs = [] → info.GetServerAddress c = some "" := by
    intro c hp
    unfold GameServerInfo.GetServerAddress
    rw [haddr, hp]
    rfl
  refine ⟨?_, ?_, hnil, ?_, ?_⟩
  · intro c i S a hi hc hfirst
    unfold GameServerInfo.GetServerAddress
    rw [haddr, findServerAddress_first c pairs i S a hi hc hfirst]
  · intro c S a rest hp hno
    unfold GameServerInfo.GetServerAddress
    rw [haddr, findServerAddress_none c pairs hno, hp]
    rfl
  · intro c hne hempty hlit hclient
    obtain ⟨q, hq, hsel⟩ := GetServerAddress_mem info pairs c haddr hne
    obtain ⟨ip, quad, hparse, h4⟩ := hlit q hq
    exact ⟨q.2, ip, quad, hsel, hparse, h4, To4_length ip quad h4,
      getServerIP_selected net res p info c q.2 ip quad hclient hsel hparse h4 hempty⟩
  · intro hp
    unfold ServerList.getServerIP GameServerInfo.GetExternalHost
    cases h1 : net.ParseIP p.clientAddr with
    | some c => simp only [h1, hnil _ hp, if_true]
    | none =>
      cases h2 : res.SplitHostPort p.clientAddr with
      | error e => simp only [h1, h2, hnil _ hp, if_true]
      | ok host =>
        cases h3 : net.ParseIP host with
        | none => simp only [h1, h2, h3, hnil _ hp, if_true]
        | some c => simp only [h1, h2, h3, hnil _ hp, if_true]

theorem getServerAddress_spec_witness :
    sample.lanServer.Addresses = sample.lanPairs.map
      (fun p => ({ Subnet := some p.1, ServerAddress := p.2 } : GameServerAddress)) ∧
    sample.lanServer.GetServerAddress (List.replicate 10 0 ++ [255, 255, 192, 168, 1, 50])
      = some "192.168.1.10" ∧
    sample.lanList.getServerIP sample.lanNet sample.resolver sample.lanServer
      = some [192, 168, 1, 10] :=
  ⟨rfl,
    (getServerAddress_spec sample.lanNet sample.resolver sample.lanList sample.lanServer
      sample.lanPairs rfl).1 (List.replicate 10 0 ++ [255, 255, 192, 168, 1, 50]) 1
      { IP := [192, 168, 1, 0], Mask := [255, 255, 255, 0] } "192.168.1.10" rfl (by decide)
      (by
        intro j S' a' hj hp
        have h0 : j = 0 := by omega
        subst h0
        cases hp
        decide),
    by decide⟩

end outclient

/-! ### Addresses of a registered game server (C23) -/

namespace usecase

open models claims

/-- AddServerAddress appends the pair when its subnet parses, and changes nothing
otherwise. -/
theorem AddServerAddress_eq (net : NetLib) (info : GameServerInfo)
    (subnet serverAddr : String) :
    (info.AddServerAddress net subnet serverAddr).2 =
      { info with Addresses := info.Addresses ++
          ((parsedSubnet net subnet).map
            (fun sn => ({ Subnet := sn, ServerAddress := serverAddr } : GameServerAddress))).toList }
      := by
  unfold GameServerInfo.AddServerAddress parsedSubnet
  cases net.ParseCIDR subnet with
  | ok ipNet => rfl
  | error err =>
    cases net.ParseIP subnet with
    | none => simp
    | some ip =>
      by_cases h4 : (To4 ip).isSome = true
      · simp [h4]
      · simp [h4]

/-- The host pairs of an AuthRequest append, in order, the pairs whose subnet parses. -/
theorem addHostPairs_eq (net : NetLib) (hosts : List String) (info : GameServerInfo) :
    addHostPairs net hosts info =
      { info with Addresses := info.Addresses ++
          (hostPairs hosts).filterMap (fun p => (parsedSubnet net p.1).map
            (fun sn => ({ Subnet := sn, ServerAddress := p.2 } : GameServerAddress))) } := by
  induction hosts using hostPairs.induct generalizing info with
  | case1 subnet serverAddr rest ih =>
    rw [addHostPairs, ih, AddServerAddress_eq, hostPairs, List.filterMap_cons]
    cases parsedSubnet net subnet with
    | none => simp
    | some sn => simp
  | case2 hosts hne =>
    have h1 : addHostPairs net hosts info = info := by
      unfold addHostPairs
      split
      · exact absurd rfl (hne _ _ _)
      · rfl
    have h2 : hostPairs hosts = [] := by
      unfold hostPairs
      split
      · exact absurd rfl (hne _ _ _)
      · rfl
    rw [h1, h2]
    simp

/-- The pairs of a hosts list are its elements at the positions `2k` and `2k + 1`. -/
theorem hostPairs_spec (hosts : List String) :
    (hostPairs hosts).length = hosts.length / 2 ∧
      ∀ k, k < hosts.length / 2 →
        (hostPairs hosts)[k]? = some (hosts.getD (2 * k) "", hosts.getD (2 * k + 1) "") := by
  induction hosts using hostPairs.induct with
  | case1 subnet serverAddr rest ih =>
    obtain ⟨ih1, ih2⟩ := ih
    constructor
    · rw [hostPairs, List.length_cons, ih1]
      simp only [List.length_cons]
      omega
    · intro k hk
      rw [hostPairs]
      cases k with
      | zero => simp
      | succ k =>
        have hk' : k < rest.length / 2 := by
          simp only [List.length_cons] at hk
          omega
        rw [List.getElem?_cons_succ, ih2 k hk']
        have e1 : 2 * (k + 1) = (2 * k) + 1 + 1 := by omega
        rw [e1]
        simp
  | case2 hosts hne =>
    have h2 : hostPairs hosts = [] := by
      unfold hostPairs
      split
      · exact absurd rfl (hne _ _ _)
      · rfl
    have hlen : hosts.length / 2 = 0 := by
      match hosts, hne with
      | [], _ => rfl
      | [_], _ => simp
      | a :: b :: rest, hne => exact absurd rfl (hne a b rest)
    rw [h2, hlen]
    exact ⟨rfl, fun k hk => absurd hk (by omega)⟩

/-- HandleAuthRequest with a desired id other than 0: the result, and the entry that it
puts into the registry. -/
theorem HandleAuthRequest_registers (net : NetLib) (now : Time) (l : LoginServer)
    (req : ings.AuthRequest) (hid : req.id ≠ 0) :
    HandleAuthRequest net now l req =
      ({ Success := true, ServerID := (req.id : Int),
         ServerName := generateServerName (req.id : Int), Reason := "" }, none,
        { l with gameServerRegistry :=
            { servers := l.gameServerRegistry.servers.set (req.id : Int)
                { ID := (req.id : Int), Name := generateServerName (req.id : Int),
                  Port := (req.port : Int), Status := ServerStatusOnline, CurrentPlayers := 0,
                  MaxPlayers := (req.maxPlayers : Int), PvP := true, AgeLimit := 0,
                  ServerType := 1, ShowBrackets := false, LastUpdate := now,
                  Addresses := (hostPairs req.hosts).filterMap
                    (fun p => (parsedSubnet net p.1).map
                      (fun sn => ({ Subnet := sn, ServerAddress := p.2 }
                        : GameServerAddress))) } } }) := by
  have hpos : ¬ ((req.id : Int) ≤ 0) := by omega
  unfold HandleAuthRequest registry.gameServerRegistry.Register
  simp only [addHostPairs_eq, ings.AuthRequest.GetID, ings.AuthRequest.GetHosts,
    ings.AuthRequest.GetPort, ings.AuthRequest.GetMaxPlayers, hpos, if_false, List.nil_append]

/-- C23: for every hosts list of an AuthRequest that is registered (desired id other than
0), the address list of the registered entry is, in order, the pairs (h2k, h2k+1) whose
subnet h2k parses as a CIDR or as a bare IP (widened to /32 or /128), each with the network
parsed; a pair whose subnet does not parse is left out, the registration succeeds all the
same, and a trailing unpaired element is not looked at. -/
theorem authRequest_addresses (net : NetLib) (now : Time) (l : LoginServer)
    (req : ings.AuthRequest) (hid : req.id ≠ 0) :
    (∃ info,
      (HandleAuthRequest net now l req).2.2.gameServerRegistry.servers.get (req.id : Int)
        = some info ∧
      info.Addresses = (hostPairs req.hosts).filterMap
        (fun p => (parsedSubnet net p.1).map
          (fun sn => ({ Subnet := sn, ServerAddress := p.2 } : GameServerAddress)))) ∧
    (HandleAuthRequest net now l req).1.Success = true ∧
    (HandleAuthRequest net now l req).2.1 = none ∧
    (hostPairs req.hosts).length = req.hosts.length / 2 ∧
    (∀ k, k < req.hosts.length / 2 →
      (hostPairs req.hosts)[k]? =
        some (req.hosts.getD (2 * k) "", req.hosts.getD (2 * k + 1) "")) := by
  rw [HandleAuthRequest_registers net now l req hid]
  exact ⟨⟨_, GoMap.get_set_self _ _ _, rfl⟩, rfl, rfl, hostPairs_spec req.hosts⟩

theorem authRequest_addresses_witness :
    sample.hostsRequest.id ≠ 0 ∧
    ∃ info,
      (HandleAuthRequest sample.lanNet 1000 sample.loginServer
          sample.hostsRequest).2.2.gameServerRegistry.servers.get 1 = some info ∧
      info.Addresses =
        [{ Subnet := some { IP := [192, 168, 1, 0], Mask := [255, 255, 255, 0] },
           ServerAddress := "192.168.1.10" },
         { Subnet := some { IP := [10, 0, 0, 5], Mask := [255, 255, 255, 255] },
           ServerAddress := "203.0.113.7" }] :=
  ⟨by decide, (authRequest_addresses sample.lanNet 1000 sample.loginServer
    sample.hostsRequest (by decide)).1⟩

/-! ### Registration of a game server (C24) -/

theorem generateServerName_other (d : Nat) (hd : 17 < d) :
    generateServerName (d : Int) = "Server_" ++ toString d := by
  have hnone : serverNames.get (d : Int) = none := by
    rw [GoMap.get_eq_none_iff]
    intro e he
    simp only [serverNames, List.mem_cons, List.mem_singleton, List.not_mem_nil,
      or_false] at he
    rcases he with h | h | h | h | h | h | h | h | h | h | h | h | h | h | h | h | h <;>
      rw [h] <;> simp only <;> omega
  unfold generateServerName
  rw [hnone]
  rfl

theorem generateServerName_table (d : Nat) (h1 : 1 ≤ d) (h17 : d ≤ 17) :
    serverNames.get (d : Int) = some (generateServerName (d : Int)) := by
  have hd : d = 1 ∨ d = 2 ∨ d = 3 ∨ d = 4 ∨ d = 5 ∨ d = 6 ∨ d = 7 ∨ d = 8 ∨ d = 9 ∨ d = 10
      ∨ d = 11 ∨ d = 12 ∨ d = 13 ∨ d = 14 ∨ d = 15 ∨ d = 16 ∨ d = 17 := by omega
  rcases hd with h | h | h | h | h | h | h | h | h | h | h | h | h | h | h | h | h <;>
    subst h <;> decide

/-- C24: for an AuthRequest with desired id d >= 1, HandleAuthRequest puts an entry under
id d into the registry (replacing one that is there, leaving the others), with status
Online, the port and max_players of the packet and the name of the table for d in 1..17
(1 = Bartz, 2 = Sieghardt, 15 = Chronos, 17 = Elhwynna) or "Server_<d>" otherwise, and
returns Success with that id and name. For d = 0 it returns an error, the registry stays as
it was, and the handler leaves the connection as it was (not authenticated). -/
theorem authRequest_registration (env : Env) (net : NetLib) (now : Time) (l : LoginServer)
    (req : ings.AuthRequest) :
    (1 ≤ req.id →
      ∃ info,
        HandleAuthRequest net now l req =
          ({ Success := true, ServerID := (req.id : Int),
             ServerName := generateServerName (req.id : Int), Reason := "" }, none,
            { l with gameServerRegistry :=
                { servers := l.gameServerRegistry.servers.set (req.id : Int) info } }) ∧
        (l.gameServerRegistry.servers.set (req.id : Int) info).get (req.id : Int)
          = some info ∧
        (∀ k, k ≠ (req.id : Int) →
          (l.gameServerRegistry.servers.set (req.id : Int) info).get k
            = l.gameServerRegistry.servers.get k) ∧
        info.ID = (req.id : Int) ∧ info.Status = ServerStatusOnline ∧
        info.Port = (req.port : Int) ∧ info.MaxPlayers = (req.maxPlayers : Int) ∧
        info.Name = generateServerName (req.id : Int)) ∧
    (1 ≤ req.id → req.id ≤ 17 →
      serverNames.get (req.id : Int) = some (generateServerName (req.id : Int))) ∧
    (generateServerName 1 = "Bartz" ∧ generateServerName 2 = "Sieghardt" ∧
      generateServerName 15 = "Chronos" ∧ generateServerName 17 = "Elhwynna") ∧
    (17 < req.id → generateServerName (req.id : Int) = "Server_" ++ toString req.id) ∧
    (req.id = 0 →
      ∃ res e, HandleAuthRequest net now l req = (res, some e, l) ∧ res.Success = false ∧
        ∀ (gs : transport.GameServer) (data : List Nat),
          ings.NewAuthRequest data = some req →
            handlers.gameserver.handleAuthRequest env net now l gs data
              = some (some e, l, gs)) := by
  refine ⟨?_, generateServerName_table req.id, by decide, generateServerName_other req.id, ?_⟩
  · intro h1
    refine ⟨_, HandleAuthRequest_registers net now l req (by omega),
      GoMap.get_set_self _ _ _, ?_, rfl, rfl, rfl, rfl, rfl⟩
    intro k hk
    exact GoMap.get_set_ne _ _ hk
  · intro h0
    have hzero : (req.GetID : Int) = 0 := by unfold ings.AuthRequest.GetID; rw [h0]; rfl
    have hres : HandleAuthRequest net now l req =
        ({ Success := false, ServerID := 0, ServerName := "", Reason := "Registration failed" },
          some ("invalid gameserver ID: " ++ toString (0 : Int)), l) := by
      unfold HandleAuthRequest registry.gameServerRegistry.Register
      simp only [addHostPairs_eq, hzero, le_refl, if_true]
    refine ⟨_, _, hres, rfl, ?_⟩
    intro gs data hparse
    unfold handlers.gameserver.handleAuthRequest
    rw [hparse]
    simp only [hres]

theorem authRequest_registration_witness :
    (1 ≤ sample.hostsRequest.id ∧ sample.hostsRequest.id ≤ 17) ∧
    serverNames.get (sample.hostsRequest.id : Int) = some "Bartz" :=
  ⟨by decide, (authRequest_registration sample.env sample.lanNet 1000 sample.loginServer
    sample.hostsRequest).2.1 (by decide) (by decide)⟩

end usecase

/-! ### Visible servers (C25) -/

namespace GoMap

variable {K V : Type} [DecidableEq K]

theorem get_of_mem (m : GoMap K V) (hwf : m.WF) (e : K × V) (he : e ∈ m) :
    m.get e.1 = some e.2 := by
  induction m with
  | nil => cases he
  | cons x rest ih =>
    obtain ⟨k', v'⟩ := x
    unfold WF at hwf
    rw [List.map_cons, List.nodup_cons] at hwf
    rcases List.mem_cons.1 he with h | h
    · subst h
      simp [get]
    · have hne : k' ≠ e.1 := by
        intro hk
        apply hwf.1
        rw [hk]
        exact List.mem_map.2 ⟨e, h, rfl⟩
      unfold get
      rw [if_neg hne]
      exact ih hwf.2 h

theorem mem_of_get (m : GoMap K V) (k : K) (v : V) (h : m.get k = some v) : (k, v) ∈ m := by
  induction m with
  | nil => cases h
  | cons x rest ih =>
    obtain ⟨k', v'⟩ := x
    unfold get at h
    by_cases hk : k' = k
    · rw [if_pos hk] at h
      cases h
      subst hk
      exact List.mem_cons_self _ _
    · rw [if_neg hk] at h
      exact List.mem_cons_of_mem _ (ih h)

end GoMap

namespace registry

open models

/-- IsVisible in the words of the claim on visibility. -/
theorem isVisible_iff (info : GameServerInfo) (L : Int) :
    info.IsVisible L = true ↔
      info.Status ≠ ServerStatusDown ∧ (info.Status ≠ ServerStatusGMOnly ∨ 0 < L) := by
  unfold GameServerInfo.IsVisible
  by_cases hg : info.Status = ServerStatusGMOnly
  · have hd : info.Status ≠ ServerStatusDown := by rw [hg]; decide
    simp [hg, hd]
    intro _
    decide
  · simp [hg]

/-- Register keeps the keys of the registry distinct and every entry under its own id. -/
theorem Register_invariant (r : gameServerRegistry) (now : Time) (info : GameServerInfo)
    (hwf : r.servers.WF) (hkey : ∀ e ∈ r.servers, e.2.ID = e.1) :
    (r.Register now info).2.servers.WF ∧
      ∀ e ∈ (r.Register now info).2.servers, e.2.ID = e.1 := by
  unfold gameServerRegistry.Register
  split
  · exact ⟨hwf, hkey⟩
  · refine ⟨GoMap.WF_set _ _ _ hwf, ?_⟩
    intro e he
    simp only [GoMap.set, GoMap.delete, List.mem_cons, List.mem_filter] at he
    rcases he with h | h
    · rw [h]
    · exact hkey e h.1

/-- C25: for every registry (distinct keys, every entry under its own id) and access level
L, GetVisibleServers yields the registered entries whose status is not Down and (is not
GMOnly or L > 0), and nothing else, no id twice; so level 0 leaves out exactly the Down and
GMOnly entries, and level 1 exactly the Down entries. -/
theorem getVisibleServers_spec (r : gameServerRegistry) (L : Int) (hwf : r.servers.WF)
    (hkey : ∀ e ∈ r.servers, e.2.ID = e.1) :
    (∀ info, info ∈ r.GetVisibleServers L ↔
      r.servers.get info.ID = some info ∧ info.Status ≠ ServerStatusDown ∧
        (info.Status ≠ ServerStatusGMOnly ∨ 0 < L)) ∧
    ((r.GetVisibleServers L).map (fun info => info.ID)).Nodup ∧
    (∀ info, info ∈ r.GetVisibleServers 0 ↔
      r.servers.get info.ID = some info ∧ info.Status ≠ ServerStatusDown ∧
        info.Status ≠ ServerStatusGMOnly) ∧
    (∀ info, info ∈ r.GetVisibleServers 1 ↔
      r.servers.get info.ID = some info ∧ info.Status ≠ ServerStatusDown) := by
  have hmem : ∀ (L : Int) (info : GameServerInfo), info ∈ r.GetVisibleServers L ↔
      r.servers.get info.ID = some info ∧ info.Status ≠ ServerStatusDown ∧
        (info.Status ≠ ServerStatusGMOnly ∨ 0 < L) := by
    intro L info
    unfold gameServerRegistry.GetVisibleServers
    rw [List.mem_map]
    constructor
    · rintro ⟨e, he, rfl⟩
      rw [List.mem_filter] at he
      have hg := GoMap.get_of_mem r.servers hwf e he.1
      rw [← hkey e he.1] at hg
      exact ⟨hg, (isVisible_iff e.2 L).1 he.2⟩
    · rintro ⟨hg, hv⟩
      refine ⟨(info.ID, info), ?_, rfl⟩
      rw [List.mem_filter]
      exact ⟨GoMap.mem_of_get _ _ _ hg, (isVisible_iff info L).2 hv⟩
  refine ⟨hmem L, ?_, ?_, ?_⟩
  · unfold gameServerRegistry.GetVisibleServers
    rw [List.map_map]
    have hsub : ((r.servers.filter (fun e => e.2.IsVisible L)).map
        ((fun info : GameServerInfo => info.ID) ∘ Prod.snd)) =
        (r.servers.filter (fun e => e.2.IsVisible L)).map Prod.fst := by
      apply List.map_congr_left
      intro e he
      exact hkey e (List.mem_of_mem_filter he)
    rw [hsub]
    exact List.Nodup.sublist (List.Sublist.map _ (List.filter_sublist _)) hwf
  · intro info
    rw [hmem 0 info]
    simp
  · intro info
    rw [hmem 1 info]
    simp

theorem getVisibleServers_spec_witness :
    (sample.threeServers.servers.WF ∧ ∀ e ∈ sample.threeServers.servers, e.2.ID = e.1) ∧
    sample.threeServers.GetVisibleServers 0 = [sample.serverInfo 1 ServerStatusOnline] ∧
    sample.threeServers.GetVisibleServers 1 =
      [sample.serverInfo 1 ServerStatusOnline, sample.serverInfo 2 ServerStatusGMOnly] ∧
    ((sample.threeServers.GetVisibleServers 1).map (fun info => info.ID)).Nodup :=
  ⟨⟨by decide, by decide⟩, by decide, by decide,
    (getVisibleServers_spec sample.threeServers 1 (by decide) (by decide)).2.1⟩

end registry

/-! ### Cached character counts (C26) -/

namespace registry

/-- The result of the loop of GetCharacterCounts at a key, for an account map with distinct
keys. -/
theorem countsFold_get (now ttl : Time) (m : GoMap Int CharacterCountInfo)
    (acc : GoMap Int Int) (k : Int) (hwf : m.WF) :
    (m.foldl (fun (result : GoMap Int Int) (e : Int × CharacterCountInfo) =>
        if now - e.2.Timestamp ≤ ttl then result.set e.1 e.2.Count else result) acc).get k =
      match m.get k with
      | some info => if now - info.Timestamp ≤ ttl then some info.Count else acc.get k
      | none => acc.get k := by
  induction m generalizing acc with
  | nil => rfl
  | cons x rest ih =>
    obtain ⟨k', info'⟩ := x
    unfold GoMap.WF at hwf
    rw [List.map_cons, List.nodup_cons] at hwf
    rw [List.foldl_cons, ih _ hwf.2]
    by_cases hk : k' = k
    · subst hk
      have hnone : GoMap.get rest k' = none := by
        rw [GoMap.get_eq_none_iff]
        intro e he heq
        exact hwf.1 (List.mem_map.2 ⟨e, he, heq⟩)
      rw [hnone]
      simp only [GoMap.get, if_true]
      by_cases hf : now - info'.Timestamp ≤ ttl
      · simp only [hf, if_true, GoMap.get_set_self]
      · simp only [hf, if_false]
    · have hget : GoMap.get ((k', info') :: rest) k = GoMap.get rest k := by
        simp only [GoMap.get, hk, if_false]
      rw [hget]
      have hacc : GoMap.get (if now - info'.Timestamp ≤ ttl then GoMap.set acc k' info'.Count
          else acc) k = GoMap.get acc k := by
        by_cases hf : now - info'.Timestamp ≤ ttl
        · simp only [hf, if_true]
          exact GoMap.get_set_ne acc info'.Count (fun h => hk h.symm)
        · simp only [hf, if_false]
      rw [hacc]

theorem SetCharacterCount_ttl (r : InMemoryCharacterCountRegistry) (now : Time)
    (account : String) (serverID count : Int) :
    (r.SetCharacterCount now account serverID count).cacheTTL = r.cacheTTL := rfl

theorem runWrites_ttl (ws : List CountWrite) (r : InMemoryCharacterCountRegistry) :
    (r.runWrites ws).cacheTTL = r.cacheTTL := by
  unfold InMemoryCharacterCountRegistry.runWrites
  induction ws generalizing r with
  | nil => rfl
  | cons w rest ih => rw [List.foldl_cons, ih, SetCharacterCount_ttl]

theorem SetCharacterCount_holds (r : InMemoryCharacterCountRegistry) (now : Time)
    (a : String) (s n : Int) (hinv : ∀ m, r.data.get a = some m → m.WF) :
    InMemoryCharacterCountRegistry.Holds (r.SetCharacterCount now a s n) a s { Count := n, Timestamp := now } := by
  unfold InMemoryCharacterCountRegistry.Holds InMemoryCharacterCountRegistry.SetCharacterCount
  refine ⟨_, GoMap.get_set_self _ _ _, ?_, GoMap.get_set_self _ _ _⟩
  apply GoMap.WF_set
  cases h : r.data.get a with
  | none => exact List.nodup_nil
  | some m => exact hinv m h

theorem SetCharacterCount_keeps (r : InMemoryCharacterCountRegistry) (now : Time)
    (a a' : String) (s s' n' : Int) (info : CharacterCountInfo) (h : r.Holds a s info)
    (hne : ¬ (a' = a ∧ s' = s)) :
    InMemoryCharacterCountRegistry.Holds (r.SetCharacterCount now a' s' n') a s info := by
  obtain ⟨m, hm, hwf, hs⟩ := h
  unfold InMemoryCharacterCountRegistry.Holds InMemoryCharacterCountRegistry.SetCharacterCount
  by_cases ha : a' = a
  · subst ha
    have hs' : s ≠ s' := fun e => hne ⟨rfl, e.symm⟩
    refine ⟨_, GoMap.get_set_self _ _ _, ?_, ?_⟩
    · rw [hm]
      exact GoMap.WF_set _ _ _ hwf
    · rw [hm]
      simp only
      rw [GoMap.get_set_ne _ _ hs', hs]
  · refine ⟨m, ?_, hwf, hs⟩
    simp only
    rw [GoMap.get_set_ne _ _ (fun e => ha e.symm), hm]

theorem runWrites_keeps (ws : List CountWrite) (r : InMemoryCharacterCountRegistry)
    (a : String) (s : Int) (info : CharacterCountInfo) (h : r.Holds a s info)
    (hws : ∀ w ∈ ws, ¬ (w.account = a ∧ w.serverID = s)) :
    InMemoryCharacterCountRegistry.Holds (r.runWrites ws) a s info := by
  unfold InMemoryCharacterCountRegistry.runWrites
  induction ws generalizing r with
  | nil => exact h
  | cons w rest ih =>
    rw [List.foldl_cons]
    exact ih _ (SetCharacterCount_keeps r w.now a w.account s w.serverID w.count info h
      (hws w (List.mem_cons_self _ _))) (fun w' hw' => hws w' (List.mem_cons_of_mem _ hw'))

theorem GetCharacterCount_holds (r : InMemoryCharacterCountRegistry) (now : Time)
    (a : String) (s : Int) (info : CharacterCountInfo) (h : r.Holds a s info) :
    r.GetCharacterCount now a s =
        (if now - info.Timestamp ≤ r.cacheTTL then info.Count else 0) ∧
      (r.GetCharacterCounts now a).get s =
        (if now - info.Timestamp ≤ r.cacheTTL then some info.Count else none) := by
  obtain ⟨m, hm, hwf, hs⟩ := h
  constructor
  · unfold InMemoryCharacterCountRegistry.GetCharacterCount
    simp only [hm, hs]
    by_cases hf : now - info.Timestamp ≤ r.cacheTTL
    · rw [if_neg (not_lt.2 hf), if_pos hf]
    · rw [if_pos (not_le.1 hf), if_neg hf]
  · unfold InMemoryCharacterCountRegistry.GetCharacterCounts
    simp only [hm]
    rw [countsFold_get now r.cacheTTL m [] s hwf, hs]
    rfl

/-- C26: after SetCharacterCount(a, s, n) at t0, followed by any writes to other (account,
server) pairs, at every instant `now` GetCharacterCount(a, s) is n if now - t0 <= TTL and 0
otherwise, and GetCharacterCounts(a) holds s -> n if now - t0 <= TTL and has no entry for s
otherwise; for an account or server without an entry GetCharacterCount is 0 and
GetCharacterCounts has no entry. -/
theorem characterCount_ttl (r0 : InMemoryCharacterCountRegistry) (t0 now : Time)
    (a : String) (s n : Int) (ws : List CountWrite)
    (hinv : ∀ m, r0.data.get a = some m → m.WF)
    (hws : ∀ w ∈ ws, ¬ (w.account = a ∧ w.serverID = s)) :
    (((r0.SetCharacterCount t0 a s n).runWrites ws).GetCharacterCount now a s =
        if now - t0 ≤ r0.cacheTTL then n else 0) ∧
    ((((r0.SetCharacterCount t0 a s n).runWrites ws).GetCharacterCounts now a).get s =
        if now - t0 ≤ r0.cacheTTL then some n else none) ∧
    (r0.data.get a = none →
      r0.GetCharacterCount now a s = 0 ∧ r0.GetCharacterCounts now a = []) ∧
    (∀ m, r0.data.get a = some m → m.get s = none →
      r0.GetCharacterCount now a s = 0 ∧ (r0.GetCharacterCounts now a).get s = none) := by
  have hh := runWrites_keeps ws _ a s _ (SetCharacterCount_holds r0 t0 a s n hinv) hws
  obtain ⟨h1, h2⟩ := GetCharacterCount_holds _ now a s _ hh
  rw [runWrites_ttl, SetCharacterCount_ttl] at h1 h2
  refine ⟨h1, h2, ?_, ?_⟩
  · intro hnone
    unfold InMemoryCharacterCountRegistry.GetCharacterCount
      InMemoryCharacterCountRegistry.GetCharacterCounts
    simp only [hnone, and_self]
  · intro m hm hs
    constructor
    · unfold InMemoryCharacterCountRegistry.GetCharacterCount
      simp only [hm, hs]
    · unfold InMemoryCharacterCountRegistry.GetCharacterCounts
      simp only [hm]
      rw [countsFold_get now r0.cacheTTL m [] s (hinv m hm), hs]
      rfl

theorem characterCount_ttl_witness :
    ((∀ m, sample.countRegistry.data.get "alice" = some m → m.WF) ∧
      ∀ w ∈ [({ now := 1010, account := "bob", serverID := 1, count := 7 } : CountWrite)],
        ¬ (w.account = "alice" ∧ w.serverID = 1)) ∧
    ((sample.countRegistry.SetCharacterCount 1000 "alice" 1 3).runWrites
        [{ now := 1010, account := "bob", serverID := 1, count := 7 }]).GetCharacterCount
        1300 "alice" 1 = 3 ∧
    ((sample.countRegistry.SetCharacterCount 1000 "alice" 1 3).runWrites
        [{ now := 1010, account := "bob", serverID := 1, count := 7 }]).GetCharacterCount
        1301 "alice" 1 = 0 :=
  ⟨⟨(fun m hm => by cases hm), by decide⟩,
    (characterCount_ttl sample.countRegistry 1000 1300 "alice" 1 3
      [{ now := 1010, account := "bob", serverID := 1, count := 7 }]
      (fun m hm => by cases hm) (by decide)).1,
    by decide⟩

end registry

namespace models

/-- The loop of GetServerAddress does not panic when no subnet is nil. -/
theorem findServerAddress_some (addrs : List GameServerAddress) (c : List Nat)
    (hsub : ∀ a ∈ addrs, a.Subnet ≠ none) : ∃ r, findServerAddress addrs c = some r := by
  induction addrs with
  | nil => exact ⟨none, rfl⟩
  | cons a rest ih =>
    obtain ⟨r, hr⟩ := ih (fun b hb => hsub b (List.mem_cons_of_mem _ hb))
    have ha := hsub a (List.mem_cons_self _ _)
    unfold findServerAddress
    cases hs : a.Subnet with
    | none => exact absurd hs ha
    | some subnet =>
      simp only
      by_cases hc : subnet.Contains c = true
      · exact ⟨_, by rw [if_pos hc]⟩
      · exact ⟨r, by rw [if_neg hc, hr]⟩

theorem GetServerAddress_some (info : GameServerInfo) (c : List Nat)
    (hsub : ∀ a ∈ info.Addresses, a.Subnet ≠ none) : ∃ s, info.GetServerAddress c = some s := by
  obtain ⟨r, hr⟩ := findServerAddress_some info.Addresses c hsub
  unfold GameServerInfo.GetServerAddress
  rw [hr]
  cases r with
  | some a => exact ⟨a, rfl⟩
  | none =>
    cases info.Addresses with
    | nil => exact ⟨_, rfl⟩
    | cons a rest => exact ⟨_, rfl⟩

end models

/-! ### The ServerList packet (C27) -/

namespace outclient

open models packets

/-- ServerList.getServerIP yields 4 bytes when no subnet of the server is nil. -/
theorem getServerIP_some (net : NetLib) (res : Resolver) (p : ServerList)
    (info : GameServerInfo) (hsub : ∀ a ∈ info.Addresses, a.Subnet ≠ none) :
    ∃ ip : List Nat, ip.length = 4 ∧ p.getServerIP net res info = some ip := by
  have htail : ∀ selectedIP : String, ∃ ip : List Nat, ip.length = 4 ∧
      (if selectedIP = "" then some [127, 0, 0, 1]
        else
          match (match net.ParseIP selectedIP with
            | some ip => some ip
            | none =>
              match res.LookupIP selectedIP with
              | .ok (first :: _) => some first
              | _ => none) with
          | none => some [127, 0, 0, 1]
          | some ip =>
            match models.To4 ip with
            | some ipv4 => some [ipv4.getD 0 0, ipv4.getD 1 0, ipv4.getD 2 0, ipv4.getD 3 0]
            | none => some [127, 0, 0, 1]) = some ip := by
    intro selectedIP
    split
    · refine ⟨_, ?_, rfl⟩; rfl
    · split
      · refine ⟨_, ?_, rfl⟩; rfl
      · split
        · refine ⟨_, ?_, rfl⟩; rfl
        · refine ⟨_, ?_, rfl⟩; rfl
  have hext : ∃ s, info.GetExternalHost net = some s := by
    unfold GameServerInfo.GetExternalHost
    exact GetServerAddress_some info _ hsub
  obtain ⟨e, he⟩ := hext
  have hsel : ∀ selected : Option String, (∃ s, selected = some s) →
      ∃ ip : List Nat, ip.length = 4 ∧
        (match selected with
        | none => none
        | some selectedIP =>
          match (if selectedIP = "" then info.GetExternalHost net else some selectedIP) with
          | none => none
          | some selectedIP =>
            if selectedIP = "" then some [127, 0, 0, 1]
            else
              match (match net.ParseIP selectedIP with
                | some ip => some ip
                | none =>
                  match res.LookupIP selectedIP with
                  | .ok (first :: _) => some first
                  | _ => none) with
              | none => some [127, 0, 0, 1]
              | some ip =>
                match models.To4 ip with
                | some ipv4 =>
                  some [ipv4.getD 0 0, ipv4.getD 1 0, ipv4.getD 2 0, ipv4.getD 3 0]
                | none => some [127, 0, 0, 1]) = some ip := by
    rintro _ ⟨s, rfl⟩
    by_cases hs : s = ""
    · simp only [hs, if_true, he]
      exact htail e
    · simp only [hs, if_false]
      have := htail s
      simp only [hs, if_false] at this
      exact this
  unfold ServerList.getServerIP
  cases h1 : net.ParseIP p.clientAddr with
  | some c => exact hsel _ (GetServerAddress_some info c hsub)
  | none =>
    cases h2 : res.SplitHostPort p.clientAddr with
    | error err => exact hsel _ ⟨"", rfl⟩
    | ok host =>
      cases h3 : net.ParseIP host with
      | none =>
        refine hsel _ ?_
        simp only [h3]
        exact ⟨"", rfl⟩
      | some c =>
        refine hsel _ ?_
        simp only [h3]
        exact GetServerAddress_some info c hsub

theorem flatten_length_const (L : List (List Nat)) (k : Nat) (h : ∀ r ∈ L, r.length = k) :
    L.flatten.length = k * L.length := by
  induction L with
  | nil => rfl
  | cons r rest ih =>
    rw [List.flatten_cons, List.length_append, h r (List.mem_cons_self _ _),
      ih (fun q hq => h q (List.mem_cons_of_mem _ hq)), List.length_cons]
    ring

/-- The record that GetData writes for one server, given its 4-byte address. -/
theorem writeServer_eq (p : ServerList) (s : GameServerInfo) (ip : List Nat)
    (hip : ip.length = 4) :
    p.writeServer s ip =
      [(s.ID % 256).toNat] ++ ip ++ WriteUInt32 (s.Port % 2 ^ 32).toNat
        ++ [(s.AgeLimit % 256).toNat] ++ [if s.PvP then 0x01 else 0x00]
        ++ WriteUInt16 (s.CurrentPlayers % 2 ^ 16).toNat
        ++ WriteUInt16 (s.MaxPlayers % 2 ^ 16).toNat
        ++ [if s.IsOnline && s.IsVisible p.accessLevel then 0x01 else 0x00]
        ++ WriteUInt32 (s.ServerType % 2 ^ 32).toNat
        ++ [if s.ShowBrackets then 0x01 else 0x00] := by
  match ip, hip with
  | [a, b, c, d], _ => rfl

theorem writeServers_eq (net : NetLib) (res : Resolver) (p : ServerList)
    (servers : List GameServerInfo)
    (hsub : ∀ s ∈ servers, ∀ a ∈ s.Addresses, a.Subnet ≠ none) :
    ∃ ips : List (List Nat),
      List.Forall₂ (fun s ip => p.getServerIP net res s = some ip ∧ ip.length = 4)
        servers ips ∧
      p.writeServers net res servers =
        some (List.zipWith (fun s ip => p.writeServer s ip) servers ips).flatten := by
  induction servers with
  | nil => exact ⟨[], List.Forall₂.nil, rfl⟩
  | cons s rest ih =>
    obtain ⟨ips, hall, hw⟩ := ih (fun t ht => hsub t (List.mem_cons_of_mem _ ht))
    obtain ⟨ip, hlen, hip⟩ := getServerIP_some net res p s (hsub s (List.mem_cons_self _ _))
    refine ⟨ip :: ips, List.Forall₂.cons ⟨hip, hlen⟩ hall, ?_⟩
    unfold ServerList.writeServers
    rw [hip]
    simp only [hw]
    rfl

theorem countServers_eq (p : ServerList) (servers : List GameServerInfo) :
    p.countServers servers =
      (servers.filter (fun s => (p.characterCounts.get s.ID).isSome)).length := by
  induction servers with
  | nil => rfl
  | cons s rest ih =>
    unfold ServerList.countServers
    cases h : p.characterCounts.get s.ID with
    | none => simp [h, ih]
    | some c => simp [h, ih]

theorem writeCounts_eq (p : ServerList) (servers : List GameServerInfo) :
    p.writeCounts servers =
      (servers.filterMap (fun s => (p.characterCounts.get s.ID).map
        (fun count => [(s.ID % 256).toNat, (count % 256).toNat]))).flatten := by
  induction servers with
  | nil => rfl
  | cons s rest ih =>
    unfold ServerList.writeCounts
    cases h : p.characterCounts.get s.ID with
    | none => simp [h, ih]
    | some c => simp [h, ih, WriteUInt8]

theorem filterMap_counts_length (p : ServerList) (servers : List GameServerInfo) :
    (servers.filterMap (fun s => (p.characterCounts.get s.ID).map
        (fun count => [(s.ID % 256).toNat, (count % 256).toNat]))).length =
      (servers.filter (fun s => (p.characterCounts.get s.ID).isSome)).length := by
  induction servers with
  | nil => rfl
  | cons s rest ih =>
    cases h : p.characterCounts.get s.ID with
    | none => simp [h, ih]
    | some c => simp [h, ih]

theorem zipWith_writeServer (p : ServerList) (servers : List GameServerInfo)
    (ips : List (List Nat)) (f : GameServerInfo → List Nat → Prop)
    (hall : List.Forall₂ (fun s ip => f s ip ∧ ip.length = 4) servers ips) :
    List.zipWith (fun s ip => p.writeServer s ip) servers ips =
      List.zipWith (fun s ip =>
            [(s.ID % 256).toNat] ++ ip ++ WriteUInt32 (s.Port % 2 ^ 32).toNat
              ++ [(s.AgeLimit % 256).toNat] ++ [if s.PvP then 0x01 else 0x00]
              ++ WriteUInt16 (s.CurrentPlayers % 2 ^ 16).toNat
              ++ WriteUInt16 (s.MaxPlayers % 2 ^ 16).toNat
              ++ [if s.IsOnline && s.IsVisible p.accessLevel then 0x01 else 0x00]
              ++ WriteUInt32 (s.ServerType % 2 ^ 32).toNat
              ++ [if s.ShowBrackets then 0x01 else 0x00]) servers ips ∧
    ∀ r ∈ List.zipWith (fun s ip => p.writeServer s ip) servers ips, r.length = 21 := by
  induction hall with
  | nil => exact ⟨rfl, fun r hr => by cases hr⟩
  | cons h _ ih =>
    constructor
    · rw [List.zipWith_cons_cons, List.zipWith_cons_cons, ih.1, writeServer_eq p _ _ h.2]
    · intro r hr
      rw [List.zipWith_cons_cons, List.mem_cons] at hr
      rcases hr with hr | hr
      · rw [hr, writeServer_eq p _ _ h.2]
        simp [WriteUInt32, WriteUInt16, h.2]
      · exact ih.2 r hr

/-- C27: for a list of n <= 255 servers (none with a nil subnet) and every character-count
map, GetData yields 0x04, n, the low byte of last_server, then for each server in list
order the 21 bytes {id, 4-byte address, port as u32 LE, age_limit, pvp, current as u16 LE,
max as u16 LE, status (0x01 when the server is online and visible at the access level of
the list, else 0x00), server_type as u32 LE, show_brackets}, then 00 00, then m and exactly
m pairs (server id, count), one for each listed server with an entry in the map, in list
order; the length is 6 + 21n + 2m. -/
theorem serverList_encoding (net : NetLib) (res : Resolver) (p : ServerList)
    (hn : p.servers.length ≤ 255)
    (hsub : ∀ s ∈ p.servers, ∀ a ∈ s.Addresses, a.Subnet ≠ none) :
    ∃ (ips : List (List Nat)) (data : List Nat),
      List.Forall₂ (fun s ip => p.getServerIP net res s = some ip ∧ ip.length = 4)
        p.servers ips ∧
      p.GetData net res = some data ∧
      data = [0x04, p.servers.length, (p.lastServer % 256).toNat]
        ++ (List.zipWith (fun s ip =>
            [(s.ID % 256).toNat] ++ ip ++ WriteUInt32 (s.Port % 2 ^ 32).toNat
              ++ [(s.AgeLimit % 256).toNat] ++ [if s.PvP then 0x01 else 0x00]
              ++ WriteUInt16 (s.CurrentPlayers % 2 ^ 16).toNat
              ++ WriteUInt16 (s.MaxPlayers % 2 ^ 16).toNat
              ++ [if s.IsOnline && s.IsVisible p.accessLevel then 0x01 else 0x00]
              ++ WriteUInt32 (s.ServerType % 2 ^ 32).toNat
              ++ [if s.ShowBrackets then 0x01 else 0x00]) p.servers ips).flatten
        ++ [0x00, 0x00]
        ++ [(p.servers.filter (fun s => (p.characterCounts.get s.ID).isSome)).length]
        ++ (p.servers.filterMap (fun s => (p.characterCounts.get s.ID).map
            (fun count => [(s.ID % 256).toNat, (count % 256).toNat]))).flatten ∧
      (p.servers.filterMap (fun s => (p.characterCounts.get s.ID).map
          (fun count => [(s.ID % 256).toNat, (count % 256).toNat]))).length =
        (p.servers.filter (fun s => (p.characterCounts.get s.ID).isSome)).length ∧
      data.length = 6 + 21 * p.servers.length
        + 2 * (p.servers.filter (fun s => (p.characterCounts.get s.ID).isSome)).length := by
  obtain ⟨ips, hall, hw⟩ := writeServers_eq net res p p.servers hsub
  have hlen : ips.length = p.servers.length := (List.Forall₂.length_eq hall).symm
  obtain ⟨hzip, hrec⟩ := zipWith_writeServer p p.servers ips _ hall
  have hm : (p.servers.filter (fun s => (p.characterCounts.get s.ID).isSome)).length
      ≤ p.servers.length := List.length_filter_le _ _
  have hpairs : ∀ r ∈ p.servers.filterMap (fun s => (p.characterCounts.get s.ID).map
      (fun count => [(s.ID % 256).toNat, (count % 256).toNat])), r.length = 2 := by
    intro r hr
    rw [List.mem_filterMap] at hr
    obtain ⟨s, _, hs⟩ := hr
    cases hc : p.characterCounts.get s.ID with
    | none => rw [hc] at hs; cases hs
    | some c => rw [hc] at hs; cases hs; rfl
  have hdata : p.GetData net res = some ([0x04, p.servers.length, (p.lastServer % 256).toNat]
      ++ (List.zipWith (fun s ip => p.writeServer s ip) p.servers ips).flatten
      ++ [0x00, 0x00]
      ++ [(p.servers.filter (fun s => (p.characterCounts.get s.ID).isSome)).length]
      ++ (p.servers.filterMap (fun s => (p.characterCounts.get s.ID).map
          (fun count => [(s.ID % 256).toNat, (count % 256).toNat]))).flatten) := by
    unfold ServerList.GetData ServerList.writeCharacterCounts
    rw [hw]
    simp only [countServers_eq, writeCounts_eq, WriteUInt8, WriteUInt16,
      Nat.mod_eq_of_lt (by omega : p.servers.length < 256),
      Nat.mod_eq_of_lt (by omega :
        (p.servers.filter (fun s => (p.characterCounts.get s.ID).isSome)).length < 256)]
    simp
  refine ⟨ips, _, hall, hdata, ?_, filterMap_counts_length p p.servers, ?_⟩
  · rw [hzip]
  · simp only [List.length_append, List.length_cons, List.length_nil,
      flatten_length_const _ 21 hrec, flatten_length_const _ 2 hpairs,
      filterMap_counts_length, List.length_zipWith, hlen, Nat.min_self]
    omega

theorem serverList_encoding_witness :
    (sample.lanList.servers.length ≤ 255 ∧
      ∀ s ∈ sample.lanList.servers, ∀ a ∈ s.Addresses, a.Subnet ≠ none) ∧
    sample.lanList.GetData sample.lanNet sample.resolver =
      some ([0x04, 2, 1]
        ++ [1, 192, 168, 1, 10, 0x61, 0x1e, 0, 0, 0, 1, 0, 0, 100, 0, 1, 1, 0, 0, 0, 0]
        ++ [2, 127, 0, 0, 1, 0x61, 0x1e, 0, 0, 0, 1, 0, 0, 100, 0, 0, 1, 0, 0, 0, 0]
        ++ [0, 0] ++ [1] ++ [1, 3]) ∧
    ∃ (ips : List (List Nat)) (data : List Nat),
      sample.lanList.GetData sample.lanNet sample.resolver = some data ∧
      ips.length = 2 ∧ data.length = 6 + 21 * 2 + 2 * 1 :=
  ⟨⟨by decide, by decide⟩, by decide,
    by
      obtain ⟨ips, data, hall, hdata, _, _, hlen⟩ :=
        serverList_encoding sample.lanNet sample.resolver sample.lanList (by decide)
          (by decide)
      exact ⟨ips, data, hdata, (List.Forall₂.length_eq hall).symm, hlen⟩⟩

end outclient

/-! ### Fan-out of RequestCharacters (C28) -/

namespace usecase

open events models

theorem isOnline_iff (s : GameServerInfo) :
    s.IsOnline = decide (s.Status = ServerStatusOnline ∨ s.Status = ServerStatusGMOnly) := by
  unfold GameServerInfo.IsOnline
  by_cases h1 : s.Status = ServerStatusOnline <;> by_cases h2 : s.Status = ServerStatusGMOnly <;>
    simp [h1, h2]

theorem sendViaEventBus_eq (servers : List GameServerInfo) (bus : InMemoryEventBus)
    (data : List Nat) :
    sendViaEventBus bus servers data =
      ((servers.filter (fun s => s.IsOnline)).map
        (fun s => ({ ServerID := s.ID, Data := data } : SendPacketEvent))).foldl
        InMemoryEventBus.Publish bus := by
  unfold sendViaEventBus
  induction servers generalizing bus with
  | nil => rfl
  | cons s rest ih =>
    rw [List.foldl_cons, ih]
    by_cases h : s.IsOnline = true
    · rw [if_pos h, List.filter_cons_of_pos h, List.map_cons, List.foldl_cons]
    · rw [if_neg h, List.filter_cons_of_neg h]

theorem publish_fold_started (evs : List SendPacketEvent) (bus : InMemoryEventBus) :
    (evs.foldl InMemoryEventBus.Publish bus).started =
      bus.started ++ evs.flatMap (fun e => List.replicate bus.handlers e) ∧
    (evs.foldl InMemoryEventBus.Publish bus).handlers = bus.handlers := by
  induction evs generalizing bus with
  | nil => simp
  | cons e rest ih =>
    obtain ⟨h1, h2⟩ := ih (bus.Publish e)
    rw [List.foldl_cons, h1, h2]
    simp [InMemoryEventBus.Publish]

/-- C28: for every registry and account, sendViaEventBus on the servers of the registry
calls Publish once for each registered server whose status is Online or GMOnly, in the
order of the registry, and for no other server; each event carries the id of its server
and the bytes 0x05, the account in little-endian UTF-16, 00 00. So every subscribed handler
is started once per such server. -/
theorem sendViaEventBus_fanout (r : registry.gameServerRegistry) (bus : InMemoryEventBus)
    (account : String) :
    sendViaEventBus bus r.GetAll (outgs.NewRequestCharactersData account) =
      ((r.servers.filter (fun e => decide (e.2.Status = ServerStatusOnline
          ∨ e.2.Status = ServerStatusGMOnly))).map
        (fun e => ({ ServerID := e.2.ID,
                     Data := [0x05] ++ (packets.utf16Encode account).flatMap
                       (fun u => [u % 256, u / 256 % 256]) ++ [0, 0] } : SendPacketEvent))).foldl
        InMemoryEventBus.Publish bus ∧
    (sendViaEventBus bus r.GetAll (outgs.NewRequestCharactersData account)).started =
      bus.started ++
        ((r.servers.filter (fun e => decide (e.2.Status = ServerStatusOnline
          ∨ e.2.Status = ServerStatusGMOnly))).map
        (fun e => ({ ServerID := e.2.ID,
                     Data := [0x05] ++ (packets.utf16Encode account).flatMap
                       (fun u => [u % 256, u / 256 % 256]) ++ [0, 0] } : SendPacketEvent))).flatMap
          (fun e => List.replicate bus.handlers e) := by
  have hdata : outgs.NewRequestCharactersData account =
      [0x05] ++ (packets.utf16Encode account).flatMap (fun u => [u % 256, u / 256 % 256])
        ++ [0, 0] := by
    unfold outgs.NewRequestCharactersData packets.WriteString
    rw [List.append_assoc]
    rfl
  have hlist : (r.GetAll.filter (fun s => s.IsOnline)).map
        (fun s => ({ ServerID := s.ID, Data := outgs.NewRequestCharactersData account }
          : SendPacketEvent)) =
      (r.servers.filter (fun e => decide (e.2.Status = ServerStatusOnline
          ∨ e.2.Status = ServerStatusGMOnly))).map
        (fun e => ({ ServerID := e.2.ID,
                     Data := [0x05] ++ (packets.utf16Encode account).flatMap
                       (fun u => [u % 256, u / 256 % 256]) ++ [0, 0] } : SendPacketEvent)) := by
    unfold registry.gameServerRegistry.GetAll
    rw [← hdata, List.filter_map, List.map_map]
    congr 1
    congr 1
    funext e
    exact isOnline_iff e.2
  have h := sendViaEventBus_eq r.GetAll bus (outgs.NewRequestCharactersData account)
  rw [hlist] at h
  refine ⟨h, ?_⟩
  rw [h]
  exact (publish_fold_started _ bus).1

end usecase

/-! ### Strings on the wire (C29) -/

namespace packets

theorem char_valid (c : Char) : c.toNat < 0xd800 ∨ (0xdfff < c.toNat ∧ c.toNat < 0x110000) :=
  c.valid

theorem utf16Encode_eq (s : String) :
    utf16Encode s = s.data.flatMap (fun ch => encodeRune ch.toNat) := rfl

theorem utf16Decode_encodeRune (n : Nat) (L : List Nat)
    (hv : n < 0xd800 ∨ (0xdfff < n ∧ n < 0x110000)) :
    utf16Decode (encodeRune n ++ L) = n :: utf16Decode L := by
  unfold encodeRune
  by_cases h : n < 0x10000
  · rw [if_pos h]
    have hs : n < 0xd800 ∨ 0xe000 ≤ n := by omega
    cases L with
    | nil => simp [utf16Decode, hs]
    | cons r2 rest => simp [utf16Decode, hs]
  · rw [if_neg h]
    simp only [List.cons_append, List.nil_append]
    rw [utf16Decode]
    have a1 : ¬ (0xd800 + (n - 0x10000) / 0x400 % 0x400 < 0xd800 ∨
        0xe000 ≤ 0xd800 + (n - 0x10000) / 0x400 % 0x400) := by omega
    have a2 : 0xd800 + (n - 0x10000) / 0x400 % 0x400 < 0xdc00 ∧
        0xdc00 ≤ 0xdc00 + (n - 0x10000) % 0x400 ∧
        0xdc00 + (n - 0x10000) % 0x400 < 0xe000 := by omega
    rw [if_neg a1, if_pos a2]
    congr 1
    omega

theorem utf16Decode_utf16Encode (cs : List Char) :
    utf16Decode (cs.flatMap (fun ch => encodeRune ch.toNat)) = cs.map Char.toNat := by
  induction cs with
  | nil => rfl
  | cons c cs ih =>
    rw [List.flatMap_cons, utf16Decode_encodeRune _ _ (char_valid c), ih]
    rfl

theorem encodeRune_units (n : Nat) (hv : n < 0x110000) (h0 : n ≠ 0) : ∀ u ∈ encodeRune n, 0 < u ∧ u < 65536 := by
  intro u hu
  unfold encodeRune at hu
  split at hu
  · simp only [List.mem_singleton] at hu
    omega
  · simp only [List.mem_cons, List.mem_singleton, List.not_mem_nil, or_false] at hu
    omega

theorem WriteUInt16_bytes (u : Nat) : WriteUInt16 u = [u % 256, u / 256 % 256] := rfl

theorem readCodeUnits_units (us : List Nat) (rest : List Nat)
    (hu : ∀ u ∈ us, 0 < u ∧ u < 65536) :
    readCodeUnits (us.flatMap WriteUInt16 ++ WriteUInt16 0 ++ rest) = (us, rest) := by
  induction us with
  | nil =>
    simp only [List.flatMap_nil, List.nil_append, WriteUInt16_bytes]
    rfl
  | cons u us ih =>
    have hu0 := hu u (by simp)
    have ih' := ih (fun v hv => hu v (by simp [hv]))
    rw [List.flatMap_cons, WriteUInt16_bytes u]
    simp only [List.cons_append, List.nil_append, List.append_assoc]
    rw [readCodeUnits]
    have hval : u % 256 + u / 256 % 256 * 256 = u := by omega
    rw [List.append_assoc] at ih'
    have hu1 : ¬ u = 0 := by omega
    simp only [hval, ih', hu1, if_false]

/-- C29: for a string of scalar values without U+0000, WriteString is the little-endian
UTF-16 code units of the string followed by 00 00, and ReadString on those bytes followed
by any others yields the string and leaves exactly the others unread. -/
theorem readString_writeString (s : String) (rest : List Nat)
    (h0 : ∀ c ∈ s.data, c.toNat ≠ 0) :
    WriteString s = (utf16Encode s).flatMap (fun u => [u % 256, u / 256 % 256]) ++ [0, 0] ∧
      Reader.ReadString (WriteString s ++ rest) = (s, rest) := by
  constructor
  · rfl
  · have hunits : ∀ u ∈ utf16Encode s, 0 < u ∧ u < 65536 := by
      intro u hu
      rw [utf16Encode_eq, List.mem_flatMap] at hu
      obtain ⟨c, hc, hm⟩ := hu
      exact encodeRune_units _ (by have := char_valid c; omega) (h0 c hc) u hm
    unfold Reader.ReadString WriteString
    rw [readCodeUnits_units _ rest hunits]
    simp only [utf16Encode_eq, utf16Decode_utf16Encode, List.map_map]
    congr 1
    have : (Char.ofNat ∘ Char.toNat) = id := by
      funext c
      exact Char.ofNat_toNat c
    rw [this, List.map_id]

theorem readString_writeString_witness :
    (∀ c ∈ "alice".data, c.toNat ≠ 0) ∧
      Reader.ReadString (WriteString "alice" ++ [7, 7]) = ("alice", [7, 7]) :=
  ⟨by decide, (readString_writeString "alice" [7, 7] (by decide)).2⟩

end packets

/-! ### VerifyChecksum in words (C30) -/

namespace crypt

open claims

/-- The word that the checksum routines read from four bytes is their little-endian value. -/
theorem le32_bytes (b0 b1 b2 b3 : Nat) (h0 : b0 < 256) (h1 : b1 < 256) (h2 : b2 < 256)
    (h3 : b3 < 256) :
    ((b0 &&& 0xff) ||| ((b1 <<< 8) &&& 0xff00) ||| ((b2 <<< 16) &&& 0xff0000)
      ||| ((b3 <<< 24) &&& 0xff000000)) = b0 + b1 * 2 ^ 8 + b2 * 2 ^ 16 + b3 * 2 ^ 24 := by
  have hv : b0 + b1 * 2 ^ 8 + b2 * 2 ^ 16 + b3 * 2 ^ 24 < 2 ^ 32 := by omega
  have key := word_bytes _ hv
  have m : ∀ n : Nat, n &&& 0xff = n % 256 := fun n => Nat.and_pow_two_sub_one_eq_mod n 8
  have e0 : (b0 + b1 * 2 ^ 8 + b2 * 2 ^ 16 + b3 * 2 ^ 24) &&& 0xff = b0 := by
    rw [m]; omega
  have e1 : ((b0 + b1 * 2 ^ 8 + b2 * 2 ^ 16 + b3 * 2 ^ 24) >>> 8) &&& 0xff = b1 := by
    rw [m, Nat.shiftRight_eq_div_pow]; omega
  have e2 : ((b0 + b1 * 2 ^ 8 + b2 * 2 ^ 16 + b3 * 2 ^ 24) >>> 16) &&& 0xff = b2 := by
    rw [m, Nat.shiftRight_eq_div_pow]; omega
  have e3 : ((b0 + b1 * 2 ^ 8 + b2 * 2 ^ 16 + b3 * 2 ^ 24) >>> 24) &&& 0xff = b3 := by
    rw [m, Nat.shiftRight_eq_div_pow]; omega
  rw [e0, e1, e2, e3] at key
  exact key

theorem readWord_cons4 (b0 b1 b2 b3 : Nat) (rest : List Nat) (i : Nat) :
    readWord (b0 :: b1 :: b2 :: b3 :: rest) (i + 4) = readWord rest i := by
  unfold readWord
  have e1 : i + 4 + 1 = (i + 1) + 4 := by omega
  have e2 : i + 4 + 2 = (i + 2) + 4 := by omega
  have e3 : i + 4 + 3 = (i + 3) + 4 := by omega
  rw [e1, e2, e3]
  simp only [List.getElem?_cons_succ]

theorem foldWords_cons4 (b0 b1 b2 b3 : Nat) (rest : List Nat) (n i chk : Nat) :
    foldWords (b0 :: b1 :: b2 :: b3 :: rest) n (i + 4) chk =
      (foldWords rest n i chk).map (fun p => (p.1 + 4, p.2)) := by
  induction n generalizing i chk with
  | zero => rfl
  | succ n ih =>
    unfold foldWords
    rw [readWord_cons4]
    cases readWord rest i with
    | none => rfl
    | some w => exact ih (i + 4) (chk ^^^ w)

/-- The checksum loop over a whole number of words XORs the little-endian words. -/
theorem foldWords_words (n : Nat) (pre suffix : List Nat) (chk : Nat) (hb : IsBytes pre)
    (hlen : pre.length = 4 * n) :
    foldWords (pre ++ suffix) n 0 chk =
      some (4 * n, (wordsLE pre).foldl (fun acc w => acc ^^^ w) chk) := by
  induction n generalizing pre chk with
  | zero =>
    have : pre = [] := List.length_eq_zero.1 (by omega)
    subst this
    rfl
  | succ n ih =>
    match pre, hlen, hb with
    | b0 :: b1 :: b2 :: b3 :: pre', hlen, hb =>
      have h0 : b0 < 256 := hb b0 (by simp)
      have h1 : b1 < 256 := hb b1 (by simp)
      have h2 : b2 < 256 := hb b2 (by simp)
      have h3 : b3 < 256 := hb b3 (by simp)
      have hb' : IsBytes pre' := fun b hm => hb b (by simp [hm])
      have hl' : pre'.length = 4 * n := by simp at hlen; omega
      have hr : readWord (b0 :: b1 :: b2 :: b3 :: pre' ++ suffix) 0 =
          some (b0 + b1 * 2 ^ 8 + b2 * 2 ^ 16 + b3 * 2 ^ 24) := by
        unfold readWord
        simp only [List.cons_append, List.getElem?_cons_zero, Nat.zero_add,
          List.getElem?_cons_succ]
        rw [le32_bytes b0 b1 b2 b3 h0 h1 h2 h3]
      unfold foldWords
      rw [hr]
      simp only [List.cons_append, Nat.zero_add]
      have := foldWords_cons4 b0 b1 b2 b3 (pre' ++ suffix) n 0
        (chk ^^^ (b0 + b1 * 2 ^ 8 + b2 * 2 ^ 16 + b3 * 2 ^ 24))
      rw [Nat.zero_add] at this
      rw [this, ih pre' _ hb' hl']
      simp only [Option.map_some', wordsLE, List.foldl_cons]
      congr 2

theorem readWord_append (pre suf : List Nat) (i : Nat) :
    readWord (pre ++ suf) (pre.length + i) = readWord suf i := by
  unfold readWord
  have e1 : pre.length + i + 1 = pre.length + (i + 1) := by omega
  have e2 : pre.length + i + 2 = pre.length + (i + 2) := by omega
  have e3 : pre.length + i + 3 = pre.length + (i + 3) := by omega
  rw [e1, e2, e3]
  simp only [List.getElem?_append_right (Nat.le_add_right _ _), Nat.add_sub_cancel_left]

/-- C30: VerifyChecksum never faults, and it yields true exactly when the length of the
buffer is a multiple of 4 and greater than 4 and the little-endian word in the last 4 bytes
is the XOR of all the little-endian words before it; so it yields false for every buffer
that is too short or whose length is not a multiple of 4. -/
theorem verifyChecksum_iff (P : List Nat) (hP : IsBytes P) :
    VerifyChecksum P = some (decide (P.length % 4 = 0 ∧ 4 < P.length ∧
      wordsLE (P.drop (P.length - 4)) = [xorAll (wordsLE (P.take (P.length - 4)))])) := by
  by_cases hg : P.length % 4 = 0 ∧ 4 < P.length
  · obtain ⟨h4, hl⟩ := hg
    obtain ⟨c, w, hc, hw, hv⟩ := VerifyChecksum_eq P h4 hl
    have hsplit : P.take (P.length - 4) ++ P.drop (P.length - 4) = P := List.take_append_drop _ _
    have hbt : IsBytes (P.take (P.length - 4)) := fun b hm => hP b (List.mem_of_mem_take hm)
    have hbd : IsBytes (P.drop (P.length - 4)) := fun b hm => hP b (List.mem_of_mem_drop hm)
    have hlt : (P.take (P.length - 4)).length = 4 * iters (P.length - 4) := by
      rw [List.length_take]; unfold iters; omega
    have hld : (P.drop (P.length - 4)).length = 4 := by rw [List.length_drop]; omega
    have hfold := foldWords_words (iters (P.length - 4)) _ (P.drop (P.length - 4)) 0 hbt hlt
    rw [hsplit, hc] at hfold
    have hce : c = xorAll (wordsLE (P.take (P.length - 4))) := by
      simp only [Option.some.injEq, Prod.mk.injEq] at hfold
      exact hfold.2
    have hlt' : (P.take (P.length - 4)).length = P.length - 4 := by
      rw [List.length_take]; omega
    have hread := readWord_append (P.take (P.length - 4)) (P.drop (P.length - 4)) 0
    rw [hsplit, hlt', Nat.add_zero, hw] at hread
    match hd : P.drop (P.length - 4), hld, hbd with
    | [a0, a1, a2, a3], _, hbd =>
      rw [hd] at hread
      have hwe : w = a0 + a1 * 2 ^ 8 + a2 * 2 ^ 16 + a3 * 2 ^ 24 := by
        unfold readWord at hread
        simp only [List.getElem?_cons_zero, Nat.zero_add, List.getElem?_cons_succ,
          Option.some.injEq] at hread
        rw [hread, le32_bytes a0 a1 a2 a3 (hbd a0 (by simp)) (hbd a1 (by simp))
          (hbd a2 (by simp)) (hbd a3 (by simp))]
      have hwl : wordsLE [a0, a1, a2, a3] = [w] := by rw [hwe]; rfl
      rw [hv, ← hce, hwl]
      simp only [h4, hl, true_and, List.cons.injEq, and_true]
      congr 1
  · have hguard : (P.length &&& 3) ≠ 0 ∨ P.length ≤ 4 := by
      have := Nat.and_pow_two_sub_one_eq_mod P.length 2
      have e : P.length &&& 3 = P.length % 4 := this
      rw [e]
      omega
    have hd : decide (P.length % 4 = 0 ∧ 4 < P.length ∧
        wordsLE (P.drop (P.length - 4)) = [xorAll (wordsLE (P.take (P.length - 4)))])
        = false := by
      apply decide_eq_false
      intro h
      exact hg ⟨h.1, h.2.1⟩
    rw [hd]
    unfold VerifyChecksum
    simp only [hguard, if_true]

theorem verifyChecksum_iff_witness :
    IsBytes [1, 2, 3, 4, 1, 2, 3, 4] ∧
      VerifyChecksum [1, 2, 3, 4, 1, 2, 3, 4] = some true :=
  ⟨by intro b hb; simp at hb; omega,
    by
      have h := verifyChecksum_iff [1, 2, 3, 4, 1, 2, 3, 4] (by intro b hb; simp at hb; omega)
      rw [h]
      decide⟩

end crypt

/-! ### VerifyChecksumClient in words (C31) -/

namespace crypt

open claims

/-- C31: VerifyChecksumClient never faults, and it yields true exactly when the length of
the buffer is a multiple of 4 and at least 16 and the little-endian word at offset len - 16
is the XOR of all the little-endian words before it; the last 12 bytes do not enter into
the result, and the result is false for every buffer shorter than 16 bytes. -/
theorem verifyChecksumClient_iff (P : List Nat) (hP : IsBytes P) :
    VerifyChecksumClient P = some (decide (P.length % 4 = 0 ∧ 16 ≤ P.length ∧
      wordsLE ((P.drop (P.length - 16)).take 4)
        = [xorAll (wordsLE (P.take (P.length - 16)))])) ∧
    (∀ P' : List Nat, P'.length = P.length → (∀ i, i < P.length - 12 → P'[i]? = P[i]?) →
      VerifyChecksumClient P' = VerifyChecksumClient P) ∧
    (P.length < 16 → VerifyChecksumClient P = some false) := by
  refine ⟨?_, fun P' hl h => VerifyChecksumClient_congr P P' hl h, ?_⟩
  · by_cases hg : P.length % 4 = 0 ∧ 16 ≤ P.length
    · obtain ⟨h4, hl⟩ := hg
      obtain ⟨c, w, hc, hw, hv⟩ := VerifyChecksumClient_eq P h4 hl
      have hsplit : P.take (P.length - 16) ++ P.drop (P.length - 16) = P :=
        List.take_append_drop _ _
      have hbt : IsBytes (P.take (P.length - 16)) :=
        fun b hm => hP b (List.mem_of_mem_take hm)
      have hbd : IsBytes (P.drop (P.length - 16)) :=
        fun b hm => hP b (List.mem_of_mem_drop hm)
      have hlt : (P.take (P.length - 16)).length = 4 * iters (P.length - 16) := by
        rw [List.length_take]; unfold iters; omega
      have hld : (P.drop (P.length - 16)).length = 16 := by rw [List.length_drop]; omega
      have hfold := foldWords_words (iters (P.length - 16)) _ (P.drop (P.length - 16)) 0
        hbt hlt
      rw [hsplit, hc] at hfold
      have hce : c = xorAll (wordsLE (P.take (P.length - 16))) := by
        simp only [Option.some.injEq, Prod.mk.injEq] at hfold
        exact hfold.2
      have hlt' : (P.take (P.length - 16)).length = P.length - 16 := by
        rw [List.length_take]; omega
      have hread := readWord_append (P.take (P.length - 16)) (P.drop (P.length - 16)) 0
      rw [hsplit, hlt', Nat.add_zero, hw] at hread
      match hd : P.drop (P.length - 16), hld, hbd with
      | a0 :: a1 :: a2 :: a3 :: rest, _, hbd =>
        rw [hd] at hread
        have hwe : w = a0 + a1 * 2 ^ 8 + a2 * 2 ^ 16 + a3 * 2 ^ 24 := by
          unfold readWord at hread
          simp only [List.getElem?_cons_zero, Nat.zero_add, List.getElem?_cons_succ,
            Option.some.injEq] at hread
          rw [hread, le32_bytes a0 a1 a2 a3 (hbd a0 (by simp)) (hbd a1 (by simp))
            (hbd a2 (by simp)) (hbd a3 (by simp))]
        have hwl : wordsLE ((a0 :: a1 :: a2 :: a3 :: rest).take 4) = [w] := by
          rw [hwe]; rfl
        rw [hv, ← hce, hwl]
        simp only [h4, hl, true_and, List.cons.injEq, and_true]
        congr 1
    · have hguard : (P.length &&& 3) ≠ 0 ∨ P.length < 16 := by
        have e : P.length &&& 3 = P.length % 4 := Nat.and_pow_two_sub_one_eq_mod P.length 2
        rw [e]
        omega
      have hd : decide (P.length % 4 = 0 ∧ 16 ≤ P.length ∧
          wordsLE ((P.drop (P.length - 16)).take 4)
            = [xorAll (wordsLE (P.take (P.length - 16)))]) = false := by
        apply decide_eq_false
        intro h
        exact hg ⟨h.1, h.2.1⟩
      rw [hd]
      unfold VerifyChecksumClient
      simp only [hguard, if_true]
  · intro hl
    unfold VerifyChecksumClient
    simp only [hl, or_true, if_true]

theorem verifyChecksumClient_iff_witness :
    IsBytes ([1, 2, 3, 4, 1, 2, 3, 4] ++ List.replicate 12 9) ∧
      VerifyChecksumClient ([1, 2, 3, 4, 1, 2, 3, 4] ++ List.replicate 12 9) = some true :=
  ⟨by intro b hb; simp at hb; omega,
    by
      have h := (verifyChecksumClient_iff ([1, 2, 3, 4, 1, 2, 3, 4] ++ List.replicate 12 9)
        (by intro b hb; simp at hb; omega)).1
      rw [h]
      decide⟩

end crypt

/-! ### The XOR pass in words (C32) -/

namespace crypt

open claims packets

theorem shl8_mask (b : Nat) : (b &&& 0xff) <<< 8 = (b <<< 8) &&& 0xff00 := by
  apply Nat.eq_of_testBit_eq
  intro j
  simp only [Nat.testBit_and, Nat.testBit_shiftLeft, tb_ff, tb_ff00]
  by_cases h1 : 8 ≤ j <;> by_cases h2 : j < 16 <;> simp [h1, h2] <;> omega

theorem shl16_mask (b : Nat) : (b &&& 0xff) <<< 16 = (b <<< 16) &&& 0xff0000 := by
  apply Nat.eq_of_testBit_eq
  intro j
  simp only [Nat.testBit_and, Nat.testBit_shiftLeft, tb_ff, tb_ff0000]
  by_cases h1 : 16 ≤ j <;> by_cases h2 : j < 24 <;> simp [h1, h2] <;> omega

theorem shl24_mask (b : Nat) : (b &&& 0xff) <<< 24 = (b <<< 24) &&& 0xff000000 := by
  apply Nat.eq_of_testBit_eq
  intro j
  simp only [Nat.testBit_and, Nat.testBit_shiftLeft, tb_ff, tb_ff000000]
  by_cases h1 : 24 ≤ j <;> by_cases h2 : j < 32 <;> simp [h1, h2] <;> omega

/-- The two word reads of crypt.go yield the same word. -/
theorem readWordX_eq_readWord (raw : List Nat) (i : Nat) : readWordX raw i = readWord raw i := by
  unfold readWordX readWord
  simp only [shl8_mask, shl16_mask, shl24_mask]

theorem readWord_at (pre rest : List Nat) (b0 b1 b2 b3 : Nat) (h0 : b0 < 256) (h1 : b1 < 256)
    (h2 : b2 < 256) (h3 : b3 < 256) :
    readWordX (pre ++ b0 :: b1 :: b2 :: b3 :: rest) pre.length =
      some (b0 + b1 * 2 ^ 8 + b2 * 2 ^ 16 + b3 * 2 ^ 24) := by
  rw [readWordX_eq_readWord]
  have h := readWord_append pre (b0 :: b1 :: b2 :: b3 :: rest) 0
  rw [Nat.add_zero] at h
  rw [h]
  unfold readWord
  simp only [List.getElem?_cons_zero, Nat.zero_add, List.getElem?_cons_succ]
  rw [le32_bytes b0 b1 b2 b3 h0 h1 h2 h3]

theorem writeWord_cons (p : Nat) (L : List Nat) (i v : Nat) :
    writeWord (p :: L) (i + 1) v = (writeWord L i v).map (fun out => p :: out) := by
  unfold writeWord
  by_cases h : i + 3 < L.length
  · have h' : i + 1 + 3 < (p :: L).length := by simp only [List.length_cons]; omega
    rw [if_pos h, if_pos h']
    have e1 : i + 1 + 1 = (i + 1) + 1 := rfl
    have e2 : i + 1 + 2 = (i + 2) + 1 := by omega
    have e3 : i + 1 + 3 = (i + 3) + 1 := by omega
    rw [e2, e3]
    simp only [List.set_cons_succ, Option.map_some']
  · have h' : ¬ i + 1 + 3 < (p :: L).length := by simp only [List.length_cons]; omega
    rw [if_neg h, if_neg h']
    rfl

theorem writeWord_at (pre rest : List Nat) (a0 a1 a2 a3 v : Nat) :
    writeWord (pre ++ a0 :: a1 :: a2 :: a3 :: rest) pre.length v =
      some (pre ++ WriteUInt32 v ++ rest) := by
  induction pre with
  | nil =>
    have m : ∀ n : Nat, n &&& 0xff = n % 256 := fun n => Nat.and_pow_two_sub_one_eq_mod n 8
    unfold writeWord WriteUInt32
    simp only [List.nil_append, List.length_nil, List.length_cons, m,
      Nat.shiftRight_eq_div_pow]
    rw [if_pos (by omega)]
    rfl
  | cons p pre ih =>
    rw [List.cons_append, List.length_cons, writeWord_cons, ih]
    rfl

theorem WriteUInt32_length (v : Nat) : (WriteUInt32 v).length = 4 := rfl

/-- The loop of EncXORPass over a whole number of words is the pass over the words. -/
theorem encLoop_words (n : Nat) : ∀ (pre mid post : List Nat) (ecx : Nat), IsBytes mid →
    mid.length = 4 * n →
    encLoop (pre ++ mid ++ post) n pre.length ecx =
      some (pre ++ (xorPassWords ecx (wordsLE mid)).1.flatMap WriteUInt32 ++ post,
        pre.length + 4 * n, (xorPassWords ecx (wordsLE mid)).2) := by
  induction n with
  | zero =>
    intro pre mid post ecx _ hlen
    have : mid = [] := List.length_eq_zero.1 (by omega)
    subst this
    simp [encLoop, wordsLE, xorPassWords]
  | succ n ih =>
    intro pre mid post ecx hb hlen
    match mid, hlen, hb with
    | b0 :: b1 :: b2 :: b3 :: mid', hlen, hb =>
      have h0 : b0 < 256 := hb b0 (by simp)
      have h1 : b1 < 256 := hb b1 (by simp)
      have h2 : b2 < 256 := hb b2 (by simp)
      have h3 : b3 < 256 := hb b3 (by simp)
      have hb' : IsBytes mid' := fun b hm => hb b (by simp [hm])
      have hl' : mid'.length = 4 * n := by simp at hlen; omega
      have hshape : pre ++ (b0 :: b1 :: b2 :: b3 :: mid') ++ post
          = pre ++ b0 :: b1 :: b2 :: b3 :: (mid' ++ post) := by simp
      unfold encLoop
      rw [hshape, readWord_at pre (mid' ++ post) b0 b1 b2 b3 h0 h1 h2 h3]
      simp only
      rw [writeWord_at]
      simp only
      have hpl : (pre ++ WriteUInt32 ((b0 + b1 * 2 ^ 8 + b2 * 2 ^ 16 + b3 * 2 ^ 24) ^^^
          (ecx + (b0 + b1 * 2 ^ 8 + b2 * 2 ^ 16 + b3 * 2 ^ 24)) % 2 ^ 32)).length
          = pre.length + 4 := by
        rw [List.length_append, WriteUInt32_length]
      have hih := ih (pre ++ WriteUInt32 ((b0 + b1 * 2 ^ 8 + b2 * 2 ^ 16 + b3 * 2 ^ 24) ^^^
          (ecx + (b0 + b1 * 2 ^ 8 + b2 * 2 ^ 16 + b3 * 2 ^ 24)) % 2 ^ 32)) mid' post
          ((ecx + (b0 + b1 * 2 ^ 8 + b2 * 2 ^ 16 + b3 * 2 ^ 24)) % 2 ^ 32) hb' hl'
      rw [hpl] at hih
      rw [← List.append_assoc, hih]
      have e : pre.length + 4 + 4 * n = pre.length + 4 * (n + 1) := by omega
      simp only [wordsLE, xorPassWords, List.flatMap_cons, List.append_assoc, e]

theorem xorPassWords_length (k : Nat) (ws : List Nat) :
    (xorPassWords k ws).1.length = ws.length := by
  induction ws generalizing k with
  | nil => rfl
  | cons w ws ih => simp [xorPassWords, ih]

theorem wordsLE_length (n : Nat) : ∀ mid : List Nat, mid.length = 4 * n →
    (wordsLE mid).length = n := by
  induction n with
  | zero =>
    intro mid h
    have : mid = [] := List.length_eq_zero.1 (by omega)
    subst this
    rfl
  | succ n ih =>
    intro mid h
    match mid, h with
    | b0 :: b1 :: b2 :: b3 :: mid', h =>
      have hl : mid'.length = 4 * n := by simp at h; omega
      simp [wordsLE, ih mid' hl]

theorem flatMap_WriteUInt32_length (ws : List Nat) :
    (ws.flatMap WriteUInt32).length = 4 * ws.length := by
  induction ws with
  | nil => rfl
  | cons w ws ih =>
    rw [List.flatMap_cons, List.length_append, ih, WriteUInt32_length, List.length_cons]
    omega

/-- C32: for every buffer of bytes of length n >= 12, n a multiple of 4, and every key K0,
EncXORPass(buf, 0, n, K0) keeps the bytes [0, 4), replaces the little-endian words W[i] at
the offsets 4, 8, ..., n - 12, in this order, by W[i] xor K(i+1) with K(i+1) = (K(i) + W[i])
mod 2^32, stores the final key little-endian in the bytes [n - 8, n - 4), and keeps the
last 4 bytes. -/
theorem encXORPass_words (buf : List Nat) (K0 : Nat) (hb : IsBytes buf)
    (h12 : 12 ≤ buf.length) (h4 : buf.length % 4 = 0) :
    EncXORPass buf 0 buf.length K0 =
      some (buf.take 4
        ++ (xorPassWords K0 (wordsLE ((buf.drop 4).take (buf.length - 12)))).1.flatMap
            WriteUInt32
        ++ WriteUInt32 (xorPassWords K0 (wordsLE ((buf.drop 4).take (buf.length - 12)))).2
        ++ buf.drop (buf.length - 4)) := by
  have hmidlen : ((buf.drop 4).take (buf.length - 12)).length = 4 * ((buf.length - 12) / 4) := by
    rw [List.length_take, List.length_drop]
    omega
  have hmidb : IsBytes ((buf.drop 4).take (buf.length - 12)) :=
    fun b hm => hb b (List.mem_of_mem_drop (List.mem_of_mem_take hm))
  have hsplit : buf = buf.take 4 ++ (buf.drop 4).take (buf.length - 12)
      ++ buf.drop (buf.length - 8) := by
    have e1 : (buf.drop 4).drop (buf.length - 12) = buf.drop (buf.length - 8) := by
      rw [List.drop_drop]
      congr 1
      omega
    rw [List.append_assoc, ← e1, List.take_append_drop, List.take_append_drop]
  have hprelen : (buf.take 4).length = 4 := by rw [List.length_take]; omega
  have hpostlen : (buf.drop (buf.length - 8)).length = 8 := by rw [List.length_drop]; omega
  have hloop := encLoop_words ((buf.length - 12) / 4) (buf.take 4)
    ((buf.drop 4).take (buf.length - 12)) (buf.drop (buf.length - 8)) K0 hmidb hmidlen
  rw [← hsplit, hprelen] at hloop
  have hit : iters (0 + buf.length - 8 - (4 + 0)) = (buf.length - 12) / 4 := by
    unfold iters
    omega
  unfold EncXORPass
  simp only [hit, hloop]
  match hpost : buf.drop (buf.length - 8), hpostlen with
  | [p0, p1, p2, p3, q0, q1, q2, q3], _ =>
    have hlast : buf.drop (buf.length - 4) = [q0, q1, q2, q3] := by
      have e : buf.drop (buf.length - 4) = (buf.drop (buf.length - 8)).drop 4 := by
        rw [List.drop_drop]
        congr 1
        omega
      rw [e, hpost]
      rfl
    have hnl : (buf.take 4 ++ (xorPassWords K0
        (wordsLE ((buf.drop 4).take (buf.length - 12)))).1.flatMap WriteUInt32).length
        = 4 + 4 * ((buf.length - 12) / 4) := by
      rw [List.length_append, hprelen, flatMap_WriteUInt32_length, xorPassWords_length,
        wordsLE_length _ _ hmidlen]
    have hw := writeWord_at (buf.take 4 ++ (xorPassWords K0
        (wordsLE ((buf.drop 4).take (buf.length - 12)))).1.flatMap WriteUInt32)
        [q0, q1, q2, q3] p0 p1 p2 p3
        (xorPassWords K0 (wordsLE ((buf.drop 4).take (buf.length - 12)))).2
    rw [hnl] at hw
    rw [hw, hlast]

theorem encXORPass_words_witness :
    (IsBytes sample.xorInput ∧ 12 ≤ sample.xorInput.length ∧ sample.xorInput.length % 4 = 0) ∧
    EncXORPass sample.xorInput 0 sample.xorInput.length 0x11223344 =
      some ([1, 2, 3, 4] ++ [0x4c, 0x3f, 0x2e, 0x11] ++ [0x49, 0x39, 0x29, 0x19]
        ++ [0, 0, 0, 0]) :=
  ⟨⟨by decide, by decide, by decide⟩,
    encXORPass_words sample.xorInput 0x11223344 (by decide) (by decide) (by decide)⟩

end crypt

/-! ### The steps of the scramble (C33) -/

namespace packets

open claims

theorem rangeMap_getD (n : Nat) (f : Nat → Nat) (j : Nat) (hj : j < n) :
    ((List.range n).map f)[j]?.getD 0 = f j := by
  rw [List.getElem?_map, List.getElem?_range hj]
  rfl

theorem swapLoop_step1 (b : List Nat) (hb : b.length = 128) :
    swapLoop 0x00 0x4D 4 b = scrambleStep1 b := by
  apply ext_getD
  · rw [swapLoop_length]
    simp [scrambleStep1]
  · intro j hj
    rw [swapLoop_length] at hj
    rw [swapLoop_get _ _ _ _ (by omega) (by omega) (by omega) j]
    unfold scrambleStep1
    rw [rangeMap_getD _ _ j hj]
    simp only [List.getD_eq_getElem?_getD]
    by_cases c1 : j < 4
    · have c : 0 ≤ j ∧ j < 0 + 4 := by omega
      rw [if_pos c, if_pos c1]
      congr 2
    · have c : ¬ (0 ≤ j ∧ j < 0 + 4) := by omega
      rw [if_neg c, if_neg c1]
      by_cases c2 : 0x4D ≤ j ∧ j < 0x51
      · have c3 : 0x4D ≤ j ∧ j < 0x4D + 4 := by omega
        rw [if_pos c3, if_pos c2]
        congr 2
        omega
      · have c3 : ¬ (0x4D ≤ j ∧ j < 0x4D + 4) := by omega
        rw [if_neg c3, if_neg c2]

theorem xorLoop_step2 (b : List Nat) (hb : b.length = 128) :
    xorLoop 0 0x40 0x40 b = scrambleStep2 b := by
  apply ext_getD
  · rw [xorLoop_length]
    simp [scrambleStep2]
  · intro j hj
    rw [xorLoop_length] at hj
    rw [xorLoop_get _ _ _ _ (by omega) (by omega) j]
    unfold scrambleStep2
    rw [rangeMap_getD _ _ j hj]
    simp only [List.getD_eq_getElem?_getD]
    by_cases c1 : j < 0x40
    · have c : 0 ≤ j ∧ j < 0 + 0x40 := by omega
      rw [if_pos c, if_pos c1]
      congr 3
    · have c : ¬ (0 ≤ j ∧ j < 0 + 0x40) := by omega
      rw [if_neg c, if_neg c1]

theorem xorLoop_step3 (b : List Nat) (hb : b.length = 128) :
    xorLoop 0x0D 0x34 4 b = scrambleStep3 b := by
  apply ext_getD
  · rw [xorLoop_length]
    simp [scrambleStep3]
  · intro j hj
    rw [xorLoop_length] at hj
    rw [xorLoop_get _ _ _ _ (by omega) (by omega) j]
    unfold scrambleStep3
    rw [rangeMap_getD _ _ j hj]
    simp only [List.getD_eq_getElem?_getD]

theorem xorLoop_step4 (b : List Nat) (hb : b.length = 128) :
    xorLoop 0x40 0 0x40 b = scrambleStep4 b := by
  apply ext_getD
  · rw [xorLoop_length]
    simp [scrambleStep4]
  · intro j hj
    rw [xorLoop_length] at hj
    rw [xorLoop_get _ _ _ _ (by omega) (by omega) j]
    unfold scrambleStep4
    rw [rangeMap_getD _ _ j hj]
    simp only [List.getD_eq_getElem?_getD]
    by_cases c1 : 0x40 ≤ j ∧ j < 0x80
    · have c : 0x40 ≤ j ∧ j < 0x40 + 0x40 := by omega
      rw [if_pos c, if_pos c1]
      congr 3
      omega
    · have c : ¬ (0x40 ≤ j ∧ j < 0x40 + 0x40) := by omega
      rw [if_neg c, if_neg c1]

/-- C33: for a modulus of 128 bytes, ScrambleModulus is step 1 (swap [0x00..0x04) with
[0x4D..0x51)), then step 2 (b[i] ^= b[0x40+i], i < 0x40), then step 3 (b[0x0D+i] ^=
b[0x34+i], i < 4), then step 4 (b[0x40+i] ^= b[i], i < 0x40); UnscrambleModulus is the
steps 4, 3, 2, 1; and each step, applied twice to 128 bytes, gives them back. -/
theorem scramble_steps (M : List Nat) (hM : M.length = 128) :
    ScrambleModulus M = scrambleStep4 (scrambleStep3 (scrambleStep2 (scrambleStep1 M))) ∧
    UnscrambleModulus M = scrambleStep1 (scrambleStep2 (scrambleStep3 (scrambleStep4 M))) ∧
    scrambleStep1 (scrambleStep1 M) = M ∧ scrambleStep2 (scrambleStep2 M) = M ∧
    scrambleStep3 (scrambleStep3 M) = M ∧ scrambleStep4 (scrambleStep4 M) = M := by
  have l1 : ∀ b : List Nat, (scrambleStep1 b).length = b.length := by
    intro b; simp [scrambleStep1]
  have l2 : ∀ b : List Nat, (scrambleStep2 b).length = b.length := by
    intro b; simp [scrambleStep2]
  have l3 : ∀ b : List Nat, (scrambleStep3 b).length = b.length := by
    intro b; simp [scrambleStep3]
  have l4 : ∀ b : List Nat, (scrambleStep4 b).length = b.length := by
    intro b; simp [scrambleStep4]
  have hne : ¬ M.length ≠ 128 := by rw [hM]; simp
  refine ⟨?_, ?_, ?_, ?_, ?_, ?_⟩
  · unfold ScrambleModulus
    rw [if_neg hne]
    simp only
    rw [swapLoop_step1 M hM, xorLoop_step2 _ (by rw [l1, hM]),
      xorLoop_step3 _ (by rw [l2, l1, hM]), xorLoop_step4 _ (by rw [l3, l2, l1, hM])]
  · unfold UnscrambleModulus
    rw [if_neg hne]
    simp only
    rw [xorLoop_step4 M hM, xorLoop_step3 _ (by rw [l4, hM]),
      xorLoop_step2 _ (by rw [l3, l4, hM]), swapLoop_step1 _ (by rw [l2, l3, l4, hM])]
  · rw [← swapLoop_step1 M hM, ← swapLoop_step1 _ (by rw [swapLoop_length, hM])]
    exact swapLoop_involutive _ _ _ _ (by omega) (by omega) (by omega)
  · rw [← xorLoop_step2 M hM, ← xorLoop_step2 _ (by rw [xorLoop_length, hM])]
    exact xorLoop_involutive _ _ _ _ (by omega) (by omega)
  · rw [← xorLoop_step3 M hM, ← xorLoop_step3 _ (by rw [xorLoop_length, hM])]
    exact xorLoop_involutive _ _ _ _ (by omega) (by omega)
  · rw [← xorLoop_step4 M hM, ← xorLoop_step4 _ (by rw [xorLoop_length, hM])]
    exact xorLoop_involutive _ _ _ _ (by omega) (by omega)

theorem scramble_steps_witness :
    (List.range 128).length = 128 ∧
    ScrambleModulus (List.range 128) =
      scrambleStep4 (scrambleStep3 (scrambleStep2 (scrambleStep1 (List.range 128)))) :=
  ⟨List.length_range 128, (scramble_steps (List.range 128) (List.length_range 128)).1⟩

end packets

/-! ### RSA decryption without padding (C34) -/

namespace packets

/-- The digit loop yields the base-256 digits, most significant first. -/
theorem bigBytesAux_eq (fuel : Nat) : ∀ (n : Nat) (acc : List Nat), n ≤ fuel →
    bigBytesAux fuel n acc = (Nat.digits 256 n).reverse ++ acc := by
  induction fuel with
  | zero =>
    intro n acc hn
    have h0 : n = 0 := by omega
    subst h0
    simp [bigBytesAux]
  | succ fuel ih =>
    intro n acc hn
    unfold bigBytesAux
    by_cases h0 : n = 0
    · subst h0
      simp
    · rw [if_neg h0]
      have hlt : n / 256 ≤ fuel := by
        have : n / 256 < n := Nat.div_lt_self (by omega) (by norm_num)
        omega
      rw [ih (n / 256) _ hlt, Nat.digits_def' (by norm_num : 1 < 256) (by omega : 0 < n)]
      simp

theorem bigBytes_eq (n : Nat) : bigBytes n = (Nat.digits 256 n).reverse := by
  unfold bigBytes
  rw [bigBytesAux_eq n n [] (le_refl _), List.append_nil]

theorem bigSetBytes_append (a b : List Nat) :
    bigSetBytes (a ++ b) = b.foldl (fun acc x => acc * 256 + x) (bigSetBytes a) := by
  unfold bigSetBytes
  rw [List.foldl_append]

theorem bigSetBytes_reverse (l : List Nat) : bigSetBytes l.reverse = Nat.ofDigits 256 l := by
  induction l with
  | nil => rfl
  | cons a l ih =>
    rw [List.reverse_cons, bigSetBytes_append, ih, Nat.ofDigits_cons]
    simp only [List.foldl_cons, List.foldl_nil, Nat.cast_id, Nat.cast_ofNat]
    ring

theorem bigSetBytes_zeros (j : Nat) (l : List Nat) :
    bigSetBytes (List.replicate j 0 ++ l) = bigSetBytes l := by
  have h0 : bigSetBytes (List.replicate j 0) = 0 := by
    induction j with
    | zero => rfl
    | succ j ih =>
      rw [List.replicate_succ', bigSetBytes_append, ih]
      rfl
  rw [bigSetBytes_append, h0]
  rfl

theorem bigBytes_value (n : Nat) : bigSetBytes (bigBytes n) = n := by
  rw [bigBytes_eq, bigSetBytes_reverse, Nat.ofDigits_digits]

theorem bigBytes_isBytes (n : Nat) : IsBytes (bigBytes n) := by
  intro b hb
  rw [bigBytes_eq, List.mem_reverse] at hb
  exact Nat.digits_lt_base (by norm_num) hb

theorem bigBytes_length_mono (m n : Nat) (h : m ≤ n) :
    (bigBytes m).length ≤ (bigBytes n).length := by
  rw [bigBytes_eq, bigBytes_eq, List.length_reverse, List.length_reverse]
  exact Nat.le_digits_len_le 256 m n h

/-- C34: for a private key (d, n) with n > 0, of byte size k, RsaDecryptNoPadding returns
an error exactly when the ciphertext is not k bytes long; otherwise it returns k bytes
whose big-endian value is c^d mod n, c being the big-endian value of the ciphertext. The
helper rsaDecryptNoPadding of the package ings returns the same on every input. -/
theorem rsaDecryptNoPadding_spec (priv : transport.PrivateKey) (cipher : List Nat)
    (hN : 0 < priv.N) :
    ((∃ e, RsaDecryptNoPadding priv cipher = .error e) ↔
      cipher.length ≠ (bigBytes priv.N).length) ∧
    (cipher.length = (bigBytes priv.N).length →
      ∃ out, RsaDecryptNoPadding priv cipher = .ok out ∧
        out.length = (bigBytes priv.N).length ∧ IsBytes out ∧
        bigSetBytes out = bigSetBytes cipher ^ priv.D % priv.N) ∧
    ings.rsaDecryptNoPadding priv cipher = RsaDecryptNoPadding priv cipher ∧
    priv.N < 256 ^ (bigBytes priv.N).length := by
  have hok : cipher.length = (bigBytes priv.N).length →
      ∃ out, RsaDecryptNoPadding priv cipher = .ok out ∧
        out.length = (bigBytes priv.N).length ∧ IsBytes out ∧
        bigSetBytes out = bigSetBytes cipher ^ priv.D % priv.N := by
    intro hk
    have hne : priv.N ≠ 0 := by omega
    have hm : bigSetBytes cipher ^ priv.D % priv.N ≤ priv.N :=
      le_of_lt (Nat.mod_lt _ hN)
    have hlen := bigBytes_length_mono _ _ hm
    unfold RsaDecryptNoPadding bigExp
    simp only [hk, ne_eq, not_true_eq_false, if_false, hne]
    by_cases hlt : (bigBytes (bigSetBytes cipher ^ priv.D % priv.N)).length
        < (bigBytes priv.N).length
    · rw [if_pos hlt]
      refine ⟨_, rfl, ?_, ?_, ?_⟩
      · rw [List.length_append, List.length_replicate]
        omega
      · intro b hb
        rw [List.mem_append] at hb
        rcases hb with hb | hb
        · rw [List.eq_of_mem_replicate hb]
          norm_num
        · exact bigBytes_isBytes _ b hb
      · rw [bigSetBytes_zeros, bigBytes_value]
    · rw [if_neg hlt]
      exact ⟨_, rfl, by omega, bigBytes_isBytes _, bigBytes_value _⟩
  refine ⟨⟨?_, ?_⟩, hok, rfl, ?_⟩
  · rintro ⟨e, he⟩ hk
    obtain ⟨out, ho, _⟩ := hok hk
    rw [ho] at he
    cases he
  · intro hk
    unfold RsaDecryptNoPadding
    simp only [hk, ne_eq, not_false_eq_true, if_true]
    exact ⟨_, rfl⟩
  · rw [bigBytes_eq, List.length_reverse]
    exact Nat.lt_base_pow_length_digits (by norm_num)

set_option maxRecDepth 100000 in
theorem rsaDecryptNoPadding_spec_witness :
    0 < sample.client.PrivateKey.N ∧
    sample.authPayload.length = (bigBytes sample.client.PrivateKey.N).length ∧
    ∃ out, RsaDecryptNoPadding sample.client.PrivateKey sample.authPayload = .ok out ∧
      out.length = (bigBytes sample.client.PrivateKey.N).length ∧ IsBytes out ∧
      bigSetBytes out = bigSetBytes sample.authPayload ^ sample.client.PrivateKey.D
        % sample.client.PrivateKey.N :=
  ⟨by decide, rfl,
    (rsaDecryptNoPadding_spec sample.client.PrivateKey sample.authPayload (by decide)).2.1
      rfl⟩

end packets

/-! ### Order of the server list (C35) -/

namespace usecase

/-- C35: the code does not sort. After the game servers 1 and 2 have registered in this
order, GetServerList yields the server 2 before the server 1, which is not ascending; after
they have registered in the order 2, 1, the registry has the same entry under every id and
GetServerList yields the opposite order. -/
theorem getServerList_not_sorted :
    (GetServerList sample.serversOneTwo 0).map (fun s => s.ID) = [2, 1] ∧
    ¬ ((GetServerList sample.serversOneTwo 0).map (fun s => s.ID)).Sorted (fun a b => a ≤ b) ∧
    (GetServerList sample.serversTwoOne 0).map (fun s => s.ID) = [1, 2] ∧
    sample.serversOneTwo.gameServerRegistry.servers.WF ∧
    sample.serversTwoOne.gameServerRegistry.servers.WF ∧
    sample.serversOneTwo.gameServerRegistry.servers.get 1
      = sample.serversTwoOne.gameServerRegistry.servers.get 1 ∧
    sample.serversOneTwo.gameServerRegistry.servers.get 2
      = sample.serversTwoOne.gameServerRegistry.servers.get 2 ∧
    sample.serversOneTwo.gameServerRegistry.servers.len = 2 ∧
    sample.serversTwoOne.gameServerRegistry.servers.len = 2 := by
  refine ⟨by decide, ?_, by decide, by decide, by decide, by decide, by decide, by decide,
    by decide⟩
  have h : (GetServerList sample.serversOneTwo 0).map (fun s => s.ID) = [2, 1] := by decide
  rw [h]
  intro hs
  have := List.rel_of_sorted_cons hs 1 (List.mem_singleton.2 rfl)
  omega

end usecase

/-! ### Round trip through Send and Receive (C36) -/

namespace transport

open crypt packets

/-- The buffer that Send hands to Blowfish, as a list: the payload, zero bytes, and the
four bytes of the checksum. -/
theorem checkedPlain_shape (D : List Nat) :
    ∃ plain z chk, checkedPlain D = some plain ∧ plain = D ++ List.replicate z 0 ++ chk ∧
      chk.length = 4 ∧ plain.length % 8 = 0 ∧ 0 < plain.length ∧
      plain.length < D.length + 12 ∧ VerifyChecksum plain = some true := by
  obtain ⟨plain, _, hp, h8, hlo, hhi, hpre, hzero, _, _, hv⟩ := checkedPlain_layout D
  refine ⟨plain, plain.length - 4 - D.length, plain.drop (plain.length - 4), hp, ?_,
    by rw [List.length_drop]; omega, h8, by omega, hhi, hv⟩
  apply List.ext_getElem?
  intro j
  by_cases h1 : j < D.length
  · rw [hpre j h1, List.append_assoc, List.getElem?_append_left h1]
  · by_cases h2 : j < plain.length - 4
    · rw [hzero j (by omega) h2, List.getElem?_append_left
        (by rw [List.length_append, List.length_replicate]; omega),
        List.getElem?_append_right (by omega), List.getElem?_replicate, if_pos (by omega)]
    · rw [List.getElem?_append_right
        (by rw [List.length_append, List.length_replicate]; omega),
        List.length_append, List.length_replicate, List.getElem?_drop]
      congr 1
      omega

theorem header_value (L : Nat) (hL : L < 65536) :
    (WriteUInt16 L).length = 2 ∧ (WriteUInt16 L).getD 0 0 + (WriteUInt16 L).getD 1 0 * 256 = L := by
  constructor
  · rfl
  · show L % 256 + L / 256 % 256 * 256 = L
    omega

/-- Client.Receive on the two reads of a frame whose body decrypts to a buffer that
VerifyChecksum accepts. -/
theorem Client_Receive_frame (newCipher : blowfish.NewCipher) (c : Client)
    (wire plain : List Nat) (d0 : Nat) (rest : List Nat) (hL : wire.length + 2 < 65536)
    (hdec : BlowfishDecrypt newCipher wire c.BlowfishKey = .ok plain)
    (hv : VerifyChecksum plain = some true) (hplain : plain = d0 :: rest) :
    c.Receive newCipher { bytes := WriteUInt16 (wire.length + 2), err := none, eof := false }
      { bytes := wire, err := none, eof := false } = .packet d0 rest := by
  obtain ⟨hh1, hh2⟩ := header_value (wire.length + 2) hL
  subst hplain
  unfold Client.Receive
  simp only [hh1, hh2, ne_eq, not_true_eq_false, or_self, if_false]
  have hs : ¬ wire.length + 2 < 2 := by omega
  have hr : ¬ (¬ wire.length = wire.length + 2 - 2) := by omega
  simp only [hs, if_false, hr, hdec, checksumValid, hv, or_self]

/-- GameServer.Receive on the two reads of a frame whose body decrypts to a buffer that
VerifyChecksum accepts. -/
theorem GameServer_Receive_frame (newCipher : blowfish.NewCipher) (gs : GameServer)
    (wire plain : List Nat) (d0 : Nat) (rest : List Nat) (hL : wire.length + 2 < 65536)
    (hdec : BlowfishDecrypt newCipher wire (gs.DynamicBlowfishKey.getD GameServerBlowfishKey)
      = .ok plain)
    (hv : VerifyChecksum plain = some true) (hplain : plain = d0 :: rest) :
    gs.Receive newCipher { bytes := WriteUInt16 (wire.length + 2), err := none, eof := false }
      { bytes := wire, err := none, eof := false } = .packet d0 rest := by
  obtain ⟨hh1, hh2⟩ := header_value (wire.length + 2) hL
  subst hplain
  have hs : ¬ wire.length + 2 < 2 := by omega
  have hr : ¬ (¬ wire.length = wire.length + 2 - 2) := by omega
  unfold GameServer.Receive
  cases hk : gs.DynamicBlowfishKey with
  | none =>
    rw [hk] at hdec
    have hdec2 : BlowfishDecryptGameServer newCipher wire = .ok (d0 :: rest) := hdec
    simp only [hh1, hh2, ne_eq, not_true_eq_false, if_false, hs, hr, hdec2, hv]
  | some key =>
    rw [hk] at hdec
    have hdec2 : BlowfishDecrypt newCipher wire key = .ok (d0 :: rest) := hdec
    simp only [hh1, hh2, ne_eq, not_true_eq_false, if_false, hs, hr, hdec2, hv]

theorem Conn_Write_ok (s : Conn) (b : List Nat) (hb : s.broken = false)
    (hc : s.closed = false) :
    s.Write b = (none, { s with written := s.written ++ [b] }) := by
  unfold Conn.Write
  simp only [hb, hc, Bool.or_self, Bool.false_eq_true, if_false]

/-- C36: for every non-empty payload D = d0 :: rest whose frame length fits in 16 bits,
and connection keys that the cipher accepts (block decryption inverting block encryption),
Send never makes AppendChecksum fault: it builds the buffer D, zero padding, checksum,
whose length is a positive multiple of 8, and writes the little-endian u16 L = length + 2
followed by the L - 2 encrypted bytes. Receive of the same connection, given the two reads
of that frame, accepts the checksum and yields the opcode d0 and as data rest, the zero
padding and the checksum. This holds for Client and for GameServer (under its dynamic key,
or the static key when it has none). -/
theorem transport_roundtrip (newCipher : blowfish.NewCipher) (cc cg : blowfish.Cipher)
    (c : Client) (gs : GameServer) (d0 : Nat) (rest : List Nat)
    (hfit : (d0 :: rest).length + 14 ≤ 65536)
    (hcc : newCipher c.BlowfishKey = some cc) (hccw : cc.WF) (hcci : cc.Inverts)
    (hcg : newCipher (gs.DynamicBlowfishKey.getD GameServerBlowfishKey) = some cg)
    (hcgw : cg.WF) (hcgi : cg.Inverts)
    (hcs : c.Socket.broken = false ∧ c.Socket.closed = false)
    (hgs : gs.Socket.broken = false ∧ gs.Socket.closed = false) :
    ∃ (plain : List Nat) (z : Nat) (chk wireC wireG : List Nat),
      checkedPlain (d0 :: rest) = some plain ∧
      plain = d0 :: rest ++ List.replicate z 0 ++ chk ∧ chk.length = 4 ∧
      plain.length % 8 = 0 ∧ 0 < plain.length ∧ plain.length + 2 < 65536 ∧
      VerifyChecksum plain = some true ∧
      wireC.length = plain.length ∧ wireG.length = plain.length ∧
      c.Send newCipher (d0 :: rest) [] = some (none, { c with Socket :=
        { c.Socket with written := c.Socket.written
            ++ [WriteUInt16 (plain.length + 2) ++ wireC] } }) ∧
      c.Receive newCipher
        { bytes := WriteUInt16 (plain.length + 2), err := none, eof := false }
        { bytes := wireC, err := none, eof := false }
        = .packet d0 (rest ++ List.replicate z 0 ++ chk) ∧
      gs.Send newCipher (d0 :: rest) = some (none, { gs with Socket :=
        { gs.Socket with written := gs.Socket.written
            ++ [WriteUInt16 (plain.length + 2) ++ wireG] } }) ∧
      gs.Receive newCipher
        { bytes := WriteUInt16 (plain.length + 2), err := none, eof := false }
        { bytes := wireG, err := none, eof := false }
        = .packet d0 (rest ++ List.replicate z 0 ++ chk) := by
  obtain ⟨plain, z, chk, hp, hshape, hchk, h8, hpos, hhi, hv⟩ := checkedPlain_shape (d0 :: rest)
  obtain ⟨wireC, hencC, hlenC, hdecC⟩ :=
    BlowfishDecrypt_BlowfishEncrypt newCipher cc c.BlowfishKey plain hcc hccw hcci h8
  obtain ⟨wireG, hencG, hlenG, hdecG⟩ :=
    BlowfishDecrypt_BlowfishEncrypt newCipher cg
      (gs.DynamicBlowfishKey.getD GameServerBlowfishKey) plain hcg hcgw hcgi h8
  have hL : plain.length + 2 < 65536 := by omega
  have hshape2 : plain = d0 :: (rest ++ List.replicate z 0 ++ chk) := by
    rw [hshape]
    simp
  have hframeC : frame wireC = WriteUInt16 (plain.length + 2) ++ wireC := by
    unfold frame
    rw [hlenC, Nat.mod_eq_of_lt hL]
  have hframeG : frame wireG = WriteUInt16 (plain.length + 2) ++ wireG := by
    unfold frame
    rw [hlenG, Nat.mod_eq_of_lt hL]
  refine ⟨plain, z, chk, wireC, wireG, hp, hshape, hchk, h8, hpos, hL, hv, hlenC, hlenG,
    ?_, ?_, ?_, ?_⟩
  · rw [Client_Send_eq newCipher c (d0 :: rest) plain hp]
    simp only [hencC, Conn_Write_ok c.Socket _ hcs.1 hcs.2, hframeC]
  · have h := Client_Receive_frame newCipher c wireC plain d0
      (rest ++ List.replicate z 0 ++ chk) (by rw [hlenC]; exact hL) hdecC hv hshape2
    rw [hlenC] at h
    exact h
  · rw [GameServer_Send_eq newCipher gs (d0 :: rest) plain hp]
    cases hk : gs.DynamicBlowfishKey with
    | none =>
      rw [hk] at hencG
      have henc2 : BlowfishEncryptGameServer newCipher plain = .ok wireG := hencG
      simp only [henc2, Conn_Write_ok gs.Socket _ hgs.1 hgs.2, hframeG]
    | some key =>
      rw [hk] at hencG
      have henc2 : BlowfishEncrypt newCipher plain key = .ok wireG := hencG
      simp only [henc2, Conn_Write_ok gs.Socket _ hgs.1 hgs.2, hframeG]
  · have h := GameServer_Receive_frame newCipher gs wireG plain d0
      (rest ++ List.replicate z 0 ++ chk) (by rw [hlenG]; exact hL) hdecG hv hshape2
    rw [hlenG] at h
    exact h

theorem transport_roundtrip_witness :
    (([7, 1, 2, 3, 4] : List Nat).length + 14 ≤ 65536 ∧
      sample.toyNewCipher sample.client.BlowfishKey = some sample.toyCipher ∧
      sample.toyNewCipher (sample.gameServer.DynamicBlowfishKey.getD GameServerBlowfishKey)
        = some sample.toyCipher) ∧
    ∃ (plain : List Nat) (z : Nat) (chk wireC wireG : List Nat),
      checkedPlain [7, 1, 2, 3, 4] = some plain ∧
      plain = [7, 1, 2, 3, 4] ++ List.replicate z 0 ++ chk ∧ chk.length = 4 ∧
      sample.client.Receive sample.toyNewCipher
        { bytes := WriteUInt16 (plain.length + 2), err := none, eof := false }
        { bytes := wireC, err := none, eof := false }
        = .packet 7 ([1, 2, 3, 4] ++ List.replicate z 0 ++ chk) ∧
      sample.gameServer.Receive sample.toyNewCipher
        { bytes := WriteUInt16 (plain.length + 2), err := none, eof := false }
        { bytes := wireG, err := none, eof := false }
        = .packet 7 ([1, 2, 3, 4] ++ List.replicate z 0 ++ chk) := by
  obtain ⟨plain, z, chk, wireC, wireG, h1, h2, h3, _, _, _, _, _, _, _, h4, _, h5⟩ :=
    transport_roundtrip sample.toyNewCipher sample.toyCipher sample.toyCipher sample.client
      sample.gameServer 7 [1, 2, 3, 4] (by decide) rfl sample.toyCipher_WF
      sample.toyCipher_Inverts rfl sample.toyCipher_WF sample.toyCipher_Inverts
      ⟨rfl, rfl⟩ ⟨rfl, rfl⟩
  exact ⟨⟨by decide, rfl, rfl⟩, plain, z, chk, wireC, wireG, h1, h2, h3, h4, h5⟩

end transport

/-! ### NewBlowFishKey on a declared size near 2^32 (C37) -/

namespace ings

open packets

/-- C37: the code is not total. When the payload has at least 4 bytes and declares a size s
with 2^32 - 4 <= s, the sum `4+keySize` wraps to a value below 4 in `uint32`, the length
check passes, and the slice expression `data[4:4+keySize]` panics; handleBlowFishKey panics
with it. -/
theorem newBlowFishKey_size_wraps (data : List Nat) (h4 : 4 ≤ data.length)
    (hs : 2 ^ 32 - 4 ≤ (data.getD 0 0 ||| (data.getD 1 0 <<< 8) ||| (data.getD 2 0 <<< 16)
      ||| (data.getD 3 0 <<< 24)) % 2 ^ 32) :
    NewBlowFishKey data = none ∧
      ∀ (l : LoginServer) (gs : transport.GameServer),
        handlers.gameserver.handleBlowFishKey l gs data = none := by
  have hnew : NewBlowFishKey data = none := by
    unfold NewBlowFishKey
    have h1 : ¬ data.length < 4 := by omega
    rw [if_neg h1]
    simp only
    have hlt : (data.getD 0 0 ||| (data.getD 1 0 <<< 8) ||| (data.getD 2 0 <<< 16)
      ||| (data.getD 3 0 <<< 24)) % 2 ^ 32 < 2 ^ 32 := Nat.mod_lt _ (by norm_num)
    have hhi : (4 + (data.getD 0 0 ||| (data.getD 1 0 <<< 8) ||| (data.getD 2 0 <<< 16)
      ||| (data.getD 3 0 <<< 24)) % 2 ^ 32) % 2 ^ 32 < 4 := by omega
    have h2 : ¬ data.length < (4 + (data.getD 0 0 ||| (data.getD 1 0 <<< 8)
      ||| (data.getD 2 0 <<< 16) ||| (data.getD 3 0 <<< 24)) % 2 ^ 32) % 2 ^ 32 := by omega
    rw [if_neg h2]
    have h3 : sliceOf data 4 ((4 + (data.getD 0 0 ||| (data.getD 1 0 <<< 8)
      ||| (data.getD 2 0 <<< 16) ||| (data.getD 3 0 <<< 24)) % 2 ^ 32) % 2 ^ 32) = none := by
      unfold sliceOf
      rw [if_neg (by omega)]
    rw [h3]
  refine ⟨hnew, ?_⟩
  intro l gs
  unfold handlers.gameserver.handleBlowFishKey
  rw [hnew]

theorem newBlowFishKey_size_wraps_witness :
    (4 ≤ [0xfc, 0xff, 0xff, 0xff].length ∧
      2 ^ 32 - 4 ≤ (([0xfc, 0xff, 0xff, 0xff] : List Nat).getD 0 0
        ||| (([0xfc, 0xff, 0xff, 0xff] : List Nat).getD 1 0 <<< 8)
        ||| (([0xfc, 0xff, 0xff, 0xff] : List Nat).getD 2 0 <<< 16)
        ||| (([0xfc, 0xff, 0xff, 0xff] : List Nat).getD 3 0 <<< 24)) % 2 ^ 32) ∧
    NewBlowFishKey [0xfc, 0xff, 0xff, 0xff] = none ∧
    handlers.gameserver.handleBlowFishKey sample.loginServer sample.gameServer
      [0xfc, 0xff, 0xff, 0xff] = none :=
  ⟨⟨by decide, by decide⟩,
    (newBlowFishKey_size_wraps [0xfc, 0xff, 0xff, 0xff] (by decide) (by decide)).1,
    (newBlowFishKey_size_wraps [0xfc, 0xff, 0xff, 0xff] (by decide) (by decide)).2
      sample.loginServer sample.gameServer⟩

end ings

/-! ### No session key without an account (C38) -/

namespace usecase

open models

theorem mem_delete_subset {K V : Type} [DecidableEq K] (m : GoMap K V) (k : K) (e : K × V)
    (h : e ∈ m.delete k) : e ∈ m := by
  unfold GoMap.delete at h
  exact List.mem_of_mem_filter h

theorem cleanup_fold_subset (now maxAge : Time) (entries : List (String × SessionKey))
    (acc : Nat × GoMap String SessionKey) (e : String × SessionKey)
    (h : e ∈ (entries.foldl
      (fun (acc : Nat × GoMap String SessionKey) (e : String × SessionKey) =>
        if e.2.IsExpired now maxAge then (acc.1 + 1, acc.2.delete e.1) else acc) acc).2) :
    e ∈ acc.2 := by
  induction entries generalizing acc with
  | nil => exact h
  | cons x rest ih =>
    rw [List.foldl_cons] at h
    have h1 := ih _ h
    split at h1
    · exact mem_delete_subset _ _ _ h1
    · exact h1

/-- What a call of the ledger leaves in it: entries that were there, and for a
CreateSessionKey the entry of its account, which holds that account. -/
theorem run_entries (c : LedgerCall) (uc : SessionUseCase) (e : String × SessionKey)
    (h : e ∈ (c.run uc).sessionKeys) :
    e ∈ uc.sessionKeys ∨
      ∃ now r1 r2 account serverID id1 id2, c = .create now r1 r2 account serverID id1 id2 ∧
        e.1 = account ∧ e.2.Account = account := by
  cases c with
  | create now r1 r2 account serverID id1 id2 =>
    simp only [LedgerCall.run, CreateSessionKey] at h
    split at h
    · exact Or.inl h
    · split at h
      · exact Or.inl h
      · simp only [GoMap.set, List.mem_cons] at h
        rcases h with h | h
        · right
          exact ⟨now, r1, r2, account, serverID, id1, id2, rfl, by rw [h], by rw [h]⟩
        · exact Or.inl (mem_delete_subset _ _ _ h)
  | validate now account k =>
    simp only [LedgerCall.run, ValidateSessionKey] at h
    split at h
    · exact Or.inl h
    · split at h
      · exact Or.inl (mem_delete_subset _ _ _ h)
      · split at h <;> exact Or.inl h
  | remove account =>
    simp only [LedgerCall.run, RemoveSessionKey] at h
    split at h
    · exact Or.inl (mem_delete_subset _ _ _ h)
    · exact Or.inl h
  | cleanup now =>
    simp only [LedgerCall.run, CleanupExpiredSessions] at h
    exact Or.inl (cleanup_fold_subset _ _ _ _ _ h)

theorem run_keyed (c : LedgerCall) (uc : SessionUseCase) (h : uc.Keyed) : (c.run uc).Keyed := by
  intro e he
  rcases run_entries c uc e he with h1 | ⟨_, _, _, account, _, _, _, _, h2, h3⟩
  · exact h e h1
  · rw [h2, h3]

theorem runCalls_keyed (calls : List LedgerCall) (uc : SessionUseCase) (h : uc.Keyed) :
    (runCalls calls uc).Keyed := by
  unfold runCalls
  induction calls generalizing uc with
  | nil => exact h
  | cons c rest ih =>
    rw [List.foldl_cons]
    exact ih _ (run_keyed c uc h)

/-- The ledger after HandleRequestServerLogin is the ledger before, or the ledger after a
CreateSessionKey for the username of the account of the connection. -/
theorem HandleRequestServerLogin_entries (l : LoginServer) (now : Time) (r1 r2 : RandRead)
    (request : inclient.RequestServerLogin) (account : Option Account) (id1 id2 : Nat)
    (e : String × SessionKey)
    (h : e ∈ (HandleRequestServerLogin l now r1 r2 request account id1 id2).2.2.session.sessionKeys) :
    e ∈ l.session.sessionKeys ∨
      ∃ acc, account = some acc ∧ e.1 = acc.Username ∧ e.2.Account = acc.Username := by
  cases account with
  | none => exact Or.inl h
  | some acc =>
    have hrun : (HandleRequestServerLogin l now r1 r2 request (some acc) id1 id2).2.2.session
        = (LedgerCall.create now r1 r2 acc.Username (request.ServerID : Int) id1 id2).run
          l.session := by
      simp only [HandleRequestServerLogin, LedgerCall.run]
      split <;> rename_i heq <;> rw [heq]
    rw [hrun] at h
    rcases run_entries _ _ e h with h1 | ⟨_, _, _, account, _, _, _, hc, h2, h3⟩
    · exact Or.inl h1
    · right
      cases hc
      exact ⟨acc, rfl, h2, h3⟩

end usecase

namespace handlers

open packets outclient transport usecase

/-- A Send whose error is dropped changes nothing of the client but its socket. -/
theorem sendDropErr_fields (env : Env) (c c2 : Client) (data : List Nat)
    (h : sendDropErr env c data = some c2) : ∃ s, c2 = { c with Socket := s } := by
  obtain ⟨_, s, _, hs⟩ := sendDropErr_some env c data
  rw [hs] at h
  cases h
  exact ⟨s, rfl⟩

/-- The server state after handleRequestServerLogin is the one HandleRequestServerLogin
yields. -/
theorem handleRequestServerLogin_state (env : Env) (now : Time) (r1 r2 : RandRead)
    (l l1 : LoginServer) (client c1 : Client) (data : List Nat) (err : Option String)
    (h : handleRequestServerLogin env now r1 r2 l client data = some (err, l1, c1)) :
    l1 = (HandleRequestServerLogin l now r1 r2 (inclient.NewRequestServerLogin data)
      client.Account client.LoginOkID1 client.LoginOkID2).2.2 := by
  unfold handleRequestServerLogin at h
  simp only at h
  rcases hres : HandleRequestServerLogin l now r1 r2 (inclient.NewRequestServerLogin data)
    client.Account client.LoginOkID1 client.LoginOkID2 with ⟨login, e, l2⟩
  rw [hres] at h
  cases e with
  | some e =>
    simp only at h
    obtain ⟨_, s, _, hs⟩ := sendDropErr_some env client
      (NewLoginFailPacket outclient.REASON_ACCESS_FAILED)
    rw [hs] at h
    simp only [Option.some.injEq, Prod.mk.injEq] at h
    exact h.2.1.symm
  | none =>
    simp only at h
    by_cases hsucc : login.Success = true
    · simp only [hsucc, Bool.not_true, Bool.false_eq_true, if_false] at h
      obtain ⟨_, s, _, hs⟩ := sendDropErr_some env
        { client with LastServer := ((inclient.NewRequestServerLogin data).ServerID : Int) }
        (NewPlayOk login.PlayKey1 login.PlayKey2).GetData
      rw [hs] at h
      simp only [Option.some.injEq, Prod.mk.injEq] at h
      exact h.2.1.symm
    · have hf : login.Success = false := by
        cases hb : login.Success with
        | true => exact absurd hb hsucc
        | false => rfl
      simp only [hf, Bool.not_false, if_true] at h
      obtain ⟨_, s, _, hs⟩ := sendDropErr_some env client
        (NewLoginFailPacket outclient.REASON_ACCESS_FAILED)
      rw [hs] at h
      simp only [Option.some.injEq, Prod.mk.injEq] at h
      exact h.2.1.symm

/-- handleRequestAuthLogin leaves the ledger as it is, and sets the account of the
connection only to an account that HandleAuthLogin has returned for the parsed request. -/
theorem handleRequestAuthLogin_account (env : Env) (now : Time) (l l1 : LoginServer)
    (client c1 : Client) (data : List Nat) (err : Option String)
    (h : handleRequestAuthLogin env now l client data = some (err, l1, c1)) :
    l1.session = l.session ∧
      (c1.Account = client.Account ∨
        ∃ req acc l2, inclient.NewRequestAuthLogin env client data = some (.ok req) ∧
          HandleAuthLogin env now l (some req) = some (.ok acc, l2) ∧
          c1.Account = some acc) := by
  unfold handleRequestAuthLogin at h
  cases hp : inclient.NewRequestAuthLogin env client data with
  | none => rw [hp] at h; cases h
  | some parsed =>
    rw [hp] at h
    cases parsed with
    | error e =>
      simp only at h
      have hnone : HandleAuthLogin env now l none = none := rfl
      rw [hnone] at h
      split at h <;> cases h
    | ok req =>
      simp only at h
      cases ha : HandleAuthLogin env now l (some req) with
      | none => rw [ha] at h; cases h
      | some res =>
        rcases res with ⟨r, l2⟩
        obtain ⟨hsess, _, _⟩ := HandleAuthLogin_session env now l l2 (some req) r ha
        rw [ha] at h
        cases r with
        | error aerr =>
          simp only at h
          split at h
          · cases h
          · rename_i client2 hsend
            simp only [Option.some.injEq, Prod.mk.injEq] at h
            obtain ⟨s, hs⟩ := sendDropErr_fields env _ _ _ hsend
            refine ⟨by rw [← h.2.1]; exact hsess, Or.inl ?_⟩
            rw [← h.2.2, hs]
        | ok acc =>
          simp only at h
          split at h
          · rename_i id1 id2 _ _
            split at h
            · cases h
            · rename_i loginOk _
              split at h
              · cases h
              · rename_i client4 hsend
                simp only [Option.some.injEq, Prod.mk.injEq] at h
                obtain ⟨s, hs⟩ := sendDropErr_fields env _ _ _ hsend
                refine ⟨?_, Or.inr ⟨req, acc, l2, rfl, ha, ?_⟩⟩
                · rw [← h.2.1, RequestCharacterCounts_session]
                  exact hsess
                · rw [← h.2.2, hs]
          · cases h

/-- C38: on a connection whose account is unset, RequestServerLogin with any payload
leaves the server state (the ledger with it) and LastServer as they were and sends one
LoginFail (01 04 00 00 00), which no PlayOk packet equals. For every connection, what
RequestServerLogin leaves in the ledger are entries that were there and an entry for the
username of the connection's account, holding that username; RequestAuthLogin leaves the
ledger as it is and sets the account only to one that HandleAuthLogin returned; and every
call of the ledger keeps each entry's Account field equal to its key. -/
theorem no_key_without_account (env : Env) (now : Time) (r1 r2 : RandRead) (l : LoginServer)
    (client : Client) (data : List Nat) :
    (client.Account = none →
      ∃ e s,
        client.Send env.newCipher (NewLoginFailPacket outclient.REASON_ACCESS_FAILED) []
          = some (e, { client with Socket := s }) ∧
        handleRequestServerLogin env now r1 r2 l client data
          = some (none, l, { client with Socket := s }) ∧
        ({ client with Socket := s } : Client).LastServer = client.LastServer) ∧
    (NewLoginFailPacket outclient.REASON_ACCESS_FAILED = [0x01, 0x04, 0x00, 0x00, 0x00] ∧
      ∀ k1 k2, (NewPlayOk k1 k2).GetData
        ≠ NewLoginFailPacket outclient.REASON_ACCESS_FAILED) ∧
    (∀ err l1 c1, handleRequestServerLogin env now r1 r2 l client data = some (err, l1, c1) →
      ∀ entry ∈ l1.session.sessionKeys,
        entry ∈ l.session.sessionKeys ∨
          ∃ acc, client.Account = some acc ∧ entry.1 = acc.Username ∧
            entry.2.Account = acc.Username) ∧
    (∀ err l1 c1, handleRequestAuthLogin env now l client data = some (err, l1, c1) →
      l1.session = l.session ∧
        (c1.Account = client.Account ∨
          ∃ req acc l2, inclient.NewRequestAuthLogin env client data = some (.ok req) ∧
            HandleAuthLogin env now l (some req) = some (.ok acc, l2) ∧
            c1.Account = some acc)) ∧
    (NewSessionUseCase l.session.maxSessionAge).Keyed ∧
    (l.session.Keyed → ∀ calls, (runCalls calls l.session).Keyed) := by
  refine ⟨?_, ⟨by decide, ?_⟩, ?_, ?_, ?_, ?_⟩
  · intro hacc
    obtain ⟨e, s, hsend, hdrop⟩ := sendDropErr_some env client
      (NewLoginFailPacket outclient.REASON_ACCESS_FAILED)
    refine ⟨e, s, hsend, ?_, rfl⟩
    unfold handleRequestServerLogin HandleRequestServerLogin
    simp only [hacc, Bool.not_false, if_true, hdrop]
  · intro k1 k2 h
    have := congrArg (fun p : List Nat => p.head?) h
    simp [PlayOk.GetData, NewLoginFailPacket] at this
  · intro err l1 c1 h entry hentry
    rw [handleRequestServerLogin_state env now r1 r2 l l1 client c1 data err h] at hentry
    exact HandleRequestServerLogin_entries l now r1 r2 _ client.Account _ _ entry hentry
  · intro err l1 c1 h
    exact handleRequestAuthLogin_account env now l l1 client c1 data err h
  · intro e he
    unfold NewSessionUseCase at he
    cases he
  · intro hk calls
    exact runCalls_keyed calls l.session hk

theorem no_key_without_account_witness :
    sample.client.Account = none ∧
    ∃ e s,
      sample.client.Send sample.env.newCipher
          (NewLoginFailPacket outclient.REASON_ACCESS_FAILED) []
        = some (e, { sample.client with Socket := s }) ∧
      handleRequestServerLogin sample.env 1000 (.ok (1, 2, 3, 4)) (.ok (5, 6, 7, 8))
          sample.loginServer sample.client (List.range 8 ++ [1])
        = some (none, sample.loginServer, { sample.client with Socket := s }) ∧
      ({ sample.client with Socket := s } : Client).LastServer = sample.client.LastServer :=
  ⟨rfl, (no_key_without_account sample.env 1000 (.ok (1, 2, 3, 4)) (.ok (5, 6, 7, 8))
    sample.loginServer sample.client (List.range 8 ++ [1])).1 rfl⟩

end handlers

/-! ### Hand-off validation and the server id (C39) -/

namespace usecase

open models

theorem get_withServerIDs (m : GoMap String SessionKey) (f : String → Int) (k : String) :
    GoMap.get (m.map (fun e => (e.1, { e.2 with ServerID := f e.1 }))) k =
      (m.get k).map (fun v => { v with ServerID := f k }) := by
  induction m with
  | nil => rfl
  | cons x rest ih =>
    obtain ⟨k', v⟩ := x
    simp only [List.map_cons, GoMap.get]
    by_cases hk : k' = k
    · subst hk
      simp
    · simp only [hk, if_false]
      exact ih

theorem delete_withServerIDs (m : GoMap String SessionKey) (f : String → Int) (k : String) :
    GoMap.delete (m.map (fun e => (e.1, { e.2 with ServerID := f e.1 }))) k =
      (m.delete k).map (fun e => (e.1, { e.2 with ServerID := f e.1 })) := by
  unfold GoMap.delete
  rw [List.filter_map]
  rfl

theorem Validate_withServerIDs (uc : SessionUseCase) (f : String → Int) (now : Time)
    (account : String) (k : SessionKey) :
    ValidateSessionKey (uc.withServerIDs f) now account k =
      ((ValidateSessionKey uc now account k).1, (ValidateSessionKey uc now account k).2.1,
        (ValidateSessionKey uc now account k).2.2.withServerIDs f) := by
  unfold ValidateSessionKey SessionUseCase.withServerIDs
  simp only [get_withServerIDs]
  cases hg : uc.sessionKeys.get account with
  | none => rfl
  | some e =>
    simp only [Option.map_some', SessionKey.IsExpired, SessionKey.Equals]
    split
    · simp only [delete_withServerIDs]
    · split <;> rfl

theorem Remove_withServerIDs (uc : SessionUseCase) (f : String → Int) (account : String) :
    RemoveSessionKey (uc.withServerIDs f) account =
      ((RemoveSessionKey uc account).1, (RemoveSessionKey uc account).2.withServerIDs f) := by
  unfold RemoveSessionKey SessionUseCase.withServerIDs
  simp only [get_withServerIDs]
  cases hg : uc.sessionKeys.get account with
  | none => rfl
  | some e => simp only [Option.map_some', delete_withServerIDs]

/-- HandlePlayerAuthRequest does not look at the ServerID of the ledger entries. -/
theorem HandlePlayerAuth_withServerIDs (l : LoginServer) (f : String → Int) (now : Time)
    (req : ings.PlayerAuthRequest) :
    HandlePlayerAuthRequest (l.withServerIDs f) now req =
      ((HandlePlayerAuthRequest l now req).1, (HandlePlayerAuthRequest l now req).2.1,
        (HandlePlayerAuthRequest l now req).2.2.withServerIDs f) := by
  unfold HandlePlayerAuthRequest LoginServer.withServerIDs
  simp only [Validate_withServerIDs]
  have he := validate_err l.session now req.GetAccount req.GetSessionKey
  rcases hv : ValidateSessionKey l.session now req.GetAccount req.GetSessionKey with ⟨v, e, s⟩
  rw [hv] at he
  simp only at he
  subst he
  simp only
  cases v with
  | false => rfl
  | true =>
    simp only [Bool.not_true, Bool.false_eq_true, if_false, Remove_withServerIDs]

/-- A key just minted is accepted, within its age, from whoever presents its four keys. -/
theorem minted_key_accepted (l : LoginServer) (now now1 : Time) (b1 b2 : Nat × Nat × Nat × Nat)
    (account : String) (s : Int) (id1 id2 : Nat) (key : SessionKey) (uc1 : SessionUseCase)
    (req : ings.PlayerAuthRequest)
    (hmint : CreateSessionKey l.session now (.ok b1) (.ok b2) account s id1 id2
      = (.ok key, uc1))
    (hage : now1 - now ≤ l.session.maxSessionAge) (hacc : req.account = account)
    (hk : req.loginKey1 = key.LoginKey1 ∧ req.loginKey2 = key.LoginKey2 ∧
      req.playKey1 = key.PlayKey1 ∧ req.playKey2 = key.PlayKey2) :
    key.ServerID = s ∧
      (HandlePlayerAuthRequest { l with session := uc1 } now1 req).1.Success = true := by
  obtain ⟨c1, c2, c3, c4⟩ := b1
  obtain ⟨d1, d2, d3, d4⟩ := b2
  simp only [CreateSessionKey, generateRandomUint32, Prod.mk.injEq, Except.ok.injEq] at hmint
  obtain ⟨hkey, huc⟩ := hmint
  subst hkey
  subst huc
  refine ⟨rfl, ?_⟩
  rw [handlePlayerAuth_success_iff, validate_true_iff]
  refine ⟨{ LoginKey1 := id1, LoginKey2 := id2,
             PlayKey1 := c1 ||| (c2 <<< 8) ||| (c3 <<< 16) ||| (c4 <<< 24),
             PlayKey2 := d1 ||| (d2 <<< 8) ||| (d3 <<< 16) ||| (d4 <<< 24),
             Account := account, ServerID := s, CreatedAt := now }, ?_, hage, ?_⟩
  · rw [hacc]
    exact GoMap.get_set_self _ _ _
  · simp only [ings.PlayerAuthRequest.GetSessionKey]
    exact ⟨hk.1.symm, hk.2.1.symm, hk.2.2.1.symm, hk.2.2.2.symm⟩

end usecase

namespace transport

/-- GameServer.Send does not look at the ID of the connection. -/
theorem GameServer_Send_ID (newCipher : blowfish.NewCipher) (gs : GameServer) (i : Int)
    (data : List Nat) :
    ({ gs with ID := i } : GameServer).Send newCipher data =
      (gs.Send newCipher data).map (fun r => (r.1, { r.2 with ID := i })) := by
  obtain ⟨id, sock, pk, dk, auth⟩ := gs
  unfold GameServer.Send
  cases checkedPlain data with
  | none => rfl
  | some plain =>
    simp only
    cases dk with
    | none =>
      simp only
      cases crypt.BlowfishEncryptGameServer newCipher plain with
      | error e => rfl
      | ok wire =>
        simp only
        rcases sock.Write (frame wire) with ⟨e, s⟩
        cases e <;> rfl
    | some key =>
      simp only
      cases crypt.BlowfishEncrypt newCipher plain key with
      | error e => rfl
      | ok wire =>
        simp only
        rcases sock.Write (frame wire) with ⟨e, s⟩
        cases e <;> rfl

end transport

namespace handlers

namespace gameserver

open transport usecase

/-- The handler of PlayerAuthRequest does not look at the ID of the connection. -/
theorem handlePlayerAuthRequest_ID (env : Env) (now : Time) (l : LoginServer)
    (gs : GameServer) (i : Int) (data : List Nat) :
    handlePlayerAuthRequest env now l { gs with ID := i } data =
      (handlePlayerAuthRequest env now l gs data).map
        (fun o => (o.1, o.2.1, { o.2.2 with ID := i })) := by
  obtain ⟨id, sock, pk, dk, auth⟩ := gs
  unfold handlePlayerAuthRequest
  simp only
  cases auth with
  | false => rfl
  | true =>
    simp only [Bool.not_true, Bool.false_eq_true, if_false]
    cases ings.NewPlayerAuthRequest data with
    | none => rfl
    | some req =>
      simp only
      rcases HandlePlayerAuthRequest l now req with ⟨result, e, l1⟩
      cases e with
      | some e => rfl
      | none =>
        simp only
        have hs := GameServer_Send_ID env.newCipher
          { ID := id, Socket := sock, PrivateKey := pk, DynamicBlowfishKey := dk,
            Authenticated := true } i
          (outgs.NewPlayerAuthResponseData result.Account result.Success)
        simp only at hs
        rw [hs]
        cases GameServer.Send env.newCipher
            { ID := id, Socket := sock, PrivateKey := pk, DynamicBlowfishKey := dk,
              Authenticated := true }
            (outgs.NewPlayerAuthResponseData result.Account result.Success) with
        | none => rfl
        | some r =>
          rcases r with ⟨e2, g1⟩
          cases e2 <;> rfl

/-- C39: the handler of PlayerAuthRequest gives the same error, server state and socket
whatever the ID of the connection is, and whatever ServerID the ledger entries hold (the
result and the error of HandlePlayerAuthRequest are the same, and the ledger afterwards is
the same but for those ServerIDs); so a key minted for the server s is accepted, within its
age, when its account and four keys are presented, by a connection of any ID. -/
theorem playerAuth_ignores_server (env : Env) (now : Time) (l : LoginServer)
    (gs : GameServer) (data : List Nat) (req : ings.PlayerAuthRequest) :
    (∀ i : Int, handlePlayerAuthRequest env now l { gs with ID := i } data =
      (handlePlayerAuthRequest env now l gs data).map
        (fun o => (o.1, o.2.1, { o.2.2 with ID := i }))) ∧
    (∀ f : String → Int, HandlePlayerAuthRequest (l.withServerIDs f) now req =
      ((HandlePlayerAuthRequest l now req).1, (HandlePlayerAuthRequest l now req).2.1,
        (HandlePlayerAuthRequest l now req).2.2.withServerIDs f)) ∧
    (∀ (t0 : Time) (b1 b2 : Nat × Nat × Nat × Nat) (s : Int) (id1 id2 : Nat)
      (key : models.SessionKey) (uc1 : SessionUseCase),
      CreateSessionKey l.session t0 (.ok b1) (.ok b2) req.account s id1 id2 = (.ok key, uc1) →
      now - t0 ≤ l.session.maxSessionAge →
      (req.loginKey1 = key.LoginKey1 ∧ req.loginKey2 = key.LoginKey2 ∧
        req.playKey1 = key.PlayKey1 ∧ req.playKey2 = key.PlayKey2) →
      key.ServerID = s ∧
        (HandlePlayerAuthRequest { l with session := uc1 } now req).1.Success = true) := by
  refine ⟨fun i => handlePlayerAuthRequest_ID env now l gs i data,
    fun f => HandlePlayerAuth_withServerIDs l f now req, ?_⟩
  intro t0 b1 b2 s id1 id2 key uc1 hmint hage hk
  exact minted_key_accepted l t0 now b1 b2 req.account s id1 id2 key uc1 req hmint hage rfl hk

theorem playerAuth_ignores_server_witness :
    (HandlePlayerAuthRequest sample.aliceServer 1000 sample.aliceAuth).1.Success = true ∧
    (HandlePlayerAuthRequest (sample.aliceServer.withServerIDs (fun _ => 9)) 1000
      sample.aliceAuth).1.Success = true :=
  ⟨by decide,
    by
      rw [(playerAuth_ignores_server sample.env 1000 sample.aliceServer sample.gameServer []
        sample.aliceAuth).2.1 (fun _ => 9)]
      decide⟩

end gameserver

end handlers

/-! ### Termination of ReadString (C40) -/

namespace packets

open claims

/-- The loop of ReadString reaches its `break` within `r.length / 2 + 1` passes, with the
code units and the reader that `readCodeUnits` gives. -/
theorem readStringLoop_eq (fuel : Nat) (r : Reader) (acc : List Nat)
    (hf : r.length / 2 + 1 ≤ fuel) :
    readStringLoop fuel r acc = some (acc ++ (readCodeUnits r).1, (readCodeUnits r).2) := by
  induction fuel generalizing r acc with
  | zero => omega
  | succ fuel ih =>
    match r with
    | [] => simp [readStringLoop, Reader.ReadUInt16, readCodeUnits]
    | [b] => simp [readStringLoop, Reader.ReadUInt16, readCodeUnits]
    | b0 :: b1 :: rest =>
      have hf' : rest.length / 2 + 1 ≤ fuel := by
        simp only [List.length_cons] at hf
        omega
      unfold readStringLoop Reader.ReadUInt16 readCodeUnits
      have hlen : ¬ (b0 :: b1 :: rest).length < 2 := by simp
      simp only [hlen, if_false, List.getD_cons_zero, List.getD_cons_succ, List.drop_succ_cons,
        List.drop_zero]
      by_cases h0 : b0 + b1 * 256 = 0
      · simp only [h0, if_true, List.append_nil]
      · simp only [h0, if_false]
        rw [ih rest _ hf', List.append_assoc]
        rfl

/-- The code units that ReadString reads are the units before the first zero unit, and
what it leaves is the end of the input after them. -/
theorem readCodeUnits_spec (n : Nat) : ∀ r : Reader, r.length ≤ n →
    (readCodeUnits r).1 = (unitsLE r).takeWhile (fun u => u ≠ 0) ∧
    (readCodeUnits r).2.length + 2 * (readCodeUnits r).1.length ≤ r.length ∧
    (readCodeUnits r).2 = r.drop (r.length - (readCodeUnits r).2.length) := by
  induction n with
  | zero =>
    intro r hr
    match r, hr with
    | [], _ => simp [readCodeUnits, unitsLE]
  | succ n ih =>
    intro r hr
    match r, hr with
    | [], _ => simp [readCodeUnits, unitsLE]
    | [b], _ => simp [readCodeUnits, unitsLE]
    | b0 :: b1 :: rest, hr =>
      have hlt : rest.length ≤ n := by
        simp only [List.length_cons] at hr
        omega
      obtain ⟨ih1, ih2, ih3⟩ := ih rest hlt
      by_cases h0 : b0 + b1 * 256 = 0
      · have e : readCodeUnits (b0 :: b1 :: rest) = ([], rest) := by
          unfold readCodeUnits
          simp only [h0, if_true]
        rw [e]
        refine ⟨?_, ?_, ?_⟩
        · simp [unitsLE, h0]
        · simp only [List.length_cons, List.length_nil]
          omega
        · simp only [List.length_cons]
          have e2 : rest.length + 1 + 1 - rest.length = 0 + 1 + 1 := by omega
          rw [e2, List.drop_succ_cons, List.drop_succ_cons, List.drop_zero]
      · have e : readCodeUnits (b0 :: b1 :: rest) =
            ((b0 + b1 * 256) :: (readCodeUnits rest).1, (readCodeUnits rest).2) := by
          rw [readCodeUnits]
          simp only [h0, if_false]
        rw [e]
        refine ⟨?_, ?_, ?_⟩
        · simp only [unitsLE]
          have hp : decide (b0 + b1 * 256 ≠ 0) = true := decide_eq_true h0
          rw [List.takeWhile_cons, ih1]
          simp only [hp, if_true]
        · simp only [List.length_cons]
          omega
        · simp only [List.length_cons]
          have e2 : rest.length + 1 + 1 - (readCodeUnits rest).2.length
              = (rest.length - (readCodeUnits rest).2.length) + 1 + 1 := by omega
          rw [e2, List.drop_succ_cons, List.drop_succ_cons]
          exact ih3

theorem ReadStringFuel_eq (fuel : Nat) (r : Reader) (hf : r.length / 2 + 1 ≤ fuel) :
    Reader.ReadStringFuel fuel r = some (Reader.ReadString r) := by
  unfold Reader.ReadStringFuel Reader.ReadString
  rw [readStringLoop_eq fuel r [] hf]
  rfl

theorem ReadString_rest_length (r : Reader) : (Reader.ReadString r).2.length ≤ r.length := by
  have h := (readCodeUnits_spec r.length r (le_refl _)).2.1
  have e : (Reader.ReadString r).2 = (readCodeUnits r).2 := rfl
  rw [e]
  omega

end packets

namespace ings

open packets claims

/-- C40: the loop of ReadString ends on every input, within `len / 2 + 1` passes: it yields
the code units before the first zero unit (or all whole units when there is none) and
leaves the end of the input after them, having consumed no more than what was there. The
parsers of PlayerAuthRequest, PlayerLogout, PlayerTracert and ReplyCharacters, with every
loop of ReadString bounded by that many passes, yield their results. -/
theorem readString_terminates (r : Reader) (fuel : Nat) (hf : r.length / 2 + 1 ≤ fuel) :
    (∃ units rest,
      readStringLoop fuel r [] = some (units, rest) ∧
      r.ReadStringFuel fuel = some (r.ReadString) ∧
      r.ReadString = (String.mk ((utf16Decode units).map Char.ofNat), rest) ∧
      units = (unitsLE r).takeWhile (fun u => u ≠ 0) ∧
      rest.length + 2 * units.length ≤ r.length ∧
      rest = r.drop (r.length - rest.length)) ∧
    NewPlayerAuthRequestFuel fuel r = some (NewPlayerAuthRequest r) ∧
    NewPlayerLogoutFuel fuel r = some (NewPlayerLogout r) ∧
    NewPlayerTracertFuel fuel r = some (NewPlayerTracert r) ∧
    NewReplyCharactersFuel fuel r = some (NewReplyCharacters r) := by
  have hfuel : ∀ r' : Reader, r'.length ≤ r.length →
      r'.ReadStringFuel fuel = some (r'.ReadString) := by
    intro r' hr'
    apply ReadStringFuel_eq
    have : r'.length / 2 ≤ r.length / 2 := Nat.div_le_div_right hr'
    omega
  have hrest : ∀ r' : Reader, r'.length ≤ r.length → (r'.ReadString).2.length ≤ r.length :=
    fun r' hr' => le_trans (ReadString_rest_length r') hr'
  obtain ⟨s1, s2, s3⟩ := readCodeUnits_spec r.length r (le_refl _)
  refine ⟨⟨(readCodeUnits r).1, (readCodeUnits r).2, ?_, hfuel r (le_refl _), rfl, s1, s2, s3⟩,
    ?_, ?_, ?_, ?_⟩
  · rw [readStringLoop_eq fuel r [] hf]
    rfl
  · unfold NewPlayerAuthRequestFuel NewPlayerAuthRequest
    split
    · rfl
    · simp only [hfuel r (le_refl _)]
  · unfold NewPlayerLogoutFuel NewPlayerLogout
    split
    · rfl
    · simp only [hfuel r (le_refl _)]
  · unfold NewPlayerTracertFuel NewPlayerTracert
    split
    · rfl
    · have h1 := hrest r (le_refl _)
      have h2 := hrest _ h1
      have h3 := hrest _ h2
      have h4 := hrest _ h3
      have h5 := hrest _ h4
      simp only [hfuel r (le_refl _), hfuel _ h1, hfuel _ h2, hfuel _ h3, hfuel _ h4,
        hfuel _ h5]
  · unfold NewReplyCharactersFuel NewReplyCharacters
    split
    · rfl
    · simp only [hfuel r (le_refl _)]
      split
      · rfl
      · rfl

theorem readString_terminates_witness :
    ([0x61, 0x00, 0x62, 0x00, 0x63] : List Nat).length / 2 + 1 ≤ 3 ∧
    readStringLoop 3 [0x61, 0x00, 0x62, 0x00, 0x63] [] = some ([0x61, 0x62], []) ∧
    NewPlayerLogoutFuel 3 [0x61, 0x00, 0x62, 0x00, 0x63] = some (some { account := "ab" }) :=
  ⟨by decide, by decide,
    (readString_terminates [0x61, 0x00, 0x62, 0x00, 0x63] 3 (by decide)).2.2.1⟩

end ings

end L2Go
